import Mathlib

set_option autoImplicit false

/-!
# CloudCompare: level-of-detail structure, segmentation tool and STL filter

Shallow embedding of `libs/qCC_db/include/ccPointCloudLOD.h`, of the methods `segment`,
`segmentIn`, `segmentOut`, `pauseSegmentationMode` and `applySegmentation` of
`qCC/ccGraphicalSegmentationTool.cpp`, and of the functions `saveToBINFile`,
`loadFile`, `loadBinaryFile` and `loadASCIIFile` of
`plugins/core/IO/qCoreIO/src/STLFilter.cpp`.

The header holds the data model (`State`, `Node`, `Level`, `RenderParams`, the members
of the classes) and the inline methods (`getState`, `isNull`, `isInitialized`,
`isUnderConstruction`, `isBroken`, `maxLevel`, `node`, `root`, `getLasIndexMap`,
`allDisplayed`, the GPU-buffer methods of the internal variant, the flagger factories);
these are translated from it. The methods that the header only declares
(`flagVisibility`, `resetVisibility`, `flag`, `propagateFlag`, `clippingIntersection`,
`getIndexMap`, `addNPointsToIndexMap`) are modelled from the specification, and every
such definition says so. The methods of the segmentation tool and the functions of the
STL filter are translated from their source files; what they call in other libraries
(the projection of the camera, the polygon test, the arithmetic on coordinates, the
text functions of Qt, the allocation of memory) is a parameter.

Conventions of the embedding
* `uint32_t`, `uint8_t`, `unsigned`, `size_t` values are natural numbers; where the
  source converts or wraps, the reduction `% 2 ^ w` is written out.
* `int32_t` and `int` values are integers; `static_cast<int>` of an `unsigned` is
  written out.
* `float` members of the level-of-detail structure only ever receive the literal `0`
  in the embedded code; they are carried as rationals. A coordinate of the segmentation
  tool (`PointCoordinateType`) is a rational or NaN, and a comparison with NaN is false;
  the `double` values that the camera computes are rationals, with the rounding to
  `PointCoordinateType` as a parameter. In the STL filter a `float` is the four bytes of
  its object representation.
* `ccVBO*` is an optional handle, `none` being `nullptr`.
* An `assert` that fails makes the embedded function return `none`.
* A recursion of the source is embedded with a bound on its depth; running out of it
  yields `none`. The theorems show that the number of levels is bound enough. A loop
  without a bound in the source is embedded with a number of iterations granted.
* A loop that the source runs in parallel is embedded with the order of its iterations
  as a parameter.
* The mutex of the structure only serialises accesses; reads return the stored value.
-/

namespace CloudCompare

/-! ## Data model (ccPointCloudLOD.h) -/

/-- Structure initialization state: `ccAbstractPointCloudLOD::State`. -/
inductive State where
  | NOT_INITIALIZED
  | UNDER_CONSTRUCTION
  | INITIALIZED
  | BROKEN
deriving DecidableEq, Repr

/-- Single precision 3D vector `CCVector3f`. -/
structure CCVector3f where
  x : Rat
  y : Rat
  z : Rat
deriving DecidableEq, Repr

/-- Coordinate of type `PointCoordinateType` (a `float`): a number, or NaN. -/
inductive PointCoordinateType where
  | value (q : Rat)
  | NaN
deriving DecidableEq, Repr

namespace PointCoordinateType

instance (n : Nat) : OfNat PointCoordinateType n := ⟨value (OfNat.ofNat n)⟩

instance : Neg PointCoordinateType :=
  ⟨fun a => match a with
    | value q => value (-q)
    | NaN => NaN⟩

/-- Comparison `a < b` of a coordinate with a `double`: false when the coordinate is NaN. -/
def lt (a : PointCoordinateType) (b : Rat) : Bool :=
  match a with
  | value q => decide (q < b)
  | NaN => false

/-- Comparison `a > b` of a coordinate with a `double`: false when the coordinate is NaN. -/
def gt (a : PointCoordinateType) (b : Rat) : Bool :=
  match a with
  | value q => decide (q > b)
  | NaN => false

/-- The number a coordinate holds, 0 standing for NaN. -/
def toRat (a : PointCoordinateType) : Rat :=
  match a with
  | value q => q
  | NaN => 0

end PointCoordinateType

/-- 3D vector `CCVector3` of `PointCoordinateType` coordinates. -/
structure CCVector3 where
  x : PointCoordinateType
  y : PointCoordinateType
  z : PointCoordinateType
deriving DecidableEq, Repr

/-- Double precision 3D vector `CCVector3d`. -/
structure CCVector3d where
  x : Rat
  y : Rat
  z : Rat
deriving DecidableEq, Repr

/-- 2D vector `CCVector2` of `PointCoordinateType` coordinates. -/
structure CCVector2 where
  x : PointCoordinateType
  y : PointCoordinateType
deriving DecidableEq, Repr

/-- Undefined visibility flag: `static const unsigned char UNDEFINED = 255`. -/
def UNDEFINED : Nat := 255

/-- Octree tree node: `ccAbstractPointCloudLOD::Node`. -/
structure Node where
  pointCount : Nat
  radius : Rat
  center : CCVector3f
  childIndexes : List Int
  score : Rat
  firstCodeIndex : Nat
  displayedPointCount : Nat
  vbo : Option Nat
  level : Nat
  childCount : Nat
  intersection : Nat
deriving DecidableEq, Repr

/-- Default constructor `Node(uint8_t _level = 0)`. -/
def Node.init (_level : Nat := 0) : Node :=
  { pointCount := 0
    radius := 0
    center := ⟨0, 0, 0⟩
    childIndexes := [-1, -1, -1, -1, -1, -1, -1, -1]
    firstCodeIndex := 0
    score := 0
    displayedPointCount := 0
    vbo := none
    level := _level
    childCount := 0
    intersection := UNDEFINED }

/-- Level data: `struct Level { std::vector<Node> data; }`. -/
structure Level where
  data : List Node
deriving DecidableEq, Repr

/-- Parameters of the current render state: `RenderParams`. -/
structure RenderParams where
  visiblePoints : Nat
  displayedPoints : Nat
  unfinishedLevel : Int
  unfinishedPoints : Nat
deriving DecidableEq, Repr

/-- Constructor `RenderParams()`. -/
def RenderParams.init : RenderParams :=
  { visiblePoints := 0
    displayedPoints := 0
    unfinishedLevel := -1
    unfinishedPoints := 0 }

/-- Members of `ccAbstractPointCloudLOD`. -/
structure ccAbstractPointCloudLOD where
  m_levels : List Level
  m_currentState : RenderParams
  m_indexMap : List Nat
  m_lastIndexMap : List Nat
  m_state : State
deriving DecidableEq, Repr

namespace ccAbstractPointCloudLOD

/-- Method `getState()`: returns the current state. -/
def getState (lod : ccAbstractPointCloudLOD) : State :=
  lod.m_state

/-- Method `isNull()`. -/
def isNull (lod : ccAbstractPointCloudLOD) : Bool :=
  decide (lod.getState = State.NOT_INITIALIZED)

/-- Method `isInitialized()`. -/
def isInitialized (lod : ccAbstractPointCloudLOD) : Bool :=
  decide (lod.getState = State.INITIALIZED)

/-- Method `isUnderConstruction()`. -/
def isUnderConstruction (lod : ccAbstractPointCloudLOD) : Bool :=
  decide (lod.getState = State.UNDER_CONSTRUCTION)

/-- Method `isBroken()`. -/
def isBroken (lod : ccAbstractPointCloudLOD) : Bool :=
  decide (lod.getState = State.BROKEN)

/-- Method `maxLevel()`:
`m_state == INITIALIZED ? static_cast<unsigned char>(std::max<size_t>(1, m_levels.size())) - 1 : 0`.
The cast to `unsigned char` reduces modulo 256, the subtraction is done on `int`
and the returned `int` is converted to `unsigned char` again. -/
def maxLevel (lod : ccAbstractPointCloudLOD) : Nat :=
  if lod.m_state = State.INITIALIZED then
    (((((max 1 lod.m_levels.length) % 256 : Nat) : Int) - 1) % 256).toNat
  else
    0

/-- Method `node(index, level)`: the assertion
`level < m_levels.size() && index >= 0 && index < m_levels[level].data.size()`
guards the access `m_levels[level].data[index]`. -/
def node (lod : ccAbstractPointCloudLOD) (index : Int) (level : Nat) : Option Node :=
  match lod.m_levels[level]? with
  | none => none
  | some l =>
    if 0 ≤ index ∧ index.toNat < l.data.length then l.data[index.toNat]? else none

/-- Method `root()`: `node(0, 0)`. -/
def root (lod : ccAbstractPointCloudLOD) : Option Node :=
  lod.node 0 0

/-- Method `getLasIndexMap()`: returns the last index map. -/
def getLasIndexMap (lod : ccAbstractPointCloudLOD) : List Nat :=
  lod.m_lastIndexMap

/-- Method `allDisplayed()`:
`m_currentState.displayedPoints >= m_currentState.visiblePoints`. -/
def allDisplayed (lod : ccAbstractPointCloudLOD) : Bool :=
  decide (lod.m_currentState.displayedPoints ≥ lod.m_currentState.visiblePoints)

end ccAbstractPointCloudLOD

/-! ## Visibility pass and index map

The bodies of `flagVisibility`, `resetVisibility`, of the flagger's methods and of
`getIndexMap` / `addNPointsToIndexMap` are not part of the header; they are modelled
from the specification (sections 4.2 and 4.3) on top of the header's data model,
accessors and prototypes. -/

/-- Modelled from the spec: the three results of a frustum or clip-plane test
(`Frustum::Intersection` of the absent `ccFrustum.h`); the spec names them
INSIDE, OUTSIDE and INTERSECTING. -/
inductive Intersection where
  | OUTSIDE
  | INTERSECT
  | INSIDE
deriving DecidableEq, Repr

/-- Modelled from the spec: the small-integer encoding of a test result stored in
`Node::intersection`; the spec allows any encoding that is discriminated from
`UNDEFINED`. -/
def Intersection.code : Intersection → Nat
  | .OUTSIDE => 0
  | .INTERSECT => 1
  | .INSIDE => 2

/-- Modelled from the spec: the camera parameter block (`ccGLCameraParameters`, the
declaration of which is absent), reduced to what the embedded code uses of it.
* `sphereInFrustum`: the three-way test of a bounding sphere (center, radius) against the
  frustum planes derived from the block, as the visibility pass uses it;
* `viewport`: the member `int viewport[4]`;
* `project`: the method `project(input3D, output2D, &inFrustum)`, which yields the 2D
  projection of a 3D point and whether the point lies in the frustum. -/
structure ccGLCameraParameters where
  sphereInFrustum : CCVector3f → Rat → Intersection
  viewport : Fin 4 → Int
  project : CCVector3 → CCVector3d × Bool

/-- Modelled from the spec: one additional clip plane (`ccClipPlane`, absent), reduced to
its three-way test of a bounding sphere. -/
structure ccClipPlane where
  sphereTest : CCVector3f → Rat → Intersection

/-- Set of clip planes: `ccClipPlaneSet`. -/
abbrev ccClipPlaneSet := List ccClipPlane

/-- Members of `ccGenericPointCloudLODVisibilityFlagger`; `m_lod` is the structure the
flagger works on and `m_frustum` is carried by `m_camera`. -/
structure ccGenericPointCloudLODVisibilityFlagger where
  m_lod : ccAbstractPointCloudLOD
  m_camera : ccGLCameraParameters
  m_maxLevel : Nat
  m_clipPlanes : ccClipPlaneSet
  m_hasClipPlanes : Bool

/-- Node stored at position `index` of level `level` of a per-level table: the accessor
`ccAbstractPointCloudLOD::node` applied to the table. -/
def getNode (levels : List Level) (level index : Nat) : Option Node :=
  match levels[level]? with
  | none => none
  | some l => l.data[index]?

/-- Write through a `Node&` obtained from `node(index, level)`: replaces the node stored
at that position (no effect when the position does not exist). -/
def setNode (levels : List Level) (level index : Nat) (n : Node) : List Level :=
  match levels[level]? with
  | none => levels
  | some l => levels.set level ⟨l.data.set index n⟩

/-- Assignment `node.intersection = flag` through a `Node&`. -/
def Node.withFlag (n : Node) (flag : Nat) : Node :=
  { n with intersection := flag }

/-- Modelled from the spec: what `resetVisibility` does to one node: the flag becomes
INSIDE and the displayed count 0. -/
def Node.reset (n : Node) : Node :=
  { n with displayedPointCount := 0, intersection := Intersection.INSIDE.code }

/-- Child slots visited by the loop
`for (int i = 0; i < 8; ++i) if (node.childIndexes[i] >= 0) ...`: the indexes of the
children of a node, in slot order. -/
def Node.children (n : Node) : List Nat :=
  n.childIndexes.filterMap (fun c => if 0 ≤ c then some c.toNat else none)

/-- Loop over a list of node indexes, threading a state through a body that may fail. -/
def forEach {σ : Type} (body : σ → Nat → Option σ) : σ → List Nat → Option σ
  | s, [] => some s
  | s, c :: cs =>
    match body s c with
    | none => none
    | some s' => forEach body s' cs

/-- Modelled from the spec: the statement `visibleCount += flag(childNode)` of the loop of
`flag` over the children (the body of `flag` is absent): runs a call that returns a new
table and a `uint32_t` count on child `c`, and adds the count to the running `uint32_t`
total. -/
def addVisible (call : List Level → Nat → Option (List Level × Nat))
    (t : List Level × Nat) (c : Nat) : Option (List Level × Nat) :=
  match call t.1 c with
  | none => none
  | some r => some (r.1, (t.2 + r.2) % 2 ^ 32)

/-- Level of the children of a node (spec 3: "implicit level = child level+1"): the
argument `node.level + 1` of `node(index, level)`, converted to `unsigned char`. -/
def childLevel (n : Node) : Nat :=
  (n.level + 1) % 256

namespace ccGenericPointCloudLODVisibilityFlagger

/-- Modelled from the spec: constructor of the flagger from `(lod, camera, maxLevel)`,
with no clip plane configured. -/
def init (lod : ccAbstractPointCloudLOD) (camera : ccGLCameraParameters) (maxLevel : Nat) :
    ccGenericPointCloudLODVisibilityFlagger :=
  { m_lod := lod
    m_camera := camera
    m_maxLevel := maxLevel
    m_clipPlanes := []
    m_hasClipPlanes := false }

/-- Modelled from the spec: `setClipPlanes`, the body of which is absent: stores the
planes; clip planes count as configured when the set is not empty. -/
def setClipPlanes (F : ccGenericPointCloudLODVisibilityFlagger) (clipPlanes : ccClipPlaneSet) :
    ccGenericPointCloudLODVisibilityFlagger :=
  { F with m_clipPlanes := clipPlanes, m_hasClipPlanes := !clipPlanes.isEmpty }

/-- Modelled from the spec: `clippingIntersection`, the body of which is absent. Spec 4.2:
the node is "tested against each clip plane using the same three-way classification; a
node OUTSIDE any clip plane is excluded even if frustum-inside". -/
def clippingIntersection (F : ccGenericPointCloudLODVisibilityFlagger) (n : Node) : Intersection :=
  if F.m_clipPlanes.any (fun p => p.sphereTest n.center n.radius == Intersection.OUTSIDE) then
    Intersection.OUTSIDE
  else if F.m_clipPlanes.any (fun p => p.sphereTest n.center n.radius == Intersection.INTERSECT) then
    Intersection.INTERSECT
  else
    Intersection.INSIDE

/-- Modelled from the spec: the classification step of `flag`, the body of which is
absent. Spec 4.2: "test its bounding sphere against the frustum planes"; "if clip planes
are configured, a node classified INSIDE by the frustum must additionally be tested
against each clip plane". -/
def classify (F : ccGenericPointCloudLODVisibilityFlagger) (n : Node) : Intersection :=
  match F.m_camera.sphereInFrustum n.center n.radius with
  | .INSIDE => if F.m_hasClipPlanes then F.clippingIntersection n else Intersection.INSIDE
  | c => c

/-- Modelled from the spec: `void propagateFlag(Node& node, uint8_t flag)`, the body of
which is absent; the header documents it as "propagates a visibility flag to a node and
its children". No geometric test is involved: the function has no access to a camera. The
first argument bounds the recursion depth. -/
def propagateFlag : Nat → List Level → Nat → Nat → Nat → Option (List Level)
  | 0, _, _, _, _ => none
  | fuel + 1, levels, level, index, flag =>
    match getNode levels level index with
    | none => none
    | some n =>
      forEach (fun s c => propagateFlag fuel s (childLevel n) c flag)
        (setNode levels level index (n.withFlag flag)) n.children

/-- Modelled from the spec: what flagging a node and its descendants INSIDE adds to the
value that `flag` returns. Spec 4.2 defines that value as the "total count of points
flagged visible (sum of `pointCount` over INSIDE/INTERSECting-but-accepted nodes)": the
`pointCount` of the node and of each of its descendants, added on `uint32_t`. The first
argument bounds the recursion depth. -/
def insideCount : Nat → List Level → Nat → Nat → Nat
  | 0, _, _, _ => 0
  | fuel + 1, levels, level, index =>
    match getNode levels level index with
    | none => 0
    | some n =>
      (n.pointCount +
        (n.children.map (fun c => insideCount fuel levels (childLevel n) c)).sum) % 2 ^ 32

/-- Modelled from the spec: `uint32_t flag(Node& node)` of the generic flagger, the body
of which is absent. Spec 4.2: depth-first; "fully outside any plane => OUTSIDE (prune
subtree ...); fully inside all planes => INSIDE (propagate to descendants); otherwise
INTERSECTING (must recurse into children individually)"; "a node with zero children and
classified INTERSECTING ... is treated as visible in full". Below an OUTSIDE node nothing
is tested or counted; the flag is written to the subtree with `propagateFlag`, so that no
index map takes a point from it (spec 8, pruning). The flagger's `m_maxLevel` bounds the
descent. The value returned is the "total count of points flagged visible (sum of
`pointCount` over INSIDE/INTERSECting-but-accepted nodes)", a `uint32_t`: a node found
INSIDE adds its `pointCount` and that of each descendant, all of them being flagged
INSIDE; a node found INTERSECTING and accepted in full adds its `pointCount`. The first
argument bounds the recursion depth. -/
def flag (F : ccGenericPointCloudLODVisibilityFlagger) :
    Nat → List Level → Nat → Nat → Option (List Level × Nat)
  | 0, _, _, _ => none
  | fuel + 1, levels, level, index =>
    match getNode levels level index with
    | none => none
    | some n =>
      match F.classify n with
      | .OUTSIDE =>
        match propagateFlag (fuel + 1) levels level index Intersection.OUTSIDE.code with
        | none => none
        | some levels' => some (levels', 0)
      | .INSIDE =>
        match propagateFlag (fuel + 1) levels level index Intersection.INSIDE.code with
        | none => none
        | some levels' => some (levels', insideCount (fuel + 1) levels level index)
      | .INTERSECT =>
        if n.level < F.m_maxLevel ∧ n.childCount ≠ 0 then
          forEach (addVisible (fun s c => flag F fuel s (childLevel n) c))
            (setNode levels level index (n.withFlag Intersection.INTERSECT.code), 0)
            n.children
        else
          some (setNode levels level index (n.withFlag Intersection.INTERSECT.code),
            n.pointCount % 2 ^ 32)

end ccGenericPointCloudLODVisibilityFlagger

namespace ccAbstractPointCloudLOD

/-- Modelled from the spec: `resetVisibility`, the body of which is absent; the header
documents it as "all nodes are flagged as INSIDE (= visible)" with their displayed count
set to 0, and the spec resets the render progress record on a new frustum test. -/
def resetVisibility (lod : ccAbstractPointCloudLOD) : ccAbstractPointCloudLOD :=
  { lod with
    m_levels := lod.m_levels.map (fun l => ⟨l.data.map Node.reset⟩)
    m_currentState := RenderParams.init }

/-- Factory `ccInternalPointCloudLOD::getVisibilityFlagger(lod, camera, maxLevel)`:
`std::make_unique<ccGenericPointCloudLODVisibilityFlagger>(lod, camera, maxLevel)`. -/
def getVisibilityFlagger (lod : ccAbstractPointCloudLOD) (camera : ccGLCameraParameters)
    (maxLevel : Nat) : ccGenericPointCloudLODVisibilityFlagger :=
  ccGenericPointCloudLODVisibilityFlagger.init lod camera maxLevel

/-- Modelled from the spec: the flagger a visibility pass works with: the one the factory
builds for the structure, the camera and `maxLevel()`, with the clip planes set when the
caller passes some. -/
def passFlagger (lod : ccAbstractPointCloudLOD) (frustum : ccGLCameraParameters)
    (clipPlanes : Option ccClipPlaneSet) : ccGenericPointCloudLODVisibilityFlagger :=
  match clipPlanes with
  | none => getVisibilityFlagger lod frustum lod.maxLevel
  | some planes => (getVisibilityFlagger lod frustum lod.maxLevel).setClipPlanes planes

/-- Modelled from the spec: `flagVisibility(frustum, clipPlanes)`, the body of which is
absent; the header documents that it "automatically calls resetVisibility"; the spec has
the flagger walk the hierarchy from the root and return the count of visible points,
which is kept in the render progress record. The depth of the recursion is bounded by the
number of levels. -/
def flagVisibility (lod : ccAbstractPointCloudLOD) (frustum : ccGLCameraParameters)
    (clipPlanes : Option ccClipPlaneSet) : Option (ccAbstractPointCloudLOD × Nat) :=
  match (passFlagger lod.resetVisibility frustum clipPlanes).flag
      lod.resetVisibility.m_levels.length lod.resetVisibility.m_levels 0 0 with
  | none => none
  | some r =>
    some ({ lod.resetVisibility with
            m_levels := r.1
            m_currentState := { lod.resetVisibility.m_currentState with visiblePoints := r.2 } },
          r.2)

end ccAbstractPointCloudLOD


/-! ## Structure of a hierarchy

The spec's data model (section 3): children are referenced by `(level + 1, childIndexes[k])`,
"no node has more than one parent", and a node stored in level `L` has depth `L`. -/

/-- A per-level table is well formed when every node stored in level `L` carries
`level = L` (a `uint8_t`) and every child slot it holds refers to an existing node of
level `L + 1`. -/
def WellFormed (levels : List Level) : Prop :=
  ∀ L < levels.length, ∀ l ∈ levels[L]?, ∀ n ∈ l.data,
    n.level = L ∧ n.level < 256 ∧ ∀ c ∈ n.children, (getNode levels (L + 1) c).isSome

instance (levels : List Level) : Decidable (WellFormed levels) := by
  unfold WellFormed
  infer_instance

/-- Spec invariant "no node has more than one parent": within a level, no index of the
next level is held by two child slots. -/
def UniqueParent (levels : List Level) : Prop :=
  ∀ l ∈ levels, (l.data.flatMap Node.children).Nodup

instance (levels : List Level) : Decidable (UniqueParent levels) := by
  unfold UniqueParent
  infer_instance

/-- Relation `Desc levels L i L' i'`: the node at index `i'` of level `L'` is the node at
index `i` of level `L` or one of its descendants along the child indexes. -/
inductive Desc (levels : List Level) : Nat → Nat → Nat → Nat → Prop where
  | refl (L i : Nat) : Desc levels L i L i
  | step {L i L' p : Nat} {n : Node} {c : Nat} :
      Desc levels L i L' p → getNode levels L' p = some n → c ∈ n.children →
      Desc levels L i (L' + 1) c

/-- What a visibility pass and an index-map call leave untouched in a node: everything
but the visibility flag and the displayed count. -/
def Node.skeleton (n : Node) : Node :=
  { n with intersection := 0, displayedPointCount := 0 }

/-- Two per-level tables hold the same hierarchy: node by node they differ at most in the
visibility flag and the displayed count. -/
def SameShape (levels levels' : List Level) : Prop :=
  ∀ L i, (getNode levels' L i).map Node.skeleton = (getNode levels L i).map Node.skeleton

/-- Every child of a node flagged INSIDE is flagged INSIDE. -/
def InsidePropagated (levels : List Level) : Prop :=
  ∀ L p n c k, getNode levels L p = some n → c ∈ n.children →
    getNode levels (L + 1) c = some k →
    n.intersection = Intersection.INSIDE.code → k.intersection = Intersection.INSIDE.code

/-- No parent of the node at `(level, index)` is flagged INSIDE. -/
def NoInsideParent (levels : List Level) (level index : Nat) : Prop :=
  ∀ L p n, L + 1 = level → getNode levels L p = some n → index ∈ n.children →
    n.intersection ≠ Intersection.INSIDE.code

/-- The node at `(level, index)` and its descendants along the child indexes, the node
first. The first argument bounds the depth. -/
def subtreeNodes : Nat → List Level → Nat → Nat → List Node
  | 0, _, _, _ => []
  | fuel + 1, levels, level, index =>
    match getNode levels level index with
    | none => []
    | some n => n :: n.children.flatMap (fun c => subtreeNodes fuel levels (childLevel n) c)

/-- A node counts as flagged visible when it carries the flag INSIDE, or carries the flag
INTERSECTING and is accepted in full, that is, not descended into: it lies at `maxLevel`
or has no child. -/
def Node.flaggedVisible (maxLevel : Nat) (n : Node) : Bool :=
  decide (n.intersection = Intersection.INSIDE.code ∨
    (n.intersection = Intersection.INTERSECT.code ∧ ¬ (n.level < maxLevel ∧ n.childCount ≠ 0)))

/-- All nodes of the table, of every level, that carry the flag INSIDE or carry the flag
INTERSECTING and were accepted in full (not descended into). -/
def flaggedNodes (maxLevel : Nat) (levels : List Level) : List Node :=
  (levels.flatMap (fun l => l.data)).filter (Node.flaggedVisible maxLevel)

/-- Sum of `pointCount` over the nodes of a list that count as flagged visible. -/
def visibleSum (maxLevel : Nat) (nodes : List Node) : Nat :=
  ((nodes.filter (Node.flaggedVisible maxLevel)).map (fun n => n.pointCount)).sum

/-- Nodes stored in level `L` of a per-level table (none when the level does not exist). -/
def levelNodes (levels : List Level) (L : Nat) : List Node :=
  match levels[L]? with
  | none => []
  | some l => l.data

/-- Spec invariant (section 3) "for any node N at level L>0, exactly one node at level L-1
holds N's index in its `childIndexes`. Root is the unique level-0, index-0 node", the part
that `UniqueParent` leaves out: level 0 stores one node, and every index of a level
`L + 1` is held by a child slot of a node of level `L`. -/
def Connected (levels : List Level) : Prop :=
  (levelNodes levels 0).length = 1 ∧
  ∀ L < levels.length, ∀ l ∈ levels[L]?, ∀ l' ∈ levels[L + 1]?, ∀ c < l'.data.length,
    c ∈ l.data.flatMap Node.children

instance (levels : List Level) : Decidable (Connected levels) := by
  unfold Connected
  infer_instance

/-- The structural metadata `childCount` of every node is the number of its child slots in
use. -/
def ChildCounted (levels : List Level) : Prop :=
  ∀ l ∈ levels, ∀ n ∈ l.data, n.childCount = n.children.length

instance (levels : List Level) : Decidable (ChildCounted levels) := by
  unfold ChildCounted
  infer_instance

/-- L.O.D. indexes set: `typedef std::vector<unsigned> LODIndexSet`. -/
abbrev LODIndexSet := List Nat

/-- Members of `ccInternalPointCloudLOD`: those of the base class and the associated
octree. Modelled from the spec: the octree (`ccOctree`, absent) is reduced to the "linear
index buffer" that `firstCodeIndex` refers to, entry `k` being the global index of the
point at position `k`. -/
structure ccInternalPointCloudLOD extends ccAbstractPointCloudLOD where
  m_octree : List Nat

/-- Assignment `node.displayedPointCount = count` through a `Node&`. -/
def Node.withDisplayed (n : Node) (count : Nat) : Node :=
  { n with displayedPointCount := count }

/-- Modelled from the spec: the statement `node.displayedPointCount += displayedCount` of
`addNPointsToIndexMap` through a `Node&` (spec 3: `displayedPointCount` is "how many of
this node's points have been pushed"). -/
def addDisplayed (levels : List Level) (level index count : Nat) : List Level :=
  match getNode levels level index with
  | none => levels
  | some n => setNode levels level index (n.withDisplayed (n.displayedPointCount + count))

/-- Modelled from the spec: body of the loops of `getIndexMap` and `addNPointsToIndexMap`
(both absent) that hand a budget of `count` points to the nodes of one level in turn: the
node of index `c` is skipped when it is flagged OUTSIDE (spec 8, pruning), and otherwise
receives what is left of the budget through `call`, which returns the new state and the
number of points it added (spec 4.3: a node that holds less "returns the shortfall to the
caller to pull from siblings"). The state is the per-level table with the index map under
construction, and the number of points added so far. -/
def serveNode
    (call : List Level × LODIndexSet → Nat → Nat → Option ((List Level × LODIndexSet) × Nat))
    (level count : Nat) (t : (List Level × LODIndexSet) × Nat) (c : Nat) :
    Option ((List Level × LODIndexSet) × Nat) :=
  match getNode t.1.1 level c with
  | none => none
  | some n =>
    if n.intersection = Intersection.OUTSIDE.code then some t
    else
      match call t.1 c (count - t.2) with
      | none => none
      | some r => some (r.1, t.2 + r.2)

/-- Modelled from the spec: `uint32_t addNPointsToIndexMap(Node& node, uint32_t count)`, the
body of which is absent; the header documents it as "adds a given number of points to the
active index map (should be dispatched among the children cells)". Spec 4.3: repeated
calls resume from the node state (`displayedPointCount`); "requesting more points than a
node holds simply exhausts the node and returns the shortfall to the caller to pull from
siblings"; no descendant of an OUTSIDE node is emitted. A node without children emits its
next points from the linear index buffer, starting at `firstCodeIndex`. The state is the
per-level table and the index map under construction; the value returned with it is the
number of points added. The second argument bounds the recursion depth. -/
def addNPointsToIndexMap (codes : List Nat) :
    Nat → List Level × LODIndexSet → Nat → Nat → Nat → Option ((List Level × LODIndexSet) × Nat)
  | 0, _, _, _, _ => none
  | fuel + 1, s, level, index, count =>
    match getNode s.1 level index with
    | none => none
    | some n =>
      if n.childCount ≠ 0 then
        match forEach
            (serveNode (fun t c k => addNPointsToIndexMap codes fuel t (childLevel n) c k)
              (childLevel n) count)
            (s, 0) n.children with
        | none => none
        | some t => some ((addDisplayed t.1.1 level index t.2, t.1.2), t.2)
      else
        some ((addDisplayed s.1 level index (min count (n.pointCount - n.displayedPointCount)),
               s.2 ++ (List.range (min count (n.pointCount - n.displayedPointCount))).map
                 (fun j => codes.getD (n.firstCodeIndex + n.displayedPointCount + j) 0)),
              min count (n.pointCount - n.displayedPointCount))

/-- Point indexes that the nodes of indexes `cs` of one level can still add to an index
map, in the order of `cs`, `pending c` being those of the node of index `c`: a node
flagged OUTSIDE contributes none. -/
def pendingOver (pending : Nat → List Nat) (levels : List Level) (level : Nat)
    (cs : List Nat) : List Nat :=
  cs.flatMap (fun c =>
    match getNode levels level c with
    | none => []
    | some n => if n.intersection = Intersection.OUTSIDE.code then [] else pending c)

/-- Point indexes a node can still add to an index map, in the order in which
`addNPointsToIndexMap` adds them: those of its children that are not OUTSIDE, in slot
order, or, for a node without children, its points not yet displayed. The second
argument bounds the depth. -/
def pendingIndexes (codes : List Nat) : Nat → List Level → Nat → Nat → List Nat
  | 0, _, _, _ => []
  | fuel + 1, levels, level, index =>
    match getNode levels level index with
    | none => []
    | some n =>
      if n.childCount ≠ 0 then
        pendingOver (fun c => pendingIndexes codes fuel levels (childLevel n) c)
          levels (childLevel n) n.children
      else
        (List.range (n.pointCount - n.displayedPointCount)).map
          (fun j => codes.getD (n.firstCodeIndex + n.displayedPointCount + j) 0)

/-- Point indexes the nodes of one level can still add to an index map: those of the nodes
of the level that are not OUTSIDE, in storage order. -/
def pendingAtLevel (codes : List Nat) (levels : List Level) (level : Nat) : List Nat :=
  match levels[level]? with
  | none => []
  | some l =>
    pendingOver (fun i => pendingIndexes codes (levels.length - level) levels level i)
      levels level (List.range l.data.length)

/-- A node without its displayed count. -/
def Node.sansDisplayed (n : Node) : Node :=
  { n with displayedPointCount := 0 }

/-- Two per-level tables have as many levels and differ at most in the displayed counts
of their nodes. -/
def SameFlags (levels levels' : List Level) : Prop :=
  levels'.length = levels.length ∧
  ∀ L i, (getNode levels' L i).map Node.sansDisplayed = (getNode levels L i).map Node.sansDisplayed

/-- Contract of a call that serves the node of index `c` of level `level` of a hierarchy of
the shape of `levels`: given a budget `count`, it returns; it appends to the index map the
first `count` pending indexes of the node and returns how many they are; it changes
displayed counts only, and only in the node and its descendants; the indexes it added
are no longer pending. -/
def Serves (levels : List Level) (codes : List Nat) (fuel level : Nat)
    (call : List Level × LODIndexSet → Nat → Nat → Option ((List Level × LODIndexSet) × Nat))
    (c : Nat) : Prop :=
  ∀ (t : List Level) (im : LODIndexSet) (count : Nat), SameShape levels t →
    (getNode t level c).isSome →
    ∃ t', call (t, im) c count =
        some ((t', im ++ (pendingIndexes codes fuel t level c).take count),
              min count (pendingIndexes codes fuel t level c).length) ∧
      SameFlags t t' ∧
      (∀ L' i', ¬ Desc levels level c L' i' → getNode t' L' i' = getNode t L' i') ∧
      pendingIndexes codes fuel t' level c = (pendingIndexes codes fuel t level c).drop count

/-- Result of `getIndexMap`: the structure after the call, the index map returned and the
value written to `remainingPointsAtThisLevel`. -/
structure IndexMapResult where
  lod : ccInternalPointCloudLOD
  indexMap : LODIndexSet
  remainingPointsAtThisLevel : Nat

namespace ccInternalPointCloudLOD

/-- Method `flagVisibility` inherited from `ccAbstractPointCloudLOD`. -/
def flagVisibility (lod : ccInternalPointCloudLOD) (frustum : ccGLCameraParameters)
    (clipPlanes : Option ccClipPlaneSet) : Option (ccInternalPointCloudLOD × Nat) :=
  match lod.toccAbstractPointCloudLOD.flagVisibility frustum clipPlanes with
  | none => none
  | some r => some ({ lod with toccAbstractPointCloudLOD := r.1 }, r.2)

/-- Modelled from the spec: the value `getIndexMap` reports in
`remainingPointsAtThisLevel`, "how many points at `level` were not yet included": the sum
of `pointCount - displayedPointCount` over the nodes of the level that are not OUTSIDE. -/
def remainingAtLevel (levels : List Level) (level : Nat) : Nat :=
  match levels[level]? with
  | none => 0
  | some l =>
    ((l.data.filter (fun n => n.intersection ≠ Intersection.OUTSIDE.code)).map
      (fun n => n.pointCount - n.displayedPointCount)).sum

/-- Modelled from the spec: `getIndexMap(level, maxCount, remainingPointsAtThisLevel)` of the
internal variant, the body of which is absent; the header documents it as "builds an index
map with the remaining visible points". Spec 4.3: at most `maxCount` indexes are emitted,
continuing from where the previous call left off; `remainingPointsAtThisLevel` reports how
many points at `level` were not yet included; once all visible points are displayed a call
is a no-op. The budget of a call is `maxCount`, capped by the number of visible points
not yet displayed. The nodes of the level are served in storage order (the internal
variant does not score its nodes) through `addNPointsToIndexMap`, which dispatches among
their children; the render progress record is advanced, `unfinishedLevel` and
`unfinishedPoints` recording the level and what remains of it. The map returned is also
the one `getLasIndexMap()` returns afterwards. -/
def getIndexMap (lod : ccInternalPointCloudLOD) (level maxCount : Nat) : Option IndexMapResult :=
  match lod.m_levels[level]? with
  | none =>
    some ⟨{ lod with m_indexMap := [], m_lastIndexMap := [] }, [], 0⟩
  | some l =>
    if lod.allDisplayed then
      some ⟨{ lod with m_indexMap := [], m_lastIndexMap := [] }, [], 0⟩
    else
      match forEach
          (serveNode
            (fun t i k => addNPointsToIndexMap lod.m_octree (lod.m_levels.length - level) t level i k)
            level
            (min maxCount (lod.m_currentState.visiblePoints - lod.m_currentState.displayedPoints)))
          ((lod.m_levels, []), 0) (List.range l.data.length) with
      | none => none
      | some t =>
        some ⟨{ lod with
                m_levels := t.1.1
                m_indexMap := t.1.2
                m_lastIndexMap := t.1.2
                m_currentState :=
                  { visiblePoints := lod.m_currentState.visiblePoints
                    displayedPoints := lod.m_currentState.displayedPoints + t.2
                    unfinishedLevel :=
                      if remainingAtLevel t.1.1 level = 0 then -1 else (level : Int)
                    unfinishedPoints := remainingAtLevel t.1.1 level } },
              t.1.2, remainingAtLevel t.1.1 level⟩

/-- Repeated calls `getIndexMap(level, maxCount, ...)` with the budgets of a list, one
after the other on the same structure and with no visibility pass in between: the
structure after the last call and the indexes of all the maps returned, in order. -/
def runIndexMaps (level : Nat) :
    ccInternalPointCloudLOD → List Nat → Option (ccInternalPointCloudLOD × LODIndexSet)
  | lod, [] => some (lod, [])
  | lod, maxCount :: rest =>
    match lod.getIndexMap level maxCount with
    | none => none
    | some res =>
      match runIndexMaps level res.lod rest with
      | none => none
      | some r => some (r.1, res.indexMap ++ r.2)

end ccInternalPointCloudLOD

/-! ## The two variants of the structure (ccPointCloudLOD.h)

The GPU-buffer methods of the internal variant and the flagger factories of the two
variants are defined inline in the header and translated from it. -/

/-- Members of `ccNestedOctreePointCloudLODVisibilityFlagger`: those of the generic
flagger, the footprint threshold `m_minPxFootprint` and the level `m_minLevel`. -/
structure ccNestedOctreePointCloudLODVisibilityFlagger extends
    ccGenericPointCloudLODVisibilityFlagger where
  m_minPxFootprint : Rat
  m_minLevel : Nat

/-- Modelled from the spec: constructor of the footprint-scored flagger from
`(lod, camera, maxLevel, minPxFootprint)`, the body of which is absent: the base flagger
is built from the first three arguments and the fourth is the "configurable minimum
pixel-footprint threshold"; the header documents 1 as the default of `m_minLevel`. -/
def ccNestedOctreePointCloudLODVisibilityFlagger.init (lod : ccAbstractPointCloudLOD)
    (camera : ccGLCameraParameters) (maxLevel : Nat) (minPxFootprint : Rat) :
    ccNestedOctreePointCloudLODVisibilityFlagger :=
  { toccGenericPointCloudLODVisibilityFlagger :=
      ccGenericPointCloudLODVisibilityFlagger.init lod camera maxLevel
    m_minPxFootprint := minPxFootprint
    m_minLevel := 1 }

/-- Object behind a `std::unique_ptr<ccGenericPointCloudLODVisibilityFlagger>`: a generic
flagger or a flagger of the derived, footprint-scored class. -/
inductive VisibilityFlagger where
  | generic (F : ccGenericPointCloudLODVisibilityFlagger)
  | nestedOctree (F : ccNestedOctreePointCloudLODVisibilityFlagger)

/-- Members of `ccNestedOctreePointCloudLOD`: those of the base class. -/
structure ccNestedOctreePointCloudLOD extends ccAbstractPointCloudLOD

namespace ccNestedOctreePointCloudLOD

/-- Factory `ccNestedOctreePointCloudLOD::getVisibilityFlagger(lod, camera, maxLevel)`:
`std::make_unique<ccNestedOctreePointCloudLODVisibilityFlagger>(lod, camera, maxLevel, 75.0)`. -/
def getVisibilityFlagger (_self : ccNestedOctreePointCloudLOD) (lod : ccAbstractPointCloudLOD)
    (camera : ccGLCameraParameters) (maxLevel : Nat) : VisibilityFlagger :=
  VisibilityFlagger.nestedOctree
    (ccNestedOctreePointCloudLODVisibilityFlagger.init lod camera maxLevel 75)

end ccNestedOctreePointCloudLOD

namespace ccInternalPointCloudLOD

/-- Factory `ccInternalPointCloudLOD::getVisibilityFlagger(lod, camera, maxLevel)` as a
virtual method of the variant: the object it returns is a generic flagger. -/
def getVisibilityFlagger (_self : ccInternalPointCloudLOD) (lod : ccAbstractPointCloudLOD)
    (camera : ccGLCameraParameters) (maxLevel : Nat) : VisibilityFlagger :=
  VisibilityFlagger.generic (ccAbstractPointCloudLOD.getVisibilityFlagger lod camera maxLevel)

/-- Method `releaseVBOs(currentDisplay)` of the internal variant: `return;`. The result
is the structure after the call. -/
def releaseVBOs {Display : Type} (lod : ccInternalPointCloudLOD)
    (_currentDisplay : Option Display) : ccInternalPointCloudLOD :=
  lod

/-- Method `updateVBOs(pc, currentDisplay, context, glParams)` of the internal variant:
`return false;`. The result is the structure after the call and the value returned. -/
def updateVBOs {Cloud Display Context Params : Type} (lod : ccInternalPointCloudLOD)
    (_pc : Cloud) (_currentDisplay : Option Display) (_context : Context) (_glParams : Params) :
    ccInternalPointCloudLOD × Bool :=
  (lod, false)

/-- Method `renderVBOs(pc, context, glParams)` of the internal variant: `return false;`.
The result is the structure after the call and the value returned. -/
def renderVBOs {Cloud Context Params : Type} (lod : ccInternalPointCloudLOD)
    (_pc : Cloud) (_context : Context) (_glParams : Params) : ccInternalPointCloudLOD × Bool :=
  (lod, false)

end ccInternalPointCloudLOD

/-! ## Graphical segmentation tool (ccGraphicalSegmentationTool.cpp)

`segment` is translated from the source. What it uses without defining it is carried as
data: the constants and the point-in-polygon test of CCCoreLib, the camera of the window,
the clouds behind the entities to segment. Widget updates, log messages and redraws are
display effects and are not part of the state. -/

/-- Visibility of a point, `CCCoreLib::POINT_VISIBLE` (value of the library: 0). -/
def POINT_VISIBLE : Nat := 0

/-- Visibility of a point, `CCCoreLib::POINT_HIDDEN` (value of the library: 1). -/
def POINT_HIDDEN : Nat := 1

/-- Scalar value `ScalarType`: a number, or `none` for NaN. -/
abbrev ScalarType := Option Rat

/-- Constant `CCCoreLib::NAN_VALUE`. -/
def NAN_VALUE : ScalarType := none

/-- Scalar field: its name and one value per point. -/
structure ScalarField where
  name : String
  values : List ScalarType
deriving DecidableEq, Repr

/-- Test `CCCoreLib::ScalarField::ValidValue(value)`: the value is not NaN. -/
def ScalarField.ValidValue (value : ScalarType) : Bool :=
  value.isSome

/-- Conversion `static_cast<int>(u)` of an `unsigned` value (32 bits, two's complement). -/
def static_cast_int (u : Nat) : Int :=
  if u % 2 ^ 32 < 2 ^ 31 then ((u % 2 ^ 32 : Nat) : Int) else ((u % 2 ^ 32 : Nat) : Int) - 2 ^ 32

/-- Polyline `ccPolyline`, reduced to the vertices it refers to, in order, and to its
closed flag. The segmentation polygon holds 2D vertices (`z` is unused). -/
structure ccPolyline where
  vertices : List CCVector3
  m_isClosed : Bool
deriving DecidableEq, Repr

namespace ccPolyline

/-- Method `size()`: the number of vertices, an `unsigned`. -/
def size (poly : ccPolyline) : Nat :=
  poly.vertices.length % 2 ^ 32

/-- Method `isClosed()`. -/
def isClosed (poly : ccPolyline) : Bool :=
  poly.m_isClosed

/-- Method `getPoint(index)`. -/
def getPoint (poly : ccPolyline) (index : Nat) : Option CCVector3 :=
  poly.vertices[index]?

/-- Method `clear()`: removes the vertices. -/
def clear (poly : ccPolyline) : ccPolyline :=
  { poly with vertices := [] }

end ccPolyline

/-- What `segment` uses of `CCCoreLib` beyond its constants: the point-in-polygon test
`ManualSegmentationTools::isPointInsidePoly(P, polyVertices)` and the conversion
`static_cast<PointCoordinateType>` of a `double`. -/
structure ManualSegmentationTools where
  isPointInsidePoly : CCVector2 → ccPolyline → Bool
  toPointCoordinateType : Rat → PointCoordinateType

/-- Cloud behind an entity to segment, as `ccHObjectCaster::ToGenericPointCloud` gives
it: its points, its visibility array, its scalar fields and their display settings.
`isPointCloud` tells whether `ccHObjectCaster::ToPointCloud` succeeds on the entity and
`scalarFieldMemory` whether `addScalarField` finds the memory it needs. -/
structure ccGenericPointCloud where
  m_points : List CCVector3
  m_pointsVisibility : List Nat
  isPointCloud : Bool
  m_scalarFields : List ScalarField
  scalarFieldMemory : Bool
  m_sfShown : Bool
  m_currentDisplayedScalarFieldIndex : Int
deriving DecidableEq, Repr

namespace ccGenericPointCloud

/-- Method `size()`: the number of points, an `unsigned`. -/
def size (cloud : ccGenericPointCloud) : Nat :=
  cloud.m_points.length % 2 ^ 32

/-- Method `getPoint(index)`. -/
def getPoint (cloud : ccGenericPointCloud) (index : Nat) : Option CCVector3 :=
  cloud.m_points[index]?

/-- Method `getScalarFieldIndexByName(name)`: the index of the field, or -1. -/
def getScalarFieldIndexByName (cloud : ccGenericPointCloud) (name : String) : Int :=
  match cloud.m_scalarFields.findIdx? (fun sf => sf.name == name) with
  | some k => (k : Int)
  | none => -1

/-- Method `addScalarField(name)`: appends a field of NaN values, one per point, and
returns its index, or returns -1 when memory is missing. -/
def addScalarField (cloud : ccGenericPointCloud) (name : String) : ccGenericPointCloud × Int :=
  if cloud.scalarFieldMemory then
    ({ cloud with
        m_scalarFields := cloud.m_scalarFields ++ [⟨name, List.replicate cloud.size NAN_VALUE⟩] },
      (cloud.m_scalarFields.length : Int))
  else
    (cloud, -1)

end ccGenericPointCloud

/-- Class of an entity, among those the segmentation tool tells apart
(`CC_TYPES::POINT_CLOUD`, `MESH`, `SUB_MESH`, `POLY_LINE`, and any other one). -/
inductive CC_CLASS_ENUM where
  | POINT_CLOUD
  | MESH
  | SUB_MESH
  | POLY_LINE
  | OBJECT
deriving DecidableEq, Repr

/-- Entity of the set `m_toSegment` as the tool sees it.
* `genericPointCloud`: the result of `ccHObjectCaster::ToGenericPointCloud`, the cloud
  itself or the cloud associated to a mesh or to a polyline, `none` standing for a null
  pointer;
* `classID`: the class that `isA` and `isKindOf` test;
* `elementCount`: `size()` of a mesh (its triangles) or of a polyline (its vertices);
* `verticesOfMesh`, `verticesOfPolyline`: the results of
  `ccGenericMesh::IsCloudVerticesOfMesh` and `ccPolyline::IsCloudVerticesOfPolyline`. -/
structure ccHObject where
  name : String
  genericPointCloud : Option ccGenericPointCloud
  classID : CC_CLASS_ENUM := CC_CLASS_ENUM.POINT_CLOUD
  elementCount : Nat := 0
  verticesOfMesh : Bool := false
  verticesOfPolyline : Bool := false
deriving DecidableEq, Repr

namespace ccHObject

/-- Method `isA(type)`. -/
def isA (entity : ccHObject) (type : CC_CLASS_ENUM) : Bool :=
  entity.classID == type

/-- Method `isKindOf(type)`: a sub-mesh is a kind of mesh. -/
def isKindOf (entity : ccHObject) (type : CC_CLASS_ENUM) : Bool :=
  entity.classID == type || (type == CC_CLASS_ENUM.MESH && entity.classID == CC_CLASS_ENUM.SUB_MESH)

/-- Value `size()` of the cloud behind the entity (of the cloud itself, or of
`getAssociatedCloud()` for a mesh or a polyline). -/
def cloudSize (entity : ccHObject) : Nat :=
  match entity.genericPointCloud with
  | some cloud => cloud.size
  | none => 0

/-- Cast `ccHObjectCaster::ToPointCloud(entity)`: whether it gives a cloud. -/
def toPointCloud (entity : ccHObject) : Bool :=
  match entity.genericPointCloud with
  | some cloud => cloud.isPointCloud
  | none => false

end ccHObject

/-- Process state flag `POLYLINE` of the tool (value of its header: 1). -/
def POLYLINE : Nat := 1

/-- Process state flag `RECTANGLE` of the tool (value of its header: 2). -/
def RECTANGLE : Nat := 2

/-- Process state `PAUSED` of the tool (value of its header: 32). -/
def PAUSED : Nat := 32

/-- Process state flag `STARTED` of the tool (value of its header: 64). -/
def STARTED : Nat := 64

/-- Process state flag `RUNNING` of the tool (value of its header: 128). -/
def RUNNING : Nat := 128

/-- Window `m_associatedWin` as `segment` uses it. `getGLCameraParameters` is the camera
it reports. `closeAtCursor` is the effect, on the polygon and on the process state, of
closing a polyline that is still being drawn with the current position of the mouse
cursor: `addPointToPolylineExt(mousePos.x(), mousePos.y(), true); closePolyLine(0, 0);`,
which depends on the cursor and on the keyboard. -/
structure ccGLWindowInterface where
  getGLCameraParameters : ccGLCameraParameters
  closeAtCursor : ccPolyline × Nat → ccPolyline × Nat

/-- Members of `ccGraphicalSegmentationTool` that `segment` reads or writes. The set
`m_toSegment` is carried in the order in which it is iterated; `m_polyVertices` is the
cloud of vertices the polygon refers to. -/
structure ccGraphicalSegmentationTool where
  m_associatedWin : Option ccGLWindowInterface
  m_segmentationPoly : Option ccPolyline
  m_polyVertices : List CCVector3
  m_state : Nat
  m_toSegment : List ccHObject
  m_somethingHasChanged : Bool
  m_deleteHiddenParts : Bool

/-- Value `camera.viewport[2] / 2.0` of `segment`. -/
def half_w (camera : ccGLCameraParameters) : Rat :=
  ((camera.viewport 2 : Int) : Rat) / 2

/-- Value `camera.viewport[3] / 2.0` of `segment`. -/
def half_h (camera : ccGLCameraParameters) : Rat :=
  ((camera.viewport 3 : Int) : Rat) / 2

/-- Test of `segment` on one vertex of the polygon: the vertex is out of the viewport,
`P2D->x < -half_w || P2D->x > half_w || P2D->y < -half_h || P2D->y > half_h`. -/
def outOfViewport (camera : ccGLCameraParameters) (P2D : CCVector3) : Bool :=
  P2D.x.lt (-half_w camera) || P2D.x.gt (half_w camera) ||
    P2D.y.lt (-half_h camera) || P2D.y.gt (half_h camera)

/-- Flag `polyInsideViewport` of `segment`: the loop over `i < vertexCount`, with
`vertexCount = static_cast<int>(m_segmentationPoly->size())`, leaves it true unless a
vertex is out of the viewport. -/
def polyInsideViewport (camera : ccGLCameraParameters) (poly : ccPolyline) : Bool :=
  (List.range (static_cast_int poly.size).toNat).all (fun i =>
    match poly.getPoint i with
    | some P2D => !outOfViewport camera P2D
    | none => true)

/-- Value `pointInside` that the point loop of `segment` computes for the point `P3D`:
the point is projected, and the polygon test is run on the centred projection unless the
point is out of the frustum while the polygon is inside the viewport. -/
def pointInside (lib : ManualSegmentationTools) (camera : ccGLCameraParameters)
    (poly : ccPolyline) (P3D : CCVector3) : Bool :=
  if (camera.project P3D).2 || !polyInsideViewport camera poly then
    lib.isPointInsidePoly
      ⟨lib.toPointCoordinateType ((camera.project P3D).1.x - half_w camera),
        lib.toPointCoordinateType ((camera.project P3D).1.y - half_h camera)⟩ poly
  else
    false

/-- What the point loop of `segment` writes to: the visibility array of the cloud and,
in classification mode, the values of the scalar field `classifSF`. -/
structure PointLoopState where
  visibilityArray : List Nat
  classifSF : Option (List ScalarType)
deriving DecidableEq, Repr

/-- Body of the point loop of `segment` for the index `i`. -/
def segmentPoint (lib : ManualSegmentationTools) (camera : ccGLCameraParameters)
    (poly : ccPolyline) (keepPointsInside : Bool) (classificationValue : ScalarType)
    (cloud : ccGenericPointCloud) (s : PointLoopState) (i : Nat) : PointLoopState :=
  if s.visibilityArray[i]? = some POINT_VISIBLE then
    match cloud.getPoint i with
    | none => s
    | some P3D =>
      match s.classifSF with
      | some values =>
        if pointInside lib camera poly P3D then
          { s with classifSF := some (values.set i classificationValue) }
        else
          s
      | none =>
        { s with
          visibilityArray :=
            s.visibilityArray.set i
              (if keepPointsInside != pointInside lib camera poly P3D then POINT_HIDDEN
               else POINT_VISIBLE) }
  else
    s

/-- Point loop of `segment` on one cloud, its iterations executed in the order `order`:
the source runs `for (int i = 0; i < cloudSize; ++i)`, as a data-parallel loop
(`#pragma omp parallel for`) when OpenMP is available. -/
def segmentPoints (lib : ManualSegmentationTools) (camera : ccGLCameraParameters)
    (poly : ccPolyline) (keepPointsInside : Bool) (classificationValue : ScalarType)
    (cloud : ccGenericPointCloud) (order : List Nat) (s : PointLoopState) : PointLoopState :=
  order.foldl (segmentPoint lib camera poly keepPointsInside classificationValue cloud) s

/-- Value `cloudSize = static_cast<int>(cloud->size())` of `segment`, as the number of
iterations of the point loop. -/
def cloudSize (cloud : ccGenericPointCloud) : Nat :=
  (static_cast_int cloud.size).toNat

/-- Outcome of the body of the entity loop of `segment` on one entity. -/
inductive EntityOutcome where
  | processed (cloud : ccGenericPointCloud)
  | skipped
  | notEnoughMemory
deriving DecidableEq, Repr

/-- Body of the entity loop of `segment` for a cloud whose assertions hold. `schedule n`
is the order in which the `n` iterations of the point loop are executed. -/
def segmentCloud (lib : ManualSegmentationTools) (camera : ccGLCameraParameters)
    (poly : ccPolyline) (keepPointsInside : Bool) (classificationValue : ScalarType)
    (schedule : Nat → List Nat) (cloud : ccGenericPointCloud) : EntityOutcome :=
  if ScalarField.ValidValue classificationValue then
    if !cloud.isPointCloud then
      EntityOutcome.skipped
    else if 0 ≤ cloud.getScalarFieldIndexByName "Classification" then
      match cloud.m_scalarFields[(cloud.getScalarFieldIndexByName "Classification").toNat]? with
      | none => EntityOutcome.skipped
      | some sf =>
        EntityOutcome.processed
          { cloud with
            m_scalarFields :=
              cloud.m_scalarFields.set (cloud.getScalarFieldIndexByName "Classification").toNat
                { sf with
                  values :=
                    ((segmentPoints lib camera poly keepPointsInside classificationValue cloud
                      (schedule (cloudSize cloud))
                      ⟨cloud.m_pointsVisibility, some sf.values⟩).classifSF).getD sf.values }
            m_sfShown := true
            m_currentDisplayedScalarFieldIndex := cloud.getScalarFieldIndexByName "Classification" }
    else if (cloud.addScalarField "Classification").2 < 0 then
      EntityOutcome.notEnoughMemory
    else
      EntityOutcome.processed
        { (cloud.addScalarField "Classification").1 with
          m_scalarFields :=
            cloud.m_scalarFields ++
              [⟨"Classification",
                ((segmentPoints lib camera poly keepPointsInside classificationValue cloud
                  (schedule (cloudSize cloud))
                  ⟨cloud.m_pointsVisibility,
                    some (List.replicate cloud.size NAN_VALUE)⟩).classifSF).getD
                  (List.replicate cloud.size NAN_VALUE)⟩]
          m_sfShown := true
          m_currentDisplayedScalarFieldIndex := (cloud.addScalarField "Classification").2 }
  else
    EntityOutcome.processed
      { cloud with
        m_pointsVisibility :=
          (segmentPoints lib camera poly keepPointsInside classificationValue cloud
            (schedule (cloudSize cloud)) ⟨cloud.m_pointsVisibility, none⟩).visibilityArray }

/-- Entity loop of `segment`: the entities after the loop and whether the loop ran to
its end (`false` when `segment` returned from inside it for want of memory); `none` when
an assertion fails (no cloud behind an entity, or an empty visibility array). -/
def segmentEntities (lib : ManualSegmentationTools) (camera : ccGLCameraParameters)
    (poly : ccPolyline) (keepPointsInside : Bool) (classificationValue : ScalarType)
    (schedule : Nat → List Nat) : List ccHObject → Option (List ccHObject × Bool)
  | [] => some ([], true)
  | entity :: rest =>
    match entity.genericPointCloud with
    | none => none
    | some cloud =>
      if cloud.m_pointsVisibility.isEmpty then none
      else
        match segmentCloud lib camera poly keepPointsInside classificationValue schedule cloud with
        | EntityOutcome.notEnoughMemory => some (entity :: rest, false)
        | EntityOutcome.skipped =>
          match segmentEntities lib camera poly keepPointsInside classificationValue schedule rest with
          | none => none
          | some r => some (entity :: r.1, r.2)
        | EntityOutcome.processed cloud' =>
          match segmentEntities lib camera poly keepPointsInside classificationValue schedule rest with
          | none => none
          | some r => some ({ entity with genericPointCloud := some cloud' } :: r.1, r.2)

namespace ccGraphicalSegmentationTool

/-- Method `pauseSegmentationMode(true)`: without a window nothing happens; otherwise
the process state becomes `PAUSED` and the polygon and its vertices are cleared when
there are vertices. -/
def pauseSegmentationMode (tool : ccGraphicalSegmentationTool) : ccGraphicalSegmentationTool :=
  match tool.m_associatedWin with
  | none => tool
  | some _ =>
    if tool.m_polyVertices.length % 2 ^ 32 ≠ 0 then
      { tool with
        m_state := PAUSED
        m_segmentationPoly := tool.m_segmentationPoly.map ccPolyline.clear
        m_polyVertices := [] }
    else
      { tool with m_state := PAUSED }

/-- Polygon and process state with which `segment` goes on once the window, the polygon
and its closed flag have been checked: a polyline still being drawn (`POLYLINE` and
`RUNNING` set) is closed with the position of the mouse cursor. -/
def closedPolyline (win : ccGLWindowInterface) (poly : ccPolyline) (state : Nat) :
    ccPolyline × Nat :=
  if state &&& POLYLINE ≠ 0 ∧ state &&& RUNNING ≠ 0 then win.closeAtCursor (poly, state)
  else (poly, state)

/-- Method `segment(keepPointsInside, classificationValue)`. The result is the tool
after the call; it is `none` when an assertion fails (no window, no cloud behind an
entity, empty visibility array). `schedule n` is the order in which the `n` iterations of
a point loop are executed. -/
def segment (lib : ManualSegmentationTools) (schedule : Nat → List Nat)
    (tool : ccGraphicalSegmentationTool) (keepPointsInside : Bool)
    (classificationValue : ScalarType := NAN_VALUE) : Option ccGraphicalSegmentationTool :=
  match tool.m_associatedWin with
  | none => none
  | some win =>
    match tool.m_segmentationPoly with
    | none => some tool
    | some poly =>
      if !poly.isClosed then some tool
      else
        match segmentEntities lib win.getGLCameraParameters
            (closedPolyline win poly tool.m_state).1 keepPointsInside classificationValue
            schedule tool.m_toSegment with
        | none => none
        | some (entities, true) =>
          if ScalarField.ValidValue classificationValue then
            some { tool with
              m_segmentationPoly := some (closedPolyline win poly tool.m_state).1
              m_state := (closedPolyline win poly tool.m_state).2
              m_toSegment := entities }
          else
            some (pauseSegmentationMode
              { tool with
                m_segmentationPoly := some (closedPolyline win poly tool.m_state).1
                m_state := (closedPolyline win poly tool.m_state).2
                m_toSegment := entities
                m_somethingHasChanged := true })
        | some (entities, false) =>
          some { tool with
            m_segmentationPoly := some (closedPolyline win poly tool.m_state).1
            m_state := (closedPolyline win poly tool.m_state).2
            m_toSegment := entities }

/-- Method `segmentIn()`: `segment(true)`. -/
def segmentIn (lib : ManualSegmentationTools) (schedule : Nat → List Nat)
    (tool : ccGraphicalSegmentationTool) : Option ccGraphicalSegmentationTool :=
  segment lib schedule tool true

/-- Method `segmentOut()`: `segment(false)`. -/
def segmentOut (lib : ManualSegmentationTools) (schedule : Nat → List Nat)
    (tool : ccGraphicalSegmentationTool) : Option ccGraphicalSegmentationTool :=
  segment lib schedule tool false

end ccGraphicalSegmentationTool

/-! ### applySegmentation

The loop of `applySegmentation` over the entities is translated from the source. The
methods that extract the visible part of an entity belong to classes that are not part of
the translated file; their results are carried as data. Labels, sensors, names and the
database tree are not part of the state. -/

/-- Methods that extract the visible part of an entity, each giving the new entity (`none`
for a null pointer) and the entity as the call leaves it:
`createNewCloudFromVisibilitySelection(removeSelectedPoints)`,
`createNewMeshFromSelection(removeSelectedFaces)`,
`createNewSubMeshFromSelection(removeSelectedFaces)`, and
`createNewPolylinesFromSelection(polylines)` (`none` when it returns false). -/
structure SelectionMethods where
  createNewCloudFromVisibilitySelection : ccHObject → Bool → Option ccHObject × ccHObject
  createNewMeshFromSelection : ccHObject → Bool → Option ccHObject × ccHObject
  createNewSubMeshFromSelection : ccHObject → Bool → Option ccHObject × ccHObject
  createNewPolylinesFromSelection : ccHObject → Option (List ccHObject)

/-- What one iteration of the loop of `applySegmentation` does to the iterator `p`:
`++p`, `p = m_toSegment.erase(p)`, nothing (a `continue` of this loop, the `for` statement
of which has no increment), or a failed assertion. -/
inductive IteratorMove where
  | advance
  | erase
  | stay
  | assertion
deriving DecidableEq, Repr

/-- First part of the body of the loop of `applySegmentation`: the value of `canModify`,
or `none` when the entity is ignored by a `continue`. -/
def canModify (entity : ccHObject) : Option Bool :=
  if entity.isKindOf CC_CLASS_ENUM.POINT_CLOUD then
    if entity.cloudSize = 0 then none
    else if entity.verticesOfMesh then some false
    else if entity.verticesOfPolyline then some false
    else some true
  else if entity.isKindOf CC_CLASS_ENUM.MESH then
    if entity.elementCount = 0 ∨ entity.cloudSize = 0 then none else some true
  else if entity.isKindOf CC_CLASS_ENUM.POLY_LINE then
    if entity.elementCount = 0 ∨ entity.cloudSize = 0 then none else some false
  else
    some true

/-- Values `segmentationResult` and the entity after the extraction of its visible part,
for a cloud or a mesh. -/
def segmentationResult (methods : SelectionMethods) (deleteHiddenParts canModify : Bool)
    (entity : ccHObject) : Option ccHObject × ccHObject :=
  if entity.isKindOf CC_CLASS_ENUM.POINT_CLOUD then
    match methods.createNewCloudFromVisibilitySelection entity (canModify && !deleteHiddenParts) with
    | (some segmentedCloud, after) =>
      if segmentedCloud.cloudSize = 0 then (none, after) else (some segmentedCloud, after)
    | (none, after) => (none, after)
  else if entity.isA CC_CLASS_ENUM.MESH then
    methods.createNewMeshFromSelection entity (canModify && !deleteHiddenParts)
  else if entity.isA CC_CLASS_ENUM.SUB_MESH then
    methods.createNewSubMeshFromSelection entity (canModify && !deleteHiddenParts)
  else
    (none, entity)

/-- Value `deleteOriginalEntity` for a cloud or a mesh: the hidden parts are to be deleted
and the entity can be modified, or nothing is left of the entity. -/
def deleteOriginalEntity (deleteHiddenParts canModify : Bool) (after : ccHObject) : Bool :=
  (deleteHiddenParts && canModify) ||
    (if after.isKindOf CC_CLASS_ENUM.POINT_CLOUD then decide (after.cloudSize = 0)
     else decide (after.elementCount = 0))

/-- State of the loop of `applySegmentation`: the set `m_toSegment` in iteration order,
the position of the iterator `p` and the container `newEntities`. -/
structure ApplyLoopState where
  m_toSegment : List ccHObject
  p : Nat
  newEntities : List ccHObject
deriving DecidableEq, Repr

/-- Body of the loop of `applySegmentation` on the entity under the iterator: the move
of the iterator and the state after the iteration. -/
def applySegmentationBody (methods : SelectionMethods) (deleteHiddenParts : Bool)
    (s : ApplyLoopState) (entity : ccHObject) : IteratorMove × ApplyLoopState :=
  match canModify entity with
  | none => (IteratorMove.stay, s)
  | some canModify =>
    if entity.isKindOf CC_CLASS_ENUM.POINT_CLOUD || entity.isKindOf CC_CLASS_ENUM.MESH then
      if !entity.toPointCloud then (IteratorMove.assertion, s)
      else
        if deleteOriginalEntity deleteHiddenParts canModify
            (segmentationResult methods deleteHiddenParts canModify entity).2 then
          (IteratorMove.erase,
            { s with
              m_toSegment := s.m_toSegment.eraseIdx s.p
              newEntities :=
                s.newEntities ++
                  (segmentationResult methods deleteHiddenParts canModify entity).1.toList })
        else
          (IteratorMove.advance,
            { m_toSegment :=
                s.m_toSegment.set s.p
                  (segmentationResult methods deleteHiddenParts canModify entity).2
              p := s.p + 1
              newEntities :=
                s.newEntities ++
                  (segmentationResult methods deleteHiddenParts canModify entity).1.toList })
    else if entity.isKindOf CC_CLASS_ENUM.POLY_LINE then
      (IteratorMove.advance,
        { s with
          p := s.p + 1
          newEntities :=
            s.newEntities ++ (methods.createNewPolylinesFromSelection entity).getD [] })
    else
      (IteratorMove.assertion, s)

/-- Outcome of the loop of `applySegmentation` run for at most a given number of
iterations: the state in which the iterator reached the end, a failed assertion, or the
state in which the loop still is when the iterations are used up. -/
inductive ApplyLoopOutcome where
  | finished (s : ApplyLoopState)
  | assertion
  | running (s : ApplyLoopState)
deriving DecidableEq, Repr

/-- Loop `for (p = m_toSegment.begin(); p != m_toSegment.end(); )` of
`applySegmentation`, run for at most `iterations` iterations. -/
def applySegmentationLoop (methods : SelectionMethods) (deleteHiddenParts : Bool) :
    Nat → ApplyLoopState → ApplyLoopOutcome
  | 0, s =>
    match s.m_toSegment[s.p]? with
    | none => ApplyLoopOutcome.finished s
    | some _ => ApplyLoopOutcome.running s
  | iterations + 1, s =>
    match s.m_toSegment[s.p]? with
    | none => ApplyLoopOutcome.finished s
    | some entity =>
      match applySegmentationBody methods deleteHiddenParts s entity with
      | (IteratorMove.assertion, _) => ApplyLoopOutcome.assertion
      | (_, s') => applySegmentationLoop methods deleteHiddenParts iterations s'

namespace ccGraphicalSegmentationTool

/-- Method `applySegmentation(app, newEntities)`, its loop run for at most `iterations`
iterations: `none` while the loop has not come to its end (or on a failed assertion, as
for a null `app`), otherwise the value returned, the tool with its set emptied by
`removeAllEntities` and the new entities. -/
def applySegmentation (methods : SelectionMethods) (iterations : Nat)
    (tool : ccGraphicalSegmentationTool) (app : Bool) (newEntities : List ccHObject) :
    Option (Bool × ccGraphicalSegmentationTool × List ccHObject) :=
  if !app then none
  else
    match applySegmentationLoop methods tool.m_deleteHiddenParts iterations
        ⟨tool.m_toSegment, 0, newEntities⟩ with
    | ApplyLoopOutcome.finished s => some (true, { tool with m_toSegment := [] }, s.newEntities)
    | ApplyLoopOutcome.assertion => none
    | ApplyLoopOutcome.running _ => none

end ccGraphicalSegmentationTool

/-! ## STL filter (STLFilter.cpp)

The functions of the filter are translated from the source. Floating-point numbers are
not interpreted: a `float` is carried by the four bytes of its object representation,
which is what the binary format stores, and the arithmetic of the platform on
coordinates is a parameter. The file is a sequence of bytes with a position. -/

/-- Value of a `char` of a file: a byte. -/
abbrev Byte := Fin 256

/-- Error codes `CC_FILE_ERROR` that the filter returns. -/
inductive CC_FILE_ERROR where
  | CC_FERR_NO_ERROR
  | CC_FERR_BAD_ARGUMENT
  | CC_FERR_BAD_ENTITY_TYPE
  | CC_FERR_WRITING
  | CC_FERR_READING
  | CC_FERR_MALFORMED_FILE
  | CC_FERR_CANCELED_BY_USER
  | CC_FERR_NOT_ENOUGH_MEMORY
  | CC_FERR_NO_LOAD
deriving DecidableEq, Repr

/-- Open file `QFile`: its content, the position of the next read, and, for writing, the
number of bytes the device still accepts (`none` when it accepts any number). -/
structure QFile where
  bytes : List Byte
  pos : Nat
  room : Option Nat
deriving DecidableEq, Repr

namespace QFile

/-- Method `read(data, maxSize)`: reads at most `maxSize` bytes at the position. The
result is the file after the call, the bytes read and the value returned, their number
(0 at the end of the file). -/
def read (f : QFile) (maxSize : Nat) : QFile × List Byte × Int :=
  ({ f with pos := f.pos + ((f.bytes.drop f.pos).take maxSize).length },
    (f.bytes.drop f.pos).take maxSize,
    (((f.bytes.drop f.pos).take maxSize).length : Int))

/-- Method `seek(pos)`. -/
def seek (f : QFile) (pos : Nat) : QFile :=
  { f with pos := pos }

/-- Method `write(data, len)` on a file that is written from its start to its end: the
bytes that the device accepts are appended. The result is the file after the call and
the value returned, the number of bytes written. -/
def write (f : QFile) (data : List Byte) : QFile × Int :=
  match f.room with
  | none => ({ f with bytes := f.bytes ++ data }, (data.length : Int))
  | some r =>
    ({ f with bytes := f.bytes ++ data.take r, room := some (r - (data.take r).length) },
      ((data.take r).length : Int))

end QFile

/-- Single-precision number `float`, carried by its object representation: the four
bytes it occupies in memory, in memory order. -/
structure float where
  b0 : Byte
  b1 : Byte
  b2 : Byte
  b3 : Byte
deriving DecidableEq, Repr

/-- Bytes of a `float` in memory, as `write((const char*)&x, 4)` sends them. -/
def float.bytes (x : float) : List Byte :=
  [x.b0, x.b1, x.b2, x.b3]

/-- The `float` that four bytes of memory hold; bytes that are missing are `fill`. -/
def float.ofBytes (fill : Byte) (data : List Byte) : float :=
  ⟨data.getD 0 fill, data.getD 1 fill, data.getD 2 fill, data.getD 3 fill⟩

/-- Generic 3D vector `Vector3Tpl<T>`. -/
structure Vector3Tpl (T : Type) where
  x : T
  y : T
  z : T
deriving DecidableEq, Repr

/-- Bytes of a `float` array `u[3]` in memory, as `write((const char*)buffer.u, 12)`
sends them. -/
def Vector3Tpl.bytes (v : Vector3Tpl float) : List Byte :=
  v.x.bytes ++ v.y.bytes ++ v.z.bytes

/-- The three `float` that twelve bytes of memory hold; bytes that are missing are
`fill`. -/
def Vector3Tpl.ofBytes (fill : Byte) (data : List Byte) : Vector3Tpl float :=
  ⟨float.ofBytes fill data, float.ofBytes fill (data.drop 4), float.ofBytes fill (data.drop 8)⟩

/-- Arithmetic of the platform on coordinates, `PC` standing for `PointCoordinateType`
and `D` for `double`: subtraction and product of coordinates, the conversions
`static_cast<float>` of a coordinate, of a `float` to `double` and of a `double` to a
coordinate, the sum and the zero of `double`, and the compression
`ccNormalVectors::GetNormIndex` of a normal. -/
structure CoordinateArithmetic (PC D : Type) where
  sub : PC → PC → PC
  mul : PC → PC → PC
  toFloat : PC → float
  toDouble : float → D
  add : D → D → D
  zero : D
  toPC : D → PC
  GetNormIndex : Vector3Tpl float → Nat

namespace CoordinateArithmetic

variable {PC D : Type}

/-- Difference of two vectors, `operator-`. -/
def vsub (A : CoordinateArithmetic PC D) (u v : Vector3Tpl PC) : Vector3Tpl PC :=
  ⟨A.sub u.x v.x, A.sub u.y v.y, A.sub u.z v.z⟩

/-- Cross product `u.cross(v)`:
`(y * v.z - z * v.y, z * v.x - x * v.z, x * v.y - y * v.x)`. -/
def cross (A : CoordinateArithmetic PC D) (u v : Vector3Tpl PC) : Vector3Tpl PC :=
  ⟨A.sub (A.mul u.y v.z) (A.mul u.z v.y),
    A.sub (A.mul u.z v.x) (A.mul u.x v.z),
    A.sub (A.mul u.x v.y) (A.mul u.y v.x)⟩

/-- Conversion `toFloat()` of a vector. -/
def vtoFloat (A : CoordinateArithmetic PC D) (v : Vector3Tpl PC) : Vector3Tpl float :=
  ⟨A.toFloat v.x, A.toFloat v.y, A.toFloat v.z⟩

/-- Vector `CCVector3d Pd(Pf[0], Pf[1], Pf[2])` of three `float`. -/
def vtoDouble (A : CoordinateArithmetic PC D) (v : Vector3Tpl float) : Vector3Tpl D :=
  ⟨A.toDouble v.x, A.toDouble v.y, A.toDouble v.z⟩

/-- Sum of two `double` vectors, `operator+`. -/
def vadd (A : CoordinateArithmetic PC D) (u v : Vector3Tpl D) : Vector3Tpl D :=
  ⟨A.add u.x v.x, A.add u.y v.y, A.add u.z v.z⟩

/-- Conversion `toPC()` of a `double` vector. -/
def vtoPC (A : CoordinateArithmetic PC D) (v : Vector3Tpl D) : Vector3Tpl PC :=
  ⟨A.toPC v.x, A.toPC v.y, A.toPC v.z⟩

end CoordinateArithmetic

/-- Bytes of a `uint32_t` in memory, as `write((const char*)&tmpInt32, 4)` sends them,
in the byte order of the platform. -/
def uint32Bytes (bigEndian : Bool) (v : Nat) : List Byte :=
  if bigEndian then
    [Fin.ofNat (v / 2 ^ 24), Fin.ofNat (v / 2 ^ 16), Fin.ofNat (v / 2 ^ 8), Fin.ofNat v]
  else
    [Fin.ofNat v, Fin.ofNat (v / 2 ^ 8), Fin.ofNat (v / 2 ^ 16), Fin.ofNat (v / 2 ^ 24)]

/-- The `unsigned` that four bytes of memory hold, in the byte order of the platform. -/
def uint32OfBytes (bigEndian : Bool) (data : List Byte) : Nat :=
  if bigEndian then
    ((data.getD 0 0).val * 2 ^ 24 + (data.getD 1 0).val * 2 ^ 16 + (data.getD 2 0).val * 2 ^ 8 +
      (data.getD 3 0).val)
  else
    ((data.getD 0 0).val + (data.getD 1 0).val * 2 ^ 8 + (data.getD 2 0).val * 2 ^ 16 +
      (data.getD 3 0).val * 2 ^ 24)

/-- Triangle of a mesh, `CCCoreLib::VerticesIndexes`: the indexes of its three vertices. -/
structure VerticesIndexes where
  i1 : Nat
  i2 : Nat
  i3 : Nat
deriving DecidableEq, Repr

/-- Mesh with its associated cloud of vertices, as the filter reads and fills it: its
name, its triangles, the points of the associated cloud and their global shift, the table
of compressed triangle normals (`none` when the mesh has no table) and the normal index
of each triangle. -/
structure ccMesh (PC D : Type) where
  name : String
  triangles : List VerticesIndexes
  points : List (Vector3Tpl PC)
  globalShift : Option (Vector3Tpl D)
  triNormsTable : Option (List Nat)
  triNormalIndexes : List Int

/-- Method `size()` of a mesh: the number of triangles, an `unsigned`. -/
def ccMesh.size {PC D : Type} (mesh : ccMesh PC D) : Nat :=
  mesh.triangles.length % 2 ^ 32

/-- Progress dialog with its `NormalizedProgress`: `oneStep i` is the value that
`oneStep()` returns at step `i`, false once the user has cancelled. -/
structure ccProgressDialog where
  oneStep : Nat → Bool

/-- Header of a binary file written by the filter: the text, in a buffer of 80 bytes
set to zero. -/
def binaryHeader : List Byte :=
  ("Binary STL file generated by CloudCompare!".toList.map (fun c => (Fin.ofNat c.toNat : Byte))) ++
    List.replicate 38 0

/-- Checked write of the filter,
`if (theFile.write(data, len) < len) return CC_FERR_WRITING;`, followed by `next`. The
result is the error returned, if any, and the file. -/
def checkedWrite (data : List Byte) (len : Nat) (next : QFile → Option CC_FILE_ERROR × QFile)
    (theFile : QFile) : Option CC_FILE_ERROR × QFile :=
  if (theFile.write data).2 < (len : Int) then
    (some CC_FILE_ERROR.CC_FERR_WRITING, (theFile.write data).1)
  else
    next (theFile.write data).1

/-- Writes of one iteration of the loop of `saveToBINFile`, for a triangle of vertices
`a`, `b`, `c`: the normal `(b - a).cross(c - a)`, then `a`, `b`, `c`, each converted by
`toFloat()` and written as 12 bytes, then the attribute byte count `{0, 0}`. The result
is the error returned from inside the iteration, if any, and the file. -/
def writeFacet {PC D : Type} (arith : CoordinateArithmetic PC D) (a b c : Vector3Tpl PC)
    (theFile : QFile) : Option CC_FILE_ERROR × QFile :=
  checkedWrite (arith.vtoFloat (arith.cross (arith.vsub b a) (arith.vsub c a))).bytes 12
    (checkedWrite (arith.vtoFloat a).bytes 12
      (checkedWrite (arith.vtoFloat b).bytes 12
        (checkedWrite (arith.vtoFloat c).bytes 12
          (checkedWrite [0, 0] 2 (fun f => (none, f)))))) theFile

/-- Loop `for (unsigned i = 0; i < faceCount; ++i)` of `saveToBINFile` from the step
`i` on, over the triangles that `getNextTriangleVertIndexes()` has still to give. The
result is `none` when a vertex index is out of the associated cloud, otherwise the value
returned and the file. -/
def writeFacets {PC D : Type} (arith : CoordinateArithmetic PC D) (points : List (Vector3Tpl PC))
    (pDlg : Option ccProgressDialog) :
    List VerticesIndexes → Nat → QFile → Option (CC_FILE_ERROR × QFile)
  | [], _, theFile => some (CC_FILE_ERROR.CC_FERR_NO_ERROR, theFile)
  | tsi :: rest, i, theFile =>
    match points[tsi.i1]?, points[tsi.i2]?, points[tsi.i3]? with
    | some a, some b, some c =>
      match writeFacet arith a b c theFile with
      | (some error, theFile') => some (error, theFile')
      | (none, theFile') =>
        match pDlg with
        | some dlg =>
          if !dlg.oneStep i then some (CC_FILE_ERROR.CC_FERR_CANCELED_BY_USER, theFile')
          else writeFacets arith points pDlg rest (i + 1) theFile'
        | none => writeFacets arith points pDlg rest (i + 1) theFile'
    | _, _, _ => none

/-- Function `STLFilter::saveToBINFile(mesh, theFile, parentWidget)` on a platform of
byte order `bigEndian`; `pDlg` is the progress dialog, which exists when a parent widget
is given. The result is `none` when an assertion fails (mesh without triangle) or a vertex
index is out of the associated cloud, otherwise the value returned and the file. -/
def saveToBINFile {PC D : Type} (arith : CoordinateArithmetic PC D) (bigEndian : Bool)
    (mesh : ccMesh PC D) (theFile : QFile) (pDlg : Option ccProgressDialog := none) :
    Option (CC_FILE_ERROR × QFile) :=
  if mesh.size = 0 then none
  else if (theFile.write binaryHeader).2 < 80 then
    some (CC_FILE_ERROR.CC_FERR_WRITING, (theFile.write binaryHeader).1)
  else if (((theFile.write binaryHeader).1).write (uint32Bytes bigEndian mesh.size)).2 < 4 then
    some (CC_FILE_ERROR.CC_FERR_WRITING,
      (((theFile.write binaryHeader).1).write (uint32Bytes bigEndian mesh.size)).1)
  else
    writeFacets arith mesh.points pDlg (mesh.triangles.take mesh.size) 0
      (((theFile.write binaryHeader).1).write (uint32Bytes bigEndian mesh.size)).1

/-- Parameters of a load: the progress dialog, which exists when a parent widget is
given, and the function `HandleGlobalShift`, which gives the shift to apply and whether
it is to be kept with the cloud, or `none` when it returns false. -/
structure LoadParameters (D : Type) where
  pDlg : Option ccProgressDialog
  HandleGlobalShift : Vector3Tpl D → Option (Vector3Tpl D × Bool)

/-- Memory of the platform as a load uses it: whether `mesh->reserve(n)`,
`vertices->reserve(n)`, `normals->reserveSafe(n)` and
`mesh->reservePerTriangleNormalIndexes()` succeed, and the value of the bytes of an
array that no read has filled. -/
structure Memory where
  reserveMesh : Nat → Bool
  reserveVertices : Nat → Bool
  reserveNormals : Nat → Bool
  reservePerTriangleNormalIndexes : Bool
  indeterminate : Byte

/-- What the loop of `loadBinaryFile` works on: the file, the counter `pointCount`, the
shift `Pshift` and the mesh being filled. -/
structure BinaryLoadState (PC D : Type) where
  fp : QFile
  pointCount : Nat
  Pshift : Vector3Tpl D
  mesh : ccMesh PC D

/-- One vertex of a facet in `loadBinaryFile`: 12 bytes are read into `Pf` (the read is
checked against a negative value only), the global shift is handled for the first point,
and the point is added to the cloud. The result is `none` when the read returns a
negative value, otherwise the state and the index given to the point. -/
def readVertex {PC D : Type} (arith : CoordinateArithmetic PC D) (mem : Memory)
    (parameters : LoadParameters D) (s : BinaryLoadState PC D) :
    Option (BinaryLoadState PC D × Nat) :=
  if (s.fp.read 12).2.2 < 0 then none
  else
    match (if s.pointCount = 0 then
        parameters.HandleGlobalShift
          (arith.vtoDouble (Vector3Tpl.ofBytes mem.indeterminate (s.fp.read 12).2.1))
      else none) with
    | some (Pshift, preserveCoordinateShift) =>
      some
        ({ fp := (s.fp.read 12).1
           pointCount := (s.pointCount + 1) % 2 ^ 32
           Pshift := Pshift
           mesh :=
            { s.mesh with
              points := s.mesh.points ++
                [arith.vtoPC (arith.vadd
                  (arith.vtoDouble (Vector3Tpl.ofBytes mem.indeterminate (s.fp.read 12).2.1))
                  Pshift)]
              globalShift :=
                if preserveCoordinateShift then some Pshift else s.mesh.globalShift } },
          s.pointCount)
    | none =>
      some
        ({ s with
           fp := (s.fp.read 12).1
           pointCount := (s.pointCount + 1) % 2 ^ 32
           mesh :=
            { s.mesh with
              points := s.mesh.points ++
                [arith.vtoPC (arith.vadd
                  (arith.vtoDouble (Vector3Tpl.ofBytes mem.indeterminate (s.fp.read 12).2.1))
                  s.Pshift)] } },
          s.pointCount)

/-- One iteration of the loop of `loadBinaryFile` up to the progress step: the normal is
read (the read is checked against 12 bytes), then the three vertices and the attribute
byte count (checked against a negative value only), then the triangle and its normal are
added. The result is the error returned from inside the iteration, if any, and the
state. -/
def readFacet {PC D : Type} (arith : CoordinateArithmetic PC D) (mem : Memory)
    (parameters : LoadParameters D) (s : BinaryLoadState PC D) :
    Option CC_FILE_ERROR × BinaryLoadState PC D :=
  if (s.fp.read 12).2.2 < 12 then
    (some CC_FILE_ERROR.CC_FERR_READING, { s with fp := (s.fp.read 12).1 })
  else
    match readVertex arith mem parameters { s with fp := (s.fp.read 12).1 } with
    | none => (some CC_FILE_ERROR.CC_FERR_READING, { s with fp := (s.fp.read 12).1 })
    | some (s1, v1) =>
      match readVertex arith mem parameters s1 with
      | none => (some CC_FILE_ERROR.CC_FERR_READING, s1)
      | some (s2, v2) =>
        match readVertex arith mem parameters s2 with
        | none => (some CC_FILE_ERROR.CC_FERR_READING, s2)
        | some (s3, v3) =>
          if (s3.fp.read 2).2.2 < 0 then (some CC_FILE_ERROR.CC_FERR_READING, s3)
          else
            (none,
              { s3 with
                fp := (s3.fp.read 2).1
                mesh :=
                  { s3.mesh with
                    triangles := s3.mesh.triangles ++ [⟨v1, v2, v3⟩]
                    triNormsTable :=
                      s3.mesh.triNormsTable.map (fun table =>
                        table ++
                          [arith.GetNormIndex
                            (Vector3Tpl.ofBytes mem.indeterminate (s.fp.read 12).2.1)])
                    triNormalIndexes :=
                      match s3.mesh.triNormsTable with
                      | some table => s3.mesh.triNormalIndexes ++ [(table.length : Int)]
                      | none => s3.mesh.triNormalIndexes } })

/-- Loop `for (unsigned f = 0; f < faceCount; ++f)` whose body is `body` followed by the
progress step `if (pDlg && !nProgress.oneStep()) break;`, from the step `f` on,
`remaining` being `faceCount - f`. The loop is left with the error that `body` returns,
if any; otherwise its value is `CC_FERR_NO_ERROR`. -/
def facetLoop {S : Type} (body : S → Option CC_FILE_ERROR × S) (pDlg : Option ccProgressDialog) :
    Nat → Nat → S → CC_FILE_ERROR × S
  | 0, _, s => (CC_FILE_ERROR.CC_FERR_NO_ERROR, s)
  | remaining + 1, f, s =>
    match body s with
    | (some error, s') => (error, s')
    | (none, s') =>
      match pDlg with
      | some dlg =>
        if !dlg.oneStep f then (CC_FILE_ERROR.CC_FERR_NO_ERROR, s')
        else facetLoop body pDlg remaining (f + 1) s'
      | none => facetLoop body pDlg remaining (f + 1) s'

/-- Loop over the facets of `loadBinaryFile` from the step `f` on, `remaining` being
`faceCount - f`. The result is the value returned and the state. -/
def readFacets {PC D : Type} (arith : CoordinateArithmetic PC D) (mem : Memory)
    (parameters : LoadParameters D) (remaining f : Nat) (s : BinaryLoadState PC D) :
    CC_FILE_ERROR × BinaryLoadState PC D :=
  facetLoop (readFacet arith mem parameters) parameters.pDlg remaining f s

/-- Value `faceCount` of `loadBinaryFile`: the `unsigned` held by the four bytes read
after the header (bytes that the file does not hold count as zero). -/
def readFaceCount (bigEndian : Bool) (fp : QFile) : Nat :=
  uint32OfBytes bigEndian ((fp.seek 80).read 4).2.1

/-- State in which the loop of `loadBinaryFile` starts: the file after the face count,
no point yet, a null shift, and the mesh named "Mesh", without its table of normals when
memory is missing for the normals. -/
def binaryLoadStart {PC D : Type} (arith : CoordinateArithmetic PC D) (bigEndian : Bool)
    (mem : Memory) (fp : QFile) (mesh : ccMesh PC D) : BinaryLoadState PC D :=
  { fp := ((fp.seek 80).read 4).1
    pointCount := 0
    Pshift := ⟨arith.zero, arith.zero, arith.zero⟩
    mesh :=
      { mesh with
        name := "Mesh"
        triNormsTable :=
          match mesh.triNormsTable with
          | some table =>
            if !mem.reserveNormals (readFaceCount bigEndian fp) ||
                !mem.reservePerTriangleNormalIndexes then none
            else some table
          | none => none } }

/-- Function `STLFilter::loadBinaryFile(fp, mesh, vertices, parameters)` on a platform
of byte order `bigEndian`; `mesh` holds the mesh and its cloud of vertices. The result is
the value returned, the file and the mesh. -/
def loadBinaryFile {PC D : Type} (arith : CoordinateArithmetic PC D) (bigEndian : Bool)
    (mem : Memory) (fp : QFile) (mesh : ccMesh PC D) (parameters : LoadParameters D) :
    CC_FILE_ERROR × QFile × ccMesh PC D :=
  if ((fp.seek 80).read 4).2.2 < 4 then
    (CC_FILE_ERROR.CC_FERR_READING, ((fp.seek 80).read 4).1, { mesh with name := "Mesh" })
  else if !mem.reserveMesh (readFaceCount bigEndian fp) then
    (CC_FILE_ERROR.CC_FERR_NOT_ENOUGH_MEMORY, ((fp.seek 80).read 4).1,
      { mesh with name := "Mesh" })
  else if !mem.reserveVertices ((3 * readFaceCount bigEndian fp) % 2 ^ 32) then
    (CC_FILE_ERROR.CC_FERR_NOT_ENOUGH_MEMORY, ((fp.seek 80).read 4).1,
      { mesh with name := "Mesh" })
  else
    ((readFacets arith mem parameters (readFaceCount bigEndian fp) 0
        (binaryLoadStart arith bigEndian mem fp mesh)).1,
      (readFacets arith mem parameters (readFaceCount bigEndian fp) 0
        (binaryLoadStart arith bigEndian mem fp mesh)).2.fp,
      (readFacets arith mem parameters (readFaceCount bigEndian fp) 0
        (binaryLoadStart arith bigEndian mem fp mesh)).2.mesh)

/-- Bytes that one iteration of the loop of `saveToBINFile` sends for a triangle of
vertices `a`, `b`, `c` when every write succeeds: the facet record of the binary
format. -/
def facetRecord {PC D : Type} (arith : CoordinateArithmetic PC D) (a b c : Vector3Tpl PC) :
    List Byte :=
  (arith.vtoFloat (arith.cross (arith.vsub b a) (arith.vsub c a))).bytes ++
    (arith.vtoFloat a).bytes ++ (arith.vtoFloat b).bytes ++ (arith.vtoFloat c).bytes ++ [0, 0]

/-- Facet record of a triangle given by the indexes of its vertices in `points` (no byte
when an index is out of the cloud). -/
def triangleRecord {PC D : Type} (arith : CoordinateArithmetic PC D)
    (points : List (Vector3Tpl PC)) (tsi : VerticesIndexes) : List Byte :=
  match points[tsi.i1]?, points[tsi.i2]?, points[tsi.i3]? with
  | some a, some b, some c => facetRecord arith a b c
  | _, _, _ => []

/-- The device accepts `k` more bytes. -/
def QFile.accepts (f : QFile) (k : Nat) : Prop :=
  ∀ r, f.room = some r → k ≤ r

/-- Coordinates with which `loadBinaryFile` stores a vertex read as the three `float`
`v` when the shift is null: `(CCVector3d(v) + Pshift).toPC()`. -/
def reloaded {PC D : Type} (arith : CoordinateArithmetic PC D) (v : Vector3Tpl float) :
    Vector3Tpl PC :=
  arith.vtoPC (arith.vadd (arith.vtoDouble v) ⟨arith.zero, arith.zero, arith.zero⟩)

/-- The three vertices that a facet record of the triangle `tsi` gives back: the
single-precision coordinates of its vertices `A`, `B`, `C`, as the loader stores them
(nothing when an index is out of the cloud). -/
def triangleVertices {PC D : Type} (arith : CoordinateArithmetic PC D)
    (points : List (Vector3Tpl PC)) (tsi : VerticesIndexes) : List (Vector3Tpl PC) :=
  match points[tsi.i1]?, points[tsi.i2]?, points[tsi.i3]? with
  | some a, some b, some c =>
    [reloaded arith (arith.vtoFloat a), reloaded arith (arith.vtoFloat b),
      reloaded arith (arith.vtoFloat c)]
  | _, _, _ => []

/-- Mesh that `loadFile` hands to the loaders: no triangle, no vertex, an empty table of
normals. -/
def ccMesh.empty (PC D : Type) : ccMesh PC D :=
  { name := "mesh"
    triangles := []
    points := []
    globalShift := none
    triNormsTable := some []
    triNormalIndexes := [] }

/-! ## ASCII STL files (STLFilter.cpp)

`loadASCIIFile` reads its file through a `QTextStream`, line by line. A `QString` is the
list of its characters. The functions of Qt whose result depends on the Unicode tables or
on the format of numbers (`QChar::isSpace`, `QString::toUpper`, `QString::toDouble`) are
parameters; `readLine`, `simplified`, `trimmed`, `split` and `startsWith` follow the
documentation of Qt. Warnings sent to the log are not part of the model, nor is the flag
`normalWarningAlreadyDisplayed`, which only guards them. -/

/-- Text `QString`: the list of its characters. -/
abbrev QString := List Char

/-- Line feed, the end of a line for `QTextStream::readLine`. -/
def LF : Char := Char.ofNat 10

/-- Carriage return, dropped by `QTextStream::readLine` in front of a line feed. -/
def CR : Char := Char.ofNat 13

/-- Space `QChar(' ')`. -/
def SPACE : Char := Char.ofNat 32

/-- What `loadASCIIFile` takes from Qt and from the library of normals: `QChar::isSpace`,
`QString::toUpper`, `QString::toDouble(&ok)` (`none` when `ok` is set to false),
`ccNormalVectors::GetNormIndex` on coordinates of type `PointCoordinateType`, and
`pDlg->wasCanceled()` at the time `faceCount` faces have been read. -/
structure TextTools (PC D : Type) where
  isSpace : Char → Bool
  toUpper : QString → QString
  toDouble : QString → Option D
  GetNormIndex : Vector3Tpl PC → Nat
  wasCanceled : Nat → Bool

/-- Text stream `QTextStream stream(&fp)` on the file `fp`: the characters not read yet,
and whether the device of `fp` is in error (`fp.error() != QFile::NoError`). -/
structure QTextStream where
  chars : List Char
  error : Bool
deriving DecidableEq, Repr

/-- Method `QTextStream::readLine()`: the characters up to the next line feed, without the
line feed and without a carriage return in front of it; all the characters left when no
line feed is left; the null string at the end of the stream. The result is the line and
the stream after the read. -/
def QTextStream.readLine (stream : QTextStream) : QString × QTextStream :=
  (if (stream.chars.takeWhile (fun c => c != LF)).getLast? = some CR ∧
        (stream.chars.dropWhile (fun c => c != LF)) ≠ [] then
      (stream.chars.takeWhile (fun c => c != LF)).dropLast
    else stream.chars.takeWhile (fun c => c != LF),
    { stream with chars := (stream.chars.dropWhile (fun c => c != LF)).drop 1 })

/-- The non-empty parts of a text between the characters that `isSep` accepts, `cur`
being the part under way. -/
def QString.parts (isSep : Char → Bool) : QString → QString → List QString
  | [], cur => if cur.isEmpty then [] else [cur]
  | c :: rest, cur =>
    if isSep c then
      (if cur.isEmpty then QString.parts isSep rest [] else cur :: QString.parts isSep rest [])
    else QString.parts isSep rest (cur ++ [c])

/-- Method `QString::simplified()`: whitespace removed from the start and the end, and
each sequence of internal whitespace replaced with a single space. -/
def QString.simplified {PC D : Type} (tools : TextTools PC D) (s : QString) : QString :=
  List.intercalate [SPACE] (QString.parts tools.isSpace s [])

/-- Method `QString::trimmed()`: whitespace removed from the start and the end. -/
def QString.trimmed {PC D : Type} (tools : TextTools PC D) (s : QString) : QString :=
  ((s.dropWhile tools.isSpace).reverse.dropWhile tools.isSpace).reverse

/-- Method `QString::split(sep, QString::SkipEmptyParts)`. -/
def QString.split (sep : Char) (s : QString) : List QString :=
  QString.parts (fun c => c == sep) s []

/-- Method `QString::startsWith(t)`. -/
def QString.startsWith : QString → QString → Bool
  | _, [] => true
  | [], _ :: _ => false
  | c :: s, d :: t => c == d && QString.startsWith s t

/-- Token list `currentLine.simplified().split(QChar(' '), QString::SkipEmptyParts)`. -/
def lineTokens {PC D : Type} (tools : TextTools PC D) (currentLine : QString) : List QString :=
  QString.split SPACE (QString.simplified tools currentLine)

/-- Test `QString(currentLine).trimmed().toUpper().startsWith(keyword)`. -/
def lineStartsWith {PC D : Type} (tools : TextTools PC D) (currentLine : QString)
    (keyword : String) : Bool :=
  QString.startsWith (tools.toUpper (QString.trimmed tools currentLine)) keyword.toList

/-- Constant `s_defaultMemAllocCount` of `loadASCIIFile`. -/
def s_defaultMemAllocCount : Nat := 65536

/-- What the loop of `loadASCIIFile` works on: the stream, the counters `pointCount`,
`faceCount` and `lineCount` (all `unsigned`), the shift `Pshift`, the capacities of the
cloud of vertices and of the mesh, and the mesh being filled. The pointer `normals` is
null exactly when the mesh has no table of normals. -/
structure AsciiLoadState (PC D : Type) where
  stream : QTextStream
  pointCount : Nat
  faceCount : Nat
  lineCount : Nat
  Pshift : Vector3Tpl D
  verticesCapacity : Nat
  meshCapacity : Nat
  mesh : ccMesh PC D

/-- How a part of an iteration of the loop of `loadASCIIFile` ends: the iteration goes on
(`next`), the function returns `result`, from a `return` or after a `break` (`done`), or
`tokens[0]` is read while the token list is empty (`indexOutOfRange`, at the line
`lineCount` of the state). -/
inductive AsciiStep (S : Type) where
  | next (s : S)
  | done (result : CC_FILE_ERROR) (s : S)
  | indexOutOfRange (s : S)

/-- First line of a facet in `loadASCIIFile`, "facet normal ni nj nk" or "endsolid": the
line is read and split into tokens, `tokens[0]` is examined, and the normal is read when
the mesh has a table of normals. `next` comes with the normal `N` when `normalIsOk`. -/
def facetHeader {PC D : Type} (tools : TextTools PC D) (arith : CoordinateArithmetic PC D)
    (s : AsciiLoadState PC D) : AsciiStep (AsciiLoadState PC D × Option (Vector3Tpl PC)) :=
  if s.stream.readLine.1.isEmpty then
    AsciiStep.done CC_FILE_ERROR.CC_FERR_NO_ERROR ({ s with stream := s.stream.readLine.2 }, none)
  else if s.stream.error then
    AsciiStep.done CC_FILE_ERROR.CC_FERR_READING ({ s with stream := s.stream.readLine.2 }, none)
  else
    if (lineTokens tools s.stream.readLine.1).isEmpty ||
        (tools.toUpper ((lineTokens tools s.stream.readLine.1).headD []) != "FACET".toList) then
      match lineTokens tools s.stream.readLine.1 with
      | [] =>
        AsciiStep.indexOutOfRange
          ({ s with stream := s.stream.readLine.2, lineCount := (s.lineCount + 1) % 2 ^ 32 },
            none)
      | token :: _ =>
        if tools.toUpper token != "ENDSOLID".toList then
          AsciiStep.done CC_FILE_ERROR.CC_FERR_MALFORMED_FILE
            ({ s with stream := s.stream.readLine.2, lineCount := (s.lineCount + 1) % 2 ^ 32 },
              none)
        else
          AsciiStep.done CC_FILE_ERROR.CC_FERR_NO_ERROR
            ({ s with stream := s.stream.readLine.2, lineCount := (s.lineCount + 1) % 2 ^ 32 },
              none)
    else
      AsciiStep.next
        ({ s with stream := s.stream.readLine.2, lineCount := (s.lineCount + 1) % 2 ^ 32 },
          if s.mesh.triNormsTable.isSome && decide (5 ≤ (lineTokens tools s.stream.readLine.1).length)
              && (tools.toUpper ((lineTokens tools s.stream.readLine.1).getD 1 []) ==
                "NORMAL".toList) then
            match tools.toDouble ((lineTokens tools s.stream.readLine.1).getD 2 []),
              tools.toDouble ((lineTokens tools s.stream.readLine.1).getD 3 []),
              tools.toDouble ((lineTokens tools s.stream.readLine.1).getD 4 []) with
            | some x, some y, some z => some ⟨arith.toPC x, arith.toPC y, arith.toPC z⟩
            | _, _, _ => none
          else none)

/-- A line that must start with `keyword` ("outer loop", "endloop", "endfacet"): the line
is read; when it is empty, the device is in error or the line does not start with the
keyword, the loop is left with `result`. -/
def keywordLine {PC D : Type} (tools : TextTools PC D) (keyword : String)
    (result : CC_FILE_ERROR) (s : AsciiLoadState PC D) : AsciiStep (AsciiLoadState PC D) :=
  if s.stream.readLine.1.isEmpty || s.stream.error ||
      !lineStartsWith tools s.stream.readLine.1 keyword then
    AsciiStep.done result { s with stream := s.stream.readLine.2 }
  else
    AsciiStep.next
      { s with stream := s.stream.readLine.2, lineCount := (s.lineCount + 1) % 2 ^ 32 }

/-- One step of the loop `for (unsigned i = 0; i < 3; ++i)` of `loadASCIIFile`: a line
"vertex vix viy viz" is read, the global shift is handled for the first point, memory is
reserved when the cloud is full, and the point is added to the cloud. `next` comes with
the index given to the point. -/
def vertexLine {PC D : Type} (tools : TextTools PC D) (arith : CoordinateArithmetic PC D)
    (mem : Memory) (parameters : LoadParameters D) (s : AsciiLoadState PC D) :
    AsciiStep (AsciiLoadState PC D × Nat) :=
  if s.stream.readLine.1.isEmpty || s.stream.error ||
      !lineStartsWith tools s.stream.readLine.1 "VERTEX" then
    AsciiStep.done CC_FILE_ERROR.CC_FERR_MALFORMED_FILE
      ({ s with stream := s.stream.readLine.2 }, 0)
  else if (lineTokens tools s.stream.readLine.1).length < 4 then
    AsciiStep.done CC_FILE_ERROR.CC_FERR_MALFORMED_FILE
      ({ s with stream := s.stream.readLine.2, lineCount := (s.lineCount + 1) % 2 ^ 32 }, 0)
  else
    match tools.toDouble ((lineTokens tools s.stream.readLine.1).getD 1 []),
      tools.toDouble ((lineTokens tools s.stream.readLine.1).getD 2 []),
      tools.toDouble ((lineTokens tools s.stream.readLine.1).getD 3 []) with
    | some x, some y, some z =>
      match (if s.pointCount = 0 then parameters.HandleGlobalShift ⟨x, y, z⟩ else none) with
      | some (Pshift, preserveCoordinateShift) =>
        if s.verticesCapacity = s.pointCount &&
            !mem.reserveVertices ((s.pointCount + s_defaultMemAllocCount) % 2 ^ 32) then
          AsciiStep.done CC_FILE_ERROR.CC_FERR_NOT_ENOUGH_MEMORY
            ({ s with
               stream := s.stream.readLine.2
               lineCount := (s.lineCount + 1) % 2 ^ 32
               Pshift := Pshift
               mesh :=
                { s.mesh with
                  globalShift :=
                    if preserveCoordinateShift then some Pshift else s.mesh.globalShift } }, 0)
        else
          AsciiStep.next
            ({ s with
               stream := s.stream.readLine.2
               lineCount := (s.lineCount + 1) % 2 ^ 32
               Pshift := Pshift
               pointCount := (s.pointCount + 1) % 2 ^ 32
               verticesCapacity :=
                if s.verticesCapacity = s.pointCount then
                  (s.pointCount + s_defaultMemAllocCount) % 2 ^ 32
                else s.verticesCapacity
               mesh :=
                { s.mesh with
                  points := s.mesh.points ++ [arith.vtoPC (arith.vadd ⟨x, y, z⟩ Pshift)]
                  globalShift :=
                    if preserveCoordinateShift then some Pshift else s.mesh.globalShift } },
              s.pointCount)
      | none =>
        if s.verticesCapacity = s.pointCount &&
            !mem.reserveVertices ((s.pointCount + s_defaultMemAllocCount) % 2 ^ 32) then
          AsciiStep.done CC_FILE_ERROR.CC_FERR_NOT_ENOUGH_MEMORY
            ({ s with
               stream := s.stream.readLine.2
               lineCount := (s.lineCount + 1) % 2 ^ 32 }, 0)
        else
          AsciiStep.next
            ({ s with
               stream := s.stream.readLine.2
               lineCount := (s.lineCount + 1) % 2 ^ 32
               pointCount := (s.pointCount + 1) % 2 ^ 32
               verticesCapacity :=
                if s.verticesCapacity = s.pointCount then
                  (s.pointCount + s_defaultMemAllocCount) % 2 ^ 32
                else s.verticesCapacity
               mesh :=
                { s.mesh with
                  points := s.mesh.points ++ [arith.vtoPC (arith.vadd ⟨x, y, z⟩ s.Pshift)] } },
              s.pointCount)
    | _, _, _ =>
      AsciiStep.done CC_FILE_ERROR.CC_FERR_MALFORMED_FILE
        ({ s with stream := s.stream.readLine.2, lineCount := (s.lineCount + 1) % 2 ^ 32 }, 0)

/-- Table of normals of the mesh once `loadASCIIFile` has made room for a new triangle:
when the mesh was full and `normals->reserveSafe(mesh->capacity())` or, for the first
face, `mesh->reservePerTriangleNormalIndexes()` fails, the mesh loses its table. -/
def tableAfterReserve {PC D : Type} (mem : Memory) (s : AsciiLoadState PC D) :
    Option (List Nat) :=
  if s.meshCapacity = s.faceCount then
    match s.mesh.triNormsTable with
    | some table =>
      if mem.reserveNormals ((s.faceCount + s_defaultMemAllocCount) % 2 ^ 32) &&
          (decide (s.faceCount ≠ 0) || mem.reservePerTriangleNormalIndexes) then some table
      else none
    | none => none
  else s.mesh.triNormsTable

/-- The triangle of `loadASCIIFile`: once the three vertices `v1`, `v2`, `v3` are read,
memory is reserved when the mesh is full, the triangle is added, and, when the mesh has a
table of normals, so is its normal (the index is -1 when no normal was read). -/
def addFacet {PC D : Type} (tools : TextTools PC D) (mem : Memory)
    (N : Option (Vector3Tpl PC)) (v1 v2 v3 : Nat) (s : AsciiLoadState PC D) :
    AsciiStep (AsciiLoadState PC D) :=
  if s.meshCapacity = s.faceCount &&
      !mem.reserveMesh ((s.faceCount + s_defaultMemAllocCount) % 2 ^ 32) then
    AsciiStep.done CC_FILE_ERROR.CC_FERR_NOT_ENOUGH_MEMORY s
  else
    AsciiStep.next
      { s with
        faceCount := (s.faceCount + 1) % 2 ^ 32
        meshCapacity :=
          if s.meshCapacity = s.faceCount then (s.faceCount + s_defaultMemAllocCount) % 2 ^ 32
          else s.meshCapacity
        mesh :=
          { s.mesh with
            triangles := s.mesh.triangles ++ [⟨v1, v2, v3⟩]
            triNormsTable :=
              match tableAfterReserve mem s, N with
              | some table, some n => some (table ++ [tools.GetNormIndex n])
              | some table, none => some table
              | none, _ => none
            triNormalIndexes :=
              match tableAfterReserve mem s, N with
              | some table, some _ => s.mesh.triNormalIndexes ++ [(table.length : Int)]
              | some _, none => s.mesh.triNormalIndexes ++ [-1]
              | none, _ =>
                if s.meshCapacity = s.faceCount ∧ s.mesh.triNormsTable.isSome then []
                else s.mesh.triNormalIndexes } }

/-- One iteration of the loop `while (true)` of `loadASCIIFile`: the seven lines of a
facet, then the progress step. -/
def asciiFacet {PC D : Type} (tools : TextTools PC D) (arith : CoordinateArithmetic PC D)
    (mem : Memory) (parameters : LoadParameters D) (s : AsciiLoadState PC D) :
    AsciiStep (AsciiLoadState PC D) :=
  match facetHeader tools arith s with
  | AsciiStep.indexOutOfRange (s0, _) => AsciiStep.indexOutOfRange s0
  | AsciiStep.done result (s0, _) => AsciiStep.done result s0
  | AsciiStep.next (s0, N) =>
    match keywordLine tools "OUTER LOOP" CC_FILE_ERROR.CC_FERR_READING s0 with
    | AsciiStep.indexOutOfRange s1 => AsciiStep.indexOutOfRange s1
    | AsciiStep.done result s1 => AsciiStep.done result s1
    | AsciiStep.next s1 =>
      match vertexLine tools arith mem parameters s1 with
      | AsciiStep.indexOutOfRange (s2, _) => AsciiStep.indexOutOfRange s2
      | AsciiStep.done result (s2, _) => AsciiStep.done result s2
      | AsciiStep.next (s2, v1) =>
        match vertexLine tools arith mem parameters s2 with
        | AsciiStep.indexOutOfRange (s3, _) => AsciiStep.indexOutOfRange s3
        | AsciiStep.done result (s3, _) => AsciiStep.done result s3
        | AsciiStep.next (s3, v2) =>
          match vertexLine tools arith mem parameters s3 with
          | AsciiStep.indexOutOfRange (s4, _) => AsciiStep.indexOutOfRange s4
          | AsciiStep.done result (s4, _) => AsciiStep.done result s4
          | AsciiStep.next (s4, v3) =>
            match addFacet tools mem N v1 v2 v3 s4 with
            | AsciiStep.indexOutOfRange s5 => AsciiStep.indexOutOfRange s5
            | AsciiStep.done result s5 => AsciiStep.done result s5
            | AsciiStep.next s5 =>
              match keywordLine tools "ENDLOOP" CC_FILE_ERROR.CC_FERR_MALFORMED_FILE s5 with
              | AsciiStep.indexOutOfRange s6 => AsciiStep.indexOutOfRange s6
              | AsciiStep.done result s6 => AsciiStep.done result s6
              | AsciiStep.next s6 =>
                match keywordLine tools "ENDFACET" CC_FILE_ERROR.CC_FERR_MALFORMED_FILE s6 with
                | AsciiStep.indexOutOfRange s7 => AsciiStep.indexOutOfRange s7
                | AsciiStep.done result s7 => AsciiStep.done result s7
                | AsciiStep.next s7 =>
                  if parameters.pDlg.isSome && decide (s7.faceCount % 1024 = 0) &&
                      tools.wasCanceled s7.faceCount then
                    AsciiStep.done CC_FILE_ERROR.CC_FERR_NO_ERROR s7
                  else AsciiStep.next s7

/-- What `loadASCIIFile` comes to: it returns `result`, the mesh being `mesh`; or it
reads `tokens[0]` while the token list of the line `lineCount` is empty; or its loop is
still running when the iterations granted are used up. -/
inductive AsciiLoadOutcome (PC D : Type) where
  | returned (result : CC_FILE_ERROR) (mesh : ccMesh PC D)
  | indexOutOfRange (lineCount : Nat)
  | running

/-- Loop `while (true)` of `loadASCIIFile`, for at most `iterations` iterations. -/
def asciiLoop {PC D : Type} (tools : TextTools PC D) (arith : CoordinateArithmetic PC D)
    (mem : Memory) (parameters : LoadParameters D) :
    Nat → AsciiLoadState PC D → AsciiLoadOutcome PC D
  | 0, _ => AsciiLoadOutcome.running
  | iterations + 1, s =>
    match asciiFacet tools arith mem parameters s with
    | AsciiStep.indexOutOfRange s' => AsciiLoadOutcome.indexOutOfRange s'.lineCount
    | AsciiStep.done result s' => AsciiLoadOutcome.returned result s'.mesh
    | AsciiStep.next s' => asciiLoop tools arith mem parameters iterations s'

/-- Function `STLFilter::loadASCIIFile(fp, mesh, vertices, parameters)`, the file being
given by the text stream built on it, `mesh` holding the mesh and its cloud of vertices
(of capacities `meshCapacity` and `verticesCapacity`), with at most `iterations`
iterations of the loop over the facets. -/
def loadASCIIFile {PC D : Type} (tools : TextTools PC D) (arith : CoordinateArithmetic PC D)
    (mem : Memory) (iterations : Nat) (stream : QTextStream) (mesh : ccMesh PC D)
    (parameters : LoadParameters D) (meshCapacity : Nat := 0) (verticesCapacity : Nat := 0) :
    AsciiLoadOutcome PC D :=
  if stream.readLine.1.isEmpty || stream.error then
    AsciiLoadOutcome.returned CC_FILE_ERROR.CC_FERR_READING mesh
  else
    match lineTokens tools stream.readLine.1 with
    | [] => AsciiLoadOutcome.returned CC_FILE_ERROR.CC_FERR_MALFORMED_FILE mesh
    | token :: names =>
      if tools.toUpper token != "SOLID".toList then
        AsciiLoadOutcome.returned CC_FILE_ERROR.CC_FERR_MALFORMED_FILE mesh
      else
        asciiLoop tools arith mem parameters iterations
          { stream := stream.readLine.2
            pointCount := 0
            faceCount := 0
            lineCount := 1
            Pshift := ⟨arith.zero, arith.zero, arith.zero⟩
            verticesCapacity := verticesCapacity
            meshCapacity := meshCapacity
            mesh :=
              { mesh with
                name :=
                  if names.isEmpty then "mesh"
                  else String.mk (List.intercalate [SPACE] names) } }

/-! ## Labelling with the segmentation tool: vocabulary of the statements -/

/-- What `loadFile` takes from the platform and from other libraries.
* `openReadOnly filename`: the file that `fp.open(QIODevice::ReadOnly)` opens for
  `QFile fp(filename)`, `none` when the call returns false;
* `deviceError`: whether `fp.error() != QFile::NoError`;
* `fromUtf8`: the text that `QString(const char*)` builds from the bytes in front of the
  first zero byte;
* `afterHeader`: the bytes found in memory after the buffer `header`, up to the first
  zero byte, which `QString(header)` reads when the 80 bytes of the buffer hold no zero;
* `streamText`: the text that a `QTextStream` decodes from the bytes of the file;
* `mergeDuplicatedVertices`: the mesh after `mesh->mergeDuplicatedVertices(...)`. -/
structure LoadPlatform (PC D : Type) where
  openReadOnly : String → Option QFile
  deviceError : Bool
  fromUtf8 : List Byte → QString
  afterHeader : List Byte
  streamText : List Byte → QString
  mergeDuplicatedVertices : ccMesh PC D → ccMesh PC D

/-- Container `ccHObject& container` of `loadFile`: the meshes that are added to it as
children, in order. -/
structure MeshContainer (PC D : Type) where
  children : List (ccMesh PC D)

/-- Text `QString(header)` of `loadFile`, `header` being the buffer of 80 bytes. -/
def headerText {PC D : Type} (platform : LoadPlatform PC D) (header : List Byte) : QString :=
  if (0 : Byte) ∈ header then platform.fromUtf8 (header.takeWhile (fun b => b != 0))
  else platform.fromUtf8 (header ++ platform.afterHeader)

/-- Flag `ascii` of `loadFile` for a file whose first 80 bytes are `header`: the header
starts with "solid" and the second line of the file starts with "facet". -/
def detectAscii {PC D : Type} (tools : TextTools PC D) (platform : LoadPlatform PC D)
    (fp : QFile) (header : List Byte) : Bool :=
  if !lineStartsWith tools (headerText platform header) "SOLID" then false
  else
    !((QTextStream.readLine
          (QTextStream.readLine ⟨platform.streamText fp.bytes, platform.deviceError⟩).2).1.isEmpty ||
        platform.deviceError ||
        !lineStartsWith tools
          (QTextStream.readLine
            (QTextStream.readLine ⟨platform.streamText fp.bytes, platform.deviceError⟩).2).1
          "FACET")

/-- What `loadFile` comes to: it returns `result`, the container being `container`; or
`loadASCIIFile` reads `tokens[0]` of an empty token list; or the loop of `loadASCIIFile`
is still running when the iterations granted are used up. -/
inductive LoadFileOutcome (PC D : Type) where
  | returned (result : CC_FILE_ERROR) (container : MeshContainer PC D)
  | indexOutOfRange
  | running

/-- End of `loadFile`, once the loader has returned `error` and filled `mesh`: an error
of the loader is reported as `CC_FERR_MALFORMED_FILE`; otherwise the duplicated vertices
are merged and the mesh is added to the container, unless no triangle is left. -/
def finishLoad {PC D : Type} (platform : LoadPlatform PC D) (error : CC_FILE_ERROR)
    (mesh : ccMesh PC D) (container : MeshContainer PC D) : LoadFileOutcome PC D :=
  if error ≠ CC_FILE_ERROR.CC_FERR_NO_ERROR then
    LoadFileOutcome.returned CC_FILE_ERROR.CC_FERR_MALFORMED_FILE container
  else if (platform.mergeDuplicatedVertices mesh).size ≠ 0 then
    LoadFileOutcome.returned CC_FILE_ERROR.CC_FERR_NO_ERROR
      { container with
        children := container.children ++ [platform.mergeDuplicatedVertices mesh] }
  else
    LoadFileOutcome.returned CC_FILE_ERROR.CC_FERR_NO_LOAD container

/-- Function `STLFilter::loadFile(filename, container, parameters)` on a platform of
byte order `bigEndian`, with at most `iterations` iterations of the loop of
`loadASCIIFile`. -/
def loadFile {PC D : Type} (tools : TextTools PC D) (arith : CoordinateArithmetic PC D)
    (bigEndian : Bool) (mem : Memory) (platform : LoadPlatform PC D) (iterations : Nat)
    (filename : String) (container : MeshContainer PC D) (parameters : LoadParameters D) :
    LoadFileOutcome PC D :=
  match platform.openReadOnly filename with
  | none => LoadFileOutcome.returned CC_FILE_ERROR.CC_FERR_READING container
  | some fp =>
    if (fp.read 80).2.2 < 80 then
      if (fp.read 80).2.2 = 0 then
        LoadFileOutcome.returned CC_FILE_ERROR.CC_FERR_READING container
      else LoadFileOutcome.returned CC_FILE_ERROR.CC_FERR_MALFORMED_FILE container
    else if detectAscii tools platform fp (fp.read 80).2.1 then
      match loadASCIIFile tools arith mem iterations
          ⟨platform.streamText fp.bytes, platform.deviceError⟩ (ccMesh.empty PC D)
          parameters with
      | AsciiLoadOutcome.returned error mesh => finishLoad platform error mesh container
      | AsciiLoadOutcome.indexOutOfRange _ => LoadFileOutcome.indexOutOfRange
      | AsciiLoadOutcome.running => LoadFileOutcome.running
    else
      finishLoad platform
        (loadBinaryFile arith bigEndian mem (fp.seek 0) (ccMesh.empty PC D) parameters).1
        (loadBinaryFile arith bigEndian mem (fp.seek 0) (ccMesh.empty PC D) parameters).2.2
        container

/-! ## Examples -/

/-- Example: an initialized structure holding 257 empty levels. -/
def lod257 : ccAbstractPointCloudLOD :=
  { m_levels := List.replicate 257 ⟨[]⟩
    m_currentState := RenderParams.init
    m_indexMap := []
    m_lastIndexMap := []
    m_state := State.INITIALIZED }

/-- Example hierarchy: root node of 100 points with two children. -/
def lodW_root : Node :=
  { Node.init 0 with
    pointCount := 100, radius := 1, childIndexes := [0, -1, 1, -1, -1, -1, -1, -1], childCount := 2 }

/-- Example hierarchy: a child node without children. -/
def lodW_child (pointCount firstCodeIndex : Nat) (radius : Rat) : Node :=
  { Node.init 1 with pointCount := pointCount, radius := radius, firstCodeIndex := firstCodeIndex }

/-- Example hierarchy: two levels, the root and its two children of 60 and 40 points. -/
def lodW : ccAbstractPointCloudLOD :=
  { m_levels := [⟨[lodW_root]⟩, ⟨[lodW_child 60 0 2, lodW_child 40 60 3]⟩]
    m_currentState := RenderParams.init
    m_indexMap := []
    m_lastIndexMap := []
    m_state := State.INITIALIZED }

/-- Example camera: every bounding sphere lies inside the frustum. -/
def cameraInside : ccGLCameraParameters :=
  { sphereInFrustum := fun _ _ => Intersection.INSIDE
    viewport := fun _ => 0
    project := fun _ => (⟨0, 0, 0⟩, true) }

/-- Example camera: every bounding sphere lies outside the frustum. -/
def cameraOutside : ccGLCameraParameters :=
  { sphereInFrustum := fun _ _ => Intersection.OUTSIDE
    viewport := fun _ => 0
    project := fun _ => (⟨0, 0, 0⟩, false) }

/-- Example camera: spheres of radius 1 test INSIDE, all others OUTSIDE. -/
def cameraRootOnly : ccGLCameraParameters :=
  { sphereInFrustum := fun _ r => if r = 1 then Intersection.INSIDE else Intersection.OUTSIDE
    viewport := fun _ => 0
    project := fun _ => (⟨0, 0, 0⟩, true) }

/-- Example camera: spheres of radius 1 test INTERSECTING, of radius 2 INSIDE, all others
OUTSIDE. -/
def cameraMixed : ccGLCameraParameters :=
  { sphereInFrustum := fun _ r =>
      if r = 1 then Intersection.INTERSECT
      else if r = 2 then Intersection.INSIDE
      else Intersection.OUTSIDE
    viewport := fun _ => 0
    project := fun _ => (⟨0, 0, 0⟩, true) }

/-- Example hierarchy: a root of `2 ^ 31` points and its two children of `2 ^ 30` points
each. -/
def lodWide : ccAbstractPointCloudLOD :=
  { m_levels := [⟨[{ lodW_root with pointCount := 2147483648 }]⟩,
      ⟨[lodW_child 1073741824 0 2, lodW_child 1073741824 1073741824 3]⟩]
    m_currentState := RenderParams.init
    m_indexMap := []
    m_lastIndexMap := []
    m_state := State.INITIALIZED }

/-- Example structure of the internal variant: the example hierarchy with an index buffer
of 100 entries. -/
def internalW : ccInternalPointCloudLOD :=
  { toccAbstractPointCloudLOD := lodW, m_octree := List.range 100 }

/-- Example: a leaf node holding 100 points. -/
def leaf100 : Node :=
  { Node.init 0 with pointCount := 100 }

/-- Example: a structure made of the single leaf, with an index buffer of 100 entries. -/
def singleLeaf : ccInternalPointCloudLOD :=
  { m_levels := [⟨[leaf100]⟩]
    m_currentState := RenderParams.init
    m_indexMap := []
    m_lastIndexMap := []
    m_state := State.INITIALIZED
    m_octree := (List.range 100).map (fun k => 1000 + k) }

/-- Example: the example hierarchy after a visibility pass that found its 100 points
visible, with an index buffer of 100 entries. -/
def internalVisible : ccInternalPointCloudLOD :=
  { m_levels := [⟨[lodW_root.reset]⟩, ⟨[(lodW_child 60 0 2).reset, (lodW_child 40 60 3).reset]⟩]
    m_currentState := { RenderParams.init with visiblePoints := 100 }
    m_indexMap := []
    m_lastIndexMap := []
    m_state := State.INITIALIZED
    m_octree := (List.range 100).map (fun k => 1000 + k) }

/-- Example: polygon test that accepts the points of non-negative abscissa, and exact
conversions. -/
def libHalfPlane : ManualSegmentationTools :=
  { isPointInsidePoly := fun P _ => decide (0 ≤ P.x.toRat)
    toPointCoordinateType := fun q => PointCoordinateType.value q }

/-- Example camera of the segmentation tool: a viewport of 8 by 6 pixels; a point projects
to its first two coordinates shifted by the half sizes of the viewport, and lies in the
frustum when its third coordinate is not negative. -/
def cameraFlat : ccGLCameraParameters :=
  { sphereInFrustum := fun _ _ => Intersection.INSIDE
    viewport := fun k => if k = 2 then 8 else if k = 3 then 6 else 0
    project := fun P => (⟨P.x.toRat + 4, P.y.toRat + 3, 0⟩, decide (0 ≤ P.z.toRat)) }

/-- Example window reporting the example camera. -/
def windowFlat : ccGLWindowInterface :=
  { getGLCameraParameters := cameraFlat
    closeAtCursor := fun ps => ps }

/-- Example polygon: a closed triangle inside the viewport. -/
def polyTriangle : ccPolyline :=
  { vertices := [⟨0, -1, 0⟩, ⟨2, 0, 0⟩, ⟨0, 1, 0⟩], m_isClosed := true }

/-- Example cloud: three points, the last one hidden, and no scalar field. -/
def cloudThree : ccGenericPointCloud :=
  { m_points := [⟨1, 0, 0⟩, ⟨-1, 0, 0⟩, ⟨2, 0, 0⟩]
    m_pointsVisibility := [POINT_VISIBLE, POINT_VISIBLE, POINT_HIDDEN]
    isPointCloud := true
    m_scalarFields := []
    scalarFieldMemory := true
    m_sfShown := false
    m_currentDisplayedScalarFieldIndex := -1 }

/-- Example tool: the example window, polygon and cloud, no polyline being drawn. -/
def toolThree : ccGraphicalSegmentationTool :=
  { m_associatedWin := some windowFlat
    m_segmentationPoly := some polyTriangle
    m_polyVertices := polyTriangle.vertices
    m_state := PAUSED
    m_toSegment := [{ name := "cloud", genericPointCloud := some cloudThree }]
    m_somethingHasChanged := false
    m_deleteHiddenParts := false }

/-- Example: a point cloud without any point, as an entity to segment. -/
def emptyCloudEntity : ccHObject :=
  { name := "empty"
    genericPointCloud := some
      { m_points := []
        m_pointsVisibility := []
        isPointCloud := true
        m_scalarFields := []
        scalarFieldMemory := true
        m_sfShown := false
        m_currentDisplayedScalarFieldIndex := -1 } }

/-- Example arithmetic: coordinates and `double` values are integers, a `float` holds the
32 low bits of a natural number. -/
def arithInt : CoordinateArithmetic Int Int :=
  { sub := fun a b => a - b
    mul := fun a b => a * b
    toFloat := fun a => float.ofBytes 0 (uint32Bytes false a.toNat)
    toDouble := fun x => (uint32OfBytes false x.bytes : Int)
    add := fun a b => a + b
    zero := 0
    toPC := fun a => a
    GetNormIndex := fun _ => 0 }

/-- Example mesh: one triangle on three points. -/
def meshOne : ccMesh Int Int :=
  { name := "triangle"
    triangles := [⟨0, 1, 2⟩]
    points := [⟨0, 0, 0⟩, ⟨1, 0, 0⟩, ⟨0, 1, 0⟩]
    globalShift := none
    triNormsTable := none
    triNormalIndexes := [] }

/-- Example: a file just opened for writing, on a device without limit. -/
def emptyFile : QFile :=
  ⟨[], 0, none⟩

/-- Example memory: every reservation succeeds; unread bytes are zero. -/
def memoryPlenty : Memory :=
  { reserveMesh := fun _ => true
    reserveVertices := fun _ => true
    reserveNormals := fun _ => true
    reservePerTriangleNormalIndexes := true
    indeterminate := 0 }

/-- Example load parameters: no progress dialog and no global shift. -/
def parametersQuiet (D : Type) : LoadParameters D :=
  { pDlg := none
    HandleGlobalShift := fun _ => none }

/-- Example: a binary file that announces one facet and ends one byte before the end of
its record: header, count, and 49 bytes. -/
def fileCutInAttribute : QFile :=
  ⟨binaryHeader ++ uint32Bytes false 1 ++ List.replicate 49 0, 0, none⟩

/-- Example: a binary file that announces one facet and ends after the normal of its
record: header, count, and 12 bytes. -/
def fileCutAfterNormal : QFile :=
  ⟨binaryHeader ++ uint32Bytes false 1 ++ List.replicate 12 0, 0, none⟩

/-- Example memory: no reservation succeeds. -/
def memoryNone : Memory :=
  { reserveMesh := fun _ => false
    reserveVertices := fun _ => false
    reserveNormals := fun _ => false
    reservePerTriangleNormalIndexes := false
    indeterminate := 0 }

/-- Example mesh: 1431655766 triangles, all on the same three points; three times their
number is 2^32 + 2. -/
def meshHuge : ccMesh Int Int :=
  { name := "huge"
    triangles := List.replicate 1431655766 ⟨0, 1, 2⟩
    points := [⟨0, 0, 0⟩, ⟨1, 0, 0⟩, ⟨0, 1, 0⟩]
    globalShift := none
    triNormsTable := none
    triNormalIndexes := [] }

/-- Example: value of a text made of decimal digits only, `none` for any other text. -/
def digitsValue (s : QString) : Option Int :=
  if s.isEmpty || !s.all Char.isDigit then none
  else some ((s.foldl (fun acc c => 10 * acc + (c.toNat - 48)) 0 : Nat) : Int)

/-- Example text tools: the whitespace of ASCII, the upper case of the ASCII letters,
numbers written with digits only, and a dialog that is never cancelled. -/
def toolsAscii : TextTools Int Int :=
  { isSpace := fun c => c == SPACE || (decide (9 ≤ c.toNat) && decide (c.toNat ≤ 13))
    toUpper := fun s => s.map Char.toUpper
    toDouble := digitsValue
    GetNormIndex := fun _ => 0
    wasCanceled := fun _ => false }

/-- Example: an ASCII file of 96 characters with one facet, followed by a line that
holds a single space. -/
def textBlankFacetLine : List Char :=
  "solid a".toList ++ [LF] ++ "facet normal 0 0 1".toList ++ [LF] ++ "outer loop".toList ++ [LF] ++
    "vertex 0 0 0".toList ++ [LF] ++ "vertex 1 0 0".toList ++ [LF] ++ "vertex 0 1 0".toList ++ [LF] ++
    "endloop".toList ++ [LF] ++ "endfacet".toList ++ [LF] ++ [SPACE] ++ [LF]

/-- Example: an initialized structure holding 256 levels of one node each. -/
def lod256 : ccAbstractPointCloudLOD :=
  { m_levels := List.replicate 256 ⟨[Node.init 0]⟩
    m_currentState := RenderParams.init
    m_indexMap := []
    m_lastIndexMap := []
    m_state := State.INITIALIZED }

/-- Example polygon: the example triangle, not closed. -/
def polyOpen : ccPolyline :=
  { polyTriangle with m_isClosed := false }

/-- Example tool: the example tool with the polygon that is not closed. -/
def toolOpenPolygon : ccGraphicalSegmentationTool :=
  { toolThree with m_segmentationPoly := some polyOpen }

/-- Example cloud: 2^31 visible points, all of them at (1, 0, 0), and no scalar field. -/
def cloudHuge : ccGenericPointCloud :=
  { m_points := List.replicate (2 ^ 31) ⟨1, 0, 0⟩
    m_pointsVisibility := List.replicate (2 ^ 31) POINT_VISIBLE
    isPointCloud := true
    m_scalarFields := []
    scalarFieldMemory := true
    m_sfShown := false
    m_currentDisplayedScalarFieldIndex := -1 }

/-- Example tool: the example tool with the cloud of 2^31 points. -/
def toolHuge : ccGraphicalSegmentationTool :=
  { toolThree with m_toSegment := [{ name := "cloud", genericPointCloud := some cloudHuge }] }

/-- Example platform: one file, "short.stl", of ten bytes; no other file can be
read. -/
def platformShort : LoadPlatform Int Int :=
  { openReadOnly := fun filename =>
      if filename = "short.stl" then some ⟨List.replicate 10 32, 0, none⟩ else none
    deviceError := false
    fromUtf8 := fun data => data.map (fun b => Char.ofNat b.val)
    afterHeader := []
    streamText := fun data => data.map (fun b => Char.ofNat b.val)
    mergeDuplicatedVertices := fun mesh => mesh }

/-! # Theorems -/

open ccGenericPointCloudLODVisibilityFlagger

/-! ## State, levels and accessors -/

/-- C1. For every state of the structure exactly one of `isNull()`,
`isUnderConstruction()`, `isInitialized()` and `isBroken()` returns true, and it is the
one that matches `getState()`: NOT_INITIALIZED, UNDER_CONSTRUCTION, INITIALIZED and BROKEN
respectively. -/
theorem state_predicates_exclusive (lod : ccAbstractPointCloudLOD) :
    (lod.isNull = true ↔ lod.getState = State.NOT_INITIALIZED) ∧
    (lod.isUnderConstruction = true ↔ lod.getState = State.UNDER_CONSTRUCTION) ∧
    (lod.isInitialized = true ↔ lod.getState = State.INITIALIZED) ∧
    (lod.isBroken = true ↔ lod.getState = State.BROKEN) ∧
    [lod.isNull, lod.isUnderConstruction, lod.isInitialized, lod.isBroken].count true = 1 := by
  unfold ccAbstractPointCloudLOD.isNull ccAbstractPointCloudLOD.isUnderConstruction
    ccAbstractPointCloudLOD.isInitialized ccAbstractPointCloudLOD.isBroken
  cases h : lod.getState <;> simp

/-- General value of `maxLevel()` on an initialized structure: the number of levels minus
one, reduced modulo 256. -/
theorem maxLevel_initialized (lod : ccAbstractPointCloudLOD)
    (h : lod.m_state = State.INITIALIZED) (h1 : 1 ≤ lod.m_levels.length) :
    lod.maxLevel = (lod.m_levels.length - 1) % 256 := by
  unfold ccAbstractPointCloudLOD.maxLevel
  rw [if_pos h]
  have : max 1 lod.m_levels.length = lod.m_levels.length := by omega
  rw [this]
  omega

/-- C2, as amended. For every structure in state INITIALIZED that holds `n` levels with
`1 <= n <= 256`, `maxLevel()` returns `n - 1`; it returns 0 when the structure holds no
level or is in any state other than INITIALIZED, whatever the number of levels. -/
theorem maxLevel_up_to_256_levels (lod : ccAbstractPointCloudLOD) :
    (lod.m_state = State.INITIALIZED → 1 ≤ lod.m_levels.length → lod.m_levels.length ≤ 256 →
      lod.maxLevel = lod.m_levels.length - 1) ∧
    (lod.m_levels.length = 0 ∨ lod.m_state ≠ State.INITIALIZED → lod.maxLevel = 0) := by
  constructor
  · intro h h1 h2
    rw [maxLevel_initialized lod h h1]
    omega
  · intro h
    unfold ccAbstractPointCloudLOD.maxLevel
    by_cases hs : lod.m_state = State.INITIALIZED
    · rcases h with h | h
      · rw [if_pos hs, h]
        decide
      · exact absurd hs h
    · rw [if_neg hs]

theorem maxLevel_up_to_256_levels_witness :
    lodW.m_state = State.INITIALIZED ∧ 1 ≤ lodW.m_levels.length ∧ lodW.m_levels.length ≤ 256 ∧
    lodW.maxLevel = lodW.m_levels.length - 1 :=
  ⟨rfl, by decide, by decide,
    (maxLevel_up_to_256_levels lodW).1 rfl (by decide) (by decide)⟩

theorem length_lod257 : lod257.m_levels.length = 257 := List.length_replicate _ _

/-- C2, counterexample. A structure in state INITIALIZED that holds 257 levels: `maxLevel()`
returns 0, not 256. -/
theorem maxLevel_wraps_at_257_levels :
    lod257.m_state = State.INITIALIZED ∧ lod257.m_levels.length = 257 ∧
    lod257.maxLevel = 0 ∧ lod257.maxLevel ≠ lod257.m_levels.length - 1 := by
  have h : lod257.maxLevel = 0 := by
    rw [maxLevel_initialized lod257 rfl (by rw [length_lod257]; decide), length_lod257]
  refine ⟨rfl, length_lod257, h, ?_⟩
  rw [h, length_lod257]
  decide

/-- C3. For every level smaller than the number of levels and every index with
`0 <= index < size of that level`, `node(index, level)` returns exactly the node stored at
that index of that level: under the asserted bounds the lookup does not fail. `root()` is
`node(0, 0)` and is defined, as the first node of level 0, whenever level 0 holds at
least one node. -/
theorem node_returns_indexed_node (lod : ccAbstractPointCloudLOD) (index : Int) (level : Nat)
    (hl : level < lod.m_levels.length) (h0 : 0 ≤ index)
    (hi : index < ((lod.m_levels.get ⟨level, hl⟩).data.length : Int)) :
    (∃ hb : index.toNat < (lod.m_levels.get ⟨level, hl⟩).data.length,
      lod.node index level = some ((lod.m_levels.get ⟨level, hl⟩).data.get ⟨index.toNat, hb⟩)) ∧
    lod.root = lod.node 0 0 ∧
    (∀ (h : 0 < lod.m_levels.length) (hd : 0 < (lod.m_levels.get ⟨0, h⟩).data.length),
      lod.root = some ((lod.m_levels.get ⟨0, h⟩).data.get ⟨0, hd⟩)) := by
  have key : ∀ (idx : Int) (lvl : Nat) (hlv : lvl < lod.m_levels.length)
      (hb : idx.toNat < (lod.m_levels.get ⟨lvl, hlv⟩).data.length), 0 ≤ idx →
      lod.node idx lvl = some ((lod.m_levels.get ⟨lvl, hlv⟩).data.get ⟨idx.toNat, hb⟩) := by
    intro idx lvl hlv hb hidx
    unfold ccAbstractPointCloudLOD.node
    have h1 : lod.m_levels[lvl]? = some (lod.m_levels.get ⟨lvl, hlv⟩) := by
      rw [List.getElem?_eq_getElem hlv]
      rfl
    rw [h1]
    simp only
    rw [if_pos ⟨hidx, hb⟩, List.getElem?_eq_getElem hb]
    rfl
  refine ⟨⟨by omega, key index level hl (by omega) h0⟩, rfl, ?_⟩
  intro h hd
  exact key 0 0 h hd (Int.le_refl 0)

theorem node_returns_indexed_node_witness :
    lodW.node 1 1 = some (lodW_child 40 60 3) ∧ lodW.root = some lodW_root ∧
    ((∃ hb : (1 : Int).toNat < (lodW.m_levels.get ⟨1, by decide⟩).data.length,
      lodW.node 1 1 = some ((lodW.m_levels.get ⟨1, by decide⟩).data.get ⟨(1 : Int).toNat, hb⟩)) ∧
    lodW.root = lodW.node 0 0 ∧
    (∀ (h : 0 < lodW.m_levels.length) (hd : 0 < (lodW.m_levels.get ⟨0, h⟩).data.length),
      lodW.root = some ((lodW.m_levels.get ⟨0, h⟩).data.get ⟨0, hd⟩))) :=
  ⟨by decide, by decide, node_returns_indexed_node lodW 1 1 (by decide) (by decide) (by decide)⟩

/-- C4. `allDisplayed()` returns true exactly when the render progress record's
`displayedPoints` is greater than or equal to its `visiblePoints`; in particular it is
true for a freshly constructed record (`visiblePoints` 0, `displayedPoints` 0,
`unfinishedLevel` -1, `unfinishedPoints` 0) and whenever the last visibility pass counted
zero visible points. -/
theorem allDisplayed_iff (lod : ccAbstractPointCloudLOD) :
    (lod.allDisplayed = true ↔
      lod.m_currentState.displayedPoints ≥ lod.m_currentState.visiblePoints) ∧
    RenderParams.init =
      { visiblePoints := 0, displayedPoints := 0, unfinishedLevel := -1, unfinishedPoints := 0 } ∧
    (lod.m_currentState = RenderParams.init → lod.allDisplayed = true) ∧
    (lod.m_currentState.visiblePoints = 0 → lod.allDisplayed = true) := by
  unfold ccAbstractPointCloudLOD.allDisplayed
  refine ⟨by simp, rfl, ?_, ?_⟩
  · intro h
    rw [h]
    rfl
  · intro h
    rw [h]
    simp

/-- C10. For every level `L`, the node built by the `Node` constructor for level `L` has
`pointCount`, `radius`, `center`, `score`, `firstCodeIndex`, `displayedPointCount` and
`childCount` all equal to zero, no vbo, `level` equal to `L`, all eight `childIndexes`
equal to -1 (so no child), and `intersection` equal to `UNDEFINED`, which is 255. -/
theorem node_constructor_fields (L : Nat) :
    (Node.init L).pointCount = 0 ∧ (Node.init L).radius = 0 ∧
    (Node.init L).center = ⟨0, 0, 0⟩ ∧ (Node.init L).score = 0 ∧
    (Node.init L).firstCodeIndex = 0 ∧ (Node.init L).displayedPointCount = 0 ∧
    (Node.init L).childCount = 0 ∧ (Node.init L).vbo = none ∧ (Node.init L).level = L ∧
    (Node.init L).childIndexes = [-1, -1, -1, -1, -1, -1, -1, -1] ∧
    (Node.init L).childIndexes.length = 8 ∧
    (∀ c ∈ (Node.init L).childIndexes, c = -1) ∧
    (Node.init L).children = [] ∧
    (Node.init L).intersection = UNDEFINED ∧ UNDEFINED = 255 := by
  refine ⟨rfl, rfl, rfl, rfl, rfl, rfl, rfl, rfl, rfl, rfl, rfl, ?_, rfl, rfl, rfl⟩
  intro c hc
  simp [Node.init] at hc
  exact hc

/-! ## Reading and writing nodes -/

theorem getNode_eq_some {levels : List Level} {L i : Nat} {n : Node} :
    getNode levels L i = some n ↔ ∃ l, levels[L]? = some l ∧ l.data[i]? = some n := by
  unfold getNode
  cases h : levels[L]? with
  | none => simp
  | some l => simp

theorem getNode_setNode (levels : List Level) (L i : Nat) (n : Node) (L' i' : Nat) :
    getNode (setNode levels L i n) L' i' =
      if L' = L ∧ i' = i then (getNode levels L i).map (fun _ => n) else getNode levels L' i' := by
  unfold setNode
  cases h : levels[L]? with
  | none =>
    by_cases hc : L' = L ∧ i' = i
    · obtain ⟨rfl, rfl⟩ := hc
      simp [getNode, h]
    · simp [hc]
  | some l =>
    by_cases hL : L' = L
    · subst hL
      have hlt : L' < levels.length := by
        rcases List.getElem?_eq_some.mp h with ⟨hlt, _⟩
        exact hlt
      by_cases hi : i' = i
      · subst hi
        simp [getNode, h, List.getElem?_set, hlt]
        by_cases h2 : i' < l.data.length
        · simp [h2]
        · simp [h2]
          rw [List.getElem?_eq_none (by omega)]
          rfl
      · have hi' : i ≠ i' := fun e => hi e.symm
        simp [getNode, h, List.getElem?_set, hlt, hi, hi']
    · have hL' : L ≠ L' := fun e => hL e.symm
      simp [getNode, hL, hL']

theorem getNode_setNode_self {levels : List Level} {L i : Nat} {m : Node} (n : Node)
    (h : getNode levels L i = some m) : getNode (setNode levels L i n) L i = some n := by
  rw [getNode_setNode]
  simp [h]

theorem getNode_setNode_ne {levels : List Level} {L i L' i' : Nat} (n : Node)
    (h : ¬ (L' = L ∧ i' = i)) : getNode (setNode levels L i n) L' i' = getNode levels L' i' := by
  rw [getNode_setNode]
  simp [h]

theorem length_setNode (levels : List Level) (L i : Nat) (n : Node) :
    (setNode levels L i n).length = levels.length := by
  unfold setNode
  cases levels[L]? <;> simp

theorem getNode_lt_length {levels : List Level} {L i : Nat} {n : Node}
    (h : getNode levels L i = some n) : L < levels.length := by
  rcases getNode_eq_some.mp h with ⟨l, hl, _⟩
  rcases List.getElem?_eq_some.mp hl with ⟨hlt, _⟩
  exact hlt

/-- The accessor of the structure reads the table of levels. -/
theorem node_eq_getNode (lod : ccAbstractPointCloudLOD) (index level : Nat) :
    lod.node (index : Int) level = getNode lod.m_levels level index := by
  unfold ccAbstractPointCloudLOD.node getNode
  cases h : lod.m_levels[level]? with
  | none => rfl
  | some l =>
    simp only [Int.toNat_ofNat]
    by_cases hi : index < l.data.length
    · simp [hi]
    · simp [hi]
      omega

/-! ## Skeleton and shape -/

theorem skeleton_fields {n m : Node} (h : n.skeleton = m.skeleton) :
    n.pointCount = m.pointCount ∧ n.radius = m.radius ∧ n.center = m.center ∧
    n.childIndexes = m.childIndexes ∧ n.firstCodeIndex = m.firstCodeIndex ∧
    n.level = m.level ∧ n.childCount = m.childCount := by
  cases n; cases m
  simp only [Node.skeleton, Node.mk.injEq] at h
  simp_all

theorem skeleton_children {n m : Node} (h : n.skeleton = m.skeleton) : n.children = m.children := by
  unfold Node.children
  rw [(skeleton_fields h).2.2.2.1]

theorem skeleton_childLevel {n m : Node} (h : n.skeleton = m.skeleton) : childLevel n = childLevel m := by
  unfold childLevel
  rw [(skeleton_fields h).2.2.2.2.2.1]

theorem SameShape.refl (levels : List Level) : SameShape levels levels := fun _ _ => rfl

theorem SameShape.compose {a b c : List Level} (h1 : SameShape a b) (h2 : SameShape b c) :
    SameShape a c := fun L i => (h2 L i).trans (h1 L i)

theorem SameShape.symm {a b : List Level} (h : SameShape a b) : SameShape b a :=
  fun L i => (h L i).symm

/-- In tables of the same shape, a node exists at a position of one exactly when a node with
the same skeleton exists there in the other. -/
theorem SameShape.get {a b : List Level} (h : SameShape a b) {L i : Nat} {n : Node}
    (hn : getNode a L i = some n) : ∃ m, getNode b L i = some m ∧ m.skeleton = n.skeleton := by
  have := h L i
  rw [hn] at this
  cases hb : getNode b L i with
  | none => rw [hb] at this; simp at this
  | some m =>
    rw [hb] at this
    exact ⟨m, rfl, by simpa using this⟩

theorem SameShape.get' {a b : List Level} (h : SameShape a b) {L i : Nat} {m : Node}
    (hm : getNode b L i = some m) : ∃ n, getNode a L i = some n ∧ n.skeleton = m.skeleton :=
  h.symm.get hm

theorem SameShape.setNode {a b : List Level} (h : SameShape a b) {L i : Nat} {m n : Node}
    (hm : getNode b L i = some m) (hs : n.skeleton = m.skeleton) :
    SameShape a (setNode b L i n) := by
  intro L' i'
  rw [getNode_setNode]
  by_cases hc : L' = L ∧ i' = i
  · obtain ⟨rfl, rfl⟩ := hc
    simp only [true_and, if_true, hm, Option.map_some', and_self]
    rw [← h L' i', hm]
    simp [hs]
  · simp only [hc, if_false]
    exact h L' i'

/-! ## Well-formed hierarchies -/

theorem WellFormed.node {levels : List Level} (h : WellFormed levels) {L i : Nat} {n : Node}
    (hn : getNode levels L i = some n) :
    n.level = L ∧ n.level < 256 ∧ ∀ c ∈ n.children, (getNode levels (L + 1) c).isSome := by
  rcases getNode_eq_some.mp hn with ⟨l, hl, hi⟩
  exact h L (getNode_lt_length hn) l hl n (List.getElem?_mem hi)

/-- Facts about a node of a table that has the shape of a well-formed one. -/
theorem WellFormed.node_shape {levels s : List Level} (h : WellFormed levels)
    (hs : SameShape levels s) {L i : Nat} {m : Node} (hm : getNode s L i = some m) :
    m.level = L ∧ L < 256 ∧ ∀ c ∈ m.children, (getNode s (L + 1) c).isSome := by
  obtain ⟨n, hn, hsk⟩ := hs.get' hm
  obtain ⟨h1, h2, h3⟩ := h.node hn
  have hf := skeleton_fields hsk
  refine ⟨by omega, by omega, ?_⟩
  intro c hc
  rw [← skeleton_children hsk] at hc
  have := h3 c hc
  cases hg : getNode levels (L + 1) c with
  | none => simp [hg] at this
  | some k =>
    obtain ⟨k', hk', _⟩ := hs.get hg
    simp [hk']

theorem WellFormed.childLevel {levels s : List Level} (h : WellFormed levels)
    (hs : SameShape levels s) {L i : Nat} {m : Node} (hm : getNode s L i = some m)
    {c : Nat} (hc : c ∈ m.children) : childLevel m = L + 1 := by
  obtain ⟨h1, _, h3⟩ := h.node_shape hs hm
  have := h3 c hc
  cases hg : getNode s (L + 1) c with
  | none => simp [hg] at this
  | some k =>
    obtain ⟨_, h5, _⟩ := h.node_shape hs hg
    unfold CloudCompare.childLevel
    rw [h1]
    exact Nat.mod_eq_of_lt h5

theorem UniqueParent.nodup {levels : List Level} (h : UniqueParent levels) {L i : Nat} {n : Node}
    (hn : getNode levels L i = some n) : n.children.Nodup := by
  rcases getNode_eq_some.mp hn with ⟨l, hl, hi⟩
  have := h l (List.getElem?_mem hl)
  exact (List.nodup_flatMap.mp this).1 n (List.getElem?_mem hi)

theorem UniqueParent.parent {levels : List Level} (h : UniqueParent levels) {L i j c : Nat}
    {n m : Node} (hn : getNode levels L i = some n) (hm : getNode levels L j = some m)
    (hcn : c ∈ n.children) (hcm : c ∈ m.children) : i = j := by
  rcases getNode_eq_some.mp hn with ⟨l, hl, hi⟩
  rcases getNode_eq_some.mp hm with ⟨l', hl', hj⟩
  rw [hl] at hl'
  cases hl'
  have hp := (List.nodup_flatMap.mp (h l (List.getElem?_mem hl))).2
  rw [List.pairwise_iff_getElem] at hp
  rcases List.getElem?_eq_some.mp hi with ⟨hi1, hi2⟩
  rcases List.getElem?_eq_some.mp hj with ⟨hj1, hj2⟩
  by_contra hne
  rcases Nat.lt_or_gt_of_ne hne with hlt | hgt
  · have := hp i j hi1 hj1 hlt
    simp only [Function.onFun, hi2, hj2] at this
    exact List.disjoint_left.mp this hcn hcm
  · have := hp j i hj1 hi1 hgt
    simp only [Function.onFun, hi2, hj2] at this
    exact List.disjoint_left.mp this hcm hcn

/-! ## Descendants -/

theorem Desc.level {levels : List Level} {L i L' i' : Nat} (h : Desc levels L i L' i') :
    L ≤ L' ∧ (L = L' → i = i') := by
  induction h with
  | refl => exact ⟨Nat.le_refl _, fun _ => rfl⟩
  | step _ _ _ ih => exact ⟨by omega, by omega⟩

theorem Desc.append {levels : List Level} {L i L' i' L'' i'' : Nat}
    (h1 : Desc levels L i L' i') (h2 : Desc levels L' i' L'' i'') : Desc levels L i L'' i'' := by
  induction h2 with
  | refl => exact h1
  | step _ hn hc ih => exact Desc.step ih hn hc

theorem Desc.child {levels : List Level} {L i : Nat} {n : Node} {c : Nat}
    (hn : getNode levels L i = some n) (hc : c ∈ n.children) : Desc levels L i (L + 1) c :=
  Desc.step (Desc.refl L i) hn hc

theorem Desc.head {levels : List Level} {L i L' i' : Nat} {n : Node} {c : Nat}
    (hn : getNode levels L i = some n) (hc : c ∈ n.children)
    (h : Desc levels (L + 1) c L' i') : Desc levels L i L' i' :=
  (Desc.child hn hc).append h

theorem Desc.cases_head {levels : List Level} {L i L' i' : Nat} (h : Desc levels L i L' i') :
    (L' = L ∧ i' = i) ∨
      ∃ n c, getNode levels L i = some n ∧ c ∈ n.children ∧ Desc levels (L + 1) c L' i' := by
  induction h with
  | refl => exact Or.inl ⟨rfl, rfl⟩
  | step hd hn hc ih =>
    rcases ih with ⟨rfl, rfl⟩ | ⟨n0, c0, hn0, hc0, hd0⟩
    · exact Or.inr ⟨_, _, hn, hc, Desc.refl _ _⟩
    · exact Or.inr ⟨n0, c0, hn0, hc0, Desc.step hd0 hn hc⟩

theorem Desc.shape {levels s : List Level} (hs : SameShape levels s) {L i L' i' : Nat}
    (h : Desc levels L i L' i') : Desc s L i L' i' := by
  induction h with
  | refl => exact Desc.refl _ _
  | step _ hn hc ih =>
    obtain ⟨m, hm, hsk⟩ := hs.get hn
    exact Desc.step ih hm (by rw [skeleton_children hsk]; exact hc)

/-- With unique parents, the subtrees of two nodes of one level are disjoint. -/
theorem Desc.unique {levels : List Level} (hup : UniqueParent levels) {L a b L' x : Nat}
    (h1 : Desc levels L a L' x) (h2 : Desc levels L b L' x) : a = b := by
  induction h1 with
  | refl => exact ((h2.level).2 rfl).symm
  | @step L1 p n c hd hn hc ih =>
    cases h2 with
    | refl =>
      have := hd.level.1
      omega
    | @step _ p' n' _ hd' hn' hc' =>
      have hp : p = p' := hup.parent hn hn' hc hc'
      subst hp
      exact ih hd'

/-! ## Flag propagation -/

theorem skeleton_withFlag (n : Node) (f : Nat) : (n.withFlag f).skeleton = n.skeleton := rfl

theorem withFlag_withFlag (n : Node) (f g : Nat) : (n.withFlag f).withFlag g = n.withFlag g := rfl

theorem withFlag_intersection (n : Node) (f : Nat) : (n.withFlag f).intersection = f := rfl

theorem map_withFlag_map_withFlag (o : Option Node) (f : Nat) :
    (o.map (fun n => n.withFlag f)).map (fun n => n.withFlag f) = o.map (fun n => n.withFlag f) := by
  cases o <;> rfl

/-- A table whose nodes are those of `s`, some of them with a new flag, has the shape of `s`. -/
theorem SameShape.of_flags {levels s s' : List Level} (hs : SameShape levels s) (f : Nat)
    (h : ∀ L i, getNode s' L i = getNode s L i ∨
      getNode s' L i = (getNode s L i).map (fun n => n.withFlag f)) :
    SameShape levels s' := by
  intro L i
  rw [← hs L i]
  rcases h L i with h1 | h1
  · rw [h1]
  · rw [h1]
    cases getNode s L i <;> rfl

theorem WellFormed.child_exists {levels s t : List Level} (h : WellFormed levels)
    (hs : SameShape levels s) (ht : SameShape levels t) {L i : Nat} {m : Node}
    (hm : getNode s L i = some m) {c : Nat} (hc : c ∈ m.children) :
    ∃ k, getNode t (L + 1) c = some k := by
  have := (h.node_shape hs hm).2.2 c hc
  cases hg : getNode s (L + 1) c with
  | none => simp [hg] at this
  | some k =>
    obtain ⟨k0, hk0, _⟩ := hs.get' hg
    obtain ⟨k1, hk1, _⟩ := ht.get hk0
    exact ⟨k1, hk1⟩

theorem exists_lt_length {levels s : List Level} (hs : SameShape levels s) {L i : Nat} {m : Node}
    (hm : getNode s L i = some m) : L < levels.length := by
  obtain ⟨n, hn, _⟩ := hs.get' hm
  exact getNode_lt_length hn

/-- Effect of `propagateFlag` on a well-formed hierarchy: it returns, and it writes the
flag to the node and all its descendants, leaving every other node as it was. -/
theorem propagateFlag_spec {levels : List Level} (hwf : WellFormed levels) (f : Nat) :
    ∀ (fuel : Nat) (s : List Level) (L i : Nat), SameShape levels s →
      (getNode s L i).isSome → levels.length ≤ L + fuel →
      ∃ s', propagateFlag fuel s L i f = some s' ∧
        (∀ L' i', Desc levels L i L' i' →
          getNode s' L' i' = (getNode s L' i').map (fun n => n.withFlag f)) ∧
        (∀ L' i', ¬ Desc levels L i L' i' → getNode s' L' i' = getNode s L' i') := by
  intro fuel
  induction fuel with
  | zero =>
    intro s L i hs hsome hlen
    cases hm : getNode s L i with
    | none => simp [hm] at hsome
    | some m =>
      have := exists_lt_length hs hm
      omega
  | succ fuel ih =>
    intro s L i hs hsome hlen
    cases hm : getNode s L i with
    | none => simp [hm] at hsome
    | some m =>
      have hs1 : SameShape levels (setNode s L i (m.withFlag f)) :=
        hs.setNode hm (skeleton_withFlag m f)
      -- the loop over the children
      have loop : ∀ (cs : List Nat), (∀ c ∈ cs, c ∈ m.children) → ∀ t, SameShape levels t →
          ∃ t', forEach (fun s c => propagateFlag fuel s (childLevel m) c f) t cs = some t' ∧
            (∀ L' i', (∃ c ∈ cs, Desc levels (L + 1) c L' i') →
              getNode t' L' i' = (getNode t L' i').map (fun n => n.withFlag f)) ∧
            (∀ L' i', (¬ ∃ c ∈ cs, Desc levels (L + 1) c L' i') →
              getNode t' L' i' = getNode t L' i') := by
        intro cs
        induction cs with
        | nil =>
          intro _ t _
          exact ⟨t, rfl, by simp, by simp⟩
        | cons c cs ihl =>
          intro hcs t ht
          have hc : c ∈ m.children := hcs c (List.mem_cons_self _ _)
          obtain ⟨k, hk⟩ := hwf.child_exists hs ht hm hc
          have hcl : childLevel m = L + 1 := hwf.childLevel hs hm hc
          obtain ⟨t1, ht1, hin1, hout1⟩ := ih t (L + 1) c ht (by simp [hk]) (by omega)
          have hst1 : SameShape levels t1 := by
            apply ht.of_flags f
            intro L' i'
            by_cases hd : Desc levels (L + 1) c L' i'
            · exact Or.inr (hin1 _ _ hd)
            · exact Or.inl (hout1 _ _ hd)
          obtain ⟨t', ht', hin', hout'⟩ :=
            ihl (fun c' hc' => hcs c' (List.mem_cons_of_mem _ hc')) t1 hst1
          refine ⟨t', ?_, ?_, ?_⟩
          · have hb : propagateFlag fuel t (childLevel m) c f = some t1 := by
              rw [hcl]
              exact ht1
            simp only [forEach, hb]
            exact ht'
          · intro L' i' hex
            by_cases hcs' : ∃ c' ∈ cs, Desc levels (L + 1) c' L' i'
            · rw [hin' _ _ hcs']
              by_cases hd : Desc levels (L + 1) c L' i'
              · rw [hin1 _ _ hd, map_withFlag_map_withFlag]
              · rw [hout1 _ _ hd]
            · rw [hout' _ _ hcs']
              have hd : Desc levels (L + 1) c L' i' := by
                obtain ⟨c', hc', hd'⟩ := hex
                rcases List.mem_cons.mp hc' with rfl | hmem
                · exact hd'
                · exact absurd ⟨c', hmem, hd'⟩ hcs'
              exact hin1 _ _ hd
          · intro L' i' hex
            have h1 : ¬ ∃ c' ∈ cs, Desc levels (L + 1) c' L' i' := by
              rintro ⟨c', hc', hd'⟩
              exact hex ⟨c', List.mem_cons_of_mem _ hc', hd'⟩
            have h2 : ¬ Desc levels (L + 1) c L' i' := fun hd =>
              hex ⟨c, List.mem_cons_self _ _, hd⟩
            rw [hout' _ _ h1, hout1 _ _ h2]
      obtain ⟨s', hs', hin, hout⟩ := loop m.children (fun _ h => h) _ hs1
      obtain ⟨n0, hn0, hsk0⟩ := hs.get' hm
      have hch0 : n0.children = m.children := skeleton_children hsk0
      refine ⟨s', ?_, ?_, ?_⟩
      · simp only [propagateFlag, hm]
        exact hs'
      · intro L' i' hd
        rcases hd.cases_head with ⟨rfl, rfl⟩ | ⟨n1, c, hn1, hc, hd1⟩
        · have hno : ¬ ∃ c ∈ m.children, Desc levels (L' + 1) c L' i' := by
            rintro ⟨c, _, hd'⟩
            have := hd'.level.1
            omega
          rw [hout _ _ hno, getNode_setNode_self _ hm, hm]
          rfl
        · rw [hn0] at hn1
          cases hn1
          rw [hch0] at hc
          rw [hin _ _ ⟨c, hc, hd1⟩]
          have hne : ¬ (L' = L ∧ i' = i) := by
            rintro ⟨rfl, _⟩
            have := hd1.level.1
            omega
          rw [getNode_setNode_ne _ hne]
      · intro L' i' hnd
        have hno : ¬ ∃ c ∈ m.children, Desc levels (L + 1) c L' i' := by
          rintro ⟨c, hc, hd'⟩
          rw [← hch0] at hc
          exact hnd (Desc.head hn0 hc hd')
        have hne : ¬ (L' = L ∧ i' = i) := by
          rintro ⟨rfl, rfl⟩
          exact hnd (Desc.refl _ _)
        rw [hout _ _ hno, getNode_setNode_ne _ hne]

/-! ## The visibility pass: termination and frame -/

theorem forEach_cons_some {σ : Type} (body : σ → Nat → Option σ) (s : σ) (c : Nat)
    (cs : List Nat) (s' : σ) :
    forEach body s (c :: cs) = some s' ↔ ∃ s1, body s c = some s1 ∧ forEach body s1 cs = some s' := by
  simp only [forEach]
  cases h : body s c with
  | none => simp
  | some s1 => simp

theorem flag_unfold_outside (F : ccGenericPointCloudLODVisibilityFlagger) (fuel : Nat)
    (s : List Level) (L i : Nat) (m : Node) (hm : getNode s L i = some m)
    (hc : F.classify m = Intersection.OUTSIDE) :
    F.flag (fuel + 1) s L i =
      (propagateFlag (fuel + 1) s L i Intersection.OUTSIDE.code).map (fun s' => (s', 0)) := by
  simp only [flag, hm, hc]
  cases propagateFlag (fuel + 1) s L i Intersection.OUTSIDE.code <;> rfl

theorem flag_unfold_inside (F : ccGenericPointCloudLODVisibilityFlagger) (fuel : Nat)
    (s : List Level) (L i : Nat) (m : Node) (hm : getNode s L i = some m)
    (hc : F.classify m = Intersection.INSIDE) :
    F.flag (fuel + 1) s L i =
      (propagateFlag (fuel + 1) s L i Intersection.INSIDE.code).map
        (fun s' => (s', insideCount (fuel + 1) s L i)) := by
  simp only [flag, hm, hc]
  cases propagateFlag (fuel + 1) s L i Intersection.INSIDE.code <;> rfl

/-- Body of the loop of `flag` over the children of an INTERSECTING node. -/
theorem flag_unfold_descend (F : ccGenericPointCloudLODVisibilityFlagger) (fuel : Nat)
    (s : List Level) (L i : Nat) (m : Node) (hm : getNode s L i = some m)
    (hc : F.classify m = Intersection.INTERSECT)
    (hd : m.level < F.m_maxLevel ∧ m.childCount ≠ 0) :
    F.flag (fuel + 1) s L i =
      forEach (addVisible (fun t c => F.flag fuel t (childLevel m) c))
        (setNode s L i (m.withFlag Intersection.INTERSECT.code), 0) m.children := by
  simp only [flag, hm, hc]
  rw [if_pos hd]

theorem flag_unfold_accept (F : ccGenericPointCloudLODVisibilityFlagger) (fuel : Nat)
    (s : List Level) (L i : Nat) (m : Node) (hm : getNode s L i = some m)
    (hc : F.classify m = Intersection.INTERSECT)
    (hd : ¬ (m.level < F.m_maxLevel ∧ m.childCount ≠ 0)) :
    F.flag (fuel + 1) s L i =
      some (setNode s L i (m.withFlag Intersection.INTERSECT.code), m.pointCount % 2 ^ 32) := by
  simp only [flag, hm, hc]
  rw [if_neg hd]

theorem addVisible_some (call : List Level → Nat → Option (List Level × Nat))
    (t : List Level × Nat) (c : Nat) (t1 : List Level × Nat) :
    addVisible call t c = some t1 ↔
      ∃ r, call t.1 c = some r ∧ t1 = (r.1, (t.2 + r.2) % 2 ^ 32) := by
  unfold addVisible
  cases h : call t.1 c with
  | none => simp
  | some r =>
    simp only [Option.some.injEq, exists_eq_left']
    exact eq_comm

/-- On a well-formed hierarchy `flag` returns; the table it returns has the same shape and
differs from the one it received only on the node and its descendants. -/
theorem flag_spec {levels : List Level} (hwf : WellFormed levels)
    (F : ccGenericPointCloudLODVisibilityFlagger) :
    ∀ (fuel : Nat) (s : List Level) (L i : Nat), SameShape levels s →
      (getNode s L i).isSome → levels.length ≤ L + fuel →
      ∃ s' r, F.flag fuel s L i = some (s', r) ∧ SameShape levels s' ∧
        (∀ L' i', ¬ Desc levels L i L' i' → getNode s' L' i' = getNode s L' i') := by
  intro fuel
  induction fuel with
  | zero =>
    intro s L i hs hsome hlen
    cases hm : getNode s L i with
    | none => simp [hm] at hsome
    | some m =>
      have := exists_lt_length hs hm
      omega
  | succ fuel ih =>
    intro s L i hs hsome hlen
    cases hm : getNode s L i with
    | none => simp [hm] at hsome
    | some m =>
      have viaPropagate : ∀ (f r : Nat),
          F.flag (fuel + 1) s L i = (propagateFlag (fuel + 1) s L i f).map (fun s' => (s', r)) →
          ∃ s' r, F.flag (fuel + 1) s L i = some (s', r) ∧ SameShape levels s' ∧
            (∀ L' i', ¬ Desc levels L i L' i' → getNode s' L' i' = getNode s L' i') := by
        intro f r hfl
        obtain ⟨s', hs', hin, hout⟩ := propagateFlag_spec hwf f (fuel + 1) s L i hs hsome hlen
        refine ⟨s', r, ?_, ?_, hout⟩
        · rw [hfl, hs']
          rfl
        · apply hs.of_flags f
          intro L' i'
          by_cases hd : Desc levels L i L' i'
          · exact Or.inr (hin _ _ hd)
          · exact Or.inl (hout _ _ hd)
      have hs1 : SameShape levels (setNode s L i (m.withFlag Intersection.INTERSECT.code)) :=
        hs.setNode hm (skeleton_withFlag m _)
      have hout1 : ∀ L' i', ¬ Desc levels L i L' i' →
          getNode (setNode s L i (m.withFlag Intersection.INTERSECT.code)) L' i' =
            getNode s L' i' := by
        intro L' i' hnd
        apply getNode_setNode_ne
        rintro ⟨rfl, rfl⟩
        exact hnd (Desc.refl _ _)
      cases hc : F.classify m with
      | OUTSIDE => exact viaPropagate _ _ (flag_unfold_outside F fuel s L i m hm hc)
      | INSIDE => exact viaPropagate _ _ (flag_unfold_inside F fuel s L i m hm hc)
      | INTERSECT =>
        by_cases hd : m.level < F.m_maxLevel ∧ m.childCount ≠ 0
        · rw [flag_unfold_descend F fuel s L i m hm hc hd]
          have loop : ∀ (cs : List Nat), (∀ c ∈ cs, c ∈ m.children) →
              ∀ (t : List Level × Nat), SameShape levels t.1 →
              ∃ t', forEach (addVisible (fun t c => F.flag fuel t (childLevel m) c)) t cs = some t' ∧
                SameShape levels t'.1 ∧
                (∀ L' i', (¬ ∃ c ∈ cs, Desc levels (L + 1) c L' i') →
                  getNode t'.1 L' i' = getNode t.1 L' i') := by
            intro cs
            induction cs with
            | nil =>
              intro _ t ht
              exact ⟨t, rfl, ht, fun _ _ _ => rfl⟩
            | cons c cs ihl =>
              intro hcs t ht
              have hcm : c ∈ m.children := hcs c (List.mem_cons_self _ _)
              obtain ⟨k, hk⟩ := hwf.child_exists hs ht hm hcm
              have hcl : childLevel m = L + 1 := hwf.childLevel hs hm hcm
              obtain ⟨t1, r1, hf1, hst1, hout1⟩ := ih t.1 (L + 1) c ht (by simp [hk]) (by omega)
              obtain ⟨t', ht', hst', hout'⟩ :=
                ihl (fun c' hc' => hcs c' (List.mem_cons_of_mem _ hc'))
                  (t1, (t.2 + r1) % 2 ^ 32) hst1
              refine ⟨t', ?_, hst', ?_⟩
              · rw [forEach_cons_some]
                refine ⟨(t1, (t.2 + r1) % 2 ^ 32), ?_, ht'⟩
                rw [addVisible_some]
                exact ⟨(t1, r1), by rw [hcl]; exact hf1, rfl⟩
              · intro L' i' hex
                have h1 : ¬ ∃ c' ∈ cs, Desc levels (L + 1) c' L' i' := by
                  rintro ⟨c', hc', hd'⟩
                  exact hex ⟨c', List.mem_cons_of_mem _ hc', hd'⟩
                have h2 : ¬ Desc levels (L + 1) c L' i' := fun hd =>
                  hex ⟨c, List.mem_cons_self _ _, hd⟩
                rw [hout' _ _ h1]
                exact hout1 _ _ h2
          obtain ⟨t', ht', hst', hout'⟩ := loop m.children (fun _ h => h)
            (setNode s L i (m.withFlag Intersection.INTERSECT.code), 0) hs1
          obtain ⟨n0, hn0, hsk0⟩ := hs.get' hm
          refine ⟨t'.1, t'.2, ht', hst', ?_⟩
          intro L' i' hnd
          have hno : ¬ ∃ c ∈ m.children, Desc levels (L + 1) c L' i' := by
            rintro ⟨c, hc', hd'⟩
            rw [← skeleton_children hsk0] at hc'
            exact hnd (Desc.head hn0 hc' hd')
          rw [hout' _ _ hno]
          exact hout1 _ _ hnd
        · rw [flag_unfold_accept F fuel s L i m hm hc hd]
          exact ⟨_, _, rfl, hs1, hout1⟩

/-! ## The visibility pass: propagation of INSIDE -/

theorem propagateFlag_post {levels : List Level} (hwf : WellFormed levels) (f : Nat)
    {fuel : Nat} {s s' : List Level} {L i : Nat} (hs : SameShape levels s)
    (hlen : levels.length ≤ L + fuel) (h : propagateFlag fuel s L i f = some s') :
    (∀ L' i', Desc levels L i L' i' →
        getNode s' L' i' = (getNode s L' i').map (fun n => n.withFlag f)) ∧
    (∀ L' i', ¬ Desc levels L i L' i' → getNode s' L' i' = getNode s L' i') := by
  have hsome : (getNode s L i).isSome := by
    cases fuel with
    | zero => simp [propagateFlag] at h
    | succ fuel =>
      cases hm : getNode s L i with
      | none => simp [propagateFlag, hm] at h
      | some m => rfl
  obtain ⟨s'', hs'', hin, hout⟩ := propagateFlag_spec hwf f fuel s L i hs hsome hlen
  rw [h] at hs''
  cases hs''
  exact ⟨hin, hout⟩

theorem flag_isSome {F : ccGenericPointCloudLODVisibilityFlagger} {fuel : Nat} {s : List Level}
    {L i : Nat} {r : List Level × Nat} (h : F.flag fuel s L i = some r) :
    (getNode s L i).isSome := by
  cases fuel with
  | zero => simp [flag] at h
  | succ fuel =>
    cases hm : getNode s L i with
    | none => simp [flag, hm] at h
    | some m => rfl

theorem flag_post {levels : List Level} (hwf : WellFormed levels)
    {F : ccGenericPointCloudLODVisibilityFlagger} {fuel : Nat} {s : List Level} {L i : Nat}
    {r : List Level × Nat} (hs : SameShape levels s) (hlen : levels.length ≤ L + fuel)
    (h : F.flag fuel s L i = some r) :
    SameShape levels r.1 ∧
      (∀ L' i', ¬ Desc levels L i L' i' → getNode r.1 L' i' = getNode s L' i') := by
  obtain ⟨s', r', h', hsh, hout⟩ := flag_spec hwf F fuel s L i hs (flag_isSome h) hlen
  rw [h] at h'
  cases h'
  exact ⟨hsh, hout⟩

/-- In a table of the shape of a hierarchy with unique parents, two nodes of one level
that hold the same child index are the same node. -/
theorem parent_unique {levels s t : List Level} (hup : UniqueParent levels)
    (hs : SameShape levels s) (ht : SameShape levels t) {L p q c : Nat} {n m : Node}
    (hn : getNode s L p = some n) (hm : getNode t L q = some m)
    (hcn : c ∈ n.children) (hcm : c ∈ m.children) : p = q := by
  obtain ⟨n0, hn0, hsk⟩ := hs.get' hn
  obtain ⟨m0, hm0, hsk'⟩ := ht.get' hm
  rw [← skeleton_children hsk] at hcn
  rw [← skeleton_children hsk'] at hcm
  exact hup.parent hn0 hm0 hcn hcm

theorem code_outside_ne_inside : Intersection.OUTSIDE.code ≠ Intersection.INSIDE.code := by decide

theorem code_intersect_ne_inside : Intersection.INTERSECT.code ≠ Intersection.INSIDE.code := by
  decide

/-- Writing INTERSECTING to a node that has no parent flagged INSIDE keeps every child of
an INSIDE node INSIDE. -/
theorem insidePropagated_setNode {s : List Level} {L i : Nat} {m : Node}
    (hinv : InsidePropagated s) (hnp : NoInsideParent s L i) :
    InsidePropagated (setNode s L i (m.withFlag Intersection.INTERSECT.code)) := by
  intro L1 p n c k hn hc hk hins
  rw [getNode_setNode] at hn hk
  by_cases hp : L1 = L ∧ p = i
  · rw [if_pos hp] at hn
    cases hg : getNode s L i with
    | none => rw [hg] at hn; simp at hn
    | some x =>
      rw [hg] at hn
      simp only [Option.map_some', Option.some.injEq] at hn
      rw [← hn] at hins
      exact absurd hins code_intersect_ne_inside
  · rw [if_neg hp] at hn
    by_cases hcc : L1 + 1 = L ∧ c = i
    · obtain ⟨h1, rfl⟩ := hcc
      exact absurd hins (hnp L1 p n h1 hn hc)
    · rw [if_neg hcc] at hk
      exact hinv L1 p n c k hn hc hk hins

/-- The pass keeps every child of an INSIDE node INSIDE, when it starts on a node no parent
of which is INSIDE. -/
theorem flag_inv {levels : List Level} (hwf : WellFormed levels) (hup : UniqueParent levels)
    (F : ccGenericPointCloudLODVisibilityFlagger) :
    ∀ (fuel : Nat) (s : List Level) (L i : Nat) (r : List Level × Nat), SameShape levels s →
      levels.length ≤ L + fuel → InsidePropagated s → NoInsideParent s L i →
      F.flag fuel s L i = some r → InsidePropagated r.1 := by
  intro fuel
  induction fuel with
  | zero =>
    intro s L i r _ _ _ _ h
    simp [flag] at h
  | succ fuel ih =>
    intro s L i r hs hlen hinv hnp hfl
    cases hm : getNode s L i with
    | none => simp [flag, hm] at hfl
    | some m =>
      cases hc : F.classify m with
      | OUTSIDE =>
        rw [flag_unfold_outside F fuel s L i m hm hc] at hfl
        cases hp : propagateFlag (fuel + 1) s L i Intersection.OUTSIDE.code with
        | none => rw [hp] at hfl; simp at hfl
        | some s' =>
          rw [hp] at hfl
          simp only [Option.map_some', Option.some.injEq] at hfl
          subst hfl
          obtain ⟨hin, hout⟩ := propagateFlag_post hwf _ hs hlen hp
          intro L1 p n c k hn hcn hk hins
          by_cases hdp : Desc levels L i L1 p
          · rw [hin _ _ hdp] at hn
            cases hg : getNode s L1 p with
            | none => rw [hg] at hn; simp at hn
            | some x =>
              rw [hg] at hn
              simp only [Option.map_some', Option.some.injEq] at hn
              rw [← hn] at hins
              exact absurd hins code_outside_ne_inside
          · rw [hout _ _ hdp] at hn
            by_cases hdc : Desc levels L i (L1 + 1) c
            · cases hdc with
              | refl => exact absurd hins (hnp L1 p n rfl hn hcn)
              | @step _ p' n' _ hd' hn' hc' =>
                have : p = p' := parent_unique hup hs (SameShape.refl levels) hn hn' hcn hc'
                subst this
                exact absurd hd' hdp
            · rw [hout _ _ hdc] at hk
              exact hinv L1 p n c k hn hcn hk hins
      | INSIDE =>
        rw [flag_unfold_inside F fuel s L i m hm hc] at hfl
        cases hp : propagateFlag (fuel + 1) s L i Intersection.INSIDE.code with
        | none => rw [hp] at hfl; simp at hfl
        | some s' =>
          rw [hp] at hfl
          simp only [Option.map_some', Option.some.injEq] at hfl
          subst hfl
          obtain ⟨hin, hout⟩ := propagateFlag_post hwf _ hs hlen hp
          intro L1 p n c k hn hcn hk hins
          by_cases hdc : Desc levels L i (L1 + 1) c
          · rw [hin _ _ hdc] at hk
            cases hg : getNode s (L1 + 1) c with
            | none => rw [hg] at hk; simp at hk
            | some x =>
              rw [hg] at hk
              simp only [Option.map_some', Option.some.injEq] at hk
              rw [← hk]
              rfl
          · rw [hout _ _ hdc] at hk
            by_cases hdp : Desc levels L i L1 p
            · exfalso
              have hsr : SameShape levels s' := by
                apply hs.of_flags Intersection.INSIDE.code
                intro L' i'
                by_cases hd : Desc levels L i L' i'
                · exact Or.inr (hin _ _ hd)
                · exact Or.inl (hout _ _ hd)
              obtain ⟨n0, hn0, hsk⟩ := hsr.get' hn
              rw [← skeleton_children hsk] at hcn
              exact hdc (Desc.step hdp hn0 hcn)
            · rw [hout _ _ hdp] at hn
              exact hinv L1 p n c k hn hcn hk hins
      | INTERSECT =>
        have hs1 : SameShape levels (setNode s L i (m.withFlag Intersection.INTERSECT.code)) :=
          hs.setNode hm (skeleton_withFlag m _)
        have hinv1 := insidePropagated_setNode (m := m) hinv hnp
        by_cases hd : m.level < F.m_maxLevel ∧ m.childCount ≠ 0
        · rw [flag_unfold_descend F fuel s L i m hm hc hd] at hfl
          have loop : ∀ (cs : List Nat), (∀ c ∈ cs, c ∈ m.children) →
              ∀ (t t' : List Level × Nat), SameShape levels t.1 → InsidePropagated t.1 →
              getNode t.1 L i = some (m.withFlag Intersection.INTERSECT.code) →
              forEach (addVisible (fun t c => F.flag fuel t (childLevel m) c)) t cs = some t' →
              InsidePropagated t'.1 := by
            intro cs
            induction cs with
            | nil =>
              intro _ t t' _ hti _ hfe
              simp only [forEach, Option.some.injEq] at hfe
              rw [← hfe]
              exact hti
            | cons c cs ihl =>
              intro hcs t t' ht hti htn hfe
              have hcm : c ∈ m.children := hcs c (List.mem_cons_self _ _)
              have hcl : childLevel m = L + 1 := hwf.childLevel hs hm hcm
              rw [forEach_cons_some] at hfe
              obtain ⟨t1, hb, hrest⟩ := hfe
              rw [addVisible_some] at hb
              obtain ⟨r1, hr1, ht1⟩ := hb
              rw [hcl] at hr1
              have hnp1 : NoInsideParent t.1 (L + 1) c := by
                intro L0 p n hL0 hn hcn
                have hL : L0 = L := by omega
                subst hL
                have : p = i := parent_unique hup ht ht hn htn hcn hcm
                subst this
                rw [htn] at hn
                cases hn
                exact code_intersect_ne_inside
              have hi1 := ih t.1 (L + 1) c r1 ht (by omega) hti hnp1 hr1
              obtain ⟨hsh1, hout1⟩ := flag_post hwf ht (by omega) hr1
              have hnode : getNode r1.1 L i = some (m.withFlag Intersection.INTERSECT.code) := by
                rw [hout1 L i, htn]
                intro hd'
                have := hd'.level.1
                omega
              subst ht1
              exact ihl (fun c' hc' => hcs c' (List.mem_cons_of_mem _ hc'))
                (r1.1, (t.2 + r1.2) % 2 ^ 32) t' hsh1 hi1 hnode hrest
          exact loop m.children (fun _ h => h) _ r hs1 hinv1 (getNode_setNode_self _ hm) hfl
        · rw [flag_unfold_accept F fuel s L i m hm hc hd] at hfl
          simp only [Option.some.injEq] at hfl
          rw [← hfl]
          exact hinv1

/-! ## The visibility pass: accounting -/

theorem flatMap_congr_mem {α β : Type} (l : List α) (f g : α → List β)
    (h : ∀ a ∈ l, f a = g a) : l.flatMap f = l.flatMap g := by
  induction l with
  | nil => rfl
  | cons a l ih =>
    simp only [List.flatMap_cons]
    rw [h a (List.mem_cons_self _ _), ih (fun b hb => h b (List.mem_cons_of_mem _ hb))]

theorem sum_map_flatMap {α β : Type} (l : List α) (g : α → List β) (f : β → Nat) :
    ((l.flatMap g).map f).sum = (l.map (fun a => ((g a).map f).sum)).sum := by
  induction l with
  | nil => rfl
  | cons a l ih =>
    simp only [List.flatMap_cons, List.map_append, List.sum_append, List.map_cons, List.sum_cons, ih]

theorem sum_map_mod {α : Type} (l : List α) (f : α → Nat) (M : Nat) :
    (l.map (fun c => f c % M)).sum % M = (l.map f).sum % M := by
  induction l with
  | nil => rfl
  | cons a l ih =>
    simp only [List.map_cons, List.sum_cons]
    rw [Nat.add_mod, ih, ← Nat.add_mod, Nat.mod_add_mod]

theorem visibleSum_nil (ml : Nat) : visibleSum ml [] = 0 := rfl

theorem visibleSum_cons (ml : Nat) (n : Node) (l : List Node) :
    visibleSum ml (n :: l) =
      (if n.flaggedVisible ml = true then n.pointCount else 0) + visibleSum ml l := by
  unfold visibleSum
  by_cases h : n.flaggedVisible ml = true
  · rw [List.filter_cons_of_pos h, if_pos h]
    rfl
  · rw [List.filter_cons_of_neg h, if_neg h, Nat.zero_add]

theorem visibleSum_append (ml : Nat) (l l' : List Node) :
    visibleSum ml (l ++ l') = visibleSum ml l + visibleSum ml l' := by
  unfold visibleSum
  rw [List.filter_append, List.map_append, List.sum_append]

theorem visibleSum_flatMap {α : Type} (ml : Nat) (l : List α) (g : α → List Node) :
    visibleSum ml (l.flatMap g) = (l.map (fun a => visibleSum ml (g a))).sum := by
  induction l with
  | nil => rfl
  | cons a l ih =>
    simp only [List.flatMap_cons, List.map_cons, List.sum_cons, visibleSum_append, ih]

theorem visibleSum_perm (ml : Nat) {l l' : List Node} (h : l.Perm l') :
    visibleSum ml l = visibleSum ml l' := by
  unfold visibleSum
  exact ((h.filter _).map _).sum_eq

theorem flaggedVisible_outside (ml : Nat) (n : Node) :
    (n.withFlag Intersection.OUTSIDE.code).flaggedVisible ml = false := by
  simp [Node.flaggedVisible, Node.withFlag, Intersection.code]

theorem flaggedVisible_inside (ml : Nat) (n : Node) :
    (n.withFlag Intersection.INSIDE.code).flaggedVisible ml = true := by
  simp [Node.flaggedVisible, Node.withFlag]

theorem flaggedVisible_intersect (ml : Nat) (n : Node) :
    (n.withFlag Intersection.INTERSECT.code).flaggedVisible ml =
      decide (¬ (n.level < ml ∧ n.childCount ≠ 0)) := by
  simp [Node.flaggedVisible, Node.withFlag, Intersection.code]

theorem visibleSum_map_outside (ml : Nat) (l : List Node) :
    visibleSum ml (l.map (fun n => n.withFlag Intersection.OUTSIDE.code)) = 0 := by
  induction l with
  | nil => rfl
  | cons a l ih =>
    rw [List.map_cons, visibleSum_cons, ih, flaggedVisible_outside]
    rfl

theorem visibleSum_map_inside (ml : Nat) (l : List Node) :
    visibleSum ml (l.map (fun n => n.withFlag Intersection.INSIDE.code)) =
      (l.map (fun n => n.pointCount)).sum := by
  induction l with
  | nil => rfl
  | cons a l ih =>
    rw [List.map_cons, visibleSum_cons, ih, flaggedVisible_inside, if_pos rfl]
    rfl

/-- The nodes of a subtree after a change that keeps the hierarchy and acts node by node on
the subtree. -/
theorem subtreeNodes_map {levels : List Level} (hwf : WellFormed levels) (h : Node → Node)
    (hsk : ∀ n, (h n).skeleton = n.skeleton) :
    ∀ (fuel : Nat) (a b : List Level) (L i : Nat), SameShape levels a →
      (∀ L' i', Desc levels L i L' i' → getNode b L' i' = (getNode a L' i').map h) →
      subtreeNodes fuel b L i = (subtreeNodes fuel a L i).map h := by
  intro fuel
  induction fuel with
  | zero => intro a b L i _ _; rfl
  | succ fuel ih =>
    intro a b L i ha hag
    have h0 := hag L i (Desc.refl _ _)
    cases hn : getNode a L i with
    | none =>
      rw [hn] at h0
      simp only [subtreeNodes, hn, h0, Option.map_none', List.map_nil]
    | some n =>
      rw [hn] at h0
      simp only [Option.map_some'] at h0
      simp only [subtreeNodes, hn, h0, List.map_cons, List.map_flatMap]
      obtain ⟨n0, hn0, hsk0⟩ := ha.get' hn
      rw [skeleton_children (hsk n), skeleton_childLevel (hsk n)]
      congr 1
      apply flatMap_congr_mem
      intro c hc
      have hcl : childLevel n = L + 1 := hwf.childLevel ha hn hc
      rw [hcl]
      apply ih a b (L + 1) c ha
      intro L' i' hd
      apply hag
      rw [← skeleton_children hsk0] at hc
      exact Desc.head hn0 hc hd

/-- The nodes of a subtree depend only on the node and its descendants. -/
theorem subtreeNodes_congr {levels : List Level} (hwf : WellFormed levels)
    (fuel : Nat) (a b : List Level) (L i : Nat) (ha : SameShape levels a)
    (hag : ∀ L' i', Desc levels L i L' i' → getNode a L' i' = getNode b L' i') :
    subtreeNodes fuel a L i = subtreeNodes fuel b L i := by
  have := subtreeNodes_map hwf id (fun _ => rfl) fuel a b L i ha
    (fun L' i' hd => by rw [← hag L' i' hd]; simp)
  rw [this, List.map_id]

theorem subtreeNodes_propagate {levels : List Level} (hwf : WellFormed levels) (f : Nat)
    {fuel : Nat} {s s' : List Level} {L i : Nat} (hs : SameShape levels s)
    (hlen : levels.length ≤ L + fuel) (h : propagateFlag fuel s L i f = some s') :
    subtreeNodes fuel s' L i = (subtreeNodes fuel s L i).map (fun n => n.withFlag f) :=
  subtreeNodes_map hwf _ (fun n => skeleton_withFlag n f) fuel s s' L i hs
    (propagateFlag_post hwf f hs hlen h).1

/-- The count of a node found INSIDE is the sum, modulo `2 ^ 32`, of `pointCount` over the
node and its descendants. -/
theorem insideCount_eq : ∀ (fuel : Nat) (s : List Level) (L i : Nat),
    insideCount fuel s L i =
      ((subtreeNodes fuel s L i).map (fun n => n.pointCount)).sum % 2 ^ 32 := by
  intro fuel
  induction fuel with
  | zero => intro s L i; rfl
  | succ fuel ih =>
    intro s L i
    cases hn : getNode s L i with
    | none => simp [insideCount, subtreeNodes, hn]
    | some n =>
      simp only [insideCount, subtreeNodes, hn, List.map_cons, List.sum_cons, sum_map_flatMap]
      have hfun : (fun c => insideCount fuel s (childLevel n) c) =
          (fun c => ((subtreeNodes fuel s (childLevel n) c).map
            (fun n => n.pointCount)).sum % 2 ^ 32) := by
        funext c
        exact ih s (childLevel n) c
      rw [hfun, Nat.add_mod, sum_map_mod, ← Nat.add_mod]

theorem getNode_after_propagate {levels : List Level} (hwf : WellFormed levels) (f : Nat)
    {fuel : Nat} {s s' : List Level} {L i : Nat} {m : Node} (hs : SameShape levels s)
    (hlen : levels.length ≤ L + fuel) (hm : getNode s L i = some m)
    (h : propagateFlag fuel s L i f = some s') : getNode s' L i = some (m.withFlag f) := by
  rw [(propagateFlag_post hwf f hs hlen h).1 L i (Desc.refl _ _), hm]
  rfl

/-- The count returned by `flag` is the sum, modulo `2 ^ 32`, of `pointCount` over the
nodes of the subtree that count as flagged visible in the table it returns, when the nodes
that the pass accepts in full have no child. -/
theorem flag_count {levels : List Level} (hwf : WellFormed levels) (hup : UniqueParent levels)
    (F : ccGenericPointCloudLODVisibilityFlagger)
    (hacc : ∀ L i m, getNode levels L i = some m →
      ¬ (m.level < F.m_maxLevel ∧ m.childCount ≠ 0) → m.children = []) :
    ∀ (fuel : Nat) (s : List Level) (L i : Nat) (r : List Level × Nat), SameShape levels s →
      levels.length ≤ L + fuel → F.flag fuel s L i = some r →
      r.2 = visibleSum F.m_maxLevel (subtreeNodes fuel r.1 L i) % 2 ^ 32 := by
  intro fuel
  induction fuel with
  | zero =>
    intro s L i r _ _ h
    simp [flag] at h
  | succ fuel ih =>
    intro s L i r hs hlen hfl
    cases hm : getNode s L i with
    | none => simp [flag, hm] at hfl
    | some m =>
      cases hc : F.classify m with
      | OUTSIDE =>
        rw [flag_unfold_outside F fuel s L i m hm hc] at hfl
        cases hp : propagateFlag (fuel + 1) s L i Intersection.OUTSIDE.code with
        | none => rw [hp] at hfl; simp at hfl
        | some s' =>
          rw [hp] at hfl
          simp only [Option.map_some', Option.some.injEq] at hfl
          subst hfl
          show 0 = visibleSum F.m_maxLevel (subtreeNodes (fuel + 1) s' L i) % 2 ^ 32
          rw [subtreeNodes_propagate hwf _ hs hlen hp, visibleSum_map_outside]
          rfl
      | INSIDE =>
        rw [flag_unfold_inside F fuel s L i m hm hc] at hfl
        cases hp : propagateFlag (fuel + 1) s L i Intersection.INSIDE.code with
        | none => rw [hp] at hfl; simp at hfl
        | some s' =>
          rw [hp] at hfl
          simp only [Option.map_some', Option.some.injEq] at hfl
          subst hfl
          show insideCount (fuel + 1) s L i =
            visibleSum F.m_maxLevel (subtreeNodes (fuel + 1) s' L i) % 2 ^ 32
          rw [subtreeNodes_propagate hwf _ hs hlen hp, visibleSum_map_inside, insideCount_eq]
      | INTERSECT =>
        have hs1 : SameShape levels (setNode s L i (m.withFlag Intersection.INTERSECT.code)) :=
          hs.setNode hm (skeleton_withFlag m _)
        obtain ⟨n0, hn0, hsk0⟩ := hs.get' hm
        by_cases hd : m.level < F.m_maxLevel ∧ m.childCount ≠ 0
        · rw [flag_unfold_descend F fuel s L i m hm hc hd] at hfl
          have loop : ∀ (cs : List Nat), cs.Nodup → (∀ c ∈ cs, c ∈ m.children) →
              ∀ (t t' : List Level × Nat), SameShape levels t.1 →
              forEach (addVisible (fun t c => F.flag fuel t (childLevel m) c)) t cs = some t' →
              SameShape levels t'.1 ∧
              (∀ L' i', (¬ ∃ c ∈ cs, Desc levels (L + 1) c L' i') →
                getNode t'.1 L' i' = getNode t.1 L' i') ∧
              t'.2 % 2 ^ 32 = (t.2 + (cs.map (fun c =>
                visibleSum F.m_maxLevel (subtreeNodes fuel t'.1 (L + 1) c))).sum) % 2 ^ 32 ∧
              (t.2 < 2 ^ 32 → t'.2 < 2 ^ 32) := by
            intro cs
            induction cs with
            | nil =>
              intro _ _ t t' ht hfe
              simp only [forEach, Option.some.injEq] at hfe
              subst hfe
              exact ⟨ht, fun _ _ _ => rfl, by simp, fun h => h⟩
            | cons c cs ihl =>
              intro hnd hcs t t' ht hfe
              have hcm : c ∈ m.children := hcs c (List.mem_cons_self _ _)
              have hcl : childLevel m = L + 1 := hwf.childLevel hs hm hcm
              rw [forEach_cons_some] at hfe
              obtain ⟨t1, hb, hrest⟩ := hfe
              rw [addVisible_some] at hb
              obtain ⟨r1, hr1, ht1⟩ := hb
              rw [hcl] at hr1
              subst ht1
              have hcount := ih t.1 (L + 1) c r1 ht (by omega) hr1
              obtain ⟨hsh1, hout1⟩ := flag_post hwf ht (by omega) hr1
              obtain ⟨hsh', hout', hsum', hlt'⟩ :=
                ihl (List.nodup_cons.mp hnd).2 (fun c' hc' => hcs c' (List.mem_cons_of_mem _ hc'))
                  (r1.1, (t.2 + r1.2) % 2 ^ 32) t' hsh1 hrest
              refine ⟨hsh', ?_, ?_, ?_⟩
              · intro L' i' hex
                have h1 : ¬ ∃ c' ∈ cs, Desc levels (L + 1) c' L' i' := by
                  rintro ⟨c', hc', hd'⟩
                  exact hex ⟨c', List.mem_cons_of_mem _ hc', hd'⟩
                have h2 : ¬ Desc levels (L + 1) c L' i' := fun hd =>
                  hex ⟨c, List.mem_cons_self _ _, hd⟩
                rw [hout' _ _ h1]
                exact hout1 _ _ h2
              · have hsame : subtreeNodes fuel t'.1 (L + 1) c =
                    subtreeNodes fuel r1.1 (L + 1) c := by
                  symm
                  apply subtreeNodes_congr hwf fuel r1.1 t'.1 (L + 1) c hsh1
                  intro L' i' hd'
                  symm
                  apply hout'
                  rintro ⟨c', hc', hd''⟩
                  have : c = c' := Desc.unique hup hd' hd''
                  subst this
                  exact (List.nodup_cons.mp hnd).1 hc'
                simp only [List.map_cons, List.sum_cons]
                rw [hsame, hsum']
                simp only at hcount ⊢
                rw [hcount]
                omega
              · intro _
                exact hlt' (Nat.mod_lt _ (by decide))
          have hnd : m.children.Nodup := by
            rw [← skeleton_children hsk0]
            exact hup.nodup hn0
          obtain ⟨hsh', hout', hsum', hlt'⟩ := loop m.children hnd (fun _ h => h) _ r hs1 hfl
          have hnode : getNode r.1 L i = some (m.withFlag Intersection.INTERSECT.code) := by
            rw [hout' L i, getNode_setNode_self _ hm]
            rintro ⟨c, _, hd'⟩
            have := hd'.level.1
            omega
          have hfv : (m.withFlag Intersection.INTERSECT.code).flaggedVisible F.m_maxLevel =
              false := by
            rw [flaggedVisible_intersect]
            exact decide_eq_false (not_not.mpr hd)
          have h3 : (m.withFlag Intersection.INTERSECT.code).children = m.children := rfl
          have h4 : childLevel (m.withFlag Intersection.INTERSECT.code) = childLevel m := rfl
          simp only [subtreeNodes, hnode, h3, h4]
          rw [visibleSum_cons, hfv, visibleSum_flatMap]
          have hfm : m.children.map (fun c =>
              visibleSum F.m_maxLevel (subtreeNodes fuel r.1 (childLevel m) c)) =
              m.children.map (fun c =>
              visibleSum F.m_maxLevel (subtreeNodes fuel r.1 (L + 1) c)) := by
            apply List.map_congr_left
            intro c hc'
            rw [hwf.childLevel hs hm hc']
          rw [hfm]
          have h0 := hlt' (show (0 : Nat) < 2 ^ 32 by decide)
          simp only [Nat.zero_add] at hsum'
          simp only [Bool.false_eq_true, if_false, Nat.zero_add]
          rw [← hsum']
          exact (Nat.mod_eq_of_lt h0).symm
        · rw [flag_unfold_accept F fuel s L i m hm hc hd] at hfl
          simp only [Option.some.injEq] at hfl
          subst hfl
          have hch : m.children = [] := by
            rw [← skeleton_children hsk0]
            apply hacc L i n0 hn0
            obtain ⟨_, _, _, _, _, hl, hcc⟩ := skeleton_fields hsk0
            rw [hl, hcc]
            exact hd
          have hfv : (m.withFlag Intersection.INTERSECT.code).flaggedVisible F.m_maxLevel =
              true := by
            rw [flaggedVisible_intersect]
            exact decide_eq_true hd
          have h3 : (m.withFlag Intersection.INTERSECT.code).children = [] := hch
          show m.pointCount % 2 ^ 32 = _
          simp only [subtreeNodes, getNode_setNode_self _ hm, h3, List.flatMap_nil]
          rw [visibleSum_cons, hfv, if_pos rfl, visibleSum_nil, Nat.add_zero]
          rfl

/-! ## `flagVisibility` -/

theorem skeleton_reset (n : Node) : n.reset.skeleton = n.skeleton := rfl

theorem getNode_reset (lod : ccAbstractPointCloudLOD) (L i : Nat) :
    getNode lod.resetVisibility.m_levels L i = (getNode lod.m_levels L i).map Node.reset := by
  unfold getNode ccAbstractPointCloudLOD.resetVisibility
  simp only [List.getElem?_map]
  cases lod.m_levels[L]? with
  | none => rfl
  | some l => simp

theorem sameShape_reset (lod : ccAbstractPointCloudLOD) :
    SameShape lod.m_levels lod.resetVisibility.m_levels := by
  intro L i
  rw [getNode_reset]
  cases getNode lod.m_levels L i <;> rfl

theorem length_reset (lod : ccAbstractPointCloudLOD) :
    lod.resetVisibility.m_levels.length = lod.m_levels.length := by
  simp [ccAbstractPointCloudLOD.resetVisibility]

theorem maxLevel_reset (lod : ccAbstractPointCloudLOD) :
    lod.resetVisibility.maxLevel = lod.maxLevel := by
  unfold ccAbstractPointCloudLOD.maxLevel
  rw [length_reset]
  rfl

theorem insidePropagated_reset (lod : ccAbstractPointCloudLOD) :
    InsidePropagated lod.resetVisibility.m_levels := by
  intro L p n c k _ _ hk _
  rw [getNode_reset] at hk
  cases hg : getNode lod.m_levels (L + 1) c with
  | none => rw [hg] at hk; simp at hk
  | some x =>
    rw [hg] at hk
    simp only [Option.map_some', Option.some.injEq] at hk
    rw [← hk]
    rfl

theorem noInsideParent_root (s : List Level) (i : Nat) : NoInsideParent s 0 i := by
  intro L p n h
  omega

theorem root_isSome_iff (lod : ccAbstractPointCloudLOD) :
    lod.root.isSome ↔ (getNode lod.m_levels 0 0).isSome := by
  unfold ccAbstractPointCloudLOD.root
  rw [show (0 : Int) = ((0 : Nat) : Int) from rfl, node_eq_getNode]

theorem passFlagger_maxLevel (lod : ccAbstractPointCloudLOD) (frustum : ccGLCameraParameters)
    (clipPlanes : Option ccClipPlaneSet) :
    (ccAbstractPointCloudLOD.passFlagger lod.resetVisibility frustum clipPlanes).m_maxLevel =
      lod.maxLevel := by
  cases clipPlanes <;>
    simp [ccAbstractPointCloudLOD.passFlagger, ccAbstractPointCloudLOD.getVisibilityFlagger, init,
      setClipPlanes, maxLevel_reset]

theorem passFlagger_camera (lod : ccAbstractPointCloudLOD) (frustum : ccGLCameraParameters)
    (clipPlanes : Option ccClipPlaneSet) :
    (ccAbstractPointCloudLOD.passFlagger lod frustum clipPlanes).m_camera = frustum := by
  cases clipPlanes <;> rfl

theorem flagVisibility_eq (lod : ccAbstractPointCloudLOD) (frustum : ccGLCameraParameters)
    (clipPlanes : Option ccClipPlaneSet) :
    lod.flagVisibility frustum clipPlanes =
      ((ccAbstractPointCloudLOD.passFlagger lod.resetVisibility frustum clipPlanes).flag
          lod.m_levels.length lod.resetVisibility.m_levels 0 0).map
        (fun r => ({ lod.resetVisibility with
                      m_levels := r.1
                      m_currentState :=
                        { lod.resetVisibility.m_currentState with visiblePoints := r.2 } }, r.2)) := by
  unfold ccAbstractPointCloudLOD.flagVisibility
  rw [length_reset]
  cases (ccAbstractPointCloudLOD.passFlagger lod.resetVisibility frustum clipPlanes).flag
    lod.m_levels.length lod.resetVisibility.m_levels 0 0 <;> rfl

/-- On a well-formed hierarchy with a root, `flagVisibility` returns. -/
theorem flagVisibility_returns (lod : ccAbstractPointCloudLOD) (frustum : ccGLCameraParameters)
    (clipPlanes : Option ccClipPlaneSet) (hwf : WellFormed lod.m_levels)
    (hroot : lod.root.isSome) :
    ∃ r, (ccAbstractPointCloudLOD.passFlagger lod.resetVisibility frustum clipPlanes).flag
          lod.m_levels.length
          lod.resetVisibility.m_levels 0 0 = some r ∧
      lod.flagVisibility frustum clipPlanes =
        some ({ lod.resetVisibility with
                m_levels := r.1
                m_currentState :=
                  { lod.resetVisibility.m_currentState with visiblePoints := r.2 } }, r.2) := by
  have hsome : (getNode lod.resetVisibility.m_levels 0 0).isSome := by
    rw [getNode_reset]
    rw [root_isSome_iff] at hroot
    cases hg : getNode lod.m_levels 0 0 with
    | none => rw [hg] at hroot; simp at hroot
    | some x => rfl
  obtain ⟨s', r, hfl, _, _⟩ := flag_spec hwf
    (ccAbstractPointCloudLOD.passFlagger lod.resetVisibility frustum clipPlanes)
    lod.m_levels.length lod.resetVisibility.m_levels 0 0 (sameShape_reset lod) hsome (by omega)
  refine ⟨(s', r), hfl, ?_⟩
  rw [flagVisibility_eq, hfl]
  rfl

/-- Along the child indexes, INSIDE is inherited: in a table where every child of an INSIDE
node is INSIDE, every descendant of an INSIDE node is INSIDE. -/
theorem InsidePropagated.desc {s : List Level} (h : InsidePropagated s) {L i : Nat} {a : Node}
    (ha : getNode s L i = some a) (hai : a.intersection = Intersection.INSIDE.code)
    {L' i' : Nat} (hd : Desc s L i L' i') :
    ∀ n, getNode s L' i' = some n → n.intersection = Intersection.INSIDE.code := by
  induction hd with
  | refl =>
    intro n hn
    rw [ha] at hn
    cases hn
    exact hai
  | step _ hn' hc ih =>
    intro k hk
    exact h _ _ _ _ _ hn' hc hk (ih _ hn')

/-! ## The visibility pass: the subtree of the root is the whole table -/

theorem getNode_eq_levelNodes (levels : List Level) (L i : Nat) :
    getNode levels L i = (levelNodes levels L)[i]? := by
  unfold getNode levelNodes
  cases levels[L]? <;> simp

theorem range_flatMap_getElem {α β : Type} (G : Option α → List β) :
    ∀ (D : List α), (List.range D.length).flatMap (fun i => G D[i]?) =
      D.flatMap (fun n => G (some n)) := by
  intro D
  induction D with
  | nil => rfl
  | cons x D ih =>
    rw [List.length_cons, List.range_succ_eq_map, List.flatMap_cons, List.flatMap_map,
      List.flatMap_cons]
    simp only [List.getElem?_cons_zero, Nat.succ_eq_add_one, List.getElem?_cons_succ]
    rw [ih]

theorem flatMap_range_of_nil {β : Type} (f : Nat → List β) (N : Nat)
    (h : ∀ k, N ≤ k → f k = []) :
    ∀ M, N ≤ M → (List.range M).flatMap f = (List.range N).flatMap f := by
  intro M hM
  induction M with
  | zero =>
    have : N = 0 := by omega
    rw [this]
  | succ M ih =>
    by_cases hN : N = M + 1
    · rw [hN]
    · rw [List.range_succ, List.flatMap_append, ih (by omega)]
      simp [h M (by omega)]

theorem flatMap_data_eq_range (a : List Level) (N : Nat)
    (h : ∀ L, N ≤ L → levelNodes a L = []) :
    a.flatMap (fun l => l.data) = (List.range N).flatMap (levelNodes a) := by
  have h1 := range_flatMap_getElem
    (fun o : Option Level => match o with | none => ([] : List Node) | some l => l.data) a
  have h2 : (fun L => levelNodes a L) = (fun L =>
      (fun o : Option Level => match o with | none => ([] : List Node) | some l => l.data)
        a[L]?) := by
    funext L
    rfl
  have h3 : a.flatMap (fun l => l.data) = (List.range a.length).flatMap (levelNodes a) := by
    show a.flatMap (fun l => l.data) = (List.range a.length).flatMap (fun L => levelNodes a L)
    rw [h2, h1]
  have hnil : ∀ k, a.length ≤ k → levelNodes a k = [] := by
    intro k hk
    unfold levelNodes
    rw [List.getElem?_eq_none hk]
  rw [h3]
  rcases Nat.le_total a.length N with hle | hle
  · have h4 := flatMap_range_of_nil (levelNodes a) a.length hnil N hle
    exact h4.symm
  · exact flatMap_range_of_nil (levelNodes a) N h a.length hle

theorem perm_flatMap_cons {α : Type} (f : α → List α) :
    ∀ (D : List α), (D.flatMap (fun n => n :: f n)).Perm (D ++ D.flatMap f) := by
  intro D
  induction D with
  | nil => exact List.Perm.refl _
  | cons x D ih =>
    simp only [List.flatMap_cons, List.cons_append]
    apply List.Perm.cons
    exact (List.Perm.append_left (f x) ih).trans (List.perm_append_comm_assoc _ _ _)

/-- In a table whose levels are chained by the child indexes, each index of a level being
held once by the level above, the subtrees of the nodes of a level hold the nodes of that
level and of the levels below, each once. -/
theorem subtreeNodes_perm_levels (a : List Level) (N : Nat)
    (H1 : ∀ L n, n ∈ levelNodes a L → ∀ c ∈ n.children, childLevel n = L + 1)
    (H2 : ∀ L, ((levelNodes a L).flatMap Node.children).Perm
      (List.range (levelNodes a (L + 1)).length))
    (H4 : ∀ L, N ≤ L → levelNodes a L = []) :
    ∀ (fuel L : Nat), N ≤ L + fuel →
      ((List.range (levelNodes a L).length).flatMap (fun i => subtreeNodes fuel a L i)).Perm
        ((List.range' L (N - L)).flatMap (levelNodes a)) := by
  have hbase : ∀ (fuel L : Nat), N ≤ L →
      ((List.range (levelNodes a L).length).flatMap (fun i => subtreeNodes fuel a L i)).Perm
        ((List.range' L (N - L)).flatMap (levelNodes a)) := by
    intro fuel L hL
    have h0 : N - L = 0 := by omega
    rw [H4 L hL, h0]
    exact List.Perm.refl _
  intro fuel
  induction fuel with
  | zero => intro L hL; exact hbase 0 L (by omega)
  | succ fuel ih =>
    intro L hL
    by_cases hN : N ≤ L
    · exact hbase _ L hN
    · have hk : N - L = (N - (L + 1)) + 1 := by omega
      rw [hk, List.range'_succ, List.flatMap_cons]
      have hstep : (fun i => subtreeNodes (fuel + 1) a L i) = (fun i =>
          (fun o : Option Node => match o with
            | none => ([] : List Node)
            | some n => n :: n.children.flatMap (fun c => subtreeNodes fuel a (childLevel n) c))
          (levelNodes a L)[i]?) := by
        funext i
        rw [← getNode_eq_levelNodes]
        cases h : getNode a L i <;> simp [subtreeNodes, h]
      have hlhs : (List.range (levelNodes a L).length).flatMap
            (fun i => subtreeNodes (fuel + 1) a L i) =
          (levelNodes a L).flatMap (fun n =>
            n :: n.children.flatMap (fun c => subtreeNodes fuel a (childLevel n) c)) := by
        rw [hstep]
        exact range_flatMap_getElem
          (fun o : Option Node => match o with
            | none => ([] : List Node)
            | some n => n :: n.children.flatMap (fun c => subtreeNodes fuel a (childLevel n) c))
          (levelNodes a L)
      rw [hlhs]
      refine (perm_flatMap_cons
        (fun n : Node => n.children.flatMap (fun c => subtreeNodes fuel a (childLevel n) c))
        (levelNodes a L)).trans (List.Perm.append_left _ ?_)
      have hch : (levelNodes a L).flatMap
          (fun n => n.children.flatMap (fun c => subtreeNodes fuel a (childLevel n) c)) =
          ((levelNodes a L).flatMap Node.children).flatMap
            (fun c => subtreeNodes fuel a (L + 1) c) := by
        rw [List.flatMap_assoc]
        apply flatMap_congr_mem
        intro n hn
        apply flatMap_congr_mem
        intro c hc
        rw [H1 L n hn c hc]
      rw [hch]
      exact (List.Perm.flatMap_right _ (H2 L)).trans (ih (L + 1) (by omega))

/-- Two tables that hold the same hierarchy have, level by level, the same nodes up to
the visibility flag and the displayed count. -/
theorem SameShape.level_skeleton {levels a : List Level} (hs : SameShape levels a) (L : Nat) :
    (levelNodes a L).map Node.skeleton = (levelNodes levels L).map Node.skeleton := by
  apply List.ext_getElem?
  intro i
  rw [List.getElem?_map, List.getElem?_map, ← getNode_eq_levelNodes, ← getNode_eq_levelNodes]
  exact hs L i

theorem SameShape.level_length {levels a : List Level} (hs : SameShape levels a)
    (L : Nat) : (levelNodes a L).length = (levelNodes levels L).length := by
  have := congrArg List.length (hs.level_skeleton L)
  simp at this
  exact this

theorem SameShape.level_children {levels a : List Level} (hs : SameShape levels a)
    (L : Nat) :
    (levelNodes a L).flatMap Node.children = (levelNodes levels L).flatMap Node.children := by
  have h : ∀ (D : List Node), D.flatMap Node.children =
      (D.map Node.skeleton).flatMap Node.children := by
    intro D
    rw [List.flatMap_map]
    rfl
  rw [h (levelNodes a L), h (levelNodes levels L), hs.level_skeleton L]

theorem levelNodes_children_perm {levels : List Level} (hwf : WellFormed levels)
    (hup : UniqueParent levels) (hcn : Connected levels) (L : Nat) :
    ((levelNodes levels L).flatMap Node.children).Perm
      (List.range (levelNodes levels (L + 1)).length) := by
  cases hl : levels[L]? with
  | none =>
    have hL : levels.length ≤ L := by
      rcases Nat.lt_or_ge L levels.length with h | h
      · rw [List.getElem?_eq_getElem h] at hl
        cases hl
      · exact h
    have h1 : levelNodes levels L = [] := by
      unfold levelNodes
      rw [hl]
    have h2 : levelNodes levels (L + 1) = [] := by
      unfold levelNodes
      rw [List.getElem?_eq_none (by omega)]
    rw [h1, h2]
    exact List.Perm.refl _
  | some l =>
    have hL : L < levels.length := by
      rcases Nat.lt_or_ge L levels.length with h | h
      · exact h
      · rw [List.getElem?_eq_none h] at hl
        cases hl
    have h1 : levelNodes levels L = l.data := by
      unfold levelNodes
      rw [hl]
    rw [h1]
    have hnd : (l.data.flatMap Node.children).Nodup := hup l (List.getElem?_mem hl)
    rw [List.perm_ext_iff_of_nodup hnd (List.nodup_range _)]
    intro c
    rw [List.mem_range]
    constructor
    · intro hc
      obtain ⟨n, hn, hcn'⟩ := List.mem_flatMap.mp hc
      have := (hwf L hL l hl n hn).2.2 c hcn'
      rw [getNode_eq_levelNodes] at this
      rcases Nat.lt_or_ge c (levelNodes levels (L + 1)).length with h | h
      · exact h
      · rw [List.getElem?_eq_none h] at this
        cases this
    · intro hc
      cases hl' : levels[L + 1]? with
      | none =>
        have h2 : levelNodes levels (L + 1) = [] := by
          unfold levelNodes
          rw [hl']
        rw [h2] at hc
        cases hc
      | some l' =>
        have h2 : levelNodes levels (L + 1) = l'.data := by
          unfold levelNodes
          rw [hl']
        rw [h2] at hc
        exact hcn.2 L hL l hl l' hl' c hc

/-- After any change that keeps the hierarchy, the subtree of the root holds every node of
the table once. -/
theorem subtreeNodes_root_perm {levels a : List Level} (hwf : WellFormed levels)
    (hup : UniqueParent levels) (hcn : Connected levels) (hs : SameShape levels a) :
    (subtreeNodes levels.length a 0 0).Perm (a.flatMap (fun l => l.data)) := by
  have H1 : ∀ L n, n ∈ levelNodes a L → ∀ c ∈ n.children, childLevel n = L + 1 := by
    intro L n hn c hc
    obtain ⟨i, hi⟩ := List.mem_iff_getElem?.mp hn
    rw [← getNode_eq_levelNodes] at hi
    exact hwf.childLevel hs hi hc
  have H2 : ∀ L, ((levelNodes a L).flatMap Node.children).Perm
      (List.range (levelNodes a (L + 1)).length) := by
    intro L
    rw [hs.level_children L, hs.level_length (L + 1)]
    exact levelNodes_children_perm hwf hup hcn L
  have H4 : ∀ L, levels.length ≤ L → levelNodes a L = [] := by
    intro L hL
    have h := hs.level_length L
    have h0 : levelNodes levels L = [] := by
      unfold levelNodes
      rw [List.getElem?_eq_none hL]
    rw [h0] at h
    exact List.length_eq_zero.mp h
  have h := subtreeNodes_perm_levels a levels.length H1 H2 H4 levels.length 0 (by omega)
  have h1 : (levelNodes a 0).length = 1 := by
    rw [hs.level_length 0]
    exact hcn.1
  rw [h1] at h
  rw [flatMap_data_eq_range a levels.length H4, List.range_eq_range']
  have h2 : (List.range 1).flatMap (fun i => subtreeNodes levels.length a 0 i) =
      subtreeNodes levels.length a 0 0 := by
    simp [List.range_succ]
  rw [h2] at h
  simpa using h

/-- On an initialized structure of at most 256 levels whose `childCount` fields count the
child slots in use, a node that the pass would accept in full has no child. -/
theorem accepted_children_nil (lod : ccAbstractPointCloudLOD) (hinit : lod.m_state = State.INITIALIZED)
    (h256 : lod.m_levels.length ≤ 256) (hwf : WellFormed lod.m_levels)
    (hcc : ChildCounted lod.m_levels) :
    ∀ L i m, getNode lod.m_levels L i = some m →
      ¬ (m.level < lod.maxLevel ∧ m.childCount ≠ 0) → m.children = [] := by
  intro L i m hm hd
  cases hch : m.children with
  | nil => rfl
  | cons c cs =>
    exfalso
    apply hd
    obtain ⟨l, hl, hi⟩ := getNode_eq_some.mp hm
    have hcount : m.childCount = m.children.length :=
      hcc l (List.getElem?_mem hl) m (List.getElem?_mem hi)
    obtain ⟨hlev, _, hex⟩ := hwf.node hm
    have hc : c ∈ m.children := by rw [hch]; exact List.mem_cons_self _ _
    have hsome := hex c hc
    obtain ⟨k, hk⟩ := Option.isSome_iff_exists.mp hsome
    have hlt : L + 1 < lod.m_levels.length := getNode_lt_length hk
    constructor
    · unfold ccAbstractPointCloudLOD.maxLevel
      rw [if_pos hinit]
      have hmax : max 1 lod.m_levels.length = lod.m_levels.length := by omega
      rw [hmax, hlev]
      omega
    · rw [hcount, hch]
      simp

/-- C5, as amended. On an initialized structure that satisfies the invariants of the data
model (at most 256 levels; every node of level `L` carries level `L`, its child indexes
refer to nodes of level `L + 1` and its `childCount` counts them; every node below the
root is held by exactly one node of the level above, and the root is the only node of
level 0), for every camera and optional clip-plane set, `flagVisibility` returns, and the
value it returns, which it also stores as `visiblePoints`, equals modulo `2 ^ 32` (it is
a `uint32_t`) the sum of `pointCount` over all the nodes of the structure that are
flagged INSIDE, or flagged INTERSECTING and accepted in full, after the pass; it equals
that sum itself whenever the sum is below `2 ^ 32`. -/
theorem flagVisibility_counts_flagged_nodes (lod : ccAbstractPointCloudLOD)
    (frustum : ccGLCameraParameters) (clipPlanes : Option ccClipPlaneSet)
    (hinit : lod.m_state = State.INITIALIZED) (h256 : lod.m_levels.length ≤ 256)
    (hwf : WellFormed lod.m_levels) (hup : UniqueParent lod.m_levels)
    (hcn : Connected lod.m_levels) (hcc : ChildCounted lod.m_levels) :
    ∃ lod' count, lod.flagVisibility frustum clipPlanes = some (lod', count) ∧
      lod'.m_currentState.visiblePoints = count ∧
      count = ((flaggedNodes lod.maxLevel lod'.m_levels).map (fun n => n.pointCount)).sum
        % 2 ^ 32 ∧
      (((flaggedNodes lod.maxLevel lod'.m_levels).map (fun n => n.pointCount)).sum < 2 ^ 32 →
        count = ((flaggedNodes lod.maxLevel lod'.m_levels).map (fun n => n.pointCount)).sum) := by
  have hroot : lod.root.isSome := by
    rw [root_isSome_iff, getNode_eq_levelNodes]
    have h1 := hcn.1
    cases hl : levelNodes lod.m_levels 0 with
    | nil => rw [hl] at h1; cases h1
    | cons x xs => simp
  obtain ⟨r, hfl, hfv⟩ := flagVisibility_returns lod frustum clipPlanes hwf hroot
  have hacc := accepted_children_nil lod hinit h256 hwf hcc
  have hcount := flag_count hwf hup
    (ccAbstractPointCloudLOD.passFlagger lod.resetVisibility frustum clipPlanes)
    (by rw [passFlagger_maxLevel]; exact hacc)
    lod.m_levels.length lod.resetVisibility.m_levels 0 0 r
    (sameShape_reset lod) (by omega) hfl
  rw [passFlagger_maxLevel] at hcount
  have hshape : SameShape lod.m_levels r.1 :=
    (flag_post hwf (sameShape_reset lod) (by omega) hfl).1
  have hperm := subtreeNodes_root_perm hwf hup hcn hshape
  rw [visibleSum_perm _ hperm] at hcount
  refine ⟨_, _, hfv, rfl, hcount, ?_⟩
  intro hlt
  rw [hcount]
  exact Nat.mod_eq_of_lt hlt

theorem flagVisibility_counts_flagged_nodes_witness :
    lodW.m_state = State.INITIALIZED ∧ lodW.m_levels.length ≤ 256 ∧
    WellFormed lodW.m_levels ∧ UniqueParent lodW.m_levels ∧ Connected lodW.m_levels ∧
    ChildCounted lodW.m_levels ∧
    (lodW.flagVisibility cameraInside none).map (fun r => r.2) = some 200 ∧
    (lodW.flagVisibility cameraMixed none).map (fun r => r.2) = some 60 ∧
    ∃ lod' count, lodW.flagVisibility cameraMixed none = some (lod', count) ∧
      lod'.m_currentState.visiblePoints = count ∧
      count = ((flaggedNodes lodW.maxLevel lod'.m_levels).map (fun n => n.pointCount)).sum
        % 2 ^ 32 ∧
      (((flaggedNodes lodW.maxLevel lod'.m_levels).map (fun n => n.pointCount)).sum < 2 ^ 32 →
        count = ((flaggedNodes lodW.maxLevel lod'.m_levels).map (fun n => n.pointCount)).sum) :=
  ⟨by decide, by decide, by decide, by decide, by decide, by decide, by decide, by decide,
    flagVisibility_counts_flagged_nodes lodW cameraMixed none (by decide) (by decide)
      (by decide) (by decide) (by decide) (by decide)⟩

/-- C5, counterexample. A root of `2 ^ 31` points inside the frustum with two children of
`2 ^ 30` points each (every `pointCount` fits its `uint32_t` field): the pass flags the
three nodes INSIDE, the sum of `pointCount` over the nodes flagged INSIDE or accepted as
INTERSECTING is `2 ^ 32`, and `flagVisibility`, which returns a `uint32_t`, returns 0. -/
theorem flagVisibility_sum_exceeds_uint32 :
    (lodWide.flagVisibility cameraInside none).map
      (fun r => (r.2, r.1.m_levels.map (fun l => l.data.map (fun n => n.intersection)),
        ((flaggedNodes r.1.maxLevel r.1.m_levels).map (fun n => n.pointCount)).sum)) =
      some (0, [[Intersection.INSIDE.code], [Intersection.INSIDE.code, Intersection.INSIDE.code]],
        4294967296) := by
  decide

/-- C8. After a visibility pass on a hierarchy that satisfies the data-model invariants (well
formed, one parent per node, a root), every node that has an ancestor flagged INSIDE is
itself flagged INSIDE, whatever the camera and the clip planes, hence whatever a geometric
test on the descendant itself would give. -/
theorem inside_flag_reaches_descendants (lod : ccAbstractPointCloudLOD) (frustum : ccGLCameraParameters)
    (clipPlanes : Option ccClipPlaneSet) (hwf : WellFormed lod.m_levels)
    (hup : UniqueParent lod.m_levels) (hroot : lod.root.isSome) :
    ∃ lod' count, lod.flagVisibility frustum clipPlanes = some (lod', count) ∧
      ∀ (L i : Nat) (a : Node) (L' i' : Nat) (n : Node),
        getNode lod'.m_levels L i = some a → a.intersection = Intersection.INSIDE.code →
        Desc lod'.m_levels L i L' i' → getNode lod'.m_levels L' i' = some n →
        n.intersection = Intersection.INSIDE.code := by
  obtain ⟨r, hfl, hfv⟩ := flagVisibility_returns lod frustum clipPlanes hwf hroot
  refine ⟨_, _, hfv, ?_⟩
  have hinv := flag_inv hwf hup _ lod.m_levels.length lod.resetVisibility.m_levels 0 0 r
    (sameShape_reset lod) (by omega) (insidePropagated_reset lod) (noInsideParent_root _ _) hfl
  intro L i a L' i' n ha hai hd hn
  exact hinv.desc ha hai hd n hn

theorem inside_flag_reaches_descendants_witness :
    WellFormed lodW.m_levels ∧ UniqueParent lodW.m_levels ∧ lodW.root.isSome ∧
    cameraRootOnly.sphereInFrustum (lodW_child 60 0 2).center (lodW_child 60 0 2).radius =
      Intersection.OUTSIDE ∧
    (lodW.flagVisibility cameraRootOnly none).map
      (fun r => r.1.m_levels.map (fun l => l.data.map (fun n => n.intersection))) =
      some [[Intersection.INSIDE.code], [Intersection.INSIDE.code, Intersection.INSIDE.code]] ∧
    ∃ lod' count, lodW.flagVisibility cameraRootOnly none = some (lod', count) ∧
      ∀ (L i : Nat) (a : Node) (L' i' : Nat) (n : Node),
        getNode lod'.m_levels L i = some a → a.intersection = Intersection.INSIDE.code →
        Desc lod'.m_levels L i L' i' → getNode lod'.m_levels L' i' = some n →
        n.intersection = Intersection.INSIDE.code :=
  ⟨by decide, by decide, by decide, by decide, by decide,
    inside_flag_reaches_descendants lodW cameraRootOnly none (by decide) (by decide) (by decide)⟩

/-- When nothing remains to display, `getIndexMap` returns an empty index map and leaves
the render progress record as it is. -/
theorem getIndexMap_allDisplayed (il : ccInternalPointCloudLOD) (level maxCount : Nat)
    (h : il.allDisplayed = true) :
    ∃ res, il.getIndexMap level maxCount = some res ∧ res.indexMap = [] ∧
      res.remainingPointsAtThisLevel = 0 ∧ res.lod.allDisplayed = true := by
  unfold ccInternalPointCloudLOD.getIndexMap
  cases il.m_levels[level]? with
  | none => exact ⟨_, rfl, rfl, rfl, h⟩
  | some l =>
    simp only [h, if_true]
    exact ⟨_, rfl, rfl, rfl, h⟩

/-- When nothing remains to display, every run of `getIndexMap` calls returns no index. -/
theorem runIndexMaps_allDisplayed (level : Nat) :
    ∀ (budgets : List Nat) (il : ccInternalPointCloudLOD), il.allDisplayed = true →
      ∃ r, ccInternalPointCloudLOD.runIndexMaps level il budgets = some r ∧ r.2 = [] := by
  intro budgets
  induction budgets with
  | nil =>
    intro il _
    exact ⟨(il, []), rfl, rfl⟩
  | cons b rest ih =>
    intro il h
    obtain ⟨res, hres, hmap, _, hall⟩ := getIndexMap_allDisplayed il level b h
    obtain ⟨r, hr, hacc⟩ := ih res.lod hall
    refine ⟨(r.1, res.indexMap ++ r.2), ?_, ?_⟩
    · simp only [ccInternalPointCloudLOD.runIndexMaps, hres, hr]
    · simp only [hmap, hacc, List.append_nil]

theorem classify_outside (F : ccGenericPointCloudLODVisibilityFlagger) (n : Node)
    (h : F.m_camera.sphereInFrustum n.center n.radius = Intersection.OUTSIDE) :
    F.classify n = Intersection.OUTSIDE := by
  unfold classify
  rw [h]

/-- C7. Whenever the camera frustum excludes the whole bounding sphere of the root node (of
a well-formed hierarchy), `flagVisibility` returns 0 and, after it, `getIndexMap` returns
an empty index sequence for every level and every budget `maxCount`, in a first call and
in every run of calls. -/
theorem root_outside_nothing_visible (il : ccInternalPointCloudLOD) (frustum : ccGLCameraParameters)
    (clipPlanes : Option ccClipPlaneSet) (r : Node) (hwf : WellFormed il.m_levels)
    (hroot : il.root = some r)
    (hout : frustum.sphereInFrustum r.center r.radius = Intersection.OUTSIDE) :
    ∃ il', il.flagVisibility frustum clipPlanes = some (il', 0) ∧
      (∀ (level maxCount : Nat), ∃ res, il'.getIndexMap level maxCount = some res ∧
        res.indexMap = []) ∧
      (∀ (level : Nat) (budgets : List Nat),
        ∃ r, ccInternalPointCloudLOD.runIndexMaps level il' budgets = some r ∧ r.2 = []) := by
  have hr : getNode il.m_levels 0 0 = some r := by
    have := hroot
    unfold ccAbstractPointCloudLOD.root at this
    rw [show (0 : Int) = ((0 : Nat) : Int) from rfl, node_eq_getNode] at this
    exact this
  have hr1 : getNode il.resetVisibility.m_levels 0 0 = some r.reset := by
    rw [getNode_reset, hr]
    rfl
  have hlen : 0 < il.m_levels.length := getNode_lt_length hr
  obtain ⟨k, hk⟩ : ∃ k, il.m_levels.length = k + 1 := ⟨il.m_levels.length - 1, by omega⟩
  have hcl : (ccAbstractPointCloudLOD.passFlagger il.resetVisibility frustum clipPlanes).classify
      r.reset = Intersection.OUTSIDE := by
    apply classify_outside
    rw [passFlagger_camera]
    exact hout
  obtain ⟨s', hs', _, _⟩ := propagateFlag_spec hwf Intersection.OUTSIDE.code (k + 1)
    il.resetVisibility.m_levels 0 0 (sameShape_reset _) (by simp [hr1]) (by omega)
  have hfl : (ccAbstractPointCloudLOD.passFlagger il.resetVisibility frustum clipPlanes).flag
      il.m_levels.length il.resetVisibility.m_levels 0 0 = some (s', 0) := by
    rw [hk, flag_unfold_outside _ k _ 0 0 r.reset hr1 hcl, hs']
    rfl
  have hfv : il.toccAbstractPointCloudLOD.flagVisibility frustum clipPlanes =
      some ({ il.resetVisibility with
              m_levels := s'
              m_currentState := { il.resetVisibility.m_currentState with visiblePoints := 0 } },
            0) := by
    rw [flagVisibility_eq, hfl]
    rfl
  refine ⟨{ il with toccAbstractPointCloudLOD :=
      { il.resetVisibility with
        m_levels := s'
        m_currentState := { il.resetVisibility.m_currentState with visiblePoints := 0 } } },
    ?_, ?_, ?_⟩
  · unfold ccInternalPointCloudLOD.flagVisibility
    rw [hfv]
  · intro level maxCount
    obtain ⟨res, h1, h2, _⟩ := getIndexMap_allDisplayed
      { il with toccAbstractPointCloudLOD :=
          { il.resetVisibility with
            m_levels := s'
            m_currentState := { il.resetVisibility.m_currentState with visiblePoints := 0 } } }
      level maxCount rfl
    exact ⟨res, h1, h2⟩
  · intro level budgets
    exact runIndexMaps_allDisplayed level budgets _ rfl

theorem root_outside_nothing_visible_witness :
    WellFormed internalW.m_levels ∧ internalW.root = some lodW_root ∧
    cameraOutside.sphereInFrustum lodW_root.center lodW_root.radius = Intersection.OUTSIDE ∧
    ∃ il', internalW.flagVisibility cameraOutside none = some (il', 0) ∧
      (∀ (level maxCount : Nat), ∃ res, il'.getIndexMap level maxCount = some res ∧
        res.indexMap = []) ∧
      (∀ (level : Nat) (budgets : List Nat),
        ∃ r, ccInternalPointCloudLOD.runIndexMaps level il' budgets = some r ∧ r.2 = []) :=
  ⟨by decide, by decide, by decide,
    root_outside_nothing_visible internalW cameraOutside none lodW_root (by decide) (by decide) (by decide)⟩

/-! ## Index map: auxiliary facts -/

theorem map_range_take {α : Type} (f : Nat → α) (n k : Nat) :
    ((List.range n).map f).take k = (List.range (min k n)).map f := by
  rw [← List.map_take, List.take_range]

theorem map_range_drop {α : Type} (f : Nat → α) (n k : Nat) :
    ((List.range n).map f).drop k = (List.range (n - k)).map (fun j => f (k + j)) := by
  apply List.ext_getElem?
  intro i
  simp only [List.getElem?_drop, List.getElem?_map]
  by_cases h : k + i < n
  · rw [List.getElem?_range h, List.getElem?_range (by omega)]
    rfl
  · rw [List.getElem?_eq_none (by simp; omega), List.getElem?_eq_none (by simp; omega)]
    rfl

theorem skeleton_sansDisplayed (n : Node) : n.sansDisplayed.skeleton = n.skeleton := rfl

theorem sansDisplayed_fields {n m : Node} (h : n.sansDisplayed = m.sansDisplayed) :
    n.pointCount = m.pointCount ∧ n.firstCodeIndex = m.firstCodeIndex ∧
    n.childCount = m.childCount ∧ n.intersection = m.intersection ∧
    n.children = m.children ∧ childLevel n = childLevel m ∧ n.skeleton = m.skeleton := by
  cases n; cases m
  simp only [Node.sansDisplayed, Node.mk.injEq] at h
  simp_all [Node.children, childLevel, Node.skeleton]

theorem SameFlags.same (t : List Level) : SameFlags t t := ⟨rfl, fun _ _ => rfl⟩

theorem SameFlags.andThen {a b c : List Level} (h1 : SameFlags a b) (h2 : SameFlags b c) :
    SameFlags a c := ⟨h2.1.trans h1.1, fun L i => (h2.2 L i).trans (h1.2 L i)⟩

theorem SameFlags.lookup {a b : List Level} (h : SameFlags a b) {L i : Nat} {n : Node}
    (hn : getNode a L i = some n) :
    ∃ m, getNode b L i = some m ∧ m.sansDisplayed = n.sansDisplayed := by
  have := h.2 L i
  rw [hn] at this
  cases hb : getNode b L i with
  | none => rw [hb] at this; simp at this
  | some m =>
    rw [hb] at this
    exact ⟨m, rfl, by simpa using this⟩

theorem SameFlags.isSome {a b : List Level} (h : SameFlags a b) {L i : Nat}
    (hn : (getNode a L i).isSome) : (getNode b L i).isSome := by
  cases hg : getNode a L i with
  | none => rw [hg] at hn; simp at hn
  | some n =>
    obtain ⟨m, hm, _⟩ := h.lookup hg
    simp [hm]

theorem SameFlags.sameShape {levels a b : List Level} (hs : SameShape levels a)
    (h : SameFlags a b) : SameShape levels b := by
  intro L i
  rw [← hs L i]
  have := congrArg (Option.map Node.skeleton) (h.2 L i)
  simp only [Option.map_map] at this
  exact this

theorem getNode_addDisplayed (s : List Level) (L i k L' i' : Nat) :
    getNode (addDisplayed s L i k) L' i' =
      if L' = L ∧ i' = i then
        (getNode s L i).map (fun n => n.withDisplayed (n.displayedPointCount + k))
      else getNode s L' i' := by
  unfold addDisplayed
  cases hg : getNode s L i with
  | none =>
    by_cases hc : L' = L ∧ i' = i
    · obtain ⟨rfl, rfl⟩ := hc
      simp [hg]
    · simp [hc]
  | some n =>
    simp only [getNode_setNode, hg, Option.map_some']

theorem sameFlags_addDisplayed (s : List Level) (L i k : Nat) :
    SameFlags s (addDisplayed s L i k) := by
  constructor
  · unfold addDisplayed
    cases getNode s L i with
    | none => rfl
    | some n => exact length_setNode _ _ _ _
  · intro L' i'
    rw [getNode_addDisplayed]
    by_cases hc : L' = L ∧ i' = i
    · obtain ⟨rfl, rfl⟩ := hc
      simp only [and_self, if_true]
      cases getNode s L' i' <;> rfl
    · simp [hc]

theorem pendingOver_nil (pending : Nat → List Nat) (t : List Level) (level : Nat) :
    pendingOver pending t level [] = [] := rfl

theorem pendingOver_cons (pending : Nat → List Nat) (t : List Level) (level c : Nat)
    (cs : List Nat) :
    pendingOver pending t level (c :: cs) =
      (match getNode t level c with
        | none => []
        | some n => if n.intersection = Intersection.OUTSIDE.code then [] else pending c) ++
      pendingOver pending t level cs := rfl

/-- The pending indexes of a list of nodes depend only on the flags of these nodes and on
their own pending indexes. -/
theorem pendingOver_congr (p q : Nat → List Nat) (a b : List Level) (level : Nat)
    (cs : List Nat) (hg : ∀ c ∈ cs, getNode a level c = getNode b level c)
    (hp : ∀ c ∈ cs, p c = q c) : pendingOver p a level cs = pendingOver q b level cs := by
  unfold pendingOver
  apply flatMap_congr_mem
  intro c hc
  rw [hg c hc, hp c hc]

/-- The pending indexes of a node depend only on the node and its descendants. -/
theorem pendingIndexes_congr {levels : List Level} (hwf : WellFormed levels) (codes : List Nat) :
    ∀ (fuel : Nat) (a b : List Level) (L i : Nat), SameShape levels a →
      (∀ L' i', Desc levels L i L' i' → getNode a L' i' = getNode b L' i') →
      pendingIndexes codes fuel a L i = pendingIndexes codes fuel b L i := by
  intro fuel
  induction fuel with
  | zero => intro a b L i _ _; rfl
  | succ fuel ih =>
    intro a b L i ha hag
    have h0 := hag L i (Desc.refl _ _)
    cases hn : getNode a L i with
    | none =>
      rw [hn] at h0
      simp only [pendingIndexes, hn, ← h0]
    | some n =>
      rw [hn] at h0
      simp only [pendingIndexes, hn, ← h0]
      obtain ⟨n0, hn0, hsk⟩ := ha.get' hn
      by_cases hcc : n.childCount ≠ 0
      · rw [if_pos hcc, if_pos hcc]
        apply pendingOver_congr
        · intro c hc
          rw [hwf.childLevel ha hn hc]
          apply hag
          rw [← skeleton_children hsk] at hc
          exact Desc.child hn0 hc
        · intro c hc
          rw [hwf.childLevel ha hn hc]
          apply ih a b (L + 1) c ha
          intro L' i' hd
          apply hag
          rw [← skeleton_children hsk] at hc
          exact Desc.head hn0 hc hd
      · rw [if_neg hcc, if_neg hcc]

/-! ## Index map: serving the nodes of a level -/

theorem serveNode_outside
    (call : List Level × LODIndexSet → Nat → Nat → Option ((List Level × LODIndexSet) × Nat))
    (level count : Nat) (t : (List Level × LODIndexSet) × Nat) (c : Nat) (n : Node)
    (hn : getNode t.1.1 level c = some n) (ho : n.intersection = Intersection.OUTSIDE.code) :
    serveNode call level count t c = some t := by
  simp only [serveNode, hn, ho, if_true]

theorem serveNode_call
    (call : List Level × LODIndexSet → Nat → Nat → Option ((List Level × LODIndexSet) × Nat))
    (level count : Nat) (t : (List Level × LODIndexSet) × Nat) (c : Nat) (n : Node)
    (hn : getNode t.1.1 level c = some n) (ho : n.intersection ≠ Intersection.OUTSIDE.code)
    (r : (List Level × LODIndexSet) × Nat) (hr : call t.1 c (count - t.2) = some r) :
    serveNode call level count t c = some (r.1, t.2 + r.2) := by
  simp only [serveNode, hn, ho, if_false, hr]

theorem take_append_min {α : Type} (e p : List α) (n : Nat) :
    (e ++ p).take n = e.take n ++ p.take (n - min n e.length) := by
  rw [List.take_append_eq_append_take]
  congr 2
  omega

theorem drop_append_min {α : Type} (e p : List α) (n : Nat) :
    (e ++ p).drop n = e.drop n ++ p.drop (n - min n e.length) := by
  rw [List.drop_append_eq_append_drop]
  congr 2
  omega

/-- Serving the nodes of a list in turn adds the first pending indexes of the list, as
many as the budget left allows, and leaves the rest pending. -/
theorem serve_loop {levels : List Level} (hwf : WellFormed levels) (hup : UniqueParent levels)
    (codes : List Nat) (fuel level count : Nat)
    (call : List Level × LODIndexSet → Nat → Nat → Option ((List Level × LODIndexSet) × Nat)) :
    ∀ (cs : List Nat), cs.Nodup → (∀ c ∈ cs, Serves levels codes fuel level call c) →
      ∀ (t : List Level) (im : LODIndexSet) (done : Nat), SameShape levels t →
        (∀ c ∈ cs, (getNode t level c).isSome) → done ≤ count →
        ∃ t', forEach (serveNode call level count) ((t, im), done) cs =
            some ((t', im ++ (pendingOver (fun c => pendingIndexes codes fuel t level c)
                    t level cs).take (count - done)),
                  done + min (count - done)
                    (pendingOver (fun c => pendingIndexes codes fuel t level c)
                      t level cs).length) ∧
          SameFlags t t' ∧
          (∀ L' i', (¬ ∃ c ∈ cs, Desc levels level c L' i') →
            getNode t' L' i' = getNode t L' i') ∧
          pendingOver (fun c => pendingIndexes codes fuel t' level c) t' level cs =
            (pendingOver (fun c => pendingIndexes codes fuel t level c) t level cs).drop
              (count - done) := by
  intro cs
  induction cs with
  | nil =>
    intro _ _ t im done _ _ _
    refine ⟨t, ?_, SameFlags.same t, fun _ _ _ => rfl, ?_⟩
    · simp [forEach, pendingOver_nil]
    · simp [pendingOver_nil]
  | cons c cs ih =>
    intro hnd hserve t im done ht hex hdone
    have hnd' := (List.nodup_cons.mp hnd)
    have hsome := hex c (List.mem_cons_self _ _)
    cases hn : getNode t level c with
    | none => rw [hn] at hsome; simp at hsome
    | some n =>
      -- pending indexes of the other nodes are not affected by what happens below `c`
      have others : ∀ (a b : List Level), SameShape levels a →
          (∀ L' i', ¬ Desc levels level c L' i' → getNode b L' i' = getNode a L' i') →
          pendingOver (fun c => pendingIndexes codes fuel b level c) b level cs =
            pendingOver (fun c => pendingIndexes codes fuel a level c) a level cs := by
        intro a b ha hab
        have hne : ∀ c' ∈ cs, ∀ L' i', Desc levels level c' L' i' →
            ¬ Desc levels level c L' i' := by
          intro c' hc' L' i' hd' hd
          have : c = c' := Desc.unique hup hd hd'
          subst this
          exact hnd'.1 hc'
        symm
        apply pendingOver_congr
        · intro c' hc'
          exact (hab _ _ (hne c' hc' _ _ (Desc.refl _ _))).symm
        · intro c' hc'
          apply pendingIndexes_congr hwf codes fuel a b level c' ha
          intro L' i' hd'
          exact (hab _ _ (hne c' hc' _ _ hd')).symm
      -- the pending indexes below `c` are not affected by what happens below the others
      have self : ∀ (a b : List Level), SameShape levels a →
          (∀ L' i', (¬ ∃ c' ∈ cs, Desc levels level c' L' i') →
            getNode b L' i' = getNode a L' i') →
          getNode b level c = getNode a level c ∧
          pendingIndexes codes fuel b level c = pendingIndexes codes fuel a level c := by
        intro a b ha hab
        have hne : ∀ L' i', Desc levels level c L' i' →
            ¬ ∃ c' ∈ cs, Desc levels level c' L' i' := by
          rintro L' i' hd ⟨c', hc', hd'⟩
          have : c = c' := Desc.unique hup hd hd'
          subst this
          exact hnd'.1 hc'
        refine ⟨hab _ _ (hne _ _ (Desc.refl _ _)), ?_⟩
        symm
        apply pendingIndexes_congr hwf codes fuel a b level c ha
        intro L' i' hd
        exact (hab _ _ (hne _ _ hd)).symm
      by_cases ho : n.intersection = Intersection.OUTSIDE.code
      · -- the node is skipped
        obtain ⟨t', hfe, hsf, hfr, hpend⟩ :=
          ih hnd'.2 (fun c' hc' => hserve c' (List.mem_cons_of_mem _ hc')) t im done ht
            (fun c' hc' => hex c' (List.mem_cons_of_mem _ hc')) hdone
        obtain ⟨n', hn', hsd⟩ := hsf.lookup hn
        have ho' : n'.intersection = Intersection.OUTSIDE.code := by
          rw [(sansDisplayed_fields hsd).2.2.2.1]
          exact ho
        refine ⟨t', ?_, hsf, ?_, ?_⟩
        · rw [forEach_cons_some]
          refine ⟨((t, im), done), serveNode_outside _ _ _ _ _ n hn ho, ?_⟩
          rw [hfe, pendingOver_cons, hn]
          simp [ho]
        · intro L' i' hex'
          apply hfr
          rintro ⟨c', hc', hd'⟩
          exact hex' ⟨c', List.mem_cons_of_mem _ hc', hd'⟩
        · rw [pendingOver_cons, pendingOver_cons, hn, hn']
          simp only [ho, ho', if_true, List.nil_append]
          exact hpend
      · -- the node is served
        obtain ⟨t1, hcall, hsf1, hfr1, hpend1⟩ :=
          hserve c (List.mem_cons_self _ _) t im (count - done) ht hsome
        have ht1 : SameShape levels t1 := hsf1.sameShape ht
        have hex1 : ∀ c' ∈ cs, (getNode t1 level c').isSome := fun c' hc' =>
          hsf1.isSome (hex c' (List.mem_cons_of_mem _ hc'))
        obtain ⟨t', hfe, hsf, hfr, hpend⟩ :=
          ih hnd'.2 (fun c' hc' => hserve c' (List.mem_cons_of_mem _ hc')) t1
            (im ++ (pendingIndexes codes fuel t level c).take (count - done))
            (done + min (count - done) (pendingIndexes codes fuel t level c).length) ht1 hex1
            (by omega)
        have hoth := others t t1 ht hfr1
        obtain ⟨hself1, hself2⟩ := self t1 t' ht1 hfr
        obtain ⟨n1, hn1, hsd1⟩ := hsf1.lookup hn
        have ho1 : n1.intersection ≠ Intersection.OUTSIDE.code := by
          rw [(sansDisplayed_fields hsd1).2.2.2.1]
          exact ho
        refine ⟨t', ?_, hsf1.andThen hsf, ?_, ?_⟩
        · rw [forEach_cons_some]
          refine ⟨_, serveNode_call _ _ _ _ _ n hn ho _ hcall, ?_⟩
          rw [hfe, hoth, pendingOver_cons, hn]
          simp only [ho, if_false]
          rw [take_append_min, List.length_append]
          congr 2
          · congr 1
            · rw [List.append_assoc]
              congr 2
              congr 1
              omega
          · omega
        · intro L' i' hex'
          have h1 : ¬ ∃ c' ∈ cs, Desc levels level c' L' i' := by
            rintro ⟨c', hc', hd'⟩
            exact hex' ⟨c', List.mem_cons_of_mem _ hc', hd'⟩
          have h2 : ¬ Desc levels level c L' i' := fun hd =>
            hex' ⟨c, List.mem_cons_self _ _, hd⟩
          rw [hfr _ _ h1]
          exact hfr1 _ _ h2
        · rw [pendingOver_cons, pendingOver_cons, hn, hself1, hn1]
          simp only [ho, ho1, if_false]
          rw [hself2, hpend1, hpend, hoth, drop_append_min]
          congr 2
          omega

/-! ## Index map: `addNPointsToIndexMap` -/

theorem pendingIndexes_leaf (codes : List Nat) (fuel : Nat) {t : List Level} {L i : Nat}
    {n : Node} (hn : getNode t L i = some n) (hcc : ¬ n.childCount ≠ 0) :
    pendingIndexes codes (fuel + 1) t L i =
      (List.range (n.pointCount - n.displayedPointCount)).map
        (fun j => codes.getD (n.firstCodeIndex + n.displayedPointCount + j) 0) := by
  simp only [pendingIndexes, hn]
  rw [if_neg hcc]

theorem pendingIndexes_inner (codes : List Nat) (fuel : Nat) {t : List Level} {L i : Nat}
    {n : Node} (hn : getNode t L i = some n) (hcc : n.childCount ≠ 0) :
    pendingIndexes codes (fuel + 1) t L i =
      pendingOver (fun c => pendingIndexes codes fuel t (childLevel n) c)
        t (childLevel n) n.children := by
  simp only [pendingIndexes, hn]
  rw [if_pos hcc]

theorem addN_leaf (codes : List Nat) (fuel : Nat) {t : List Level} (im : LODIndexSet)
    {L i : Nat} (count : Nat) {n : Node} (hn : getNode t L i = some n)
    (hcc : ¬ n.childCount ≠ 0) :
    addNPointsToIndexMap codes (fuel + 1) (t, im) L i count =
      some ((addDisplayed t L i (min count (n.pointCount - n.displayedPointCount)),
             im ++ (List.range (min count (n.pointCount - n.displayedPointCount))).map
               (fun j => codes.getD (n.firstCodeIndex + n.displayedPointCount + j) 0)),
            min count (n.pointCount - n.displayedPointCount)) := by
  simp only [addNPointsToIndexMap, hn]
  rw [if_neg hcc]

theorem addN_inner (codes : List Nat) (fuel : Nat) {t : List Level} (im : LODIndexSet)
    {L i : Nat} (count : Nat) {n : Node} (hn : getNode t L i = some n)
    (hcc : n.childCount ≠ 0) :
    addNPointsToIndexMap codes (fuel + 1) (t, im) L i count =
      (forEach
          (serveNode (fun t c k => addNPointsToIndexMap codes fuel t (childLevel n) c k)
            (childLevel n) count)
          ((t, im), 0) n.children).map
        (fun r => ((addDisplayed r.1.1 L i r.2, r.1.2), r.2)) := by
  simp only [addNPointsToIndexMap, hn]
  rw [if_pos hcc]
  cases forEach
      (serveNode (fun t c k => addNPointsToIndexMap codes fuel t (childLevel n) c k)
        (childLevel n) count)
      ((t, im), 0) n.children <;> rfl

/-- On a well-formed hierarchy with unique parents, `addNPointsToIndexMap` serves every
node: it adds the first pending indexes of the node, as many as the budget allows. -/
theorem addN_serves {levels : List Level} (hwf : WellFormed levels) (hup : UniqueParent levels)
    (codes : List Nat) :
    ∀ (fuel level c : Nat), levels.length ≤ level + fuel →
      Serves levels codes fuel level
        (fun t i k => addNPointsToIndexMap codes fuel t level i k) c := by
  intro fuel
  induction fuel with
  | zero =>
    intro level c hlen t im count ht hsome
    cases hn : getNode t level c with
    | none => rw [hn] at hsome; simp at hsome
    | some n =>
      have := exists_lt_length ht hn
      omega
  | succ fuel ih =>
    intro level c hlen t im count ht hsome
    cases hn : getNode t level c with
    | none => rw [hn] at hsome; simp at hsome
    | some n =>
      by_cases hcc : n.childCount ≠ 0
      · -- the node dispatches among its children
        obtain ⟨n0, hn0, hsk0⟩ := ht.get' hn
        have hnd : n.children.Nodup := by
          rw [← skeleton_children hsk0]
          exact hup.nodup hn0
        by_cases hE : n.children = []
        · refine ⟨addDisplayed t level c 0, ?_, sameFlags_addDisplayed _ _ _ _, ?_, ?_⟩
          · simp only [addN_inner codes fuel im count hn hcc, hE, forEach, Option.map_some',
              pendingIndexes_inner codes fuel hn hcc, pendingOver_nil]
            simp
          · intro L' i' hd
            rw [getNode_addDisplayed, if_neg]
            rintro ⟨rfl, rfl⟩
            exact hd (Desc.refl _ _)
          · obtain ⟨n', hn', hsd'⟩ := (sameFlags_addDisplayed t level c 0).lookup hn
            have hf := sansDisplayed_fields hsd'
            have hcc' : n'.childCount ≠ 0 := by rw [hf.2.2.1]; exact hcc
            rw [pendingIndexes_inner codes fuel hn' hcc', pendingIndexes_inner codes fuel hn hcc,
              hf.2.2.2.2.1, hE]
            simp [pendingOver_nil]
        · obtain ⟨c0, hc0⟩ := List.exists_mem_of_ne_nil _ hE
          have hcl : childLevel n = level + 1 := hwf.childLevel ht hn hc0
          have hserve : ∀ c' ∈ n.children, Serves levels codes fuel (level + 1)
              (fun t i k => addNPointsToIndexMap codes fuel t (level + 1) i k) c' :=
            fun c' _ => ih (level + 1) c' (by omega)
          have hex : ∀ c' ∈ n.children, (getNode t (level + 1) c').isSome := by
            intro c' hc'
            obtain ⟨k, hk⟩ := hwf.child_exists ht ht hn hc'
            simp [hk]
          obtain ⟨t', hfe, hsf, hfr, hpend⟩ :=
            serve_loop hwf hup codes fuel (level + 1) count _ n.children hnd hserve t im 0 ht hex
              (Nat.zero_le _)
          simp only [Nat.sub_zero, Nat.zero_add] at hfe hpend
          have hfinal : SameFlags t (addDisplayed t' level c
              (min count (pendingOver (fun c => pendingIndexes codes fuel t (level + 1) c)
                t (level + 1) n.children).length)) :=
            hsf.andThen (sameFlags_addDisplayed _ _ _ _)
          refine ⟨_, ?_, hfinal, ?_, ?_⟩
          · show addNPointsToIndexMap codes (fuel + 1) (t, im) level c count = _
            rw [addN_inner codes fuel im count hn hcc, hcl, hfe,
              pendingIndexes_inner codes fuel hn hcc, hcl]
            rfl
          · intro L' i' hd
            have hne : ¬ (L' = level ∧ i' = c) := by
              rintro ⟨rfl, rfl⟩
              exact hd (Desc.refl _ _)
            rw [getNode_addDisplayed, if_neg hne]
            apply hfr
            rintro ⟨c', hc', hd'⟩
            rw [← skeleton_children hsk0] at hc'
            exact hd (Desc.head hn0 hc' hd')
          · obtain ⟨n', hn', hsd'⟩ := hfinal.lookup hn
            have hf := sansDisplayed_fields hsd'
            have hcc' : n'.childCount ≠ 0 := by rw [hf.2.2.1]; exact hcc
            rw [pendingIndexes_inner codes fuel hn' hcc', pendingIndexes_inner codes fuel hn hcc,
              hf.2.2.2.2.1, hf.2.2.2.2.2.1, hcl, ← hpend]
            have hsame : ∀ L' i', L' ≠ level →
                getNode (addDisplayed t' level c
                  (min count (pendingOver (fun c => pendingIndexes codes fuel t (level + 1) c)
                    t (level + 1) n.children).length)) L' i' = getNode t' L' i' := by
              intro L' i' hne
              rw [getNode_addDisplayed, if_neg]
              rintro ⟨rfl, _⟩
              exact hne rfl
            apply pendingOver_congr
            · intro c' _
              exact hsame _ _ (by omega)
            · intro c' _
              symm
              apply pendingIndexes_congr hwf codes fuel t' _ (level + 1) c' (hsf.sameShape ht)
              intro L' i' hd'
              have := hd'.level.1
              exact (hsame _ _ (by omega)).symm
      · -- the node has no child: it emits its own points
        refine ⟨addDisplayed t level c (min count (n.pointCount - n.displayedPointCount)), ?_,
          sameFlags_addDisplayed _ _ _ _, ?_, ?_⟩
        · show addNPointsToIndexMap codes (fuel + 1) (t, im) level c count = _
          rw [addN_leaf codes fuel im count hn hcc, pendingIndexes_leaf codes fuel hn hcc,
            map_range_take]
          simp
        · intro L' i' hd
          rw [getNode_addDisplayed, if_neg]
          rintro ⟨rfl, rfl⟩
          exact hd (Desc.refl _ _)
        · have hn' : getNode (addDisplayed t level c
              (min count (n.pointCount - n.displayedPointCount))) level c =
              some (n.withDisplayed
                (n.displayedPointCount + min count (n.pointCount - n.displayedPointCount))) := by
            rw [getNode_addDisplayed, if_pos ⟨rfl, rfl⟩, hn]
            rfl
          rw [pendingIndexes_leaf codes fuel hn' hcc, pendingIndexes_leaf codes fuel hn hcc,
            map_range_drop]
          simp only [Node.withDisplayed]
          by_cases hB : count ≤ n.pointCount - n.displayedPointCount
          · rw [Nat.min_eq_left hB]
            have h1 : n.pointCount - (n.displayedPointCount + count) =
                n.pointCount - n.displayedPointCount - count := by omega
            rw [h1]
            apply List.map_congr_left
            intro j _
            congr 1
            omega
          · have h1 : n.pointCount - (n.displayedPointCount +
                min count (n.pointCount - n.displayedPointCount)) = 0 := by omega
            have h2 : n.pointCount - n.displayedPointCount - count = 0 := by omega
            rw [h1, h2]
            rfl

/-! ## Index map: `getIndexMap` -/

theorem WellFormed.of_sameShape {a b : List Level} (h : WellFormed a) (hs : SameShape a b) :
    WellFormed b := by
  intro L _ l hl n hn
  obtain ⟨i, hi⟩ := List.mem_iff_getElem?.mp hn
  have hg : getNode b L i = some n := getNode_eq_some.mpr ⟨l, hl, hi⟩
  obtain ⟨h1, h2, h3⟩ := h.node_shape hs hg
  exact ⟨h1, by omega, h3⟩

theorem UniqueParent.transfer {a b : List Level} (h : UniqueParent a) (hs : SameShape a b) :
    UniqueParent b := by
  intro l hl
  obtain ⟨L, hL⟩ := List.mem_iff_getElem?.mp hl
  rw [List.nodup_flatMap]
  constructor
  · intro n hn
    obtain ⟨i, hi⟩ := List.mem_iff_getElem?.mp hn
    have hg : getNode b L i = some n := getNode_eq_some.mpr ⟨l, hL, hi⟩
    obtain ⟨n0, hn0, hsk⟩ := hs.get' hg
    rw [← skeleton_children hsk]
    exact h.nodup hn0
  · rw [List.pairwise_iff_getElem]
    intro i j hi hj hij
    simp only [Function.onFun]
    rw [List.disjoint_left]
    intro c hc1 hc2
    have hgi : getNode b L i = some l.data[i] :=
      getNode_eq_some.mpr ⟨l, hL, List.getElem?_eq_getElem hi⟩
    have hgj : getNode b L j = some l.data[j] :=
      getNode_eq_some.mpr ⟨l, hL, List.getElem?_eq_getElem hj⟩
    have := parent_unique h hs hs hgi hgj hc1 hc2
    omega

theorem SameFlags.levelData {a b : List Level} (h : SameFlags a b) {L : Nat} {l : Level}
    (hl : a[L]? = some l) : ∃ l', b[L]? = some l' ∧ l'.data.length = l.data.length := by
  have hlt : L < a.length := (List.getElem?_eq_some.mp hl).1
  have hlt' : L < b.length := by rw [h.1]; exact hlt
  refine ⟨b[L], List.getElem?_eq_getElem hlt', ?_⟩
  have hb : b[L]? = some b[L] := List.getElem?_eq_getElem hlt'
  have key : ∀ i, i < (b[L]).data.length ↔ i < l.data.length := by
    intro i
    have h2 := h.2 L i
    simp only [getNode, hl, hb] at h2
    constructor
    · intro hi
      rw [List.getElem?_eq_getElem hi] at h2
      by_contra hc
      rw [List.getElem?_eq_none (by omega)] at h2
      simp at h2
    · intro hi
      rw [List.getElem?_eq_getElem hi] at h2
      by_contra hc
      rw [List.getElem?_eq_none (by omega)] at h2
      simp at h2
  rcases Nat.lt_trichotomy (b[L]).data.length l.data.length with h1 | h1 | h1
  · have := (key _).mpr h1
    omega
  · exact h1
  · have := (key _).mp h1
    omega

theorem take_chunks {α : Type} (P : List α) (b rest V D : Nat) :
    P.take (min b (V - D)) ++
      (P.drop (min b (V - D))).take (min rest (V - (D + min (min b (V - D)) P.length))) =
    P.take (min (b + rest) (V - D)) := by
  rw [← List.take_add]
  by_cases hP : min b (V - D) ≤ P.length
  · congr 1
    omega
  · rw [List.take_of_length_le (by omega), List.take_of_length_le (by omega)]

/-- What a call of `getIndexMap` does on a well-formed hierarchy with unique parents: it
returns the first pending indexes of the level, as many as the budget and the number of
visible points not yet displayed allow; these are no longer pending afterwards; only
displayed counts change. -/
theorem getIndexMap_spec (il : ccInternalPointCloudLOD) (level maxCount : Nat)
    (hwf : WellFormed il.m_levels) (hup : UniqueParent il.m_levels) :
    ∃ res, il.getIndexMap level maxCount = some res ∧
      res.indexMap = (pendingAtLevel il.m_octree il.m_levels level).take
        (min maxCount (il.m_currentState.visiblePoints - il.m_currentState.displayedPoints)) ∧
      pendingAtLevel res.lod.m_octree res.lod.m_levels level =
        (pendingAtLevel il.m_octree il.m_levels level).drop
          (min maxCount (il.m_currentState.visiblePoints - il.m_currentState.displayedPoints)) ∧
      res.lod.m_currentState.visiblePoints = il.m_currentState.visiblePoints ∧
      res.lod.m_currentState.displayedPoints = il.m_currentState.displayedPoints +
        min (min maxCount (il.m_currentState.visiblePoints - il.m_currentState.displayedPoints))
          (pendingAtLevel il.m_octree il.m_levels level).length ∧
      SameFlags il.m_levels res.lod.m_levels ∧
      res.lod.getLasIndexMap = res.indexMap := by
  unfold ccInternalPointCloudLOD.getIndexMap
  cases hl : il.m_levels[level]? with
  | none =>
    refine ⟨_, rfl, ?_, ?_, rfl, ?_, SameFlags.same _, rfl⟩
    · simp [pendingAtLevel, hl]
    · simp [pendingAtLevel, hl]
    · simp [pendingAtLevel, hl]
  | some l =>
    by_cases had : il.allDisplayed = true
    · have hz : il.m_currentState.visiblePoints - il.m_currentState.displayedPoints = 0 := by
        unfold ccAbstractPointCloudLOD.allDisplayed at had
        simp only [ge_iff_le, decide_eq_true_eq] at had
        omega
      simp only [had, if_true]
      refine ⟨_, rfl, ?_, ?_, rfl, ?_, SameFlags.same _, rfl⟩
      · simp [hz]
      · simp [hz]
      · simp [hz]
    · simp only [had, Bool.false_eq_true, if_false]
      have hserve : ∀ c ∈ List.range l.data.length,
          Serves il.m_levels il.m_octree (il.m_levels.length - level) level
            (fun t i k => addNPointsToIndexMap il.m_octree (il.m_levels.length - level) t level i k)
            c :=
        fun c _ => addN_serves hwf hup il.m_octree _ level c (by omega)
      have hex : ∀ c ∈ List.range l.data.length, (getNode il.m_levels level c).isSome := by
        intro c hc
        simp only [getNode, hl]
        rw [List.getElem?_eq_getElem (List.mem_range.mp hc)]
        rfl
      obtain ⟨t', hfe, hsf, _, hpend⟩ :=
        serve_loop hwf hup il.m_octree (il.m_levels.length - level) level
          (min maxCount (il.m_currentState.visiblePoints - il.m_currentState.displayedPoints))
          _ (List.range l.data.length) (List.nodup_range _) hserve il.m_levels [] 0
          (SameShape.refl _) hex (Nat.zero_le _)
      simp only [Nat.sub_zero, Nat.zero_add, List.nil_append] at hfe hpend
      rw [hfe]
      have hP : pendingAtLevel il.m_octree il.m_levels level =
          pendingOver (fun i => pendingIndexes il.m_octree (il.m_levels.length - level)
            il.m_levels level i) il.m_levels level (List.range l.data.length) := by
        simp only [pendingAtLevel, hl]
      obtain ⟨l', hl', hlen'⟩ := hsf.levelData hl
      have hP' : pendingAtLevel il.m_octree t' level =
          pendingOver (fun i => pendingIndexes il.m_octree (il.m_levels.length - level)
            t' level i) t' level (List.range l.data.length) := by
        simp only [pendingAtLevel, hl', hlen', hsf.1]
      refine ⟨_, rfl, ?_, ?_, rfl, ?_, hsf, rfl⟩
      · simp only [hP]
      · simp only [hP, hP', hpend]
      · simp only [hP]

/-- The indexes returned by a run of calls are the first pending indexes of the level, as
many as the sum of the budgets and the number of visible points not yet displayed allow. -/
theorem runIndexMaps_spec (level : Nat) :
    ∀ (budgets : List Nat) (il : ccInternalPointCloudLOD), WellFormed il.m_levels →
      UniqueParent il.m_levels →
      ∃ r, ccInternalPointCloudLOD.runIndexMaps level il budgets = some r ∧
        r.2 = (pendingAtLevel il.m_octree il.m_levels level).take
          (min budgets.sum
            (il.m_currentState.visiblePoints - il.m_currentState.displayedPoints)) := by
  intro budgets
  induction budgets with
  | nil =>
    intro il _ _
    exact ⟨(il, []), rfl, by simp⟩
  | cons b rest ih =>
    intro il hwf hup
    obtain ⟨res, hres, hmap, hpend, hV, hD, hsf, _⟩ := getIndexMap_spec il level b hwf hup
    have hshape : SameShape il.m_levels res.lod.m_levels := hsf.sameShape (SameShape.refl _)
    obtain ⟨r, hr, hacc⟩ :=
      ih res.lod (hwf.of_sameShape hshape) (hup.transfer hshape)
    refine ⟨(r.1, res.indexMap ++ r.2), ?_, ?_⟩
    · simp only [ccInternalPointCloudLOD.runIndexMaps, hres, hr]
    · simp only [hacc, hmap, hpend, hV, hD, List.sum_cons]
      exact take_chunks _ _ _ _ _

/-- One call of `getIndexMap` on a structure made of a single node without children. -/
theorem getIndexMap_single_leaf (il : ccInternalPointCloudLOD) (m : Node) (maxCount : Nat)
    (hlv : il.m_levels = [⟨[m]⟩]) (hcc : m.childCount = 0)
    (hvis : m.intersection ≠ Intersection.OUTSIDE.code)
    (hnd : il.m_currentState.displayedPoints < il.m_currentState.visiblePoints) :
    ∃ res, il.getIndexMap 0 maxCount = some res ∧
      res.indexMap =
        (List.range (min (min maxCount
            (il.m_currentState.visiblePoints - il.m_currentState.displayedPoints))
            (m.pointCount - m.displayedPointCount))).map
          (fun j => il.m_octree.getD (m.firstCodeIndex + m.displayedPointCount + j) 0) ∧
      res.remainingPointsAtThisLevel =
        m.pointCount - (m.displayedPointCount + min (min maxCount
            (il.m_currentState.visiblePoints - il.m_currentState.displayedPoints))
            (m.pointCount - m.displayedPointCount)) ∧
      res.lod.m_levels =
        [⟨[m.withDisplayed (m.displayedPointCount + min (min maxCount
            (il.m_currentState.visiblePoints - il.m_currentState.displayedPoints))
            (m.pointCount - m.displayedPointCount))]⟩] ∧
      res.lod.m_octree = il.m_octree ∧
      res.lod.m_currentState.visiblePoints = il.m_currentState.visiblePoints ∧
      res.lod.m_currentState.displayedPoints = il.m_currentState.displayedPoints +
        min (min maxCount
            (il.m_currentState.visiblePoints - il.m_currentState.displayedPoints))
            (m.pointCount - m.displayedPointCount) := by
  have hg : getNode il.m_levels 0 0 = some m := by simp [getNode, hlv]
  have hcc' : ¬ m.childCount ≠ 0 := by simp [hcc]
  have hlen : il.m_levels.length - 0 = 0 + 1 := by simp [hlv]
  have had : il.allDisplayed = false := by
    unfold ccAbstractPointCloudLOD.allDisplayed
    simp only [ge_iff_le, decide_eq_false_iff_not]
    omega
  have hl0 : il.m_levels[0]? = some ⟨[m]⟩ := by simp [hlv]
  have hadd : ∀ k, addDisplayed il.m_levels 0 0 k =
      [⟨[m.withDisplayed (m.displayedPointCount + k)]⟩] := by
    intro k
    unfold addDisplayed
    rw [hg]
    simp [setNode, hlv]
  have hrem : ∀ k, ccInternalPointCloudLOD.remainingAtLevel
      [⟨[m.withDisplayed (m.displayedPointCount + k)]⟩] 0 =
      m.pointCount - (m.displayedPointCount + k) := by
    intro k
    simp [ccInternalPointCloudLOD.remainingAtLevel, hvis, Node.withDisplayed]
  unfold ccInternalPointCloudLOD.getIndexMap
  have hr1 : List.range 1 = [0] := rfl
  simp only [hl0, had, Bool.false_eq_true, if_false, List.length_singleton, hr1, forEach]
  rw [serveNode_call _ _ _ _ _ m hg hvis _
    (by rw [hlen]; exact addN_leaf il.m_octree 0 [] _ hg hcc')]
  simp only [hadd, hrem, Nat.sub_zero, Nat.zero_add, List.nil_append]
  exact ⟨_, rfl, rfl, rfl, rfl, rfl, rfl, rfl⟩

/-- The visibility pass on a structure made of a single node without children that lies
inside the frustum. -/
theorem flagVisibility_single_leaf (il : ccInternalPointCloudLOD) (n : Node)
    (frustum : ccGLCameraParameters) (hlv : il.m_levels = [⟨[n]⟩]) (hch : n.children = [])
    (hin : frustum.sphereInFrustum n.center n.radius = Intersection.INSIDE) :
    ∃ il1, ccInternalPointCloudLOD.flagVisibility il frustum none =
        some (il1, n.pointCount % 2 ^ 32) ∧
      il1.m_levels = [⟨[n.reset]⟩] ∧ il1.m_octree = il.m_octree ∧
      il1.m_currentState.visiblePoints = n.pointCount % 2 ^ 32 ∧
      il1.m_currentState.displayedPoints = 0 := by
  have hlv1 : il.resetVisibility.m_levels = [⟨[n.reset]⟩] := by
    simp [ccAbstractPointCloudLOD.resetVisibility, hlv]
  have hg : getNode il.resetVisibility.m_levels 0 0 = some n.reset := by
    simp [getNode, hlv1]
  have hcl : (ccAbstractPointCloudLOD.passFlagger il.resetVisibility frustum none).classify
      n.reset = Intersection.INSIDE := by
    show (match frustum.sphereInFrustum n.center n.radius with
      | .INSIDE => Intersection.INSIDE
      | c => c) = Intersection.INSIDE
    rw [hin]
  have hprop : propagateFlag (0 + 1) il.resetVisibility.m_levels 0 0 Intersection.INSIDE.code =
      some [⟨[n.reset]⟩] := by
    have hch' : n.reset.children = [] := hch
    simp only [propagateFlag, hg, hch', forEach]
    simp [setNode, hlv1, Node.withFlag, Node.reset]
  have hic : insideCount (0 + 1) il.resetVisibility.m_levels 0 0 = n.pointCount % 2 ^ 32 := by
    have hch' : n.reset.children = [] := hch
    simp only [insideCount, hg, hch', List.map_nil, List.sum_nil, Nat.add_zero]
    rfl
  have hfl := flag_unfold_inside _ 0 _ 0 0 n.reset hg hcl
  rw [hprop, hic] at hfl
  have hlen : il.m_levels.length = 0 + 1 := by simp [hlv]
  have hfv := flagVisibility_eq il.toccAbstractPointCloudLOD frustum none
  rw [hlen, hfl] at hfv
  refine ⟨{ il with toccAbstractPointCloudLOD :=
      { il.resetVisibility with
        m_levels := [⟨[n.reset]⟩]
        m_currentState :=
          { il.resetVisibility.m_currentState with visiblePoints := n.pointCount % 2 ^ 32 } } },
    ?_, rfl, rfl, rfl, rfl⟩
  unfold ccInternalPointCloudLOD.flagVisibility
  rw [hfv]
  rfl

/-- C6. For a structure made of a single leaf node holding 100 points that is flagged fully
inside the frustum, a first `getIndexMap` call with budget `maxCount = 50` returns 50
indexes (those of the first 50 points of the node in the index buffer) and reports
`remainingPointsAtThisLevel = 50`, and a second call with the same budget returns the other
50 indexes (those of the next 50 points) and reports `remainingPointsAtThisLevel = 0`. -/
theorem single_leaf_two_calls (il : ccInternalPointCloudLOD) (n : Node) (frustum : ccGLCameraParameters)
    (hlv : il.m_levels = [⟨[n]⟩]) (hpc : n.pointCount = 100) (hcc : n.childCount = 0)
    (hch : n.children = [])
    (hin : frustum.sphereInFrustum n.center n.radius = Intersection.INSIDE) :
    ∃ il1 res1 res2,
      ccInternalPointCloudLOD.flagVisibility il frustum none = some (il1, 100) ∧
      il1.getIndexMap 0 50 = some res1 ∧
      res1.indexMap = (List.range 50).map (fun j => il.m_octree.getD (n.firstCodeIndex + j) 0) ∧
      res1.indexMap.length = 50 ∧
      res1.remainingPointsAtThisLevel = 50 ∧
      res1.lod.getIndexMap 0 50 = some res2 ∧
      res2.indexMap =
        (List.range 50).map (fun j => il.m_octree.getD (n.firstCodeIndex + 50 + j) 0) ∧
      res2.indexMap.length = 50 ∧
      res2.remainingPointsAtThisLevel = 0 := by
  obtain ⟨il1, hfv, hlv1, hoct1, hV1, hD1⟩ := flagVisibility_single_leaf il n frustum hlv hch hin
  rw [hpc] at hfv hV1
  have hV1' : il1.m_currentState.visiblePoints = 100 := hV1
  obtain ⟨res1, hres1, hmap1, hrem1, hlv2, hoct2, hV2, hD2⟩ :=
    getIndexMap_single_leaf il1 n.reset 50 hlv1 hcc
      (show Intersection.INSIDE.code ≠ Intersection.OUTSIDE.code by decide)
      (by rw [hV1', hD1]; decide)
  have hk1 : min (min 50 (il1.m_currentState.visiblePoints - il1.m_currentState.displayedPoints))
      (n.reset.pointCount - n.reset.displayedPointCount) = 50 := by
    rw [hV1', hD1]
    show min (min 50 (100 - 0)) (n.pointCount - 0) = 50
    rw [hpc]
    rfl
  rw [hk1] at hmap1 hrem1 hlv2 hD2
  obtain ⟨res2, hres2, hmap2, hrem2, _, _, _, _⟩ :=
    getIndexMap_single_leaf res1.lod (n.reset.withDisplayed (n.reset.displayedPointCount + 50)) 50
      hlv2 hcc (show Intersection.INSIDE.code ≠ Intersection.OUTSIDE.code by decide)
      (by rw [hV2, hD2, hV1', hD1]; decide)
  have hk2 : min (min 50 (res1.lod.m_currentState.visiblePoints -
        res1.lod.m_currentState.displayedPoints))
      ((n.reset.withDisplayed (n.reset.displayedPointCount + 50)).pointCount -
        (n.reset.withDisplayed (n.reset.displayedPointCount + 50)).displayedPointCount) = 50 := by
    rw [hV2, hD2, hV1', hD1]
    show min (min 50 (100 - (0 + 50))) (n.pointCount - (0 + 50)) = 50
    rw [hpc]
    rfl
  rw [hk2] at hmap2 hrem2
  refine ⟨il1, res1, res2, hfv, hres1, ?_, ?_, ?_, hres2, ?_, ?_, ?_⟩
  · rw [hmap1, hoct1]
    apply List.map_congr_left
    intro j _
    show il.m_octree.getD (n.firstCodeIndex + 0 + j) 0 = _
    rw [Nat.add_zero]
  · rw [hmap1]
    simp
  · rw [hrem1]
    show n.pointCount - (0 + 50) = 50
    rw [hpc]
  · rw [hmap2, hoct2, hoct1]
    apply List.map_congr_left
    intro j _
    show il.m_octree.getD (n.firstCodeIndex + (0 + 50) + j) 0 = _
    rw [Nat.zero_add]
  · rw [hmap2]
    simp
  · rw [hrem2]
    show n.pointCount - (0 + 50 + 50) = 0
    rw [hpc]

theorem single_leaf_two_calls_witness :
    singleLeaf.m_levels = [⟨[leaf100]⟩] ∧ leaf100.pointCount = 100 ∧ leaf100.childCount = 0 ∧
    leaf100.children = [] ∧
    cameraInside.sphereInFrustum leaf100.center leaf100.radius = Intersection.INSIDE ∧
    ∃ il1 res1 res2,
      ccInternalPointCloudLOD.flagVisibility singleLeaf cameraInside none = some (il1, 100) ∧
      il1.getIndexMap 0 50 = some res1 ∧
      res1.indexMap =
        (List.range 50).map (fun j => singleLeaf.m_octree.getD (leaf100.firstCodeIndex + j) 0) ∧
      res1.indexMap.length = 50 ∧
      res1.remainingPointsAtThisLevel = 50 ∧
      res1.lod.getIndexMap 0 50 = some res2 ∧
      res2.indexMap =
        (List.range 50).map
          (fun j => singleLeaf.m_octree.getD (leaf100.firstCodeIndex + 50 + j) 0) ∧
      res2.indexMap.length = 50 ∧
      res2.remainingPointsAtThisLevel = 0 :=
  ⟨rfl, rfl, rfl, rfl, rfl,
    single_leaf_two_calls singleLeaf leaf100 cameraInside rfl rfl rfl rfl rfl⟩

/-- C9. For an unchanged visibility state (a well-formed hierarchy with one parent per node,
no visibility pass between the calls), repeated `getIndexMap` calls on a level are
monotonic in the cumulative budget: of two runs of calls from the same state, the
indexes accumulated by the run with the smaller sum of budgets are all present in, and
even form the beginning of, those accumulated by the run with the larger sum. -/
theorem getIndexMap_monotonic_in_budget (il : ccInternalPointCloudLOD) (level : Nat) (budgets budgets' : List Nat)
    (hwf : WellFormed il.m_levels) (hup : UniqueParent il.m_levels)
    (hle : budgets.sum ≤ budgets'.sum) :
    ∃ r r', ccInternalPointCloudLOD.runIndexMaps level il budgets = some r ∧
      ccInternalPointCloudLOD.runIndexMaps level il budgets' = some r' ∧
      r.2 <+: r'.2 ∧ ∀ x ∈ r.2, x ∈ r'.2 := by
  obtain ⟨r, hr, hacc⟩ := runIndexMaps_spec level budgets il hwf hup
  obtain ⟨r', hr', hacc'⟩ := runIndexMaps_spec level budgets' il hwf hup
  have hpre : r.2 <+: r'.2 := by
    rw [hacc, hacc']
    apply List.take_prefix_take_left
    omega
  exact ⟨r, r', hr, hr', hpre, fun x hx => hpre.mem hx⟩

theorem getIndexMap_monotonic_in_budget_witness :
    WellFormed internalVisible.m_levels ∧ UniqueParent internalVisible.m_levels ∧
    [30, 30].sum ≤ [50, 20].sum ∧
    (ccInternalPointCloudLOD.runIndexMaps 0 internalVisible [30, 30]).map (fun r => r.2) =
      some ((List.range 60).map (fun k => 1000 + k)) ∧
    ∃ r r', ccInternalPointCloudLOD.runIndexMaps 0 internalVisible [30, 30] = some r ∧
      ccInternalPointCloudLOD.runIndexMaps 0 internalVisible [50, 20] = some r' ∧
      r.2 <+: r'.2 ∧ ∀ x ∈ r.2, x ∈ r'.2 :=
  ⟨by decide, by decide, by decide, by decide,
    getIndexMap_monotonic_in_budget internalVisible 0 [30, 30] [50, 20] (by decide) (by decide) (by decide)⟩

/-! ## GPU-buffer methods and flagger factories of the variants -/

/-- C11: the GPU-buffer operations of the internal variant are inert. For every structure
(whatever its state) and all arguments, `releaseVBOs` returns the structure as it was,
and `updateVBOs` and `renderVBOs` return `false` and leave the structure, hence every
level, every node and the render progress record, as they were. -/
theorem internal_vbo_operations_inert {Cloud Display Context Params : Type}
    (lod : ccInternalPointCloudLOD) (pc : Cloud) (currentDisplay : Option Display)
    (context : Context) (glParams : Params) :
    lod.releaseVBOs currentDisplay = lod ∧
    (lod.updateVBOs pc currentDisplay context glParams).2 = false ∧
    (lod.updateVBOs pc currentDisplay context glParams).1 = lod ∧
    (lod.renderVBOs pc context glParams).2 = false ∧
    (lod.renderVBOs pc context glParams).1 = lod ∧
    (lod.updateVBOs pc currentDisplay context glParams).1.m_levels = lod.m_levels ∧
    (lod.updateVBOs pc currentDisplay context glParams).1.m_currentState = lod.m_currentState ∧
    (lod.renderVBOs pc context glParams).1.m_levels = lod.m_levels ∧
    (lod.renderVBOs pc context glParams).1.m_currentState = lod.m_currentState ∧
    (lod.releaseVBOs currentDisplay).m_state = lod.m_state :=
  ⟨rfl, rfl, rfl, rfl, rfl, rfl, rfl, rfl, rfl, rfl⟩

/-- C12: for every `lod`, `camera` and `maxLevel`, the factory of the nested-octree
variant returns a footprint-scored flagger built from `(lod, camera, maxLevel, 75)`: its
threshold `m_minPxFootprint` is 75 and it holds `lod`, `camera` and `maxLevel` unchanged;
the factory of the internal variant returns a generic flagger built from
`(lod, camera, maxLevel)`, holding the same three arguments. -/
theorem flagger_factories (nested : ccNestedOctreePointCloudLOD)
    (internal : ccInternalPointCloudLOD) (lod : ccAbstractPointCloudLOD)
    (camera : ccGLCameraParameters) (maxLevel : Nat) :
    (∃ F : ccNestedOctreePointCloudLODVisibilityFlagger,
      nested.getVisibilityFlagger lod camera maxLevel = VisibilityFlagger.nestedOctree F ∧
      F = ccNestedOctreePointCloudLODVisibilityFlagger.init lod camera maxLevel 75 ∧
      F.m_minPxFootprint = 75 ∧ F.m_lod = lod ∧ F.m_camera = camera ∧
      F.m_maxLevel = maxLevel) ∧
    (∃ G : ccGenericPointCloudLODVisibilityFlagger,
      internal.getVisibilityFlagger lod camera maxLevel = VisibilityFlagger.generic G ∧
      G = ccGenericPointCloudLODVisibilityFlagger.init lod camera maxLevel ∧
      G.m_lod = lod ∧ G.m_camera = camera ∧ G.m_maxLevel = maxLevel) :=
  ⟨⟨_, rfl, rfl, rfl, rfl, rfl, rfl⟩, ⟨_, rfl, rfl, rfl, rfl, rfl⟩⟩

/-- C14, evaluated on the code: for a structure in state BROKEN, `isNull()` returns false
although the structure is neither under construction nor initialized, so `isNull()`
differs from `not (isUnderConstruction() or isInitialized())`; BROKEN is the only state
in which the two differ. -/
theorem isNull_broken_differs_from_documentation (lod : ccAbstractPointCloudLOD) :
    ({ lod with m_state := State.BROKEN }).isNull = false ∧
    (!(({ lod with m_state := State.BROKEN }).isUnderConstruction ||
      ({ lod with m_state := State.BROKEN }).isInitialized)) = true ∧
    (∀ s : State, s = State.BROKEN ∨
      ({ lod with m_state := s }).isNull =
        !(({ lod with m_state := s }).isUnderConstruction ||
          ({ lod with m_state := s }).isInitialized)) := by
  refine ⟨rfl, rfl, ?_⟩
  intro s
  cases s
  · exact Or.inr rfl
  · exact Or.inr rfl
  · exact Or.inr rfl
  · exact Or.inl rfl

/-! ## Coordinates -/

theorem PointCoordinateType.toRat_value (q : Rat) : (PointCoordinateType.value q).toRat = q := rfl

theorem PointCoordinateType.lt_value (q b : Rat) :
    (PointCoordinateType.value q).lt b = decide (q < b) := rfl

theorem PointCoordinateType.gt_value (q b : Rat) :
    (PointCoordinateType.value q).gt b = decide (q > b) := rfl

theorem static_cast_int_of_lt {u : Nat} (h : u < 2 ^ 31) : static_cast_int u = (u : Int) := by
  have h1 : u % 2 ^ 32 = u := Nat.mod_eq_of_lt (by omega)
  unfold static_cast_int
  rw [h1, if_pos h]

theorem cloudSize_of_lt {cloud : ccGenericPointCloud} (h : cloud.m_points.length < 2 ^ 31) :
    cloudSize cloud = cloud.m_points.length := by
  have h1 : cloud.size = cloud.m_points.length := Nat.mod_eq_of_lt (by omega)
  unfold cloudSize
  rw [h1, static_cast_int_of_lt h]
  rfl

theorem segmentPoint_standard_classifSF (lib : ManualSegmentationTools)
    (camera : ccGLCameraParameters) (poly : ccPolyline) (keep : Bool) (value : ScalarType)
    (cloud : ccGenericPointCloud) (va : List Nat) (i : Nat) :
    (segmentPoint lib camera poly keep value cloud ⟨va, none⟩ i).classifSF = none := by
  unfold segmentPoint
  split
  · split <;> rfl
  · rfl

theorem segmentPoint_standard_other (lib : ManualSegmentationTools)
    (camera : ccGLCameraParameters) (poly : ccPolyline) (keep : Bool) (value : ScalarType)
    (cloud : ccGenericPointCloud) (va : List Nat) {i j : Nat} (hji : j ≠ i) :
    (segmentPoint lib camera poly keep value cloud ⟨va, none⟩ i).visibilityArray[j]? = va[j]? := by
  unfold segmentPoint
  split
  · split
    · rfl
    · exact List.getElem?_set_ne (fun h => hji h.symm)
  · rfl

theorem segmentPoint_standard_self (lib : ManualSegmentationTools)
    (camera : ccGLCameraParameters) (poly : ccPolyline) (keep : Bool) (value : ScalarType)
    (cloud : ccGenericPointCloud) (va : List Nat) (i : Nat) (v : Nat) (P : CCVector3)
    (hv : va[i]? = some v) (hP : cloud.m_points[i]? = some P) :
    (segmentPoint lib camera poly keep value cloud ⟨va, none⟩ i).visibilityArray[i]? =
      some (if v = POINT_VISIBLE then
        (if keep = pointInside lib camera poly P then POINT_VISIBLE else POINT_HIDDEN)
      else v) := by
  have hlt : i < va.length := by
    by_contra hge
    rw [List.getElem?_eq_none (by omega)] at hv
    exact absurd hv (by simp)
  unfold segmentPoint
  by_cases hvis : v = POINT_VISIBLE
  · subst hvis
    simp only [hv, if_true, ccGenericPointCloud.getPoint, hP]
    rw [List.getElem?_set_self hlt]
    cases keep <;> cases pointInside lib camera poly P <;> rfl
  · have hne : ¬ (va[i]? = some POINT_VISIBLE) := by
      rw [hv]; intro h; exact hvis (Option.some.inj h)
    simp only [hne, if_false, hvis]
    exact hv

theorem segmentPoint_standard_length (lib : ManualSegmentationTools)
    (camera : ccGLCameraParameters) (poly : ccPolyline) (keep : Bool) (value : ScalarType)
    (cloud : ccGenericPointCloud) (va : List Nat) (i : Nat) :
    (segmentPoint lib camera poly keep value cloud ⟨va, none⟩ i).visibilityArray.length =
      va.length := by
  unfold segmentPoint
  split
  · split
    · rfl
    · exact List.length_set _ _ _
  · rfl

theorem segmentPoint_comm (lib : ManualSegmentationTools)
    (camera : ccGLCameraParameters) (poly : ccPolyline) (keep : Bool) (value : ScalarType)
    (cloud : ccGenericPointCloud) (s : PointLoopState) (i j : Nat) :
    segmentPoint lib camera poly keep value cloud
        (segmentPoint lib camera poly keep value cloud s i) j =
      segmentPoint lib camera poly keep value cloud
        (segmentPoint lib camera poly keep value cloud s j) i := by
  by_cases hij : i = j
  · subst hij; rfl
  have hji : j ≠ i := fun h => hij h.symm
  obtain ⟨va, sf⟩ := s
  unfold segmentPoint
  by_cases hi : va[i]? = some POINT_VISIBLE <;> by_cases hj : va[j]? = some POINT_VISIBLE <;>
    rcases hPi : cloud.getPoint i with _ | Pi <;> rcases hPj : cloud.getPoint j with _ | Pj <;>
    rcases sf with _ | vals <;>
    simp only [hi, hj, if_true, if_false, hPi, hPj] <;>
    (try cases hIi : pointInside lib camera poly Pi) <;>
    (try cases hIj : pointInside lib camera poly Pj) <;>
    simp [hi, hj, hPi, hPj, hij, hji, List.getElem?_set_ne, List.set_comm]

/-- The point loop gives the same result for every order of its iterations. -/
theorem segmentPoints_perm (lib : ManualSegmentationTools)
    (camera : ccGLCameraParameters) (poly : ccPolyline) (keep : Bool) (value : ScalarType)
    (cloud : ccGenericPointCloud) {order order' : List Nat} (h : order.Perm order')
    (s : PointLoopState) :
    segmentPoints lib camera poly keep value cloud order s =
      segmentPoints lib camera poly keep value cloud order' s :=
  List.Perm.foldl_eq' h
    (fun x _ y _ z => segmentPoint_comm lib camera poly keep value cloud z x y) s

theorem segmentPoints_standard (lib : ManualSegmentationTools)
    (camera : ccGLCameraParameters) (poly : ccPolyline) (keep : Bool) (value : ScalarType)
    (cloud : ccGenericPointCloud) (order : List Nat) (va : List Nat) :
    (segmentPoints lib camera poly keep value cloud order ⟨va, none⟩).classifSF = none ∧
    (segmentPoints lib camera poly keep value cloud order ⟨va, none⟩).visibilityArray.length =
      va.length ∧
    (∀ j, j ∉ order →
      (segmentPoints lib camera poly keep value cloud order ⟨va, none⟩).visibilityArray[j]? =
        va[j]?) ∧
    (∀ j v P, j ∈ order → va[j]? = some v → cloud.m_points[j]? = some P →
      (segmentPoints lib camera poly keep value cloud order ⟨va, none⟩).visibilityArray[j]? =
        some (if v = POINT_VISIBLE then
          (if keep = pointInside lib camera poly P then POINT_VISIBLE else POINT_HIDDEN)
        else v)) := by
  induction order generalizing va with
  | nil =>
    refine ⟨rfl, rfl, fun _ _ => rfl, ?_⟩
    intro j v P hj
    exact absurd hj (List.not_mem_nil j)
  | cons i rest ih =>
    have hs : segmentPoint lib camera poly keep value cloud ⟨va, none⟩ i =
        ⟨(segmentPoint lib camera poly keep value cloud ⟨va, none⟩ i).visibilityArray, none⟩ := by
      have h := segmentPoint_standard_classifSF lib camera poly keep value cloud va i
      rcases hq : segmentPoint lib camera poly keep value cloud ⟨va, none⟩ i with ⟨a, b⟩
      rw [hq] at h
      simp only at h
      subst h
      rfl
    have hstep : segmentPoints lib camera poly keep value cloud (i :: rest) ⟨va, none⟩ =
        segmentPoints lib camera poly keep value cloud rest
          ⟨(segmentPoint lib camera poly keep value cloud ⟨va, none⟩ i).visibilityArray, none⟩ := by
      show List.foldl _ _ (i :: rest) = _
      rw [List.foldl_cons, ← hs]
      rfl
    obtain ⟨ih1, ih2, ih3, ih4⟩ :=
      ih (segmentPoint lib camera poly keep value cloud ⟨va, none⟩ i).visibilityArray
    rw [hstep]
    refine ⟨ih1, ?_, ?_, ?_⟩
    · rw [ih2, segmentPoint_standard_length]
    · intro j hj
      have hji : j ≠ i := fun h => hj (h ▸ List.mem_cons_self _ _)
      have hjr : j ∉ rest := fun h => hj (List.mem_cons_of_mem _ h)
      rw [ih3 j hjr, segmentPoint_standard_other lib camera poly keep value cloud va hji]
    · intro j v P hj hv hP
      by_cases hji : j = i
      · subst hji
        have hself := segmentPoint_standard_self lib camera poly keep value cloud va j v P hv hP
        by_cases hjr : j ∈ rest
        · rw [ih4 j _ P hjr hself hP]
          by_cases hvis : v = POINT_VISIBLE
          · subst hvis
            cases keep <;> cases pointInside lib camera poly P <;> rfl
          · simp only [hvis, if_false]
        · rw [ih3 j hjr, hself]
      · have hjr : j ∈ rest := by
          rcases List.mem_cons.mp hj with h | h
          · exact absurd h hji
          · exact h
        have hother := segmentPoint_standard_other lib camera poly keep value cloud va hji
        rw [ih4 j v P hjr (hother.trans hv) hP]

theorem segmentPoint_standard_hidden (lib : ManualSegmentationTools)
    (camera : ccGLCameraParameters) (poly : ccPolyline) (keep : Bool) (value : ScalarType)
    (cloud : ccGenericPointCloud) (va : List Nat) (i j v : Nat) (hv : va[j]? = some v)
    (hne : v ≠ POINT_VISIBLE) :
    (segmentPoint lib camera poly keep value cloud ⟨va, none⟩ i).visibilityArray[j]? = some v := by
  by_cases hji : j = i
  · subst hji
    have hnot : ¬ (va[j]? = some POINT_VISIBLE) := by
      rw [hv]; intro h; exact hne (Option.some.inj h)
    unfold segmentPoint
    simp only [hnot, if_false]
    exact hv
  · rw [segmentPoint_standard_other lib camera poly keep value cloud va hji, hv]

theorem segmentPoints_standard_hidden (lib : ManualSegmentationTools)
    (camera : ccGLCameraParameters) (poly : ccPolyline) (keep : Bool) (value : ScalarType)
    (cloud : ccGenericPointCloud) (order : List Nat) (va : List Nat) (j v : Nat)
    (hv : va[j]? = some v) (hne : v ≠ POINT_VISIBLE) :
    (segmentPoints lib camera poly keep value cloud order ⟨va, none⟩).visibilityArray[j]? =
      some v := by
  induction order generalizing va with
  | nil => exact hv
  | cons i rest ih =>
    have hs : segmentPoint lib camera poly keep value cloud ⟨va, none⟩ i =
        ⟨(segmentPoint lib camera poly keep value cloud ⟨va, none⟩ i).visibilityArray, none⟩ := by
      have h := segmentPoint_standard_classifSF lib camera poly keep value cloud va i
      rcases hq : segmentPoint lib camera poly keep value cloud ⟨va, none⟩ i with ⟨a, b⟩
      rw [hq] at h
      simp only at h
      subst h
      rfl
    have hstep : segmentPoints lib camera poly keep value cloud (i :: rest) ⟨va, none⟩ =
        segmentPoints lib camera poly keep value cloud rest
          ⟨(segmentPoint lib camera poly keep value cloud ⟨va, none⟩ i).visibilityArray, none⟩ := by
      show List.foldl _ _ (i :: rest) = _
      rw [List.foldl_cons, ← hs]
      rfl
    rw [hstep]
    exact ih _ (segmentPoint_standard_hidden lib camera poly keep value cloud va i j v hv hne)

/-! ## Standard segmentation -/

theorem segmentCloud_standard (lib : ManualSegmentationTools) (camera : ccGLCameraParameters)
    (poly : ccPolyline) (keep : Bool) (schedule : Nat → List Nat) (cloud : ccGenericPointCloud) :
    segmentCloud lib camera poly keep NAN_VALUE schedule cloud =
      EntityOutcome.processed
        { cloud with
          m_pointsVisibility :=
            (segmentPoints lib camera poly keep NAN_VALUE cloud (schedule (cloudSize cloud))
              ⟨cloud.m_pointsVisibility, none⟩).visibilityArray } := by
  unfold segmentCloud
  rw [if_neg (by simp [ScalarField.ValidValue, NAN_VALUE])]

theorem segmentCloud_schedule (lib : ManualSegmentationTools) (camera : ccGLCameraParameters)
    (poly : ccPolyline) (keep : Bool) (value : ScalarType) {schedule schedule' : Nat → List Nat}
    (h : ∀ n, (schedule n).Perm (schedule' n)) (cloud : ccGenericPointCloud) :
    segmentCloud lib camera poly keep value schedule cloud =
      segmentCloud lib camera poly keep value schedule' cloud := by
  unfold segmentCloud
  simp only [segmentPoints_perm lib camera poly keep value cloud (h (cloudSize cloud))]

theorem segmentEntities_schedule (lib : ManualSegmentationTools) (camera : ccGLCameraParameters)
    (poly : ccPolyline) (keep : Bool) (value : ScalarType) {schedule schedule' : Nat → List Nat}
    (h : ∀ n, (schedule n).Perm (schedule' n)) (entities : List ccHObject) :
    segmentEntities lib camera poly keep value schedule entities =
      segmentEntities lib camera poly keep value schedule' entities := by
  induction entities with
  | nil => rfl
  | cons e rest ih =>
    simp only [segmentEntities, ih, segmentCloud_schedule lib camera poly keep value h]

/-- Every order of the iterations of the point loops gives the same result of `segment`. -/
theorem segment_schedule (lib : ManualSegmentationTools) {schedule schedule' : Nat → List Nat}
    (h : ∀ n, (schedule n).Perm (schedule' n)) (tool : ccGraphicalSegmentationTool)
    (keep : Bool) (value : ScalarType) :
    ccGraphicalSegmentationTool.segment lib schedule tool keep value =
      ccGraphicalSegmentationTool.segment lib schedule' tool keep value := by
  unfold ccGraphicalSegmentationTool.segment
  simp only [segmentEntities_schedule lib _ _ keep value h]

theorem segmentEntities_standard (lib : ManualSegmentationTools) (camera : ccGLCameraParameters)
    (poly : ccPolyline) (keep : Bool) (schedule : Nat → List Nat) (entities : List ccHObject)
    (hclouds : ∀ e ∈ entities, ∃ cloud, e.genericPointCloud = some cloud ∧
      cloud.m_pointsVisibility ≠ []) :
    ∃ entities', segmentEntities lib camera poly keep NAN_VALUE schedule entities =
        some (entities', true) ∧
      entities'.length = entities.length ∧
      ∀ (k : Nat) (e : ccHObject) (cloud : ccGenericPointCloud),
        entities[k]? = some e → e.genericPointCloud = some cloud →
        (entities'[k]?).bind ccHObject.genericPointCloud =
          some { cloud with
            m_pointsVisibility :=
              (segmentPoints lib camera poly keep NAN_VALUE cloud (schedule (cloudSize cloud))
                ⟨cloud.m_pointsVisibility, none⟩).visibilityArray } := by
  induction entities with
  | nil =>
    refine ⟨[], rfl, rfl, ?_⟩
    intro k e cloud hk
    simp at hk
  | cons e rest ih =>
    obtain ⟨cloud, hc, hne⟩ := hclouds e (List.mem_cons_self _ _)
    obtain ⟨rest', hr, hlen, hpt⟩ := ih (fun x hx => hclouds x (List.mem_cons_of_mem _ hx))
    have hemp : cloud.m_pointsVisibility.isEmpty = false := by
      cases hv : cloud.m_pointsVisibility with
      | nil => exact absurd hv hne
      | cons a l => rfl
    refine ⟨{ e with
        genericPointCloud := some { cloud with
          m_pointsVisibility :=
            (segmentPoints lib camera poly keep NAN_VALUE cloud (schedule (cloudSize cloud))
              ⟨cloud.m_pointsVisibility, none⟩).visibilityArray } } :: rest', ?_, ?_, ?_⟩
    · simp only [segmentEntities, hc, hemp, segmentCloud_standard, hr]
      rfl
    · simp [hlen]
    · intro k x c hk hxc
      cases k with
      | zero =>
        simp only [List.getElem?_cons_zero, Option.some.injEq] at hk
        subst hk
        rw [hc] at hxc
        cases hxc
        simp only [List.getElem?_cons_zero, Option.some_bind]
      | succ k =>
        simp only [List.getElem?_cons_succ] at hk ⊢
        exact hpt k x c hk hxc

theorem pauseSegmentationMode_toSegment (tool : ccGraphicalSegmentationTool) :
    tool.pauseSegmentationMode.m_toSegment = tool.m_toSegment := by
  unfold ccGraphicalSegmentationTool.pauseSegmentationMode
  split
  · rfl
  · split <;> rfl

theorem segment_standard_eq (lib : ManualSegmentationTools) (schedule : Nat → List Nat)
    (tool : ccGraphicalSegmentationTool) (win : ccGLWindowInterface) (poly : ccPolyline)
    (keep : Bool) (entities' : List ccHObject)
    (hwin : tool.m_associatedWin = some win) (hpoly : tool.m_segmentationPoly = some poly)
    (hclosed : poly.isClosed = true)
    (hent : segmentEntities lib win.getGLCameraParameters
      (ccGraphicalSegmentationTool.closedPolyline win poly tool.m_state).1 keep NAN_VALUE schedule
      tool.m_toSegment = some (entities', true)) :
    ccGraphicalSegmentationTool.segment lib schedule tool keep =
      some (ccGraphicalSegmentationTool.pauseSegmentationMode
        { tool with
          m_segmentationPoly :=
            some (ccGraphicalSegmentationTool.closedPolyline win poly tool.m_state).1
          m_state := (ccGraphicalSegmentationTool.closedPolyline win poly tool.m_state).2
          m_toSegment := entities'
          m_somethingHasChanged := true }) := by
  unfold ccGraphicalSegmentationTool.segment
  simp only [hwin, hpoly, hclosed, hent]
  simp [ScalarField.ValidValue, NAN_VALUE]

/-- Result of `segment` in standard mode, point by point and whatever the order of the
iterations of the point loops. -/
theorem segment_standard_spec (lib : ManualSegmentationTools) (schedule : Nat → List Nat)
    (tool : ccGraphicalSegmentationTool) (win : ccGLWindowInterface) (poly : ccPolyline)
    (keepPointsInside : Bool)
    (hwin : tool.m_associatedWin = some win) (hpoly : tool.m_segmentationPoly = some poly)
    (hclosed : poly.isClosed = true)
    (hclouds : ∀ e ∈ tool.m_toSegment, ∃ cloud, e.genericPointCloud = some cloud ∧
      cloud.m_pointsVisibility ≠ [] ∧ cloud.m_points.length < 2 ^ 31)
    (hsched : ∀ n, (schedule n).Perm (List.range n)) :
    ∃ tool', ccGraphicalSegmentationTool.segment lib schedule tool keepPointsInside = some tool' ∧
      ccGraphicalSegmentationTool.segment lib List.range tool keepPointsInside = some tool' ∧
      tool'.m_toSegment.length = tool.m_toSegment.length ∧
      ∀ (k : Nat) (e : ccHObject) (cloud : ccGenericPointCloud),
        tool.m_toSegment[k]? = some e → e.genericPointCloud = some cloud →
        ∃ cloud', (tool'.m_toSegment[k]?).bind ccHObject.genericPointCloud = some cloud' ∧
          cloud'.m_points = cloud.m_points ∧
          cloud'.m_pointsVisibility.length = cloud.m_pointsVisibility.length ∧
          ∀ (i v : Nat) (P : CCVector3),
            cloud.m_pointsVisibility[i]? = some v → cloud.m_points[i]? = some P →
            cloud'.m_pointsVisibility[i]? =
              some (if v = POINT_VISIBLE then
                (if keepPointsInside =
                    pointInside lib win.getGLCameraParameters
                      (ccGraphicalSegmentationTool.closedPolyline win poly tool.m_state).1 P
                  then POINT_VISIBLE else POINT_HIDDEN)
              else v) := by
  obtain ⟨entities', hent, hlen, hpt⟩ :=
    segmentEntities_standard lib win.getGLCameraParameters
      (ccGraphicalSegmentationTool.closedPolyline win poly tool.m_state).1 keepPointsInside
      schedule tool.m_toSegment
      (fun e he => by
        obtain ⟨c, h1, h2, _⟩ := hclouds e he
        exact ⟨c, h1, h2⟩)
  have heq := segment_standard_eq lib schedule tool win poly keepPointsInside entities' hwin hpoly
    hclosed hent
  refine ⟨_, heq, ?_, ?_, ?_⟩
  · rw [← segment_schedule lib hsched tool keepPointsInside NAN_VALUE]
    exact heq
  · rw [pauseSegmentationMode_toSegment]
    exact hlen
  · intro k e cloud hk hec
    obtain ⟨c, h1, _, hlt⟩ := hclouds e (List.getElem?_mem hk)
    rw [hec] at h1
    cases h1
    refine ⟨{ cloud with
        m_pointsVisibility :=
          (segmentPoints lib win.getGLCameraParameters
            (ccGraphicalSegmentationTool.closedPolyline win poly tool.m_state).1 keepPointsInside
            NAN_VALUE cloud (schedule (cloudSize cloud))
            ⟨cloud.m_pointsVisibility, none⟩).visibilityArray }, ?_, rfl, ?_, ?_⟩
    · rw [pauseSegmentationMode_toSegment]
      exact hpt k e cloud hk hec
    · exact (segmentPoints_standard lib _ _ keepPointsInside NAN_VALUE cloud _ _).2.1
    · intro i v P hv hP
      have hi : i < cloud.m_points.length := by
        by_contra hge
        rw [List.getElem?_eq_none (by omega)] at hP
        exact absurd hP (by simp)
      have hmem : i ∈ schedule (cloudSize cloud) := by
        rw [(hsched _).mem_iff, cloudSize_of_lt hlt]
        exact List.mem_range.mpr hi
      exact (segmentPoints_standard lib _ _ keepPointsInside NAN_VALUE cloud _ _).2.2.2
        i v P hmem hv hP

/-! ## Inside-the-polygon test of the segmentation tool -/

theorem polyInsideViewport_eq_all (camera : ccGLCameraParameters) (poly : ccPolyline)
    (h : poly.vertices.length < 2 ^ 31) :
    polyInsideViewport camera poly = poly.vertices.all (fun V => !outOfViewport camera V) := by
  have hsize : poly.size = poly.vertices.length := Nat.mod_eq_of_lt (by omega)
  unfold polyInsideViewport
  rw [hsize, static_cast_int_of_lt h, Int.toNat_ofNat, Bool.eq_iff_iff, List.all_eq_true,
    List.all_eq_true]
  constructor
  · intro hall V hV
    obtain ⟨i, hi, rfl⟩ := List.getElem_of_mem hV
    have := hall i (List.mem_range.mpr hi)
    simpa [ccPolyline.getPoint, List.getElem?_eq_getElem hi] using this
  · intro hall i hi
    have hi' := List.mem_range.mp hi
    simp only [ccPolyline.getPoint, List.getElem?_eq_getElem hi']
    exact hall _ (List.getElem_mem _)

/-- The test on a vertex whose two coordinates are numbers: the vertex is out of the
rectangle `|x| <= half_w`, `|y| <= half_h`. -/
theorem outOfViewport_value (camera : ccGLCameraParameters) (x y : Rat)
    (z : PointCoordinateType) :
    outOfViewport camera ⟨PointCoordinateType.value x, PointCoordinateType.value y, z⟩ = true ↔
      ¬ (|x| ≤ half_w camera ∧ |y| ≤ half_h camera) := by
  unfold outOfViewport
  simp only [PointCoordinateType.lt_value, PointCoordinateType.gt_value, Bool.or_eq_true,
    decide_eq_true_eq, abs_le]
  constructor
  · rintro (((h | h) | h) | h) ⟨⟨h1, h2⟩, h3, h4⟩ <;> linarith
  · intro h
    by_contra hc
    push_neg at hc
    exact h ⟨⟨by linarith [hc.1.1.1], by linarith [hc.1.1.2]⟩, by linarith [hc.1.2], by linarith [hc.2]⟩

/-- The test on a vertex whose two coordinates are NaN: the four comparisons are false. -/
theorem outOfViewport_NaN (camera : ccGLCameraParameters) (z : PointCoordinateType) :
    outOfViewport camera ⟨PointCoordinateType.NaN, PointCoordinateType.NaN, z⟩ = false := rfl

theorem pointInside_eq (lib : ManualSegmentationTools) (camera : ccGLCameraParameters)
    (poly : ccPolyline) (h : poly.vertices.length < 2 ^ 31) (P : CCVector3) :
    pointInside lib camera poly P =
      (((camera.project P).2 || poly.vertices.any (outOfViewport camera)) &&
        lib.isPointInsidePoly
          ⟨lib.toPointCoordinateType ((camera.project P).1.x - half_w camera),
            lib.toPointCoordinateType ((camera.project P).1.y - half_h camera)⟩ poly) := by
  unfold pointInside
  rw [polyInsideViewport_eq_all camera poly h]
  have hany : (!poly.vertices.all (fun V => !outOfViewport camera V)) =
      poly.vertices.any (outOfViewport camera) := by
    rw [List.any_eq_not_all_not]
  rw [hany]
  cases (camera.project P).2 <;> cases poly.vertices.any (outOfViewport camera) <;> simp

theorem toolThree_clouds : ∀ e ∈ toolThree.m_toSegment, ∃ cloud, e.genericPointCloud = some cloud ∧
    cloud.m_pointsVisibility ≠ [] ∧ cloud.m_points.length < 2 ^ 31 := by
  intro e he
  have h : e = { name := "cloud", genericPointCloud := some cloudThree } := by
    simpa [toolThree] using he
  subst h
  exact ⟨cloudThree, rfl, by simp [cloudThree], by simp [cloudThree]⟩

/-- The inside-the-polygon result that `segment` takes for a point, when the polygon has
fewer than 2^31 vertices: it is true exactly when (the point projects inside the frustum,
or the test of `segment` finds a vertex of the polygon out of the viewport) and the
polygon test succeeds on the centred projection of the point. -/
theorem pointInside_iff (lib : ManualSegmentationTools) (camera : ccGLCameraParameters)
    (poly : ccPolyline) (hverts : poly.vertices.length < 2 ^ 31) (P : CCVector3) :
    pointInside lib camera poly P = true ↔
      ((camera.project P).2 = true ∨ ∃ V ∈ poly.vertices, outOfViewport camera V = true) ∧
      lib.isPointInsidePoly
        ⟨lib.toPointCoordinateType ((camera.project P).1.x - half_w camera),
          lib.toPointCoordinateType ((camera.project P).1.y - half_h camera)⟩
        poly = true := by
  rw [pointInside_eq lib _ _ hverts P, Bool.and_eq_true, Bool.or_eq_true, List.any_eq_true]

theorem canModify_emptyCloudEntity : canModify emptyCloudEntity = none := by
  decide

/-- C17, evaluated on the code: when the entity under the iterator is a point cloud
without points, an iteration of the loop of `applySegmentation` takes the `continue` of
the branch "ignore this cloud": it neither advances the iterator nor erases the entity
and leaves the state of the loop as it was. The loop is therefore still running, in the
same state, after any number of iterations, and `applySegmentation` does not return. -/
theorem applySegmentation_stays_on_empty_cloud (methods : SelectionMethods)
    (deleteHiddenParts : Bool) (iterations : Nat) (rest newEntities : List ccHObject)
    (tool : ccGraphicalSegmentationTool) :
    applySegmentationBody methods deleteHiddenParts
        ⟨emptyCloudEntity :: rest, 0, newEntities⟩ emptyCloudEntity =
      (IteratorMove.stay, ⟨emptyCloudEntity :: rest, 0, newEntities⟩) ∧
    applySegmentationLoop methods deleteHiddenParts iterations
        ⟨emptyCloudEntity :: rest, 0, newEntities⟩ =
      ApplyLoopOutcome.running ⟨emptyCloudEntity :: rest, 0, newEntities⟩ ∧
    ccGraphicalSegmentationTool.applySegmentation methods iterations
        { tool with m_toSegment := emptyCloudEntity :: rest } true newEntities = none := by
  have hbody : applySegmentationBody methods deleteHiddenParts
        ⟨emptyCloudEntity :: rest, 0, newEntities⟩ emptyCloudEntity =
      (IteratorMove.stay, ⟨emptyCloudEntity :: rest, 0, newEntities⟩) := by
    unfold applySegmentationBody
    rw [canModify_emptyCloudEntity]
  have hloop : ∀ (del : Bool) (k : Nat), applySegmentationLoop methods del k
        ⟨emptyCloudEntity :: rest, 0, newEntities⟩ =
      ApplyLoopOutcome.running ⟨emptyCloudEntity :: rest, 0, newEntities⟩ := by
    intro del k
    induction k with
    | zero => simp only [applySegmentationLoop, List.getElem?_cons_zero]
    | succ k ih =>
      have hb : applySegmentationBody methods del
          ⟨emptyCloudEntity :: rest, 0, newEntities⟩ emptyCloudEntity =
          (IteratorMove.stay, ⟨emptyCloudEntity :: rest, 0, newEntities⟩) := by
        unfold applySegmentationBody
        rw [canModify_emptyCloudEntity]
      simp only [applySegmentationLoop, List.getElem?_cons_zero, hb]
      exact ih
  refine ⟨hbody, hloop deleteHiddenParts iterations, ?_⟩
  unfold ccGraphicalSegmentationTool.applySegmentation
  simp only [Bool.not_true, Bool.false_eq_true, if_false, hloop]

/-! ## Binary STL files: writing -/

theorem QFile.write_accepted {f : QFile} {k : Nat} (data : List Byte) (hacc : f.accepts k)
    (hlen : data.length ≤ k) :
    (f.write data).2 = (data.length : Int) ∧ (f.write data).1.bytes = f.bytes ++ data ∧
      (f.write data).1.pos = f.pos ∧ (f.write data).1.accepts (k - data.length) := by
  unfold QFile.write
  cases hr : f.room with
  | none =>
    refine ⟨rfl, rfl, rfl, ?_⟩
    intro r h
    simp only at h
    exact absurd h (by simp)
  | some r =>
    have hk := hacc r hr
    have htake : data.take r = data := List.take_of_length_le (by omega)
    simp only [htake]
    refine ⟨trivial, trivial, trivial, ?_⟩
    intro r' h
    simp only [Option.some.injEq] at h
    omega

theorem checkedWrite_accepted {f : QFile} {k : Nat} (data : List Byte) (len : Nat)
    (next : QFile → Option CC_FILE_ERROR × QFile) (hacc : f.accepts k)
    (hlen : data.length = len) (hk : len ≤ k) :
    checkedWrite data len next f = next (f.write data).1 := by
  unfold checkedWrite
  have h := (QFile.write_accepted data hacc (by omega)).1
  rw [if_neg]
  rw [h, hlen]
  exact lt_irrefl _

theorem float_bytes_length (x : float) : x.bytes.length = 4 := rfl

theorem Vector3Tpl.bytes_length (v : Vector3Tpl float) : v.bytes.length = 12 := rfl

theorem facetRecord_length {PC D : Type} (arith : CoordinateArithmetic PC D)
    (a b c : Vector3Tpl PC) : (facetRecord arith a b c).length = 50 := rfl

theorem writeFacet_accepted {PC D : Type} (arith : CoordinateArithmetic PC D)
    (a b c : Vector3Tpl PC) {f : QFile} {k : Nat} (hacc : f.accepts k) (hk : 50 ≤ k) :
    ∃ f', writeFacet arith a b c f = (none, f') ∧ f'.bytes = f.bytes ++ facetRecord arith a b c ∧
      f'.pos = f.pos ∧ f'.accepts (k - 50) := by
  unfold writeFacet
  obtain ⟨_, hb1, hp1, ha1⟩ := QFile.write_accepted
    (arith.vtoFloat (arith.cross (arith.vsub b a) (arith.vsub c a))).bytes hacc
    (by rw [Vector3Tpl.bytes_length]; omega)
  rw [checkedWrite_accepted _ 12 _ hacc (Vector3Tpl.bytes_length _) (by omega)]
  rw [Vector3Tpl.bytes_length] at ha1
  obtain ⟨_, hb2, hp2, ha2⟩ := QFile.write_accepted (arith.vtoFloat a).bytes ha1
    (by rw [Vector3Tpl.bytes_length]; omega)
  rw [checkedWrite_accepted _ 12 _ ha1 (Vector3Tpl.bytes_length _) (by omega)]
  rw [Vector3Tpl.bytes_length] at ha2
  obtain ⟨_, hb3, hp3, ha3⟩ := QFile.write_accepted (arith.vtoFloat b).bytes ha2
    (by rw [Vector3Tpl.bytes_length]; omega)
  rw [checkedWrite_accepted _ 12 _ ha2 (Vector3Tpl.bytes_length _) (by omega)]
  rw [Vector3Tpl.bytes_length] at ha3
  obtain ⟨_, hb4, hp4, ha4⟩ := QFile.write_accepted (arith.vtoFloat c).bytes ha3
    (by rw [Vector3Tpl.bytes_length]; omega)
  rw [checkedWrite_accepted _ 12 _ ha3 (Vector3Tpl.bytes_length _) (by omega)]
  rw [Vector3Tpl.bytes_length] at ha4
  obtain ⟨_, hb5, hp5, ha5⟩ := QFile.write_accepted ([0, 0] : List Byte) ha4
    (by simp only [List.length_cons, List.length_nil]; omega)
  rw [checkedWrite_accepted ([0, 0] : List Byte) 2 _ ha4 rfl (by omega)]
  refine ⟨_, rfl, ?_, ?_, ?_⟩
  · rw [hb5, hb4, hb3, hb2, hb1]
    simp only [facetRecord, List.append_assoc]
  · rw [hp5, hp4, hp3, hp2, hp1]
  · intro r hr
    have := ha5 r hr
    simp only [List.length_cons, List.length_nil] at this
    omega

theorem writeFacets_accepted {PC D : Type} (arith : CoordinateArithmetic PC D)
    (points : List (Vector3Tpl PC)) (pDlg : Option ccProgressDialog)
    (ts : List VerticesIndexes) (i : Nat) (f : QFile) (k : Nat)
    (hidx : ∀ t ∈ ts, t.i1 < points.length ∧ t.i2 < points.length ∧ t.i3 < points.length)
    (hacc : f.accepts k) (hk : 50 * ts.length ≤ k)
    (hstep : ∀ dlg, pDlg = some dlg → ∀ j, i ≤ j → j < i + ts.length → dlg.oneStep j = true) :
    ∃ f', writeFacets arith points pDlg ts i f = some (CC_FILE_ERROR.CC_FERR_NO_ERROR, f') ∧
      f'.bytes = f.bytes ++ ts.flatMap (triangleRecord arith points) ∧ f'.pos = f.pos := by
  induction ts generalizing i f k with
  | nil => exact ⟨f, rfl, by simp, rfl⟩
  | cons t rest ih =>
    obtain ⟨h1, h2, h3⟩ := hidx t (List.mem_cons_self _ _)
    have hlen : (t :: rest).length = rest.length + 1 := rfl
    obtain ⟨f1, hw, hb, hp, ha⟩ :=
      writeFacet_accepted arith points[t.i1] points[t.i2] points[t.i3] hacc
        (by rw [hlen] at hk; omega)
    obtain ⟨f', hrec, hb', hp'⟩ := ih (i + 1) f1 (k - 50)
      (fun x hx => hidx x (List.mem_cons_of_mem _ hx)) ha (by rw [hlen] at hk; omega)
      (fun dlg hd j hj1 hj2 => hstep dlg hd j (by omega) (by rw [hlen]; omega))
    have hrecord : triangleRecord arith points t =
        facetRecord arith points[t.i1] points[t.i2] points[t.i3] := by
      simp only [triangleRecord, List.getElem?_eq_getElem h1, List.getElem?_eq_getElem h2,
        List.getElem?_eq_getElem h3]
    refine ⟨f', ?_, ?_, ?_⟩
    · simp only [writeFacets, List.getElem?_eq_getElem h1, List.getElem?_eq_getElem h2,
        List.getElem?_eq_getElem h3, hw]
      cases hd : pDlg with
      | none =>
        simp only
        rw [hd] at hrec
        exact hrec
      | some dlg =>
        simp only [hstep dlg hd i (le_refl _) (by rw [hlen]; omega), Bool.not_true,
          Bool.false_eq_true, if_false]
        rw [hd] at hrec
        exact hrec
    · rw [hb', hb, List.flatMap_cons, hrecord, List.append_assoc]
    · rw [hp', hp]

theorem uint32Bytes_length (bigEndian : Bool) (v : Nat) : (uint32Bytes bigEndian v).length = 4 := by
  unfold uint32Bytes
  cases bigEndian <;> rfl

theorem uint32OfBytes_uint32Bytes (bigEndian : Bool) {v : Nat} (h : v < 2 ^ 32) :
    uint32OfBytes bigEndian (uint32Bytes bigEndian v) = v := by
  unfold uint32OfBytes uint32Bytes
  cases bigEndian <;>
    simp only [Bool.false_eq_true, if_false, if_true, List.getD_cons_zero, List.getD_cons_succ,
      Fin.ofNat, Fin.val_mk] <;>
    omega

theorem binaryHeader_length : binaryHeader.length = 80 := by
  decide

theorem triangleRecord_length {PC D : Type} (arith : CoordinateArithmetic PC D)
    (points : List (Vector3Tpl PC)) (ts : List VerticesIndexes)
    (hidx : ∀ t ∈ ts, t.i1 < points.length ∧ t.i2 < points.length ∧ t.i3 < points.length) :
    (ts.flatMap (triangleRecord arith points)).length = 50 * ts.length := by
  induction ts with
  | nil => rfl
  | cons t rest ih =>
    obtain ⟨h1, h2, h3⟩ := hidx t (List.mem_cons_self _ _)
    have hrecord : triangleRecord arith points t =
        facetRecord arith points[t.i1] points[t.i2] points[t.i3] := by
      simp only [triangleRecord, List.getElem?_eq_getElem h1, List.getElem?_eq_getElem h2,
        List.getElem?_eq_getElem h3]
    rw [List.flatMap_cons, List.length_append, ih (fun x hx => hidx x (List.mem_cons_of_mem _ hx)),
      hrecord, facetRecord_length, List.length_cons]
    omega

/-! ## Binary STL files: reading -/

theorem QFile.read_at {f : QFile} (pre data post : List Byte)
    (hb : f.bytes = pre ++ data ++ post) (hp : f.pos = pre.length) :
    f.read data.length =
      ({ f with pos := pre.length + data.length }, data, (data.length : Int)) := by
  have h1 : (f.bytes.drop f.pos).take data.length = data := by
    rw [hb, hp, List.append_assoc, List.drop_left, List.take_left]
  unfold QFile.read
  rw [h1, hp]

theorem float_ofBytes_bytes (fill : Byte) (x : float) (rest : List Byte) :
    float.ofBytes fill (x.bytes ++ rest) = x := rfl

theorem Vector3Tpl.ofBytes_bytes (fill : Byte) (v : Vector3Tpl float) :
    Vector3Tpl.ofBytes fill v.bytes = v := rfl

theorem readVertex_at {PC D : Type} (arith : CoordinateArithmetic PC D) (mem : Memory)
    (parameters : LoadParameters D) (s : BinaryLoadState PC D) (pre post : List Byte)
    (v : Vector3Tpl float) (hb : s.fp.bytes = pre ++ v.bytes ++ post)
    (hp : s.fp.pos = pre.length) (hz : s.Pshift = ⟨arith.zero, arith.zero, arith.zero⟩)
    (hshift : s.pointCount = 0 → parameters.HandleGlobalShift (arith.vtoDouble v) = none) :
    readVertex arith mem parameters s =
      some ({ s with
              fp := { s.fp with pos := pre.length + 12 }
              pointCount := (s.pointCount + 1) % 2 ^ 32
              mesh := { s.mesh with points := s.mesh.points ++ [reloaded arith v] } },
            s.pointCount) := by
  have hr := QFile.read_at pre v.bytes post hb hp
  rw [Vector3Tpl.bytes_length] at hr
  have hnone : (if s.pointCount = 0 then
        parameters.HandleGlobalShift
          (arith.vtoDouble (Vector3Tpl.ofBytes mem.indeterminate (s.fp.read 12).2.1))
      else none) = none := by
    by_cases h0 : s.pointCount = 0
    · rw [if_pos h0, hr]
      simp only [Vector3Tpl.ofBytes_bytes]
      exact hshift h0
    · rw [if_neg h0]
  unfold readVertex
  rw [hnone]
  rw [hr]
  simp only [Vector3Tpl.ofBytes_bytes, hz, reloaded]
  rw [if_neg (by decide)]

theorem readFacet_at {PC D : Type} (arith : CoordinateArithmetic PC D) (mem : Memory)
    (parameters : LoadParameters D) (s : BinaryLoadState PC D) (pre post : List Byte)
    (a b c : Vector3Tpl PC) (hb : s.fp.bytes = pre ++ facetRecord arith a b c ++ post)
    (hp : s.fp.pos = pre.length) (hz : s.Pshift = ⟨arith.zero, arith.zero, arith.zero⟩)
    (hpc : s.pointCount + 3 ≤ 2 ^ 32)
    (hshift : s.pointCount = 0 →
      parameters.HandleGlobalShift (arith.vtoDouble (arith.vtoFloat a)) = none) :
    ∃ s', readFacet arith mem parameters s = (none, s') ∧ s'.fp.bytes = s.fp.bytes ∧
      s'.fp.pos = pre.length + 50 ∧ s'.pointCount = (s.pointCount + 3) % 2 ^ 32 ∧
      s'.Pshift = s.Pshift ∧
      s'.mesh.points = s.mesh.points ++
        [reloaded arith (arith.vtoFloat a), reloaded arith (arith.vtoFloat b),
          reloaded arith (arith.vtoFloat c)] ∧
      s'.mesh.triangles = s.mesh.triangles ++
        [⟨s.pointCount, s.pointCount + 1, s.pointCount + 2⟩] := by
  have hN := QFile.read_at pre
    (arith.vtoFloat (arith.cross (arith.vsub b a) (arith.vsub c a))).bytes
    ((arith.vtoFloat a).bytes ++ (arith.vtoFloat b).bytes ++ (arith.vtoFloat c).bytes ++ [0, 0] ++
      post)
    (by rw [hb]; simp only [facetRecord, List.append_assoc]) hp
  rw [Vector3Tpl.bytes_length] at hN
  have h1 := readVertex_at arith mem parameters
    { s with fp := { s.fp with pos := pre.length + 12 } }
    (pre ++ (arith.vtoFloat (arith.cross (arith.vsub b a) (arith.vsub c a))).bytes)
    ((arith.vtoFloat b).bytes ++ (arith.vtoFloat c).bytes ++ [0, 0] ++ post) (arith.vtoFloat a)
    (by show s.fp.bytes = _; rw [hb]; simp only [facetRecord, List.append_assoc])
    (by simp [Vector3Tpl.bytes_length]) hz hshift
  have hm1 : (s.pointCount + 1) % 2 ^ 32 = s.pointCount + 1 := Nat.mod_eq_of_lt (by omega)
  have hm2 : (s.pointCount + 1 + 1) % 2 ^ 32 = s.pointCount + 2 := Nat.mod_eq_of_lt (by omega)
  have h2 := readVertex_at arith mem parameters
    { s with
      fp := { s.fp with
        pos := (pre ++ (arith.vtoFloat (arith.cross (arith.vsub b a) (arith.vsub c a))).bytes).length
          + 12 }
      pointCount := (s.pointCount + 1) % 2 ^ 32
      mesh := { s.mesh with points := s.mesh.points ++ [reloaded arith (arith.vtoFloat a)] } }
    (pre ++ (arith.vtoFloat (arith.cross (arith.vsub b a) (arith.vsub c a))).bytes ++
      (arith.vtoFloat a).bytes)
    ((arith.vtoFloat c).bytes ++ [0, 0] ++ post) (arith.vtoFloat b)
    (by show s.fp.bytes = _; rw [hb]; simp only [facetRecord, List.append_assoc])
    (by simp [Vector3Tpl.bytes_length]) hz
    (by intro h; simp only [hm1] at h; omega)
  have h3 := readVertex_at arith mem parameters
    { s with
      fp := { s.fp with
        pos := (pre ++ (arith.vtoFloat (arith.cross (arith.vsub b a) (arith.vsub c a))).bytes ++
          (arith.vtoFloat a).bytes).length + 12 }
      pointCount := ((s.pointCount + 1) % 2 ^ 32 + 1) % 2 ^ 32
      mesh := { s.mesh with
        points := s.mesh.points ++ [reloaded arith (arith.vtoFloat a)] ++
          [reloaded arith (arith.vtoFloat b)] } }
    (pre ++ (arith.vtoFloat (arith.cross (arith.vsub b a) (arith.vsub c a))).bytes ++
      (arith.vtoFloat a).bytes ++ (arith.vtoFloat b).bytes)
    ([0, 0] ++ post) (arith.vtoFloat c)
    (by show s.fp.bytes = _; rw [hb]; simp only [facetRecord, List.append_assoc])
    (by simp [Vector3Tpl.bytes_length]) hz
    (by intro h; simp only [hm1, hm2] at h; omega)
  have hA := QFile.read_at (f := { s.fp with
      pos := (pre ++ (arith.vtoFloat (arith.cross (arith.vsub b a) (arith.vsub c a))).bytes ++
        (arith.vtoFloat a).bytes ++ (arith.vtoFloat b).bytes).length + 12 })
    (pre ++ (arith.vtoFloat (arith.cross (arith.vsub b a) (arith.vsub c a))).bytes ++
      (arith.vtoFloat a).bytes ++ (arith.vtoFloat b).bytes ++ (arith.vtoFloat c).bytes)
    ([0, 0] : List Byte) post
    (by show s.fp.bytes = _; rw [hb]; simp only [facetRecord, List.append_assoc])
    (by simp [Vector3Tpl.bytes_length])
  unfold readFacet
  rw [hN]
  simp only [Int.lt_irrefl, if_false]
  rw [h1]
  simp only
  rw [h2]
  simp only
  rw [h3]
  simp only
  have hA' : ({ s.fp with
      pos := (pre ++ (arith.vtoFloat (arith.cross (arith.vsub b a) (arith.vsub c a))).bytes ++
        (arith.vtoFloat a).bytes ++ (arith.vtoFloat b).bytes).length + 12 } : QFile).read 2 = _ :=
    hA
  rw [hA']
  simp only [List.length_cons, List.length_nil, Nat.cast_ofNat]
  refine ⟨_, rfl, rfl, ?_, ?_, rfl, ?_, ?_⟩
  · simp only [List.length_append, Vector3Tpl.bytes_length]
  · simp only [hm1, hm2]
  · simp only [List.append_assoc, List.singleton_append, List.cons_append, List.nil_append]
  · simp only [hm1, hm2]

theorem readFacet_mod {PC D : Type} (arith : CoordinateArithmetic PC D) (mem : Memory)
    (parameters : LoadParameters D) (s : BinaryLoadState PC D) (pre post : List Byte)
    (a b c : Vector3Tpl PC) (hb : s.fp.bytes = pre ++ facetRecord arith a b c ++ post)
    (hp : s.fp.pos = pre.length) (hz : s.Pshift = ⟨arith.zero, arith.zero, arith.zero⟩)
    (hshift : ∀ Pd, parameters.HandleGlobalShift Pd = none) :
    ∃ s', readFacet arith mem parameters s = (none, s') ∧ s'.fp.bytes = s.fp.bytes ∧
      s'.fp.pos = pre.length + 50 ∧
      s'.pointCount = (((s.pointCount + 1) % 2 ^ 32 + 1) % 2 ^ 32 + 1) % 2 ^ 32 ∧
      s'.Pshift = s.Pshift ∧
      s'.mesh.points = s.mesh.points ++
        [reloaded arith (arith.vtoFloat a), reloaded arith (arith.vtoFloat b),
          reloaded arith (arith.vtoFloat c)] ∧
      s'.mesh.triangles = s.mesh.triangles ++
        [⟨s.pointCount, (s.pointCount + 1) % 2 ^ 32,
          ((s.pointCount + 1) % 2 ^ 32 + 1) % 2 ^ 32⟩] := by
  have hN := QFile.read_at pre
    (arith.vtoFloat (arith.cross (arith.vsub b a) (arith.vsub c a))).bytes
    ((arith.vtoFloat a).bytes ++ (arith.vtoFloat b).bytes ++ (arith.vtoFloat c).bytes ++ [0, 0] ++
      post)
    (by rw [hb]; simp only [facetRecord, List.append_assoc]) hp
  rw [Vector3Tpl.bytes_length] at hN
  have h1 := readVertex_at arith mem parameters
    { s with fp := { s.fp with pos := pre.length + 12 } }
    (pre ++ (arith.vtoFloat (arith.cross (arith.vsub b a) (arith.vsub c a))).bytes)
    ((arith.vtoFloat b).bytes ++ (arith.vtoFloat c).bytes ++ [0, 0] ++ post) (arith.vtoFloat a)
    (by show s.fp.bytes = _; rw [hb]; simp only [facetRecord, List.append_assoc])
    (by simp [Vector3Tpl.bytes_length]) hz (fun _ => hshift _)
  have h2 := readVertex_at arith mem parameters
    { s with
      fp := { s.fp with
        pos := (pre ++ (arith.vtoFloat (arith.cross (arith.vsub b a) (arith.vsub c a))).bytes).length
          + 12 }
      pointCount := (s.pointCount + 1) % 2 ^ 32
      mesh := { s.mesh with points := s.mesh.points ++ [reloaded arith (arith.vtoFloat a)] } }
    (pre ++ (arith.vtoFloat (arith.cross (arith.vsub b a) (arith.vsub c a))).bytes ++
      (arith.vtoFloat a).bytes)
    ((arith.vtoFloat c).bytes ++ [0, 0] ++ post) (arith.vtoFloat b)
    (by show s.fp.bytes = _; rw [hb]; simp only [facetRecord, List.append_assoc])
    (by simp [Vector3Tpl.bytes_length]) hz
    (fun _ => hshift _)
  have h3 := readVertex_at arith mem parameters
    { s with
      fp := { s.fp with
        pos := (pre ++ (arith.vtoFloat (arith.cross (arith.vsub b a) (arith.vsub c a))).bytes ++
          (arith.vtoFloat a).bytes).length + 12 }
      pointCount := ((s.pointCount + 1) % 2 ^ 32 + 1) % 2 ^ 32
      mesh := { s.mesh with
        points := s.mesh.points ++ [reloaded arith (arith.vtoFloat a)] ++
          [reloaded arith (arith.vtoFloat b)] } }
    (pre ++ (arith.vtoFloat (arith.cross (arith.vsub b a) (arith.vsub c a))).bytes ++
      (arith.vtoFloat a).bytes ++ (arith.vtoFloat b).bytes)
    ([0, 0] ++ post) (arith.vtoFloat c)
    (by show s.fp.bytes = _; rw [hb]; simp only [facetRecord, List.append_assoc])
    (by simp [Vector3Tpl.bytes_length]) hz
    (fun _ => hshift _)
  have hA := QFile.read_at (f := { s.fp with
      pos := (pre ++ (arith.vtoFloat (arith.cross (arith.vsub b a) (arith.vsub c a))).bytes ++
        (arith.vtoFloat a).bytes ++ (arith.vtoFloat b).bytes).length + 12 })
    (pre ++ (arith.vtoFloat (arith.cross (arith.vsub b a) (arith.vsub c a))).bytes ++
      (arith.vtoFloat a).bytes ++ (arith.vtoFloat b).bytes ++ (arith.vtoFloat c).bytes)
    ([0, 0] : List Byte) post
    (by show s.fp.bytes = _; rw [hb]; simp only [facetRecord, List.append_assoc])
    (by simp [Vector3Tpl.bytes_length])
  unfold readFacet
  rw [hN]
  simp only [Int.lt_irrefl, if_false]
  rw [h1]
  simp only
  rw [h2]
  simp only
  rw [h3]
  simp only
  have hA' : ({ s.fp with
      pos := (pre ++ (arith.vtoFloat (arith.cross (arith.vsub b a) (arith.vsub c a))).bytes ++
        (arith.vtoFloat a).bytes ++ (arith.vtoFloat b).bytes).length + 12 } : QFile).read 2 = _ :=
    hA
  rw [hA']
  simp only [List.length_cons, List.length_nil, Nat.cast_ofNat]
  refine ⟨_, rfl, rfl, ?_, rfl, rfl, ?_, rfl⟩
  · simp only [List.length_append, Vector3Tpl.bytes_length]
  · simp only [List.append_assoc, List.singleton_append, List.cons_append, List.nil_append]

theorem triangleRecord_of_valid {PC D : Type} (arith : CoordinateArithmetic PC D)
    (points : List (Vector3Tpl PC)) (t : VerticesIndexes) (h1 : t.i1 < points.length)
    (h2 : t.i2 < points.length) (h3 : t.i3 < points.length) :
    triangleRecord arith points t = facetRecord arith points[t.i1] points[t.i2] points[t.i3] ∧
    triangleVertices arith points t =
      [reloaded arith (arith.vtoFloat points[t.i1]), reloaded arith (arith.vtoFloat points[t.i2]),
        reloaded arith (arith.vtoFloat points[t.i3])] := by
  simp only [triangleRecord, triangleVertices, List.getElem?_eq_getElem h1,
    List.getElem?_eq_getElem h2, List.getElem?_eq_getElem h3, and_self]

theorem readFacets_zero {PC D : Type} (arith : CoordinateArithmetic PC D) (mem : Memory)
    (parameters : LoadParameters D) (f : Nat) (s : BinaryLoadState PC D) :
    readFacets arith mem parameters 0 f s = (CC_FILE_ERROR.CC_FERR_NO_ERROR, s) := rfl

theorem readFacets_succ {PC D : Type} (arith : CoordinateArithmetic PC D) (mem : Memory)
    (parameters : LoadParameters D) (remaining f : Nat) (s s' : BinaryLoadState PC D)
    (hf : readFacet arith mem parameters s = (none, s'))
    (hstep : ∀ dlg, parameters.pDlg = some dlg → dlg.oneStep f = true) :
    readFacets arith mem parameters (remaining + 1) f s =
      readFacets arith mem parameters remaining (f + 1) s' := by
  unfold readFacets
  rw [facetLoop, hf]
  cases hd : parameters.pDlg with
  | none => rfl
  | some dlg =>
    simp only [hstep dlg hd, Bool.not_true, Bool.false_eq_true, if_false]

theorem readFacets_at {PC D : Type} (arith : CoordinateArithmetic PC D) (mem : Memory)
    (parameters : LoadParameters D) (points : List (Vector3Tpl PC)) (ts : List VerticesIndexes)
    (f : Nat) (s : BinaryLoadState PC D) (pre post : List Byte)
    (hb : s.fp.bytes = pre ++ ts.flatMap (triangleRecord arith points) ++ post)
    (hp : s.fp.pos = pre.length) (hz : s.Pshift = ⟨arith.zero, arith.zero, arith.zero⟩)
    (hidx : ∀ t ∈ ts, t.i1 < points.length ∧ t.i2 < points.length ∧ t.i3 < points.length)
    (hpc : s.pointCount + 3 * ts.length ≤ 2 ^ 32)
    (hshift : s.pointCount = 0 → ∀ t a, ts.head? = some t → points[t.i1]? = some a →
      parameters.HandleGlobalShift (arith.vtoDouble (arith.vtoFloat a)) = none)
    (hstep : ∀ dlg, parameters.pDlg = some dlg →
      ∀ j, f ≤ j → j < f + ts.length → dlg.oneStep j = true) :
    ∃ s', readFacets arith mem parameters ts.length f s = (CC_FILE_ERROR.CC_FERR_NO_ERROR, s') ∧
      s'.mesh.points = s.mesh.points ++ ts.flatMap (triangleVertices arith points) ∧
      s'.mesh.triangles = s.mesh.triangles ++
        (List.range ts.length).map
          (fun j => ⟨s.pointCount + 3 * j, s.pointCount + 3 * j + 1, s.pointCount + 3 * j + 2⟩) := by
  induction ts generalizing f s pre with
  | nil => exact ⟨s, readFacets_zero arith mem parameters f s, by simp, by simp⟩
  | cons t rest ih =>
    obtain ⟨h1, h2, h3⟩ := hidx t (List.mem_cons_self _ _)
    obtain ⟨hrec, hvert⟩ := triangleRecord_of_valid arith points t h1 h2 h3
    have hlen : (t :: rest).length = rest.length + 1 := rfl
    rw [hlen] at hpc
    obtain ⟨s1, hf, hb1, hp1, hpc1, hz1, hpts1, htri1⟩ :=
      readFacet_at arith mem parameters s pre (rest.flatMap (triangleRecord arith points) ++ post)
        points[t.i1] points[t.i2] points[t.i3]
        (by rw [hb, List.flatMap_cons, hrec]; simp only [List.append_assoc]) hp hz (by omega)
        (fun h0 => hshift h0 t points[t.i1] rfl (List.getElem?_eq_getElem h1))
    have hstep0 : ∀ dlg, parameters.pDlg = some dlg → dlg.oneStep f = true :=
      fun dlg hd => hstep dlg hd f (le_refl _) (by rw [hlen]; omega)
    have hunfold : readFacets arith mem parameters (rest.length + 1) f s =
        readFacets arith mem parameters rest.length (f + 1) s1 :=
      readFacets_succ arith mem parameters rest.length f s s1 hf hstep0
    have hrest : ∃ s', readFacets arith mem parameters rest.length (f + 1) s1 =
          (CC_FILE_ERROR.CC_FERR_NO_ERROR, s') ∧
        s'.mesh.points = s1.mesh.points ++ rest.flatMap (triangleVertices arith points) ∧
        s'.mesh.triangles = s1.mesh.triangles ++
          (List.range rest.length).map
            (fun j => ⟨s.pointCount + 3 + 3 * j, s.pointCount + 3 + 3 * j + 1,
              s.pointCount + 3 + 3 * j + 2⟩) := by
      rcases rest with _ | ⟨t2, rest2⟩
      · exact ⟨s1, readFacets_zero arith mem parameters (f + 1) s1, by simp, by simp⟩
      · have hlen2 : (t2 :: rest2).length = rest2.length + 1 := rfl
        rw [hlen2] at hpc
        have hmod : (s.pointCount + 3) % 2 ^ 32 = s.pointCount + 3 := Nat.mod_eq_of_lt (by omega)
        rw [hmod] at hpc1
        obtain ⟨s', hr, hpts, htri⟩ := ih (f + 1) s1
          (pre ++ facetRecord arith points[t.i1] points[t.i2] points[t.i3])
          (by rw [hb1, hb, List.flatMap_cons, hrec]; simp only [List.append_assoc])
          (by rw [hp1, List.length_append, facetRecord_length])
          (by rw [hz1, hz])
          (fun x hx => hidx x (List.mem_cons_of_mem _ hx))
          (by rw [hpc1, hlen2]; omega)
          (by intro h0; rw [hpc1] at h0; omega)
          (fun dlg hd j hj1 hj2 => hstep dlg hd j (by omega) (by rw [hlen]; omega))
        refine ⟨s', hr, hpts, ?_⟩
        rw [htri, hpc1]
    obtain ⟨s', hr, hpts, htri⟩ := hrest
    refine ⟨s', ?_, ?_, ?_⟩
    · rw [hlen, hunfold, hr]
    · rw [hpts, hpts1, List.flatMap_cons, hvert, List.append_assoc]
    · rw [htri, htri1, hlen, List.range_succ_eq_map, List.map_cons, List.map_map,
        List.append_assoc]
      congr 1
      rw [List.singleton_append]
      congr 1
      apply List.map_congr_left
      intro j _
      simp only [Function.comp, Nat.succ_eq_add_one, VerticesIndexes.mk.injEq]
      omega

theorem readFacets_mod {PC D : Type} (arith : CoordinateArithmetic PC D) (mem : Memory)
    (parameters : LoadParameters D) (points : List (Vector3Tpl PC)) (ts : List VerticesIndexes)
    (f : Nat) (s : BinaryLoadState PC D) (pre post : List Byte)
    (hb : s.fp.bytes = pre ++ ts.flatMap (triangleRecord arith points) ++ post)
    (hp : s.fp.pos = pre.length) (hz : s.Pshift = ⟨arith.zero, arith.zero, arith.zero⟩)
    (hidx : ∀ t ∈ ts, t.i1 < points.length ∧ t.i2 < points.length ∧ t.i3 < points.length)
    (hpc : s.pointCount < 2 ^ 32)
    (hshift : ∀ Pd, parameters.HandleGlobalShift Pd = none)
    (hstep : ∀ dlg, parameters.pDlg = some dlg →
      ∀ j, f ≤ j → j < f + ts.length → dlg.oneStep j = true) :
    ∃ s', readFacets arith mem parameters ts.length f s = (CC_FILE_ERROR.CC_FERR_NO_ERROR, s') ∧
      s'.mesh.triangles = s.mesh.triangles ++
        (List.range ts.length).map
          (fun j => ⟨(s.pointCount + 3 * j) % 2 ^ 32, (s.pointCount + 3 * j + 1) % 2 ^ 32,
            (s.pointCount + 3 * j + 2) % 2 ^ 32⟩) := by
  induction ts generalizing f s pre with
  | nil => exact ⟨s, readFacets_zero arith mem parameters f s, by simp⟩
  | cons t rest ih =>
    obtain ⟨h1, h2, h3⟩ := hidx t (List.mem_cons_self _ _)
    obtain ⟨hrec, _⟩ := triangleRecord_of_valid arith points t h1 h2 h3
    have hlen : (t :: rest).length = rest.length + 1 := rfl
    obtain ⟨s1, hf, hb1, hp1, hpc1, hz1, _, htri1⟩ :=
      readFacet_mod arith mem parameters s pre (rest.flatMap (triangleRecord arith points) ++ post)
        points[t.i1] points[t.i2] points[t.i3]
        (by rw [hb, List.flatMap_cons, hrec]; simp only [List.append_assoc]) hp hz hshift
    have hstep0 : ∀ dlg, parameters.pDlg = some dlg → dlg.oneStep f = true :=
      fun dlg hd => hstep dlg hd f (le_refl _) (by rw [hlen]; omega)
    have hunfold : readFacets arith mem parameters (rest.length + 1) f s =
        readFacets arith mem parameters rest.length (f + 1) s1 :=
      readFacets_succ arith mem parameters rest.length f s s1 hf hstep0
    obtain ⟨s', hr, htri⟩ := ih (f + 1) s1
      (pre ++ facetRecord arith points[t.i1] points[t.i2] points[t.i3])
      (by rw [hb1, hb, List.flatMap_cons, hrec]; simp only [List.append_assoc])
      (by rw [hp1, List.length_append, facetRecord_length])
      (by rw [hz1, hz])
      (fun x hx => hidx x (List.mem_cons_of_mem _ hx))
      (by rw [hpc1]; exact Nat.mod_lt _ (by decide))
      (fun dlg hd j hj1 hj2 => hstep dlg hd j (by omega) (by rw [hlen]; omega))
    refine ⟨s', ?_, ?_⟩
    · rw [hlen, hunfold, hr]
    · rw [htri, htri1, hpc1, hlen, List.range_succ_eq_map, List.map_cons, List.map_map,
        List.append_assoc]
      congr 1
      rw [List.singleton_append]
      congr 1
      · rw [VerticesIndexes.mk.injEq]
        refine ⟨?_, ?_, ?_⟩ <;> omega
      · apply List.map_congr_left
        intro j _
        rw [Function.comp, VerticesIndexes.mk.injEq]
        refine ⟨?_, ?_, ?_⟩ <;> omega

/-! ## Binary STL files: the file written and its reading back -/

theorem ccMesh.size_lt {PC D : Type} (mesh : ccMesh PC D) : mesh.size < 2 ^ 32 :=
  Nat.mod_lt _ (by decide)

theorem ccMesh.length_take_size {PC D : Type} (mesh : ccMesh PC D) :
    (mesh.triangles.take mesh.size).length = mesh.size := by
  rw [List.length_take]
  exact Nat.min_eq_left (Nat.mod_le _ _)

/-- File that `saveToBINFile` writes when the device accepts it, no vertex index is out
of the cloud and the user does not cancel. -/
theorem saveToBINFile_spec {PC D : Type} (arith : CoordinateArithmetic PC D) (bigEndian : Bool)
    (mesh : ccMesh PC D) (theFile : QFile) (pDlg : Option ccProgressDialog)
    (hn : mesh.size ≠ 0) (hacc : theFile.accepts (84 + 50 * mesh.size))
    (hidx : ∀ t ∈ mesh.triangles.take mesh.size,
      t.i1 < mesh.points.length ∧ t.i2 < mesh.points.length ∧ t.i3 < mesh.points.length)
    (hstep : ∀ dlg, pDlg = some dlg → ∀ j, j < mesh.size → dlg.oneStep j = true) :
    ∃ f', saveToBINFile arith bigEndian mesh theFile pDlg =
        some (CC_FILE_ERROR.CC_FERR_NO_ERROR, f') ∧
      f'.bytes = theFile.bytes ++ binaryHeader ++ uint32Bytes bigEndian mesh.size ++
        (mesh.triangles.take mesh.size).flatMap (triangleRecord arith mesh.points) := by
  obtain ⟨hv1, hb1, _, ha1⟩ := QFile.write_accepted binaryHeader hacc
    (by rw [binaryHeader_length]; omega)
  rw [binaryHeader_length] at hv1 ha1
  obtain ⟨hv2, hb2, _, ha2⟩ := QFile.write_accepted (uint32Bytes bigEndian mesh.size) ha1
    (by rw [uint32Bytes_length]; omega)
  rw [uint32Bytes_length] at hv2 ha2
  obtain ⟨f', hw, hb3, _⟩ := writeFacets_accepted arith mesh.points pDlg
    (mesh.triangles.take mesh.size) 0
    ((theFile.write binaryHeader).1.write (uint32Bytes bigEndian mesh.size)).1
    (84 + 50 * mesh.size - 80 - 4) hidx ha2
    (by rw [ccMesh.length_take_size]; omega)
    (fun dlg hd j _ hj => hstep dlg hd j (by rw [ccMesh.length_take_size] at hj; omega))
  refine ⟨f', ?_, ?_⟩
  · unfold saveToBINFile
    rw [if_neg hn, hv1, if_neg (by decide), hv2, if_neg (by decide)]
    exact hw
  · rw [hb3, hb2, hb1]

/-- Mesh that `loadBinaryFile` builds from a file made of a header of 80 bytes, the count
of the triangles `ts` and their facet records, when memory is available, no global shift
is applied and the user does not cancel. -/
theorem loadBinaryFile_spec {PC D : Type} (arith : CoordinateArithmetic PC D) (bigEndian : Bool)
    (mem : Memory) (parameters : LoadParameters D) (points : List (Vector3Tpl PC))
    (ts : List VerticesIndexes) (fp : QFile) (mesh : ccMesh PC D) (header : List Byte)
    (hheader : header.length = 80)
    (hb : fp.bytes = header ++ uint32Bytes bigEndian ts.length ++
      ts.flatMap (triangleRecord arith points))
    (hidx : ∀ t ∈ ts, t.i1 < points.length ∧ t.i2 < points.length ∧ t.i3 < points.length)
    (h3n : 3 * ts.length ≤ 2 ^ 32)
    (hmesh : mem.reserveMesh ts.length = true)
    (hvert : mem.reserveVertices ((3 * ts.length) % 2 ^ 32) = true)
    (hshift : ∀ t a, ts.head? = some t → points[t.i1]? = some a →
      parameters.HandleGlobalShift (arith.vtoDouble (arith.vtoFloat a)) = none)
    (hstep : ∀ dlg, parameters.pDlg = some dlg → ∀ j, j < ts.length → dlg.oneStep j = true) :
    ∃ fp' mesh', loadBinaryFile arith bigEndian mem fp mesh parameters =
        (CC_FILE_ERROR.CC_FERR_NO_ERROR, fp', mesh') ∧
      mesh'.points = mesh.points ++ ts.flatMap (triangleVertices arith points) ∧
      mesh'.triangles = mesh.triangles ++
        (List.range ts.length).map (fun k => ⟨3 * k, 3 * k + 1, 3 * k + 2⟩) := by
  have hlt : ts.length < 2 ^ 32 := by omega
  have hread := QFile.read_at (f := fp.seek 80) header (uint32Bytes bigEndian ts.length)
    (ts.flatMap (triangleRecord arith points)) hb (by rw [hheader]; rfl)
  rw [uint32Bytes_length] at hread
  have hcount : readFaceCount bigEndian fp = ts.length := by
    unfold readFaceCount
    rw [hread]
    exact uint32OfBytes_uint32Bytes bigEndian hlt
  obtain ⟨s', hr, hpts, htri⟩ := readFacets_at arith mem parameters points ts 0
    (binaryLoadStart arith bigEndian mem fp mesh) (header ++ uint32Bytes bigEndian ts.length) []
    (by
      show ((fp.seek 80).read 4).1.bytes = _
      rw [hread, List.append_nil]
      exact hb)
    (by
      show ((fp.seek 80).read 4).1.pos = _
      rw [hread, List.length_append, uint32Bytes_length])
    rfl hidx
    (by show 0 + 3 * ts.length ≤ 2 ^ 32; omega)
    (fun _ => hshift)
    (fun dlg hd j _ hj => hstep dlg hd j (by omega))
  refine ⟨s'.fp, s'.mesh, ?_, ?_, ?_⟩
  · unfold loadBinaryFile
    rw [hcount, hread]
    simp only [Nat.cast_ofNat, Int.lt_irrefl, if_false, hmesh, hvert, hr, Bool.not_true,
      Bool.false_eq_true]
  · rw [hpts]
    rfl
  · rw [htri]
    show mesh.triangles ++ _ = _
    congr 1
    apply List.map_congr_left
    intro k _
    simp only [binaryLoadStart, Nat.zero_add]

/-- Triangles that `loadBinaryFile` builds whatever the number of facets: the counter of
the points is an `unsigned`, so the indexes it gives wrap at 2^32. -/
theorem loadBinaryFile_mod {PC D : Type} (arith : CoordinateArithmetic PC D) (bigEndian : Bool)
    (mem : Memory) (parameters : LoadParameters D) (points : List (Vector3Tpl PC))
    (ts : List VerticesIndexes) (fp : QFile) (mesh : ccMesh PC D) (header : List Byte)
    (hheader : header.length = 80)
    (hb : fp.bytes = header ++ uint32Bytes bigEndian ts.length ++
      ts.flatMap (triangleRecord arith points))
    (hidx : ∀ t ∈ ts, t.i1 < points.length ∧ t.i2 < points.length ∧ t.i3 < points.length)
    (hlt : ts.length < 2 ^ 32)
    (hmesh : mem.reserveMesh ts.length = true)
    (hvert : mem.reserveVertices ((3 * ts.length) % 2 ^ 32) = true)
    (hshift : ∀ Pd, parameters.HandleGlobalShift Pd = none)
    (hstep : ∀ dlg, parameters.pDlg = some dlg → ∀ j, j < ts.length → dlg.oneStep j = true) :
    ∃ fp' mesh', loadBinaryFile arith bigEndian mem fp mesh parameters =
        (CC_FILE_ERROR.CC_FERR_NO_ERROR, fp', mesh') ∧
      mesh'.triangles = mesh.triangles ++
        (List.range ts.length).map
          (fun k => ⟨(3 * k) % 2 ^ 32, (3 * k + 1) % 2 ^ 32, (3 * k + 2) % 2 ^ 32⟩) := by
  have hread := QFile.read_at (f := fp.seek 80) header (uint32Bytes bigEndian ts.length)
    (ts.flatMap (triangleRecord arith points)) hb (by rw [hheader]; rfl)
  rw [uint32Bytes_length] at hread
  have hcount : readFaceCount bigEndian fp = ts.length := by
    unfold readFaceCount
    rw [hread]
    exact uint32OfBytes_uint32Bytes bigEndian hlt
  obtain ⟨s', hr, htri⟩ := readFacets_mod arith mem parameters points ts 0
    (binaryLoadStart arith bigEndian mem fp mesh) (header ++ uint32Bytes bigEndian ts.length) []
    (by
      show ((fp.seek 80).read 4).1.bytes = _
      rw [hread, List.append_nil]
      exact hb)
    (by
      show ((fp.seek 80).read 4).1.pos = _
      rw [hread, List.length_append, uint32Bytes_length])
    rfl hidx (by show 0 < 2 ^ 32; decide) hshift
    (fun dlg hd j _ hj => hstep dlg hd j (by omega))
  refine ⟨s'.fp, s'.mesh, ?_, ?_⟩
  · unfold loadBinaryFile
    rw [hcount, hread]
    simp only [Nat.cast_ofNat, Int.lt_irrefl, if_false, hmesh, hvert, hr, Bool.not_true,
      Bool.false_eq_true]
  · rw [htri]
    show mesh.triangles ++ _ = _
    congr 1
    apply List.map_congr_left
    intro k _
    simp only [binaryLoadStart, Nat.zero_add]

theorem loadBinaryFile_no_memory {PC D : Type} (arith : CoordinateArithmetic PC D)
    (bigEndian : Bool) (mem : Memory) (parameters : LoadParameters D) (fp : QFile)
    (mesh : ccMesh PC D) (hlen : 84 ≤ fp.bytes.length) (hmem : ∀ n, mem.reserveMesh n = false) :
    (loadBinaryFile arith bigEndian mem fp mesh parameters).1 =
      CC_FILE_ERROR.CC_FERR_NOT_ENOUGH_MEMORY := by
  have h4 : ((fp.seek 80).read 4).2.2 = 4 := by
    show ((((fp.bytes.drop 80).take 4).length : Nat) : Int) = 4
    rw [List.length_take, List.length_drop, Nat.min_eq_left (by omega)]
    rfl
  unfold loadBinaryFile
  rw [h4, if_neg (by decide), hmem]
  rfl

/-! ## Binary STL files: claims -/

theorem getElem?_flatMap_three {α β : Type} (g : α → List β) (l : List α)
    (hg : ∀ x ∈ l, (g x).length = 3) (k j : Nat) (hj : j < 3) (x : α) (hx : l[k]? = some x) :
    (l.flatMap g)[3 * k + j]? = (g x)[j]? := by
  induction l generalizing k with
  | nil => simp at hx
  | cons y rest ih =>
    have hy := hg y (List.mem_cons_self _ _)
    cases k with
    | zero =>
      simp only [List.getElem?_cons_zero, Option.some.injEq] at hx
      subst hx
      rw [List.flatMap_cons, Nat.mul_zero, Nat.zero_add,
        List.getElem?_append_left (by omega)]
    | succ k =>
      simp only [List.getElem?_cons_succ] at hx
      rw [List.flatMap_cons, List.getElem?_append_right (by omega), hy]
      have : 3 * (k + 1) + j - 3 = 3 * k + j := by omega
      rw [this]
      exact ih (fun z hz => hg z (List.mem_cons_of_mem _ hz)) k hx

theorem triangleVertices_length {PC D : Type} (arith : CoordinateArithmetic PC D)
    (points : List (Vector3Tpl PC)) (ts : List VerticesIndexes)
    (hidx : ∀ t ∈ ts, t.i1 < points.length ∧ t.i2 < points.length ∧ t.i3 < points.length) :
    ∀ t ∈ ts, (triangleVertices arith points t).length = 3 := by
  intro t ht
  obtain ⟨h1, h2, h3⟩ := hidx t ht
  rw [(triangleRecord_of_valid arith points t h1 h2 h3).2]
  rfl

theorem length_flatMap_three {α β : Type} (g : α → List β) (l : List α)
    (hg : ∀ x ∈ l, (g x).length = 3) : (l.flatMap g).length = 3 * l.length := by
  induction l with
  | nil => rfl
  | cons y rest ih =>
    rw [List.flatMap_cons, List.length_append, hg y (List.mem_cons_self _ _),
      ih (fun z hz => hg z (List.mem_cons_of_mem _ hz)), List.length_cons]
    omega

/-- C19, evaluated on the code: a file that announces one facet and ends inside its
record, one byte before its end, or already after its 12-byte normal, is loaded with
`CC_FERR_NO_ERROR`, and a triangle is added: the reads of the three vertices and of
the attribute byte count are checked against a negative value only, which a short read
is not. Cutting the file inside the normal gives `CC_FERR_READING`. -/
theorem loadBinaryFile_accepts_truncated_record {PC D : Type}
    (arith : CoordinateArithmetic PC D) :
    fileCutInAttribute.bytes.length = 84 + 49 ∧
    (loadBinaryFile arith false memoryPlenty fileCutInAttribute (ccMesh.empty PC D)
      (parametersQuiet D)).1 = CC_FILE_ERROR.CC_FERR_NO_ERROR ∧
    (loadBinaryFile arith false memoryPlenty fileCutInAttribute (ccMesh.empty PC D)
      (parametersQuiet D)).2.2.triangles = [⟨0, 1, 2⟩] ∧
    fileCutAfterNormal.bytes.length = 84 + 12 ∧
    (loadBinaryFile arith false memoryPlenty fileCutAfterNormal (ccMesh.empty PC D)
      (parametersQuiet D)).1 = CC_FILE_ERROR.CC_FERR_NO_ERROR ∧
    (loadBinaryFile arith false memoryPlenty fileCutAfterNormal (ccMesh.empty PC D)
      (parametersQuiet D)).2.2.triangles = [⟨0, 1, 2⟩] ∧
    (loadBinaryFile arith false memoryPlenty
      ⟨binaryHeader ++ uint32Bytes false 1 ++ List.replicate 11 0, 0, none⟩ (ccMesh.empty PC D)
      (parametersQuiet D)).1 = CC_FILE_ERROR.CC_FERR_READING := by
  have hlen1 : fileCutInAttribute.bytes.length = 84 + 49 := by
    simp only [fileCutInAttribute, List.length_append, binaryHeader_length, uint32Bytes_length,
      List.length_replicate]
  have hlen2 : fileCutAfterNormal.bytes.length = 84 + 12 := by
    simp only [fileCutAfterNormal, List.length_append, binaryHeader_length, uint32Bytes_length,
      List.length_replicate]
  refine ⟨hlen1, ?_, ?_, hlen2, ?_, ?_, ?_⟩ <;> rfl

theorem binaryHeader_padding : binaryHeader.drop 42 = List.replicate 38 0 := by
  decide

theorem emptyFile_accepts (k : Nat) : emptyFile.accepts k := by
  intro r h
  exact absurd h (by simp [emptyFile])

theorem meshOne_indexes : ∀ t ∈ meshOne.triangles.take meshOne.size,
    t.i1 < meshOne.points.length ∧ t.i2 < meshOne.points.length ∧ t.i3 < meshOne.points.length := by
  intro t ht
  have h : t = ⟨0, 1, 2⟩ := by
    simpa [meshOne, ccMesh.size] using ht
  subst h
  simp [meshOne]

/-- C20: the file that `saveToBINFile` writes. For every mesh of `n = size()` triangles,
`n >= 1`, with vertex indexes inside its cloud, on a device that accepts `84 + 50 * n`
bytes and without cancellation, the function returns `CC_FERR_NO_ERROR` after appending
exactly `84 + 50 * n` bytes to the file: the header of 80 bytes, which ends with zeros,
the four bytes of `n` as an `unsigned`, then, for each triangle in the order of
iteration, a record of 50 bytes made of the 12 bytes of the normal `(B - A) x (C - A)`,
the 12 bytes of each of the vertices `A`, `B`, `C`, and two zero bytes. -/
theorem saveToBINFile_writes_records {PC D : Type} (arith : CoordinateArithmetic PC D)
    (bigEndian : Bool) (mesh : ccMesh PC D) (theFile : QFile) (pDlg : Option ccProgressDialog)
    (hn : 1 ≤ mesh.size) (hacc : theFile.accepts (84 + 50 * mesh.size))
    (hidx : ∀ t ∈ mesh.triangles.take mesh.size,
      t.i1 < mesh.points.length ∧ t.i2 < mesh.points.length ∧ t.i3 < mesh.points.length)
    (hstep : ∀ dlg, pDlg = some dlg → ∀ j, j < mesh.size → dlg.oneStep j = true) :
    ∃ f', saveToBINFile arith bigEndian mesh theFile pDlg =
        some (CC_FILE_ERROR.CC_FERR_NO_ERROR, f') ∧
      f'.bytes = theFile.bytes ++ (binaryHeader ++ uint32Bytes bigEndian mesh.size ++
        (mesh.triangles.take mesh.size).flatMap (triangleRecord arith mesh.points)) ∧
      (binaryHeader ++ uint32Bytes bigEndian mesh.size ++
        (mesh.triangles.take mesh.size).flatMap (triangleRecord arith mesh.points)).length =
        84 + 50 * mesh.size ∧
      binaryHeader.length = 80 ∧ binaryHeader.drop 42 = List.replicate 38 0 ∧
      (uint32Bytes bigEndian mesh.size).length = 4 ∧
      uint32OfBytes bigEndian (uint32Bytes bigEndian mesh.size) = mesh.size ∧
      ∀ t ∈ mesh.triangles.take mesh.size, ∃ a b c,
        mesh.points[t.i1]? = some a ∧ mesh.points[t.i2]? = some b ∧
        mesh.points[t.i3]? = some c ∧
        triangleRecord arith mesh.points t =
          (arith.vtoFloat (arith.cross (arith.vsub b a) (arith.vsub c a))).bytes ++
            (arith.vtoFloat a).bytes ++ (arith.vtoFloat b).bytes ++ (arith.vtoFloat c).bytes ++
            [0, 0] ∧
        (arith.vtoFloat (arith.cross (arith.vsub b a) (arith.vsub c a))).bytes.length = 12 ∧
        (arith.vtoFloat a).bytes.length = 12 ∧ (arith.vtoFloat b).bytes.length = 12 ∧
        (arith.vtoFloat c).bytes.length = 12 := by
  obtain ⟨f', hsave, hbytes⟩ := saveToBINFile_spec arith bigEndian mesh theFile pDlg
    (by omega) hacc hidx hstep
  refine ⟨f', hsave, ?_, ?_, binaryHeader_length, binaryHeader_padding,
    uint32Bytes_length _ _, uint32OfBytes_uint32Bytes _ mesh.size_lt, ?_⟩
  · rw [hbytes]
    simp only [List.append_assoc]
  · rw [List.length_append, List.length_append, binaryHeader_length, uint32Bytes_length,
      triangleRecord_length arith mesh.points _ hidx, ccMesh.length_take_size]
  · intro t ht
    obtain ⟨h1, h2, h3⟩ := hidx t ht
    exact ⟨mesh.points[t.i1], mesh.points[t.i2], mesh.points[t.i3],
      List.getElem?_eq_getElem h1, List.getElem?_eq_getElem h2, List.getElem?_eq_getElem h3,
      (triangleRecord_of_valid arith mesh.points t h1 h2 h3).1, rfl, rfl, rfl, rfl⟩

/-- Witness of C20: the example mesh of one triangle, written to a new file, gives
`CC_FERR_NO_ERROR` and a file of 134 bytes. -/
theorem saveToBINFile_writes_records_witness :
    ∃ f', saveToBINFile arithInt false meshOne emptyFile none =
        some (CC_FILE_ERROR.CC_FERR_NO_ERROR, f') ∧ f'.bytes.length = 134 := by
  obtain ⟨f', h1, h2, h3, _⟩ := saveToBINFile_writes_records arithInt false meshOne emptyFile none
    (by decide) (emptyFile_accepts _) meshOne_indexes (fun dlg hd => absurd hd (by simp))
  refine ⟨f', h1, ?_⟩
  rw [h2, List.length_append, h3]
  rfl

/-- C16: binary save and load round trip. For every mesh of `n = size()` triangles,
`n >= 1`, `3 * n <= 2^32` (the indexes of the vertices are `unsigned`), with vertex
indexes inside its cloud: when the device accepts the file, memory is available for the
load, no global shift is applied and nothing is cancelled, `saveToBINFile` on a new file
returns `CC_FERR_NO_ERROR`, and `loadBinaryFile` on the bytes written, with the empty
mesh that `loadFile` prepares, returns `CC_FERR_NO_ERROR` and yields exactly `n`
triangles and `3 * n` vertices: triangle `k` refers to the vertices `3k`, `3k + 1`,
`3k + 2`, which hold the single-precision coordinates of the vertices `A`, `B`, `C` of the
`k`-th saved triangle, as the loader converts them with a null shift. -/
theorem binary_save_load_roundtrip {PC D : Type} (arith : CoordinateArithmetic PC D)
    (bigEndian : Bool) (mesh : ccMesh PC D) (theFile : QFile) (pDlg : Option ccProgressDialog)
    (mem : Memory) (parameters : LoadParameters D)
    (hn : 1 ≤ mesh.size) (h3n : 3 * mesh.size ≤ 2 ^ 32) (hnew : theFile.bytes = [])
    (hacc : theFile.accepts (84 + 50 * mesh.size))
    (hidx : ∀ t ∈ mesh.triangles.take mesh.size,
      t.i1 < mesh.points.length ∧ t.i2 < mesh.points.length ∧ t.i3 < mesh.points.length)
    (hstep : ∀ dlg, pDlg = some dlg → ∀ j, j < mesh.size → dlg.oneStep j = true)
    (hmesh : mem.reserveMesh mesh.size = true)
    (hvert : mem.reserveVertices ((3 * mesh.size) % 2 ^ 32) = true)
    (hshift : ∀ t a, (mesh.triangles.take mesh.size).head? = some t →
      mesh.points[t.i1]? = some a →
      parameters.HandleGlobalShift (arith.vtoDouble (arith.vtoFloat a)) = none)
    (hload : ∀ dlg, parameters.pDlg = some dlg → ∀ j, j < mesh.size → dlg.oneStep j = true) :
    ∃ f', saveToBINFile arith bigEndian mesh theFile pDlg =
        some (CC_FILE_ERROR.CC_FERR_NO_ERROR, f') ∧
      ∀ fp : QFile, fp.bytes = f'.bytes →
        ∃ fp' mesh', loadBinaryFile arith bigEndian mem fp (ccMesh.empty PC D) parameters =
            (CC_FILE_ERROR.CC_FERR_NO_ERROR, fp', mesh') ∧
          mesh'.triangles.length = mesh.size ∧ mesh'.points.length = 3 * mesh.size ∧
          (∀ k, k < mesh.size → mesh'.triangles[k]? = some ⟨3 * k, 3 * k + 1, 3 * k + 2⟩) ∧
          (∀ k t a b c, (mesh.triangles.take mesh.size)[k]? = some t →
            mesh.points[t.i1]? = some a → mesh.points[t.i2]? = some b →
            mesh.points[t.i3]? = some c →
            mesh'.points[3 * k]? = some (reloaded arith (arith.vtoFloat a)) ∧
            mesh'.points[3 * k + 1]? = some (reloaded arith (arith.vtoFloat b)) ∧
            mesh'.points[3 * k + 2]? = some (reloaded arith (arith.vtoFloat c))) := by
  obtain ⟨f', hsave, hbytes⟩ := saveToBINFile_spec arith bigEndian mesh theFile pDlg
    (by omega) hacc hidx hstep
  refine ⟨f', hsave, ?_⟩
  intro fp hfp
  have hlen := mesh.length_take_size
  obtain ⟨fp', mesh', hl, hpts, htri⟩ := loadBinaryFile_spec arith bigEndian mem parameters
    mesh.points (mesh.triangles.take mesh.size) fp (ccMesh.empty PC D) binaryHeader
    binaryHeader_length
    (by rw [hfp, hbytes, hnew, hlen, List.nil_append])
    hidx (by rw [hlen]; exact h3n) (by rw [hlen]; exact hmesh) (by rw [hlen]; exact hvert)
    hshift (by rw [hlen]; exact hload)
  have hpts' : mesh'.points =
      (mesh.triangles.take mesh.size).flatMap (triangleVertices arith mesh.points) := by
    rw [hpts]; rfl
  have htri' : mesh'.triangles =
      (List.range mesh.size).map (fun k => ⟨3 * k, 3 * k + 1, 3 * k + 2⟩) := by
    rw [htri, hlen]; rfl
  have hthree := triangleVertices_length arith mesh.points _ hidx
  refine ⟨fp', mesh', hl, ?_, ?_, ?_, ?_⟩
  · rw [htri', List.length_map, List.length_range]
  · rw [hpts', length_flatMap_three _ _ hthree, hlen]
  · intro k hk
    rw [htri', List.getElem?_map, List.getElem?_range hk]
    rfl
  · intro k t a b c hk ha hb hc
    have ht := List.getElem?_mem hk
    obtain ⟨h1, h2, h3⟩ := hidx t ht
    have hv := (triangleRecord_of_valid arith mesh.points t h1 h2 h3).2
    rw [List.getElem?_eq_getElem h1, Option.some.injEq] at ha
    rw [List.getElem?_eq_getElem h2, Option.some.injEq] at hb
    rw [List.getElem?_eq_getElem h3, Option.some.injEq] at hc
    rw [ha, hb, hc] at hv
    have g0 := getElem?_flatMap_three (triangleVertices arith mesh.points) _ hthree k 0
      (by omega) t hk
    have g1 := getElem?_flatMap_three (triangleVertices arith mesh.points) _ hthree k 1
      (by omega) t hk
    have g2 := getElem?_flatMap_three (triangleVertices arith mesh.points) _ hthree k 2
      (by omega) t hk
    rw [hv] at g0 g1 g2
    rw [hpts']
    exact ⟨g0, g1, g2⟩

/-- Witness of C16: the example mesh of one triangle, saved to a new file and loaded
back, gives one triangle and three vertices. -/
theorem binary_save_load_roundtrip_witness :
    ∃ f', saveToBINFile arithInt false meshOne emptyFile none =
        some (CC_FILE_ERROR.CC_FERR_NO_ERROR, f') ∧
      ∃ fp' mesh', loadBinaryFile arithInt false memoryPlenty f' (ccMesh.empty Int Int)
            (parametersQuiet Int) = (CC_FILE_ERROR.CC_FERR_NO_ERROR, fp', mesh') ∧
          mesh'.triangles.length = 1 ∧ mesh'.points.length = 3 := by
  obtain ⟨f', h1, h2⟩ := binary_save_load_roundtrip arithInt false meshOne emptyFile none
    memoryPlenty (parametersQuiet Int) (by decide) (by decide) rfl (emptyFile_accepts _)
    meshOne_indexes (fun dlg hd => absurd hd (by simp)) rfl rfl (fun _ _ _ _ => rfl)
    (fun dlg hd => absurd hd (by simp [parametersQuiet]))
  obtain ⟨fp', mesh', h3, h4, h5, _⟩ := h2 f' rfl
  exact ⟨f', h1, fp', mesh', h3, h4, h5⟩

/-- Round trip of a mesh of 1431655766 triangles: the counter of the points of the loader
wraps, and the last triangle refers to the vertices 4294967295, 0 and 1. -/
theorem roundtrip_of_length {PC D : Type} (arith : CoordinateArithmetic PC D)
    (bigEndian : Bool) (mesh : ccMesh PC D) (theFile : QFile) (mem : Memory)
    (parameters : LoadParameters D) (hlen : mesh.triangles.length = 1431655766)
    (hnew : theFile.bytes = []) (hacc : ∀ k, theFile.accepts k)
    (hidx : ∀ t ∈ mesh.triangles,
      t.i1 < mesh.points.length ∧ t.i2 < mesh.points.length ∧ t.i3 < mesh.points.length)
    (hmesh : ∀ n, mem.reserveMesh n = true) (hvert : ∀ n, mem.reserveVertices n = true)
    (hshift : ∀ Pd, parameters.HandleGlobalShift Pd = none) (hdlg : parameters.pDlg = none) :
    ∃ f' fp' mesh', saveToBINFile arith bigEndian mesh theFile none =
        some (CC_FILE_ERROR.CC_FERR_NO_ERROR, f') ∧
      loadBinaryFile arith bigEndian mem f' (ccMesh.empty PC D) parameters =
        (CC_FILE_ERROR.CC_FERR_NO_ERROR, fp', mesh') ∧
      mesh'.triangles[1431655765]? = some ⟨4294967295, 0, 1⟩ := by
  have hsize : mesh.size = 1431655766 := by
    unfold ccMesh.size
    rw [hlen]
    norm_num
  have htake : mesh.triangles.take mesh.size = mesh.triangles := by
    rw [hsize, ← hlen, List.take_length]
  obtain ⟨f', hsave, hbytes⟩ := saveToBINFile_spec arith bigEndian mesh theFile none
    (by rw [hsize]; decide) (hacc _) (by rw [htake]; exact hidx)
    (fun dlg hd => absurd hd (by simp))
  rw [htake, hsize, hnew, List.nil_append] at hbytes
  obtain ⟨fp', mesh', hload, htri⟩ := loadBinaryFile_mod arith bigEndian mem parameters
    mesh.points mesh.triangles f' (ccMesh.empty PC D) binaryHeader binaryHeader_length
    (by rw [hbytes, hlen]) hidx (by rw [hlen]; decide) (hmesh _) (hvert _) hshift
    (fun dlg hd => absurd hd (by rw [hdlg]; simp))
  refine ⟨f', fp', mesh', hsave, hload, ?_⟩
  have hempty : (ccMesh.empty PC D).triangles = [] := rfl
  rw [htri, hempty, List.nil_append, List.getElem?_map,
    List.getElem?_range (by rw [hlen]; decide)]
  rfl

theorem meshHuge_length : meshHuge.triangles.length = 1431655766 := List.length_replicate _ _

theorem meshHuge_indexes : ∀ t ∈ meshHuge.triangles,
    t.i1 < meshHuge.points.length ∧ t.i2 < meshHuge.points.length ∧
      t.i3 < meshHuge.points.length := by
  intro t ht
  have h : t = ⟨0, 1, 2⟩ := List.eq_of_mem_replicate ht
  subst h
  exact ⟨by decide, by decide, by decide⟩

/-- Counterexample to C16 as stated. The example mesh of one triangle is saved with
`CC_FERR_NO_ERROR`, and the load of the bytes written returns
`CC_FERR_NOT_ENOUGH_MEMORY` when the reservation of the triangles fails. The example mesh
of 1431655766 triangles is saved and loaded back with `CC_FERR_NO_ERROR` on both sides,
memory being available, and the triangle 1431655765 of the mesh loaded refers to the
vertices 4294967295, 0 and 1, not to 4294967295, 4294967296 and 4294967297. -/
theorem binary_roundtrip_fails_without_memory_or_on_wrap :
    (∃ f', saveToBINFile arithInt false meshOne emptyFile none =
        some (CC_FILE_ERROR.CC_FERR_NO_ERROR, f') ∧
      (loadBinaryFile arithInt false memoryNone f' (ccMesh.empty Int Int)
        (parametersQuiet Int)).1 = CC_FILE_ERROR.CC_FERR_NOT_ENOUGH_MEMORY) ∧
    (∃ f' fp' mesh', saveToBINFile arithInt false meshHuge emptyFile none =
        some (CC_FILE_ERROR.CC_FERR_NO_ERROR, f') ∧
      loadBinaryFile arithInt false memoryPlenty f' (ccMesh.empty Int Int)
        (parametersQuiet Int) = (CC_FILE_ERROR.CC_FERR_NO_ERROR, fp', mesh') ∧
      mesh'.triangles[1431655765]? = some ⟨4294967295, 0, 1⟩ ∧
      3 * 1431655765 + 1 = 4294967296) := by
  constructor
  · obtain ⟨f', hsave, hbytes⟩ := saveToBINFile_spec arithInt false meshOne emptyFile none
      (by decide) (emptyFile_accepts _) meshOne_indexes (fun dlg hd => absurd hd (by simp))
    refine ⟨f', hsave, loadBinaryFile_no_memory arithInt false memoryNone _ f' _ ?_
      (fun _ => rfl)⟩
    rw [hbytes, List.length_append, List.length_append, List.length_append,
      binaryHeader_length, uint32Bytes_length]
    simp only [emptyFile, List.length_nil]
    omega
  · obtain ⟨f', fp', mesh', h1, h2, h3⟩ := roundtrip_of_length arithInt false meshHuge emptyFile
      memoryPlenty (parametersQuiet Int) meshHuge_length rfl emptyFile_accepts meshHuge_indexes
      (fun _ => rfl) (fun _ => rfl) (fun _ => rfl) rfl
    exact ⟨f', fp', mesh', h1, h2, h3, by decide⟩

/-! ## ASCII STL files: claims -/

theorem parts_of_spaces (isSep : Char → Bool) (line : QString)
    (h : ∀ c ∈ line, isSep c = true) : QString.parts isSep line [] = [] := by
  induction line with
  | nil => rfl
  | cons c rest ih =>
    have hc := h c (List.mem_cons_self _ _)
    simp only [QString.parts, hc, if_true, List.isEmpty_nil]
    exact ih (fun d hd => h d (List.mem_cons_of_mem _ hd))

theorem lineTokens_of_spaces {PC D : Type} (tools : TextTools PC D) (line : QString)
    (h : ∀ c ∈ line, tools.isSpace c = true) : lineTokens tools line = [] := by
  unfold lineTokens QString.simplified
  rw [parts_of_spaces tools.isSpace line h]
  rfl

theorem readLine_of_line (line rest : List Char) (error : Bool)
    (hLF : ∀ c ∈ line, c ≠ LF) (hCR : line.getLast? ≠ some CR) :
    (QTextStream.readLine ⟨line ++ LF :: rest, error⟩).1 = line := by
  have htake : (line ++ LF :: rest).takeWhile (fun c => c != LF) = line := by
    rw [List.takeWhile_append_of_pos (by
      intro c hc
      simpa using hLF c hc)]
    simp [List.takeWhile_cons]
  unfold QTextStream.readLine
  simp only [htake]
  rw [if_neg (fun hh => hCR hh.1)]

/-- Facet header of `loadASCIIFile` on a line made of whitespace only. -/
theorem facetHeader_of_spaces {PC D : Type} (tools : TextTools PC D)
    (arith : CoordinateArithmetic PC D) (s : AsciiLoadState PC D) (line rest : List Char)
    (hchars : s.stream.chars = line ++ LF :: rest) (herror : s.stream.error = false)
    (hline : line ≠ []) (hspace : ∀ c ∈ line, tools.isSpace c = true)
    (hLF : ∀ c ∈ line, c ≠ LF) (hCR : line.getLast? ≠ some CR) :
    facetHeader tools arith s =
      AsciiStep.indexOutOfRange
        ({ s with stream := s.stream.readLine.2, lineCount := (s.lineCount + 1) % 2 ^ 32 },
          none) := by
  have hs : s.stream = ⟨line ++ LF :: rest, false⟩ := by
    rcases hst : s.stream with ⟨chars, error⟩
    rw [hst] at hchars herror
    simp only at hchars herror
    rw [hchars, herror]
  have hread : s.stream.readLine.1 = line := by
    rw [hs]
    exact readLine_of_line line rest false hLF hCR
  have hempty : line.isEmpty = false := by
    cases line with
    | nil => exact absurd rfl hline
    | cons _ _ => rfl
  unfold facetHeader
  simp only [hread, hempty, herror, lineTokens_of_spaces tools line hspace, List.isEmpty_nil,
    Bool.true_or, if_true, Bool.false_eq_true, if_false]

/-- C18, evaluated on the code: the facet header of `loadASCIIFile` reads `tokens[0]` of
an empty token list. Whenever the line read at the position of a facet header is not
empty and holds whitespace only, its token list is empty, the test
`tokens.empty() || tokens[0].toUpper() != "FACET"` succeeds, and `tokens[0]` is read to be
compared with "ENDSOLID". The example file, of 96 characters, starts with "solid", has
"facet" at the start of its second line, as `loadFile` requires of an ASCII file, and
holds one facet followed by a line made of one space: `loadASCIIFile` reads `tokens[0]`
of the empty token list of its line 9. On the first line of the file the same test is
followed by a `return`, and a file whose first line is a space is refused with
`CC_FERR_MALFORMED_FILE`. -/
theorem loadASCIIFile_reads_first_token_of_blank_line (iterations : Nat) :
    (∀ (PC D : Type) (tools : TextTools PC D) (arith : CoordinateArithmetic PC D)
      (s : AsciiLoadState PC D) (n : Nat) (rest : List Char),
      tools.isSpace SPACE = true → s.stream.error = false →
      s.stream.chars = List.replicate (n + 1) SPACE ++ LF :: rest →
      facetHeader tools arith s =
        AsciiStep.indexOutOfRange
          ({ s with stream := s.stream.readLine.2, lineCount := (s.lineCount + 1) % 2 ^ 32 },
            none)) ∧
    textBlankFacetLine.length = 96 ∧
    lineStartsWith toolsAscii (textBlankFacetLine.take 80) "SOLID" = true ∧
    lineStartsWith toolsAscii
      (QTextStream.readLine (QTextStream.readLine ⟨textBlankFacetLine, false⟩).2).1
      "FACET" = true ∧
    loadASCIIFile toolsAscii arithInt memoryPlenty (iterations + 2) ⟨textBlankFacetLine, false⟩
      (ccMesh.empty Int Int) (parametersQuiet Int) = AsciiLoadOutcome.indexOutOfRange 9 ∧
    loadASCIIFile toolsAscii arithInt memoryPlenty (iterations + 2) ⟨[SPACE, LF], false⟩
      (ccMesh.empty Int Int) (parametersQuiet Int) =
      AsciiLoadOutcome.returned CC_FILE_ERROR.CC_FERR_MALFORMED_FILE (ccMesh.empty Int Int) := by
  refine ⟨?_, by decide, by decide, by decide, rfl, rfl⟩
  intro PC D tools arith s n rest hsp herr hchars
  refine facetHeader_of_spaces tools arith s (List.replicate (n + 1) SPACE) rest hchars herr
    (by simp) ?_ ?_ ?_
  · intro c hc
    rw [List.eq_of_mem_replicate hc]
    exact hsp
  · intro c hc
    rw [List.eq_of_mem_replicate hc]
    decide
  · rw [List.getLast?_replicate]
    simp only [Nat.add_one_ne_zero, if_false]
    decide

/-! ## The level that `maxLevel` returns exists -/

theorem length_lod256 : lod256.m_levels.length = 256 := List.length_replicate _ _

/-- Value of `maxLevel()` in state INITIALIZED, by the remainder of the number of levels
modulo 256. -/
theorem maxLevel_of_mod (lod : ccAbstractPointCloudLOD) (hs : lod.m_state = State.INITIALIZED)
    (h : 1 ≤ lod.m_levels.length) :
    (lod.m_levels.length % 256 = 0 → lod.maxLevel = 255) ∧
    (lod.m_levels.length % 256 ≠ 0 → lod.maxLevel = lod.m_levels.length % 256 - 1) := by
  have hmax : max 1 lod.m_levels.length = lod.m_levels.length := Nat.max_eq_right h
  unfold ccAbstractPointCloudLOD.maxLevel
  rw [if_pos hs, hmax]
  constructor
  · intro h0
    rw [h0]
    decide
  · intro h0
    have hlt : lod.m_levels.length % 256 < 256 := Nat.mod_lt _ (by decide)
    omega

/-- C21: the level that `maxLevel()` returns exists. For every structure that holds at
least one level, whatever its state and its number of levels (also beyond 255, where the
conversion to `unsigned char` wraps), `maxLevel()` is strictly smaller than the number of
levels: the level of that number is stored, the level bound of the assertion of
`node(index, maxLevel())` holds, and `node` returns the node of index `index` of that
level for every index within the level. -/
theorem maxLevel_lt_number_of_levels (lod : ccAbstractPointCloudLOD)
    (h : 1 ≤ lod.m_levels.length) :
    lod.maxLevel < lod.m_levels.length ∧
    (∃ l, lod.m_levels[lod.maxLevel]? = some l ∧
      ∀ index : Int, 0 ≤ index → index < (l.data.length : Int) →
        ∃ n, l.data[index.toNat]? = some n ∧ lod.node index lod.maxLevel = some n) := by
  have hlt : lod.maxLevel < lod.m_levels.length := by
    by_cases hs : lod.m_state = State.INITIALIZED
    · obtain ⟨h0, h1⟩ := maxLevel_of_mod lod hs h
      have hmod : lod.m_levels.length % 256 ≤ lod.m_levels.length := Nat.mod_le _ _
      by_cases hz : lod.m_levels.length % 256 = 0
      · rw [h0 hz]
        omega
      · rw [h1 hz]
        omega
    · unfold ccAbstractPointCloudLOD.maxLevel
      rw [if_neg hs]
      omega
  refine ⟨hlt, lod.m_levels[lod.maxLevel], List.getElem?_eq_getElem hlt, ?_⟩
  intro index h0 hi
  have hb : index.toNat < (lod.m_levels[lod.maxLevel]).data.length := by omega
  refine ⟨(lod.m_levels[lod.maxLevel]).data[index.toNat], List.getElem?_eq_getElem hb, ?_⟩
  unfold ccAbstractPointCloudLOD.node
  rw [List.getElem?_eq_getElem hlt]
  simp only
  rw [if_pos ⟨h0, hb⟩, List.getElem?_eq_getElem hb]

/-- Witness of C21: the example structure of 256 levels, for which the conversion to
`unsigned char` gives 0 and `maxLevel()` returns 255. -/
theorem maxLevel_lt_number_of_levels_witness :
    1 ≤ lod256.m_levels.length ∧ lod256.maxLevel < lod256.m_levels.length ∧
      lod256.maxLevel = 255 := by
  have h : 1 ≤ lod256.m_levels.length := by
    rw [length_lod256]
    decide
  refine ⟨h, (maxLevel_lt_number_of_levels lod256 h).1, ?_⟩
  exact (maxLevel_of_mod lod256 rfl h).1 (by rw [length_lod256])

/-! ## Segment-in and segment-out -/

/-- Results of the point loop in standard mode for a visible point, keeping the points
inside and keeping the points outside. -/
theorem segmentPoints_in_out (lib : ManualSegmentationTools) (camera : ccGLCameraParameters)
    (poly : ccPolyline) (cloud : ccGenericPointCloud) (orderIn orderOut : List Nat)
    (va : List Nat) (i : Nat) (P : CCVector3) (hin : i ∈ orderIn) (hout : i ∈ orderOut)
    (hv : va[i]? = some POINT_VISIBLE) (hP : cloud.m_points[i]? = some P) :
    (pointInside lib camera poly P = true ∧
      (segmentPoints lib camera poly true NAN_VALUE cloud orderIn
        ⟨va, none⟩).visibilityArray[i]? = some POINT_VISIBLE ∧
      (segmentPoints lib camera poly false NAN_VALUE cloud orderOut
        ⟨va, none⟩).visibilityArray[i]? = some POINT_HIDDEN) ∨
    (pointInside lib camera poly P = false ∧
      (segmentPoints lib camera poly true NAN_VALUE cloud orderIn
        ⟨va, none⟩).visibilityArray[i]? = some POINT_HIDDEN ∧
      (segmentPoints lib camera poly false NAN_VALUE cloud orderOut
        ⟨va, none⟩).visibilityArray[i]? = some POINT_VISIBLE) := by
  have h1 := (segmentPoints_standard lib camera poly true NAN_VALUE cloud orderIn va).2.2.2
    i POINT_VISIBLE P hin hv hP
  have h2 := (segmentPoints_standard lib camera poly false NAN_VALUE cloud orderOut va).2.2.2
    i POINT_VISIBLE P hout hv hP
  rw [h1, h2]
  cases pointInside lib camera poly P with
  | true => exact Or.inl ⟨rfl, rfl, rfl⟩
  | false => exact Or.inr ⟨rfl, rfl, rfl⟩

/-- Segment-in and segment-out on the same tool, in standard mode: both return, and each
visible point of each cloud is visible after exactly one of them. -/
theorem segmentIn_segmentOut_spec (lib : ManualSegmentationTools)
    (schedule : Nat → List Nat) (tool : ccGraphicalSegmentationTool)
    (win : ccGLWindowInterface) (poly : ccPolyline)
    (hwin : tool.m_associatedWin = some win) (hpoly : tool.m_segmentationPoly = some poly)
    (hclosed : poly.isClosed = true)
    (hclouds : ∀ e ∈ tool.m_toSegment, ∃ cloud, e.genericPointCloud = some cloud ∧
      cloud.m_pointsVisibility ≠ [] ∧ cloud.m_points.length < 2 ^ 31)
    (hsched : ∀ n, (schedule n).Perm (List.range n)) :
    ∃ toolIn toolOut,
      ccGraphicalSegmentationTool.segmentIn lib schedule tool = some toolIn ∧
      ccGraphicalSegmentationTool.segmentOut lib schedule tool = some toolOut ∧
      ∀ (k : Nat) (e : ccHObject) (cloud : ccGenericPointCloud) (i : Nat) (P : CCVector3),
        tool.m_toSegment[k]? = some e → e.genericPointCloud = some cloud →
        cloud.m_pointsVisibility[i]? = some POINT_VISIBLE → cloud.m_points[i]? = some P →
        ∃ cloudIn cloudOut,
          (toolIn.m_toSegment[k]?).bind ccHObject.genericPointCloud = some cloudIn ∧
          (toolOut.m_toSegment[k]?).bind ccHObject.genericPointCloud = some cloudOut ∧
          ((cloudIn.m_pointsVisibility[i]? = some POINT_VISIBLE ∧
              cloudOut.m_pointsVisibility[i]? = some POINT_HIDDEN) ∨
            (cloudIn.m_pointsVisibility[i]? = some POINT_HIDDEN ∧
              cloudOut.m_pointsVisibility[i]? = some POINT_VISIBLE)) := by
  obtain ⟨toolIn, hIn, _, _, hptIn⟩ := segment_standard_spec lib schedule tool win poly true
    hwin hpoly hclosed hclouds hsched
  obtain ⟨toolOut, hOut, _, _, hptOut⟩ := segment_standard_spec lib schedule tool win poly false
    hwin hpoly hclosed hclouds hsched
  refine ⟨toolIn, toolOut, hIn, hOut, ?_⟩
  intro k e cloud i P hk hec hv hP
  obtain ⟨cloudIn, hcIn, _, _, hvIn⟩ := hptIn k e cloud hk hec
  obtain ⟨cloudOut, hcOut, _, _, hvOut⟩ := hptOut k e cloud hk hec
  refine ⟨cloudIn, cloudOut, hcIn, hcOut, ?_⟩
  rw [hvIn i POINT_VISIBLE P hv hP, hvOut i POINT_VISIBLE P hv hP]
  simp only [if_true]
  cases pointInside lib win.getGLCameraParameters
      (ccGraphicalSegmentationTool.closedPolyline win poly tool.m_state).1 P with
  | true => exact Or.inl ⟨rfl, rfl⟩
  | false => exact Or.inr ⟨rfl, rfl⟩

/-! ## Labelling with the segmentation tool -/

theorem pointInside_flat (poly : ccPolyline) :
    pointInside libHalfPlane cameraFlat poly ⟨1, 0, 0⟩ = true := by
  have h0 : PointCoordinateType.toRat 0 = 0 := rfl
  have h1 : PointCoordinateType.toRat 1 = 1 := rfl
  simp only [pointInside, libHalfPlane, cameraFlat, half_w, h0, h1,
    PointCoordinateType.toRat_value]
  norm_num

theorem pointInside_flat_outside (poly : ccPolyline) :
    pointInside libHalfPlane cameraFlat poly ⟨-1, 0, 0⟩ = false := by
  have h0 : PointCoordinateType.toRat 0 = 0 := rfl
  have h1 : PointCoordinateType.toRat (-1) = -1 := rfl
  simp only [pointInside, libHalfPlane, cameraFlat, half_w, h0, h1,
    PointCoordinateType.toRat_value]
  norm_num

theorem cloudSize_of_length {cloud : ccGenericPointCloud}
    (h : cloud.m_points.length = 2 ^ 31) : cloud.size = 2 ^ 31 ∧ cloudSize cloud = 0 := by
  have hsize : cloud.size = 2 ^ 31 := by
    unfold ccGenericPointCloud.size
    rw [h]
    norm_num
  refine ⟨hsize, ?_⟩
  unfold cloudSize
  rw [hsize]
  simp only [static_cast_int]
  norm_num

theorem ne_nil_of_length {α : Type} {l : List α} (h : l.length = 2 ^ 31) : l ≠ [] := by
  intro hl
  rw [hl] at h
  exact absurd h (by norm_num)

theorem cloudHuge_points : cloudHuge.m_points.length = 2 ^ 31 := List.length_replicate _ _

theorem cloudHuge_visibility : cloudHuge.m_pointsVisibility.length = 2 ^ 31 :=
  List.length_replicate _ _

theorem getElem?_zero_of_replicate {α : Type} (a : α) :
    (List.replicate (2 ^ 31) a)[0]? = some a := by
  rw [List.getElem?_replicate, if_pos (by norm_num)]

/-- Number of bytes that a read of 80 bytes returns: those left in the file, at most
80. -/
theorem QFile.read_count (f : QFile) (maxSize : Nat) :
    (f.read maxSize).2.2 = ((min maxSize (f.bytes.length - f.pos) : Nat) : Int) := by
  show ((((f.bytes.drop f.pos).take maxSize).length : Nat) : Int) = _
  rw [List.length_take, List.length_drop]

/-- C24: `loadFile` rejects the files shorter than the header of 80 bytes. For every
platform, file name, container and parameters such that the file cannot be opened or
fewer than 80 bytes can be read from it, `loadFile` returns and leaves the container as
it was; the value returned is `CC_FERR_READING` when the file cannot be opened or no
byte can be read, and `CC_FERR_MALFORMED_FILE` when between 1 and 79 bytes can be
read. -/
theorem loadFile_rejects_short_files {PC D : Type} (tools : TextTools PC D)
    (arith : CoordinateArithmetic PC D) (bigEndian : Bool) (mem : Memory)
    (platform : LoadPlatform PC D) (iterations : Nat) (filename : String)
    (container : MeshContainer PC D) (parameters : LoadParameters D)
    (hshort : ∀ fp, platform.openReadOnly filename = some fp →
      fp.bytes.length - fp.pos < 80) :
    (∃ result, loadFile tools arith bigEndian mem platform iterations filename container
        parameters = LoadFileOutcome.returned result container ∧
      (result = CC_FILE_ERROR.CC_FERR_READING ∨
        result = CC_FILE_ERROR.CC_FERR_MALFORMED_FILE)) ∧
    (platform.openReadOnly filename = none →
      loadFile tools arith bigEndian mem platform iterations filename container parameters =
        LoadFileOutcome.returned CC_FILE_ERROR.CC_FERR_READING container) ∧
    (∀ fp, platform.openReadOnly filename = some fp → fp.bytes.length - fp.pos = 0 →
      (fp.read 80).2.2 = 0 ∧
      loadFile tools arith bigEndian mem platform iterations filename container parameters =
        LoadFileOutcome.returned CC_FILE_ERROR.CC_FERR_READING container) ∧
    (∀ fp, platform.openReadOnly filename = some fp → 1 ≤ fp.bytes.length - fp.pos →
      (fp.read 80).2.2 = ((fp.bytes.length - fp.pos : Nat) : Int) ∧
      loadFile tools arith bigEndian mem platform iterations filename container parameters =
        LoadFileOutcome.returned CC_FILE_ERROR.CC_FERR_MALFORMED_FILE container) := by
  have hnone : platform.openReadOnly filename = none →
      loadFile tools arith bigEndian mem platform iterations filename container parameters =
        LoadFileOutcome.returned CC_FILE_ERROR.CC_FERR_READING container := by
    intro h
    unfold loadFile
    rw [h]
  have hzero : ∀ fp, platform.openReadOnly filename = some fp →
      fp.bytes.length - fp.pos = 0 →
      (fp.read 80).2.2 = 0 ∧
      loadFile tools arith bigEndian mem platform iterations filename container parameters =
        LoadFileOutcome.returned CC_FILE_ERROR.CC_FERR_READING container := by
    intro fp h h0
    have hc : (fp.read 80).2.2 = 0 := by
      rw [QFile.read_count, h0]
      rfl
    refine ⟨hc, ?_⟩
    unfold loadFile
    rw [h]
    simp only [hc]
    rfl
  have hsome : ∀ fp, platform.openReadOnly filename = some fp →
      1 ≤ fp.bytes.length - fp.pos →
      (fp.read 80).2.2 = ((fp.bytes.length - fp.pos : Nat) : Int) ∧
      loadFile tools arith bigEndian mem platform iterations filename container parameters =
        LoadFileOutcome.returned CC_FILE_ERROR.CC_FERR_MALFORMED_FILE container := by
    intro fp h h1
    have hlt := hshort fp h
    have hc : (fp.read 80).2.2 = ((fp.bytes.length - fp.pos : Nat) : Int) := by
      rw [QFile.read_count, Nat.min_eq_right (by omega)]
    refine ⟨hc, ?_⟩
    unfold loadFile
    rw [h]
    simp only [hc]
    rw [if_pos (by omega), if_neg (by omega)]
  refine ⟨?_, hnone, hzero, hsome⟩
  rcases hopen : platform.openReadOnly filename with _ | fp
  · exact ⟨_, hnone hopen, Or.inl rfl⟩
  · by_cases h0 : fp.bytes.length - fp.pos = 0
    · exact ⟨_, (hzero fp hopen h0).2, Or.inl rfl⟩
    · exact ⟨_, (hsome fp hopen (by omega)).2, Or.inr rfl⟩

/-- Witness of C24 on the example platform: the file of ten bytes is refused with
`CC_FERR_MALFORMED_FILE`, and the container is left empty. -/
theorem loadFile_rejects_short_files_witness :
    (∀ fp, platformShort.openReadOnly "short.stl" = some fp →
      fp.bytes.length - fp.pos < 80) ∧
    loadFile toolsAscii arithInt false memoryPlenty platformShort 0 "short.stl" ⟨[]⟩
      (parametersQuiet Int) =
      LoadFileOutcome.returned CC_FILE_ERROR.CC_FERR_MALFORMED_FILE ⟨[]⟩ := by
  have hshort : ∀ fp, platformShort.openReadOnly "short.stl" = some fp →
      fp.bytes.length - fp.pos < 80 := by
    intro fp h
    have hfp : fp = ⟨List.replicate 10 32, 0, none⟩ := by
      simp only [platformShort, if_true, Option.some.injEq] at h
      exact h.symm
    subst hfp
    decide
  exact ⟨hshort,
    ((loadFile_rejects_short_files toolsAscii arithInt false memoryPlenty platformShort 0
      "short.stl" ⟨[]⟩ (parametersQuiet Int) hshort).2.2.2 ⟨List.replicate 10 32, 0, none⟩ rfl
      (by decide)).2⟩

/-! ## Standard segmentation: the method as a whole -/

/-- With a cloud of 2^31 points, `segment` in standard mode returns and leaves the cloud
as it was: the number of points converted to `int` is negative and the point loop does
not run. -/
theorem segment_standard_of_length (lib : ManualSegmentationTools)
    (tool : ccGraphicalSegmentationTool) (win : ccGLWindowInterface) (poly : ccPolyline)
    (keep : Bool) (e : ccHObject) (cloud : ccGenericPointCloud)
    (hwin : tool.m_associatedWin = some win) (hpoly : tool.m_segmentationPoly = some poly)
    (hclosed : poly.isClosed = true) (hents : tool.m_toSegment = [e])
    (he : e.genericPointCloud = some cloud) (hlen : cloud.m_points.length = 2 ^ 31)
    (hvis : cloud.m_pointsVisibility ≠ []) :
    ∃ tool', ccGraphicalSegmentationTool.segment lib List.range tool keep = some tool' ∧
      (tool'.m_toSegment[0]?).bind ccHObject.genericPointCloud = some cloud := by
  have hmem1 : ∀ x ∈ tool.m_toSegment, x = e := by
    intro x hx
    rw [hents] at hx
    simpa using hx
  obtain ⟨entities', hent, _, hpt⟩ :=
    segmentEntities_standard lib win.getGLCameraParameters
      (ccGraphicalSegmentationTool.closedPolyline win poly tool.m_state).1 keep
      List.range tool.m_toSegment
      (fun x hx => by
        rw [hmem1 x hx]
        exact ⟨cloud, he, hvis⟩)
  have heq := segment_standard_eq lib List.range tool win poly keep entities' hwin hpoly
    hclosed hent
  refine ⟨_, heq, ?_⟩
  rw [pauseSegmentationMode_toSegment]
  have h0 := hpt 0 e cloud (by rw [hents]; rfl) he
  rw [h0, (cloudSize_of_length hlen).2]
  rfl

/-- C13, as amended. In standard mode, for a tool with a window, a closed segmentation
polygon and clouds of fewer than 2^31 points (each with its visibility array),
`segment(keepPointsInside)` returns, whatever the order in which each point loop
processes its indexes, and the result is the same for every such order. In it every
cloud keeps its points and the length of its visibility array; an entry that was not
`POINT_VISIBLE` keeps its value; and the entry of a point that was `POINT_VISIBLE` is
`POINT_VISIBLE` when the inside-the-polygon result of the point equals
`keepPointsInside` and `POINT_HIDDEN` otherwise. -/
theorem segment_standard_decides_each_point (lib : ManualSegmentationTools)
    (schedule : Nat → List Nat) (tool : ccGraphicalSegmentationTool)
    (win : ccGLWindowInterface) (poly : ccPolyline) (keepPointsInside : Bool)
    (hwin : tool.m_associatedWin = some win) (hpoly : tool.m_segmentationPoly = some poly)
    (hclosed : poly.isClosed = true)
    (hclouds : ∀ e ∈ tool.m_toSegment, ∃ cloud, e.genericPointCloud = some cloud ∧
      cloud.m_pointsVisibility ≠ [] ∧ cloud.m_points.length < 2 ^ 31)
    (hsched : ∀ n, (schedule n).Perm (List.range n)) :
    ∃ tool', ccGraphicalSegmentationTool.segment lib schedule tool keepPointsInside = some tool' ∧
      (∀ schedule' : Nat → List Nat, (∀ n, (schedule' n).Perm (List.range n)) →
        ccGraphicalSegmentationTool.segment lib schedule' tool keepPointsInside = some tool') ∧
      tool'.m_toSegment.length = tool.m_toSegment.length ∧
      ∀ (k : Nat) (e : ccHObject) (cloud : ccGenericPointCloud),
        tool.m_toSegment[k]? = some e → e.genericPointCloud = some cloud →
        ∃ cloud', (tool'.m_toSegment[k]?).bind ccHObject.genericPointCloud = some cloud' ∧
          cloud'.m_points = cloud.m_points ∧
          cloud'.m_pointsVisibility.length = cloud.m_pointsVisibility.length ∧
          (∀ (i v : Nat), cloud.m_pointsVisibility[i]? = some v → v ≠ POINT_VISIBLE →
            cloud'.m_pointsVisibility[i]? = some v) ∧
          (∀ (i : Nat) (P : CCVector3),
            cloud.m_pointsVisibility[i]? = some POINT_VISIBLE → cloud.m_points[i]? = some P →
            cloud'.m_pointsVisibility[i]? =
              some (if keepPointsInside =
                    pointInside lib win.getGLCameraParameters
                      (ccGraphicalSegmentationTool.closedPolyline win poly tool.m_state).1 P
                  then POINT_VISIBLE else POINT_HIDDEN)) := by
  obtain ⟨entities', hent, hlen, hpt⟩ :=
    segmentEntities_standard lib win.getGLCameraParameters
      (ccGraphicalSegmentationTool.closedPolyline win poly tool.m_state).1 keepPointsInside
      schedule tool.m_toSegment
      (fun e he => by
        obtain ⟨c, h1, h2, _⟩ := hclouds e he
        exact ⟨c, h1, h2⟩)
  have heq := segment_standard_eq lib schedule tool win poly keepPointsInside entities' hwin hpoly
    hclosed hent
  refine ⟨_, heq, ?_, ?_, ?_⟩
  · intro schedule' hs'
    have hperm : ∀ n, (schedule n).Perm (schedule' n) := fun n => (hsched n).trans (hs' n).symm
    rw [← segment_schedule lib hperm tool keepPointsInside NAN_VALUE]
    exact heq
  · rw [pauseSegmentationMode_toSegment]
    exact hlen
  · intro k e cloud hk hec
    obtain ⟨c, h1, _, hlt⟩ := hclouds e (List.getElem?_mem hk)
    rw [hec] at h1
    cases h1
    refine ⟨{ cloud with
        m_pointsVisibility :=
          (segmentPoints lib win.getGLCameraParameters
            (ccGraphicalSegmentationTool.closedPolyline win poly tool.m_state).1 keepPointsInside
            NAN_VALUE cloud (schedule (cloudSize cloud))
            ⟨cloud.m_pointsVisibility, none⟩).visibilityArray }, ?_, rfl, ?_, ?_, ?_⟩
    · rw [pauseSegmentationMode_toSegment]
      exact hpt k e cloud hk hec
    · exact (segmentPoints_standard lib _ _ keepPointsInside NAN_VALUE cloud _ _).2.1
    · intro i v hv hne
      exact segmentPoints_standard_hidden lib _ _ keepPointsInside NAN_VALUE cloud _ _ i v hv hne
    · intro i P hv hP
      have hi : i < cloud.m_points.length := by
        by_contra hge
        rw [List.getElem?_eq_none (by omega)] at hP
        exact absurd hP (by simp)
      have hmem : i ∈ schedule (cloudSize cloud) := by
        rw [(hsched _).mem_iff, cloudSize_of_lt hlt]
        exact List.mem_range.mpr hi
      have h := (segmentPoints_standard lib win.getGLCameraParameters
        (ccGraphicalSegmentationTool.closedPolyline win poly tool.m_state).1 keepPointsInside
        NAN_VALUE cloud (schedule (cloudSize cloud)) cloud.m_pointsVisibility).2.2.2
        i POINT_VISIBLE P hmem hv hP
      rw [if_pos rfl] at h
      exact h

/-- Witness of C13 on the example tool, the points of each cloud being processed in
decreasing order of their indexes. -/
theorem segment_standard_decides_each_point_witness :
    toolThree.m_associatedWin = some windowFlat ∧
    toolThree.m_segmentationPoly = some polyTriangle ∧ polyTriangle.isClosed = true ∧
    ∃ tool', ccGraphicalSegmentationTool.segment libHalfPlane (fun n => (List.range n).reverse)
        toolThree true = some tool' ∧
      (∀ schedule' : Nat → List Nat, (∀ n, (schedule' n).Perm (List.range n)) →
        ccGraphicalSegmentationTool.segment libHalfPlane schedule' toolThree true = some tool') ∧
      tool'.m_toSegment.length = toolThree.m_toSegment.length ∧
      ∀ (k : Nat) (e : ccHObject) (cloud : ccGenericPointCloud),
        toolThree.m_toSegment[k]? = some e → e.genericPointCloud = some cloud →
        ∃ cloud', (tool'.m_toSegment[k]?).bind ccHObject.genericPointCloud = some cloud' ∧
          cloud'.m_points = cloud.m_points ∧
          cloud'.m_pointsVisibility.length = cloud.m_pointsVisibility.length ∧
          (∀ (i v : Nat), cloud.m_pointsVisibility[i]? = some v → v ≠ POINT_VISIBLE →
            cloud'.m_pointsVisibility[i]? = some v) ∧
          (∀ (i : Nat) (P : CCVector3),
            cloud.m_pointsVisibility[i]? = some POINT_VISIBLE → cloud.m_points[i]? = some P →
            cloud'.m_pointsVisibility[i]? =
              some (if true =
                    pointInside libHalfPlane windowFlat.getGLCameraParameters
                      (ccGraphicalSegmentationTool.closedPolyline windowFlat polyTriangle
                        toolThree.m_state).1 P
                  then POINT_VISIBLE else POINT_HIDDEN)) :=
  ⟨rfl, rfl, rfl,
    segment_standard_decides_each_point libHalfPlane (fun n => (List.range n).reverse) toolThree
      windowFlat polyTriangle true rfl rfl rfl toolThree_clouds
      (fun n => List.reverse_perm (List.range n))⟩

/-- C13, counterexample. With the example polygon left open, `segment(true)` returns at
its guard on `isClosed()` and the tool is as it was: the second point of the example
cloud, which is visible and whose inside-the-polygon result is false, stays visible.
With the example cloud of 2^31 points and the closed example polygon, the number of
points converted to `int` is negative and the point loop does not run: after
`segment(false)` the cloud is as it was, and its first point, which is visible and whose
inside-the-polygon result is true, stays visible. -/
theorem segment_leaves_point_on_open_polygon_or_huge_cloud :
    (ccGraphicalSegmentationTool.segment libHalfPlane List.range toolOpenPolygon true =
        some toolOpenPolygon ∧
      toolOpenPolygon.m_toSegment = [{ name := "cloud", genericPointCloud := some cloudThree }] ∧
      cloudThree.m_pointsVisibility[1]? = some POINT_VISIBLE ∧
      cloudThree.m_points[1]? = some ⟨-1, 0, 0⟩ ∧
      pointInside libHalfPlane cameraFlat polyOpen ⟨-1, 0, 0⟩ = false) ∧
    (∃ tool', ccGraphicalSegmentationTool.segment libHalfPlane List.range toolHuge false =
        some tool' ∧
      (tool'.m_toSegment[0]?).bind ccHObject.genericPointCloud = some cloudHuge ∧
      cloudHuge.m_points.length = 2 ^ 31 ∧
      cloudHuge.m_pointsVisibility[0]? = some POINT_VISIBLE ∧
      cloudHuge.m_points[0]? = some ⟨1, 0, 0⟩ ∧
      pointInside libHalfPlane cameraFlat polyTriangle ⟨1, 0, 0⟩ = true) := by
  refine ⟨⟨rfl, rfl, rfl, rfl, pointInside_flat_outside polyOpen⟩, ?_⟩
  obtain ⟨tool', hseg, hcloud⟩ := segment_standard_of_length libHalfPlane toolHuge windowFlat
    polyTriangle false { name := "cloud", genericPointCloud := some cloudHuge } cloudHuge
    rfl rfl rfl rfl rfl cloudHuge_points (ne_nil_of_length cloudHuge_visibility)
  exact ⟨tool', hseg, hcloud, cloudHuge_points, getElem?_zero_of_replicate _,
    getElem?_zero_of_replicate _, pointInside_flat polyTriangle⟩

/-! ## Segment-in and segment-out: the two methods -/

/-- C22, as amended. For a tool with a window, a closed segmentation polygon and clouds
of fewer than 2^31 points (each with its visibility array), `segmentIn` and `segmentOut`
applied to the same tool both return, whatever the orders in which their point loops
process the indexes; and each point that is visible in the tool is visible after
`segmentIn` if and only if it is hidden after `segmentOut`, and is visible after exactly
one of the two. -/
theorem segmentIn_segmentOut_complementary (lib : ManualSegmentationTools)
    (scheduleIn scheduleOut : Nat → List Nat) (tool : ccGraphicalSegmentationTool)
    (win : ccGLWindowInterface) (poly : ccPolyline)
    (hwin : tool.m_associatedWin = some win) (hpoly : tool.m_segmentationPoly = some poly)
    (hclosed : poly.isClosed = true)
    (hclouds : ∀ e ∈ tool.m_toSegment, ∃ cloud, e.genericPointCloud = some cloud ∧
      cloud.m_pointsVisibility ≠ [] ∧ cloud.m_points.length < 2 ^ 31)
    (hIn : ∀ n, (scheduleIn n).Perm (List.range n))
    (hOut : ∀ n, (scheduleOut n).Perm (List.range n)) :
    ∃ toolIn toolOut,
      ccGraphicalSegmentationTool.segmentIn lib scheduleIn tool = some toolIn ∧
      ccGraphicalSegmentationTool.segmentOut lib scheduleOut tool = some toolOut ∧
      ∀ (k : Nat) (e : ccHObject) (cloud : ccGenericPointCloud) (i : Nat) (P : CCVector3),
        tool.m_toSegment[k]? = some e → e.genericPointCloud = some cloud →
        cloud.m_pointsVisibility[i]? = some POINT_VISIBLE → cloud.m_points[i]? = some P →
        ∃ cloudIn cloudOut,
          (toolIn.m_toSegment[k]?).bind ccHObject.genericPointCloud = some cloudIn ∧
          (toolOut.m_toSegment[k]?).bind ccHObject.genericPointCloud = some cloudOut ∧
          (cloudIn.m_pointsVisibility[i]? = some POINT_VISIBLE ↔
            cloudOut.m_pointsVisibility[i]? = some POINT_HIDDEN) ∧
          ((cloudIn.m_pointsVisibility[i]? = some POINT_VISIBLE ∧
              cloudOut.m_pointsVisibility[i]? = some POINT_HIDDEN) ∨
            (cloudIn.m_pointsVisibility[i]? = some POINT_HIDDEN ∧
              cloudOut.m_pointsVisibility[i]? = some POINT_VISIBLE)) := by
  obtain ⟨toolIn, toolOut, hin, hout, hpt⟩ := segmentIn_segmentOut_spec lib scheduleIn tool win
    poly hwin hpoly hclosed hclouds hIn
  have hperm : ∀ n, (scheduleOut n).Perm (scheduleIn n) := fun n => (hOut n).trans (hIn n).symm
  have hout' : ccGraphicalSegmentationTool.segmentOut lib scheduleOut tool = some toolOut := by
    unfold ccGraphicalSegmentationTool.segmentOut at hout ⊢
    rw [segment_schedule lib hperm tool false NAN_VALUE]
    exact hout
  refine ⟨toolIn, toolOut, hin, hout', ?_⟩
  intro k e cloud i P hk hec hv hP
  obtain ⟨cloudIn, cloudOut, hcIn, hcOut, hor⟩ := hpt k e cloud i P hk hec hv hP
  refine ⟨cloudIn, cloudOut, hcIn, hcOut, ?_, hor⟩
  rcases hor with ⟨h1, h2⟩ | ⟨h1, h2⟩
  · exact ⟨fun _ => h2, fun _ => h1⟩
  · constructor
    · intro h
      rw [h1] at h
      exact absurd (Option.some.inj h) (by decide)
    · intro h
      rw [h2] at h
      exact absurd (Option.some.inj h) (by decide)

/-- Witness of C22 on the example tool, the point loops of `segmentIn` running in
increasing order and those of `segmentOut` in decreasing order. -/
theorem segmentIn_segmentOut_complementary_witness :
    toolThree.m_associatedWin = some windowFlat ∧
    toolThree.m_segmentationPoly = some polyTriangle ∧ polyTriangle.isClosed = true ∧
    ∃ toolIn toolOut,
      ccGraphicalSegmentationTool.segmentIn libHalfPlane List.range toolThree = some toolIn ∧
      ccGraphicalSegmentationTool.segmentOut libHalfPlane (fun n => (List.range n).reverse)
        toolThree = some toolOut ∧
      ∀ (k : Nat) (e : ccHObject) (cloud : ccGenericPointCloud) (i : Nat) (P : CCVector3),
        toolThree.m_toSegment[k]? = some e → e.genericPointCloud = some cloud →
        cloud.m_pointsVisibility[i]? = some POINT_VISIBLE → cloud.m_points[i]? = some P →
        ∃ cloudIn cloudOut,
          (toolIn.m_toSegment[k]?).bind ccHObject.genericPointCloud = some cloudIn ∧
          (toolOut.m_toSegment[k]?).bind ccHObject.genericPointCloud = some cloudOut ∧
          (cloudIn.m_pointsVisibility[i]? = some POINT_VISIBLE ↔
            cloudOut.m_pointsVisibility[i]? = some POINT_HIDDEN) ∧
          ((cloudIn.m_pointsVisibility[i]? = some POINT_VISIBLE ∧
              cloudOut.m_pointsVisibility[i]? = some POINT_HIDDEN) ∨
            (cloudIn.m_pointsVisibility[i]? = some POINT_HIDDEN ∧
              cloudOut.m_pointsVisibility[i]? = some POINT_VISIBLE)) :=
  ⟨rfl, rfl, rfl,
    segmentIn_segmentOut_complementary libHalfPlane List.range (fun n => (List.range n).reverse)
      toolThree windowFlat polyTriangle rfl rfl rfl toolThree_clouds
      (fun n => List.Perm.refl (List.range n)) (fun n => List.reverse_perm (List.range n))⟩

/-- C22, counterexample. With the example polygon left open, `segmentIn` and `segmentOut`
both return at the guard on `isClosed()` and leave the tool as it was: the first point of
the example cloud, visible at the start, is visible after `segmentIn` and is not hidden
after `segmentOut`. With the example cloud of 2^31 points and the closed example polygon
the point loops do not run, the number of points converted to `int` being negative: the
first point, visible at the start, is visible after `segmentIn` and after `segmentOut`. -/
theorem segmentIn_segmentOut_both_keep_visible_point :
    (ccGraphicalSegmentationTool.segmentIn libHalfPlane List.range toolOpenPolygon =
        some toolOpenPolygon ∧
      ccGraphicalSegmentationTool.segmentOut libHalfPlane List.range toolOpenPolygon =
        some toolOpenPolygon ∧
      (toolOpenPolygon.m_toSegment[0]?).bind ccHObject.genericPointCloud = some cloudThree ∧
      cloudThree.m_pointsVisibility[0]? = some POINT_VISIBLE ∧
      cloudThree.m_pointsVisibility[0]? ≠ some POINT_HIDDEN) ∧
    (∃ toolIn toolOut,
      ccGraphicalSegmentationTool.segmentIn libHalfPlane List.range toolHuge = some toolIn ∧
      ccGraphicalSegmentationTool.segmentOut libHalfPlane List.range toolHuge = some toolOut ∧
      (toolIn.m_toSegment[0]?).bind ccHObject.genericPointCloud = some cloudHuge ∧
      (toolOut.m_toSegment[0]?).bind ccHObject.genericPointCloud = some cloudHuge ∧
      cloudHuge.m_points.length = 2 ^ 31 ∧
      cloudHuge.m_pointsVisibility[0]? = some POINT_VISIBLE ∧
      cloudHuge.m_pointsVisibility[0]? ≠ some POINT_HIDDEN) := by
  refine ⟨⟨rfl, rfl, rfl, rfl, by decide⟩, ?_⟩
  obtain ⟨toolIn, hIn, hcIn⟩ := segment_standard_of_length libHalfPlane toolHuge windowFlat
    polyTriangle true { name := "cloud", genericPointCloud := some cloudHuge } cloudHuge
    rfl rfl rfl rfl rfl cloudHuge_points (ne_nil_of_length cloudHuge_visibility)
  obtain ⟨toolOut, hOut, hcOut⟩ := segment_standard_of_length libHalfPlane toolHuge windowFlat
    polyTriangle false { name := "cloud", genericPointCloud := some cloudHuge } cloudHuge
    rfl rfl rfl rfl rfl cloudHuge_points (ne_nil_of_length cloudHuge_visibility)
  have hv : cloudHuge.m_pointsVisibility[0]? = some POINT_VISIBLE :=
    getElem?_zero_of_replicate _
  refine ⟨toolIn, toolOut, hIn, hOut, hcIn, hcOut, cloudHuge_points, hv, ?_⟩
  rw [hv]
  decide

end CloudCompare
